import Mathlib

/-!
# RaceAll broadcast protocol engine

Shallow embedding of `internal/broadcast` (codec in `marshal.go` and
`unmarshal.go`, validation in `errors.go`, engine in `protocol.go`).

Conventions of the embedding:

* a `[]byte` is a `List Byte` with `Byte = Fin 256`; a Go `string` is the list
  of its bytes;
* `uint8` / `uint16` values are `Nat`, `int32` values are `Int`; conversions
  that wrap in Go are written with an explicit `%`;
* a `float32` is kept as its 32-bit pattern (a `Nat`), it is never interpreted;
* an `io.Reader` over a byte slice is the state monad over the unread bytes,
  with `Except` for the error result;
* the callback slots of `Protocol` are flags (slot assigned or `nil`), every
  callback invocation is recorded as an `Event`, every call of `sendFunc` is
  recorded as a sent frame;
* `time.Now()` is an explicit argument in nanoseconds.
-/

namespace Broadcast

/-! ## Wire primitives (`marshal.go`) -/

abbrev Byte := Fin 256

/-- Error results. `eof` stands for `io.EOF` / `io.ErrUnexpectedEOF` returned by
`binary.Read` on a short buffer, `validation` for `NewValidationError`, `send` for
an error returned by the send function. `NewError` only wraps the cause, so the
wrapper is not represented. -/
inductive Error where
  | eof
  | validation
  | send
  deriving DecidableEq, Repr

/-- An `io.Reader` positioned on a byte slice: the state is the unread suffix. -/
abbrev Reader := StateT (List Byte) (Except Error)

/-- `math.MaxInt32`, the value of both `InvalidLapTime` and `InvalidSectorTime`. -/
def InvalidLapTime : Int := 2147483647

def InvalidSectorTime : Int := 2147483647

/-- Low eight bits of a number, as a byte. -/
def byte (n : Nat) : Byte := ⟨n % 256, Nat.mod_lt n (by decide)⟩

/-- Little-endian bytes of a `uint16` (`binary.Write` with `binary.LittleEndian`). -/
def putUint16 (v : Nat) : List Byte := [byte v, byte (v / 256)]

/-- Little-endian bytes of an `int32` in two's complement. -/
def putInt32 (v : Int) : List Byte :=
  let u := (v % 4294967296).toNat
  [byte u, byte (u / 256), byte (u / 65536), byte (u / 16777216)]

/-- Reinterpretation of a 32-bit pattern as a signed `int32`. -/
def toInt32 (u : Nat) : Int :=
  if u < 2147483648 then (u : Int) else (u : Int) - 4294967296

/-- The `bytes.Buffer` writer: writes append and never fail. -/
def writeUint8 (w : List Byte) (value : Nat) : Except Error (List Byte) :=
  .ok (w ++ [byte value])

def writeInt32 (w : List Byte) (value : Int) : Except Error (List Byte) :=
  .ok (w ++ putInt32 value)

/-- In `writeString` the length is `uint16(len(s))`: the conversion wraps
modulo 65536 and the whole string is written after it. -/
def writeString (w : List Byte) (s : List Byte) : Except Error (List Byte) := do
  let length := s.length % 65536
  let w ← (.ok (w ++ putUint16 length) : Except Error (List Byte))
  .ok (w ++ s)

def readUint8 : Reader Nat := fun d =>
  match d with
  | b :: rest => .ok (b.val, rest)
  | _ => .error .eof

def readUint16 : Reader Nat := fun d =>
  match d with
  | b0 :: b1 :: rest => .ok (b0.val + 256 * b1.val, rest)
  | _ => .error .eof

def readInt32 : Reader Int := fun d =>
  match d with
  | b0 :: b1 :: b2 :: b3 :: rest =>
    .ok (toInt32 (b0.val + 256 * b1.val + 65536 * b2.val + 16777216 * b3.val), rest)
  | _ => .error .eof

/-- A `float32` is read as its four bytes; the bit pattern is kept as is. -/
def readFloat32 : Reader Nat := fun d =>
  match d with
  | b0 :: b1 :: b2 :: b3 :: rest =>
    .ok (b0.val + 256 * b1.val + 65536 * b2.val + 16777216 * b3.val, rest)
  | _ => .error .eof

/-- The call `binary.Read(r, order, &buffer)` for a byte slice of length `n`: an
`io.ReadFull` of `n` bytes, which succeeds without reading when `n = 0`. -/
def readBytes (n : Nat) : Reader (List Byte) := fun d =>
  if n ≤ d.length then .ok (d.take n, d.drop n) else .error .eof

def readString : Reader (List Byte) := do
  let length ← readUint16
  readBytes length

/-- An `Except` computation run inside a reader, leaving the position untouched. -/
def liftE {α : Type} (e : Except Error α) : Reader α := fun d =>
  match e with
  | .ok a => .ok (a, d)
  | .error err => .error err

/-- An early `return ..., err`. -/
def fail {α : Type} (e : Error) : Reader α := fun _ => .error e

/-! ## Data model (`structs.go`, `enums.go`, `message_types.go`) -/

inductive LapType where
  | Error
  | Outlap
  | Regular
  | Inlap
  deriving DecidableEq, Repr

/-- Lap record. `LaptimeMS` and the three `Splits` slots are `*int32` in the source:
`none` is the nil pointer. `Splits` is the fixed array `[3]*int32`. -/
structure LapInfo where
  LaptimeMS : Option Int := none
  Splits : List (Option Int) := [none, none, none]
  CarIndex : Nat := 0
  DriverIndex : Nat := 0
  IsInvalid : Bool := false
  IsValidForBest : Bool := false
  Type_ : LapType := LapType.Error
  deriving DecidableEq, Repr

structure DriverInfo where
  FirstName : List Byte
  LastName : List Byte
  ShortName : List Byte
  Category : Nat
  Nationality : Nat
  deriving DecidableEq, Repr

structure CarInfo where
  CarIndex : Nat := 0
  CarModelType : Nat := 0
  TeamName : List Byte := []
  RaceNumber : Int := 0
  CupCategory : Nat := 0
  CurrentDriverIndex : Nat := 0
  Drivers : List DriverInfo := []
  Nationality : Nat := 0
  deriving DecidableEq, Repr

structure ConnectionState where
  ConnectionId : Int
  Success : Bool
  IsReadonly : Bool
  ErrorMsg : List Byte
  deriving DecidableEq, Repr

/-- Track description. `CameraSets` is a Go map from set name to camera names; it is
kept as an association list with at most one binding per key. -/
structure TrackData where
  TrackName : List Byte
  TrackId : Int
  TrackMeters : Int
  CameraSets : List (List Byte × List (List Byte))
  HUDPages : List (List Byte)
  deriving DecidableEq, Repr

/-- Session sample. The fields that the source computes with floating point
(`SessionTime`, `SessionEndTime`, `TimeOfDay` from a `float32` of milliseconds;
`Clouds`, `RainLevel`, `Wetness` as byte / 10) hold the raw value read from the wire. -/
structure RealtimeUpdate where
  EventIndex : Nat
  SessionIndex : Nat
  SessionType : Nat
  Phase : Nat
  SessionTime : Nat
  SessionEndTime : Nat
  FocusedCarIndex : Int
  ActiveCameraSet : List Byte
  ActiveCamera : List Byte
  CurrentHudPage : List Byte
  IsReplayPlaying : Bool
  ReplaySessionTime : Nat
  ReplayRemainingTime : Nat
  TimeOfDay : Nat
  AmbientTemp : Nat
  TrackTemp : Nat
  Clouds : Nat
  RainLevel : Nat
  Wetness : Nat
  BestSessionLap : LapInfo
  deriving DecidableEq, Repr

structure RealtimeCarUpdate where
  CarIndex : Nat
  DriverIndex : Nat
  DriverCount : Nat
  Gear : Int
  WorldPosX : Nat
  WorldPosY : Nat
  Heading : Nat
  CarLocation : Nat
  Kmh : Nat
  Position : Nat
  CupPosition : Nat
  TrackPosition : Nat
  SplinePosition : Nat
  Laps : Nat
  Delta : Int
  BestSessionLap : LapInfo
  LastLap : LapInfo
  CurrentLap : LapInfo
  deriving DecidableEq, Repr

/-- Broadcasting event. `CarData` is a pointer to the cached descriptor, `none` is nil. -/
structure BroadcastingEvent where
  Type_ : Nat
  Msg : List Byte
  TimeMs : Int
  CarId : Int
  CarData : Option CarInfo := none
  deriving DecidableEq, Repr

def BroadcastingProtocolVersion : Nat := 4

def OutboundRegisterCommandApplication : Nat := 1
def OutboundUnregisterCommandApplication : Nat := 9
def OutboundRequestEntryList : Nat := 10
def OutboundRequestTrackData : Nat := 11

def InboundRegistrationResult : Nat := 1
def InboundRealtimeUpdate : Nat := 2
def InboundRealtimeCarUpdate : Nat := 3
def InboundEntryList : Nat := 4
def InboundTrackData : Nat := 5
def InboundEntryListCar : Nat := 6
def InboundBroadcastingEvent : Nat := 7

/-! ## Validation (`errors.go`) -/

def ValidateCarIndex (index : Nat) : Except Error Unit :=
  if index > 10000 then .error .validation else .ok ()

/-- Accepts Bronze 0, Silver 1, Gold 2, Platinum 3 and Error 255. -/
def ValidateDriverCategory (category : Nat) : Except Error Unit :=
  if category = 0 ∨ category = 1 ∨ category = 2 ∨ category = 3 ∨ category = 255 then .ok ()
  else .error .validation

/-! ## Decoders (`marshal.go`, `unmarshal.go`) -/

/-- The loop `for i := uint8(0); i < splitCount && i < 3; i++` of `readLap`. The
first argument bounds the number of iterations; the guard `i < 3` stops the loop
after three rounds, so three is enough. -/
def readLapSplits (splitCount : Nat) : Nat → Nat → LapInfo → Reader LapInfo
  | 0, _, lap => pure lap
  | fuel + 1, i, lap =>
    if i < splitCount ∧ i < 3 then do
      let splitTime ← readInt32
      let lap :=
        if splitTime = InvalidSectorTime then { lap with Splits := lap.Splits.set i none }
        else { lap with Splits := lap.Splits.set i (some splitTime) }
      readLapSplits splitCount fuel (i + 1) lap
    else pure lap

def readLap : Reader LapInfo := do
  let lap : LapInfo := {}
  let lapTimeMs ← readInt32
  let lap :=
    if lapTimeMs = InvalidLapTime then { lap with LaptimeMS := none }
    else { lap with LaptimeMS := some lapTimeMs }
  let carIndex ← readUint16
  let lap := { lap with CarIndex := carIndex }
  let driverIndex ← readUint16
  let lap := { lap with DriverIndex := driverIndex }
  let splitCount ← readUint8
  let lap ← readLapSplits splitCount 3 0 lap
  let isInvalid ← readUint8
  let lap := { lap with IsInvalid := decide (isInvalid > 0) }
  let isValidForBest ← readUint8
  let lap := { lap with IsValidForBest := decide (isValidForBest > 0) }
  let isOutlap ← readUint8
  let isInlap ← readUint8
  if isOutlap > 0 then pure { lap with Type_ := LapType.Outlap }
  else if isInlap > 0 then pure { lap with Type_ := LapType.Inlap }
  else pure { lap with Type_ := LapType.Regular }

/-- The part of `readLap` that follows the split loop, as a reader of its own: the
four flag bytes and the lap type. -/
def readLapFlags (lap : LapInfo) : Reader LapInfo := do
  let isInvalid ← readUint8
  let lap := { lap with IsInvalid := decide (isInvalid > 0) }
  let isValidForBest ← readUint8
  let lap := { lap with IsValidForBest := decide (isValidForBest > 0) }
  let isOutlap ← readUint8
  let isInlap ← readUint8
  if isOutlap > 0 then pure { lap with Type_ := LapType.Outlap }
  else if isInlap > 0 then pure { lap with Type_ := LapType.Inlap }
  else pure { lap with Type_ := LapType.Regular }

def UnmarshalRegistrationResult : Reader ConnectionState := do
  let connectionId ← readInt32
  let success ← readUint8
  let isReadonly ← readUint8
  let errMsg ← readString
  pure { ConnectionId := connectionId, Success := decide (success > 0),
         IsReadonly := decide (isReadonly = 0), ErrorMsg := errMsg }

/-- The loop of `UnmarshalEntryList` over the remaining number of car indexes. -/
def readCarIndexes : Nat → Reader (List Nat)
  | 0 => pure []
  | n + 1 => do
    let carIndex ← readUint16
    liftE (ValidateCarIndex carIndex)
    let rest ← readCarIndexes n
    pure (carIndex :: rest)

def UnmarshalEntryList : Reader (Int × List Nat) := do
  let connectionId ← readInt32
  let carCount ← readUint16
  if carCount > 200 then fail Error.validation
  else do
    let carIndexes ← readCarIndexes carCount
    pure (connectionId, carIndexes)

/-- The loop of `UnmarshalEntryListCar` over the remaining number of drivers. -/
def readDrivers : Nat → Reader (List DriverInfo)
  | 0 => pure []
  | n + 1 => do
    let firstName ← readString
    let lastName ← readString
    let shortName ← readString
    let category ← readUint8
    liftE (ValidateDriverCategory category)
    let driverNationality ← readUint16
    let rest ← readDrivers n
    pure ({ FirstName := firstName, LastName := lastName, ShortName := shortName,
            Category := category, Nationality := driverNationality } :: rest)

def UnmarshalEntryListCar : Reader CarInfo := do
  let carIndex ← readUint16
  liftE (ValidateCarIndex carIndex)
  let carModelType ← readUint8
  let teamName ← readString
  let raceNumber ← readInt32
  let cupCategory ← readUint8
  if cupCategory > 4 then fail Error.validation
  else do
    let currentDriverIndex ← readUint8
    let nationality ← readUint16
    let driverCount ← readUint8
    if driverCount > 10 then fail Error.validation
    else if currentDriverIndex ≥ driverCount then fail Error.validation
    else do
      let drivers ← readDrivers driverCount
      pure { CarIndex := carIndex, CarModelType := carModelType, TeamName := teamName,
             RaceNumber := raceNumber, CupCategory := cupCategory,
             CurrentDriverIndex := currentDriverIndex, Drivers := drivers,
             Nationality := nationality }

/-- The loops that fill a `[]string` of known length (camera names, HUD pages). -/
def readStrings : Nat → Reader (List (List Byte))
  | 0 => pure []
  | n + 1 => do
    let name ← readString
    let rest ← readStrings n
    pure (name :: rest)

/-- Assignment `m[k] = v` on a Go map kept as an association list. -/
def mapInsert (m : List (List Byte × List (List Byte))) (k : List Byte)
    (v : List (List Byte)) : List (List Byte × List (List Byte)) :=
  (k, v) :: m.filter (fun e => decide (e.1 ≠ k))

/-- The loop of `UnmarshalTrackData` over the remaining number of camera sets. -/
def readCameraSets : Nat → List (List Byte × List (List Byte)) →
    Reader (List (List Byte × List (List Byte)))
  | 0, m => pure m
  | n + 1, m => do
    let cameraSetName ← readString
    let cameraCount ← readUint8
    if cameraCount > 100 then fail Error.validation
    else do
      let cameras ← readStrings cameraCount
      readCameraSets n (mapInsert m cameraSetName cameras)

def UnmarshalTrackData : Reader (Int × TrackData) := do
  let connectionId ← readInt32
  let trackName ← readString
  let trackId ← readInt32
  let trackMeters ← readInt32
  if trackMeters < 1000 ∨ trackMeters > 25000 then fail Error.validation
  else do
    let cameraSetCount ← readUint8
    if cameraSetCount > 50 then fail Error.validation
    else do
      let cameraSets ← readCameraSets cameraSetCount []
      let hudPageCount ← readUint8
      if hudPageCount > 50 then fail Error.validation
      else do
        let hudPages ← readStrings hudPageCount
        pure (connectionId, { TrackName := trackName, TrackId := trackId,
                              TrackMeters := trackMeters, CameraSets := cameraSets,
                              HUDPages := hudPages })

/-- The two replay fields, read only when the replay flag is set. -/
def readReplayTimes (isReplayPlaying : Bool) : Reader (Nat × Nat) :=
  if isReplayPlaying then do
    let replaySessionTime ← readFloat32
    let replayRemainingTime ← readFloat32
    pure (replaySessionTime, replayRemainingTime)
  else pure (0, 0)

def UnmarshalRealtimeUpdate : Reader RealtimeUpdate := do
  let eventIndex ← readUint16
  let sessionIndex ← readUint16
  let sessionType ← readUint8
  let phase ← readUint8
  let sessionTime ← readFloat32
  let sessionEndTime ← readFloat32
  let focusedCarIndex ← readInt32
  let activeCameraSet ← readString
  let activeCamera ← readString
  let currentHudPage ← readString
  let isReplayPlaying ← readUint8
  let replay ← readReplayTimes (decide (isReplayPlaying > 0))
  let timeOfDay ← readFloat32
  let ambientTemp ← readUint8
  let trackTemp ← readUint8
  let clouds ← readUint8
  let rainLevel ← readUint8
  let wetness ← readUint8
  let bestSessionLap ← readLap
  pure { EventIndex := eventIndex, SessionIndex := sessionIndex, SessionType := sessionType,
         Phase := phase, SessionTime := sessionTime, SessionEndTime := sessionEndTime,
         FocusedCarIndex := focusedCarIndex, ActiveCameraSet := activeCameraSet,
         ActiveCamera := activeCamera, CurrentHudPage := currentHudPage,
         IsReplayPlaying := decide (isReplayPlaying > 0),
         ReplaySessionTime := replay.1, ReplayRemainingTime := replay.2,
         TimeOfDay := timeOfDay, AmbientTemp := ambientTemp, TrackTemp := trackTemp,
         Clouds := clouds, RainLevel := rainLevel, Wetness := wetness,
         BestSessionLap := bestSessionLap }

/-- Wrap-around of an integer into the `int8` range. -/
def wrapInt8 (x : Int) : Int := (x + 128) % 256 - 128

def UnmarshalRealtimeCarUpdate : Reader RealtimeCarUpdate := do
  let carIndex ← readUint16
  liftE (ValidateCarIndex carIndex)
  let driverIndex ← readUint16
  let driverCount ← readUint8
  let gear ← readUint8
  let worldPosX ← readFloat32
  let worldPosY ← readFloat32
  let heading ← readFloat32
  let carLocation ← readUint8
  let kmh ← readUint16
  let position ← readUint16
  let cupPosition ← readUint16
  let trackPosition ← readUint16
  let splinePosition ← readFloat32
  let laps ← readUint16
  let delta ← readInt32
  let bestSessionLap ← readLap
  let lastLap ← readLap
  let currentLap ← readLap
  pure { CarIndex := carIndex, DriverIndex := driverIndex, DriverCount := driverCount,
         Gear := wrapInt8 (wrapInt8 (gear : Int) - 2), WorldPosX := worldPosX,
         WorldPosY := worldPosY, Heading := heading, CarLocation := carLocation,
         Kmh := kmh, Position := position, CupPosition := cupPosition,
         TrackPosition := trackPosition, SplinePosition := splinePosition, Laps := laps,
         Delta := delta, BestSessionLap := bestSessionLap, LastLap := lastLap,
         CurrentLap := currentLap }

def UnmarshalBroadcastingEvent : Reader BroadcastingEvent := do
  let eventType ← readUint8
  let msg ← readString
  let timeMs ← readInt32
  let carId ← readInt32
  pure { Type_ := eventType, Msg := msg, TimeMs := timeMs, CarId := carId }

/-! ## Encoders (`marshal.go`) -/

def MarshalRegistrationRequest (displayName connectionPassword : List Byte)
    (msRealtimeUpdateInterval : Int) (commandPassword : List Byte) :
    Except Error (List Byte) := do
  let buffer ← writeUint8 [] OutboundRegisterCommandApplication
  let buffer ← writeUint8 buffer BroadcastingProtocolVersion
  let buffer ← writeString buffer displayName
  let buffer ← writeString buffer connectionPassword
  let buffer ← writeInt32 buffer msRealtimeUpdateInterval
  let buffer ← writeString buffer commandPassword
  pure buffer

def MarshalDisconnectRequest (connectionId : Int) : Except Error (List Byte) := do
  let buffer ← writeUint8 [] OutboundUnregisterCommandApplication
  let buffer ← writeInt32 buffer connectionId
  pure buffer

def MarshalEntryListRequest (connectionId : Int) : Except Error (List Byte) := do
  let buffer ← writeUint8 [] OutboundRequestEntryList
  let buffer ← writeInt32 buffer connectionId
  pure buffer

def MarshalTrackDataRequest (connectionId : Int) : Except Error (List Byte) := do
  let buffer ← writeUint8 [] OutboundRequestTrackData
  let buffer ← writeInt32 buffer connectionId
  pure buffer

/-! ## Protocol engine (`protocol.go`) -/

/-- Engine state. `entryListCars` is the map `map[uint16]*CarInfo` (the code never
stores a nil pointer, so absence of the key is `none`); the six `On...` fields tell
whether the callback slot is assigned; `lastEntryListRequest` is in nanoseconds. -/
structure Protocol where
  connectionId : Int
  connectionIdentifier : List Byte
  sendFunc : List Byte → Option Error
  entryListCars : Nat → Option CarInfo
  lastEntryListRequest : Int
  OnConnectionStateChanged : Bool
  OnTrackDataUpdate : Bool
  OnEntrylistUpdate : Bool
  OnRealtimeUpdate : Bool
  OnRealtimeCarUpdate : Bool
  OnBroadcastingEvent : Bool

/-- A callback invocation together with its argument. -/
inductive Event where
  | ConnectionStateChanged (state : ConnectionState)
  | TrackDataUpdate (trackData : TrackData)
  | EntrylistUpdate (carInfo : CarInfo)
  | RealtimeUpdate (update : RealtimeUpdate)
  | RealtimeCarUpdate (update : RealtimeCarUpdate)
  | BroadcastingEvent (event : BroadcastingEvent)
  deriving DecidableEq, Repr

/-- What one call on the engine does: the state it leaves, the error it returns
(`none` is nil), the callbacks it invoked and the frames it handed to `sendFunc`,
both in order. -/
structure Outcome where
  state : Protocol
  err : Option Error
  events : List Event
  sent : List (List Byte)

/-- One second, as a `time.Duration` in nanoseconds. -/
def Second : Int := 1000000000

def NewProtocol (connectionIdentifier : List Byte) (sendFunc : List Byte → Option Error)
    (now : Int) : Protocol :=
  { connectionId := 0, connectionIdentifier := connectionIdentifier, sendFunc := sendFunc,
    entryListCars := fun _ => none, lastEntryListRequest := now,
    OnConnectionStateChanged := false, OnTrackDataUpdate := false,
    OnEntrylistUpdate := false, OnRealtimeUpdate := false, OnRealtimeCarUpdate := false,
    OnBroadcastingEvent := false }

/-- The result is the returned error and the frames handed to `sendFunc`. -/
def RequestEntryList (p : Protocol) : Option Error × List (List Byte) :=
  match MarshalEntryListRequest p.connectionId with
  | .error e => (some e, [])
  | .ok data => (p.sendFunc data, [data])

def RequestTrackData (p : Protocol) : Option Error × List (List Byte) :=
  match MarshalTrackDataRequest p.connectionId with
  | .error e => (some e, [])
  | .ok data => (p.sendFunc data, [data])

def RequestConnection (p : Protocol) (displayName connectionPassword : List Byte)
    (msRealtimeUpdateInterval : Int) (commandPassword : List Byte) :
    Option Error × List (List Byte) :=
  match MarshalRegistrationRequest displayName connectionPassword msRealtimeUpdateInterval
      commandPassword with
  | .error e => (some e, [])
  | .ok data => (p.sendFunc data, [data])

def handleRegistrationResult (p : Protocol) (reader : List Byte) : Outcome :=
  match UnmarshalRegistrationResult.run reader with
  | .error e => { state := p, err := some e, events := [], sent := [] }
  | .ok (state, _) =>
    let p := { p with connectionId := state.ConnectionId }
    { state := p, err := none,
      events := if p.OnConnectionStateChanged then [Event.ConnectionStateChanged state] else [],
      sent := if state.Success then (RequestEntryList p).2 ++ (RequestTrackData p).2 else [] }

/-- The loop of `handleEntryList` storing one placeholder per listed index. -/
def storePlaceholders (cars : Nat → Option CarInfo) : List Nat → Nat → Option CarInfo
  | [] => cars
  | carIndex :: rest =>
    storePlaceholders (fun k => if k = carIndex then some { CarIndex := carIndex } else cars k)
      rest

def handleEntryList (p : Protocol) (reader : List Byte) : Outcome :=
  match UnmarshalEntryList.run reader with
  | .error e => { state := p, err := some e, events := [], sent := [] }
  | .ok ((_, carIndexes), _) =>
    { state := { p with entryListCars := storePlaceholders (fun _ => none) carIndexes },
      err := none, events := [], sent := [] }

def handleEntryListCar (p : Protocol) (reader : List Byte) : Outcome :=
  match UnmarshalEntryListCar.run reader with
  | .error e => { state := p, err := some e, events := [], sent := [] }
  | .ok (carInfo, _) =>
    { state := { p with entryListCars :=
                   fun k => if k = carInfo.CarIndex then some carInfo else p.entryListCars k },
      err := none,
      events := if p.OnEntrylistUpdate then [Event.EntrylistUpdate carInfo] else [],
      sent := [] }

def handleTrackData (p : Protocol) (reader : List Byte) : Outcome :=
  match UnmarshalTrackData.run reader with
  | .error e => { state := p, err := some e, events := [], sent := [] }
  | .ok ((_, trackData), _) =>
    { state := p, err := none,
      events := if p.OnTrackDataUpdate then [Event.TrackDataUpdate trackData] else [],
      sent := [] }

def handleRealtimeUpdate (p : Protocol) (reader : List Byte) : Outcome :=
  match UnmarshalRealtimeUpdate.run reader with
  | .error e => { state := p, err := some e, events := [], sent := [] }
  | .ok (update, _) =>
    { state := p, err := none,
      events := if p.OnRealtimeUpdate then [Event.RealtimeUpdate update] else [],
      sent := [] }

/-- The test `!exists || carInfo == nil || len(carInfo.Drivers) != int(update.DriverCount)`. -/
def entryDesync (cached : Option CarInfo) (update : RealtimeCarUpdate) : Bool :=
  match cached with
  | none => true
  | some carInfo => decide (carInfo.Drivers.length ≠ update.DriverCount)

/-- The two clock reads of one call (`time.Since` and `time.Now`) both return `now`. -/
def handleRealtimeCarUpdate (p : Protocol) (now : Int) (reader : List Byte) : Outcome :=
  match UnmarshalRealtimeCarUpdate.run reader with
  | .error e => { state := p, err := some e, events := [], sent := [] }
  | .ok (update, _) =>
    if entryDesync (p.entryListCars update.CarIndex) update then
      if now - p.lastEntryListRequest > Second then
        let p := { p with lastEntryListRequest := now }
        { state := p, err := none, events := [], sent := (RequestEntryList p).2 }
      else { state := p, err := none, events := [], sent := [] }
    else
      { state := p, err := none,
        events := if p.OnRealtimeCarUpdate then [Event.RealtimeCarUpdate update] else [],
        sent := [] }

def handleBroadcastingEvent (p : Protocol) (reader : List Byte) : Outcome :=
  match UnmarshalBroadcastingEvent.run reader with
  | .error e => { state := p, err := some e, events := [], sent := [] }
  | .ok (event, _) =>
    let event :=
      match p.entryListCars (event.CarId % 65536).toNat with
      | some carInfo => { event with CarData := some carInfo }
      | none => event
    { state := p, err := none,
      events := if p.OnBroadcastingEvent then [Event.BroadcastingEvent event] else [],
      sent := [] }

/-- Entry point for one inbound datagram, at clock reading `now`. -/
def ProcessMessage (p : Protocol) (now : Int) (data : List Byte) : Outcome :=
  if data.length = 0 then { state := p, err := none, events := [], sent := [] }
  else
    match readUint8.run data with
    | .error e => { state := p, err := some e, events := [], sent := [] }
    | .ok (msgType, reader) =>
      if msgType = InboundRegistrationResult then handleRegistrationResult p reader
      else if msgType = InboundEntryList then handleEntryList p reader
      else if msgType = InboundEntryListCar then handleEntryListCar p reader
      else if msgType = InboundTrackData then handleTrackData p reader
      else if msgType = InboundRealtimeUpdate then handleRealtimeUpdate p reader
      else if msgType = InboundRealtimeCarUpdate then handleRealtimeCarUpdate p now reader
      else if msgType = InboundBroadcastingEvent then handleBroadcastingEvent p reader
      else { state := p, err := none, events := [], sent := [] }

/-! ## Runs of the engine and notions used in the statements -/

/-- The engine state after processing timed frames in order; each frame comes with the
clock reading at which it is processed. -/
def feed (p : Protocol) : List (Int × List Byte) → Protocol
  | [] => p
  | (now, data) :: rest => feed (ProcessMessage p now data).state rest

/-- Whether this step is an entry-list frame (discriminator 4) that the engine accepts. -/
def entryListAccepted (p : Protocol) (now : Int) (data : List Byte) : Bool :=
  decide (data.head? = some 4) && decide ((ProcessMessage p now data).err = none)

/-- No frame of the run is an accepted entry-list frame. -/
def noEntryListAccepted (p : Protocol) : List (Int × List Byte) → Bool
  | [] => true
  | (now, data) :: rest =>
    !(entryListAccepted p now data) && noEntryListAccepted (ProcessMessage p now data).state rest

/-- In the run `pre` from `p0` some step invoked `OnEntrylistUpdate` with a descriptor
of car `k`, and no later step of `pre` is an accepted entry-list frame. -/
def DispatchedSinceEntryList (p0 : Protocol) (pre : List (Int × List Byte)) (k : Nat) :
    Prop :=
  ∃ (pre1 : List (Int × List Byte)) (t : Int) (d : List Byte)
    (pre2 : List (Int × List Byte)) (c : CarInfo),
    pre = pre1 ++ (t, d) :: pre2 ∧
    Event.EntrylistUpdate c ∈ (ProcessMessage (feed p0 pre1) t d).events ∧
    c.CarIndex = k ∧
    noEntryListAccepted (feed p0 (pre1 ++ [(t, d)])) pre2 = true

/-- Clock readings of the steps at which a realtime-car-update frame (discriminator 3)
made the engine hand a frame to `sendFunc`; such a step sends only through the
desync rule of `handleRealtimeCarUpdate`. -/
def desyncRequestTimes (p : Protocol) : List (Int × List Byte) → List Int
  | [] => []
  | (now, data) :: rest =>
    if data.head? = some 3 ∧ (ProcessMessage p now data).sent ≠ [] then
      now :: desyncRequestTimes (ProcessMessage p now data).state rest
    else desyncRequestTimes (ProcessMessage p now data).state rest

/-- The outcome of a frame that the engine rejects: an error is returned, no callback
is invoked, no frame is sent and the state is the one before the call. -/
def rejected (p : Protocol) (o : Outcome) : Prop :=
  o.err ≠ none ∧ o.events = [] ∧ o.sent = [] ∧ o.state = p

/-- A reader that, once it has succeeded on a buffer, returns the same value on any
longer buffer and leaves the added bytes unread. -/
def Extends {α : Type} (r : Reader α) : Prop :=
  ∀ (d : List Byte) (v : α) (rest s : List Byte),
    r.run d = .ok (v, rest) → r.run (d ++ s) = .ok (v, rest ++ s)

/-- The reader accepts the buffer and leaves no byte unread. -/
def consumesAll {α : Type} (r : Reader α) (body : List Byte) : Bool :=
  match r.run body with
  | .ok (_, []) => true
  | _ => false

/-- A well-formed inbound frame: a discriminator among 1..7 followed by a payload that
the decoder of that message type accepts and consumes to its last byte. -/
def wellFormedFrame (f : List Byte) : Bool :=
  match f with
  | [] => false
  | b :: body =>
    if b.val = InboundRegistrationResult then consumesAll UnmarshalRegistrationResult body
    else if b.val = InboundEntryList then consumesAll UnmarshalEntryList body
    else if b.val = InboundEntryListCar then consumesAll UnmarshalEntryListCar body
    else if b.val = InboundTrackData then consumesAll UnmarshalTrackData body
    else if b.val = InboundRealtimeUpdate then consumesAll UnmarshalRealtimeUpdate body
    else if b.val = InboundRealtimeCarUpdate then consumesAll UnmarshalRealtimeCarUpdate body
    else if b.val = InboundBroadcastingEvent then consumesAll UnmarshalBroadcastingEvent body
    else false

/-- Wire layout of a lap record as the format prescribes it: int32 lap time, uint16 car
index, uint16 driver index, the split count byte, the splits as int32, then the four
flag bytes invalid, valid-for-best, outlap, inlap. -/
def lapWire (lapTime : Int) (carIndex driverIndex : Nat) (splits : List Int)
    (isInvalid isValidForBest isOutlap isInlap : Byte) : List Byte :=
  putInt32 lapTime ++ putUint16 carIndex ++ putUint16 driverIndex ++ [byte splits.length]
    ++ splits.flatMap putInt32 ++ [isInvalid, isValidForBest, isOutlap, isInlap]

/-- The content that the format prescribes for split slot `i`: the wire split `i` when
there is one and it is not the sentinel, absent otherwise. -/
def expectedSlot (splits : List Int) (i : Nat) : Option Int :=
  match splits[i]? with
  | some s => if s = 2147483647 then none else some s
  | none => none

/-! ## Concrete engines and frames used in examples -/

/-- A fresh engine created at clock reading 0 whose six callback slots are assigned
and whose send function always succeeds. -/
def exampleEngine : Protocol :=
  { NewProtocol [] (fun _ => none) 0 with
    OnConnectionStateChanged := true, OnTrackDataUpdate := true, OnEntrylistUpdate := true,
    OnRealtimeUpdate := true, OnRealtimeCarUpdate := true, OnBroadcastingEvent := true }

/-- Registration result: id 42, success 0, readonly 1, empty error message. -/
def frameRegistrationRefused42 : List Byte := [0x01, 0x2A, 0, 0, 0, 0, 1, 0, 0]

/-- Entry list for connection 42 that lists no car. -/
def frameEntryListEmpty : List Byte := [0x04, 0x2A, 0, 0, 0, 0, 0]

/-- Entry list for connection 42 that lists car 5. -/
def frameEntryListCar5Only : List Byte := [0x04, 0x2A, 0, 0, 0, 1, 0, 5, 0]

/-- Entry-list-car frame of car 5: model 3, team "Red Ferrari", race number 31, cup 0,
current driver 0, nationality 17, one driver "John" "Doe" "JDO" with category byte 2
and nationality 17. -/
def frameEntryListCar5 : List Byte :=
  [0x06, 5, 0, 3,
   11, 0, 0x52, 0x65, 0x64, 0x20, 0x46, 0x65, 0x72, 0x72, 0x61, 0x72, 0x69,
   0x1F, 0, 0, 0, 0, 0, 0x11, 0, 1,
   4, 0, 0x4A, 0x6F, 0x68, 0x6E,
   3, 0, 0x44, 0x6F, 0x65,
   3, 0, 0x4A, 0x44, 0x4F,
   2, 0x11, 0]

/-- A lap record without time and without splits, for car 5. -/
def lapAbsent : List Byte := [0xFF, 0xFF, 0xFF, 0x7F, 5, 0, 0, 0, 0, 0, 0, 0, 0]

/-- Payload of a realtime-car-update for car 5 up to its three lap records, with the
given driver count. -/
def realtimeCarUpdate5Head (driverCount : Byte) : List Byte :=
  [5, 0, 0, 0, driverCount, 3, 0, 0, 0, 0, 0, 0, 0, 0, 0, 0, 0, 0, 1, 100, 0, 1, 0, 1, 0,
   1, 0, 0, 0, 0, 0, 2, 0, 0, 0, 0, 0]

/-- Realtime-car-update frame for car 5 with the given driver count and three empty laps. -/
def frameRealtimeCarUpdate5 (driverCount : Byte) : List Byte :=
  0x03 :: (realtimeCarUpdate5Head driverCount ++ lapAbsent ++ lapAbsent ++ lapAbsent)

/-- Realtime-car-update frame for car 5, one driver, whose current lap is laid out
with four splits (30000, 30000, 30000, 1) and flags invalid 0, valid-for-best 1,
outlap 0, inlap 0. -/
def frameRealtimeCarUpdateFourSplits : List Byte :=
  0x03 :: (realtimeCarUpdate5Head 1 ++ lapAbsent ++ lapAbsent
    ++ lapWire 90001 5 0 [30000, 30000, 30000, 1] 0 1 0 0)

/-! ## Further accessors and names (`structs.go`, `enums.go`) -/

/-- The method `(c *CarInfo) GetCurrentDriver`: `none` is the nil pointer. -/
def GetCurrentDriver (c : CarInfo) : Option DriverInfo :=
  if c.CurrentDriverIndex < c.Drivers.length then c.Drivers[c.CurrentDriverIndex]? else none

def DriverCategoryBronze : Nat := 0
def DriverCategorySilver : Nat := 1
def DriverCategoryGold : Nat := 2
def DriverCategoryPlatinum : Nat := 3
def DriverCategoryError : Nat := 255

/-- The map `driverCategoryNames` as a lookup. -/
def driverCategoryNames (d : Nat) : Option String :=
  if d = DriverCategoryBronze then some "Bronze"
  else if d = DriverCategorySilver then some "Silver"
  else if d = DriverCategoryGold then some "Gold"
  else if d = DriverCategoryPlatinum then some "Platinum"
  else if d = DriverCategoryError then some "Error"
  else none

/-- The method `(d DriverCategory) String`. -/
def DriverCategoryString (d : Nat) : String :=
  match driverCategoryNames d with
  | some name => name
  | none => "Error"

/-- Decoding of the registration-request layout with the readers of the package:
discriminator, protocol version, display name, connection password, update interval
and command password. The source has no decoder for outbound frames; this one only
composes `readUint8`, `readString` and `readInt32` in the order of the layout. -/
def decodeRegistrationRequest :
    Reader (Nat × Nat × List Byte × List Byte × Int × List Byte) := do
  let msgType ← readUint8
  let version ← readUint8
  let displayName ← readString
  let connectionPassword ← readString
  let msRealtimeUpdateInterval ← readInt32
  let commandPassword ← readString
  pure (msgType, version, displayName, connectionPassword, msRealtimeUpdateInterval,
    commandPassword)

/-- Entry list for connection 42 listing cars 5 and 9 (scenario S2). -/
def frameEntryList5And9 : List Byte := [0x04, 0x2A, 0, 0, 0, 2, 0, 5, 0, 9, 0]

/-- Broadcasting event of type 4 with message "Contact", session time 20000 ms and
car id 65541 (`05 00 01 00`). -/
def frameBroadcastingEvent65541 : List Byte :=
  [0x07, 4, 7, 0, 0x43, 0x6F, 0x6E, 0x74, 0x61, 0x63, 0x74, 0x20, 0x4E, 0, 0, 5, 0, 1, 0]

/-! ## Accessors used by the trackers (`structs.go`, `enums.go`) -/

/-- Wrap-around of an integer into the `int32` range. -/
def wrapInt32 (x : Int) : Int := (x + 2147483648) % 4294967296 - 2147483648

/-- Wrap-around of an integer into the `uint16` range. -/
def wrapUint16 (x : Int) : Nat := (x % 65536).toNat

/-- The bytes of a string constant of the source (ASCII). -/
def bytesOf (s : String) : List Byte := s.toList.map (fun c => byte c.toNat)

/-- The method `(d *DriverInfo) GetFullName`. -/
def GetFullName (d : DriverInfo) : List Byte := d.FirstName ++ bytesOf " " ++ d.LastName

/-- The method `(c *CarInfo) GetCurrentDriverName`. -/
def GetCurrentDriverName (c : CarInfo) : List Byte :=
  match GetCurrentDriver c with
  | some driver => GetFullName driver
  | none => bytesOf "Unknown"

/-- The method `(l *LapInfo) GetLapTimeMS`: the `int32` sum of the splits that are
not nil, with the wrap-around of `int32` addition. -/
def GetLapTimeMS (l : LapInfo) : Int :=
  l.Splits.foldl
    (fun totalTime split =>
      match split with
      | some v => wrapInt32 (totalTime + v)
      | none => totalTime)
    0

def CarLocationPitlane : Nat := 2


def CarLocationNone : Nat := 0

def CarLocationTrack : Nat := 1

def CarLocationPitEntry : Nat := 3

def CarLocationPitExit : Nat := 4

/-! ## Connection manager (`internal/broadcast/connection_manager.go`)

The manager sees of the broadcast service only whether it exists and whether it is
running: `none` is the nil pointer, `some b` a service whose `isRunning` is `b`.
`Service.Stop` leaves a service that is not running, `Service.Start` always
returns nil and leaves a running service (the connection itself is made in the
background). Logging and the one-second sleep before a reconnection are left out. -/

structure ConnectionManager where
  service : Option Bool
  hasSharedMemService : Bool
  lastPacketID : Int
  deriving DecidableEq, Repr

/-- The status `sharedmemory.ACOff`. -/
def ACOff : Nat := 0

/-- The status `sharedmemory.ACLive`. -/
def ACLive : Nat := 2

/-- The result of `sharedMemService.GetLatestData()`: an error, or the status of the
graphics block and the packet id of the physics block. -/
inductive LatestData where
  | failed
  | read (status : Nat) (packetId : Int)
  deriving DecidableEq, Repr

def NewConnectionManager (hasSharedMemService : Bool) : ConnectionManager :=
  { service := none, hasSharedMemService := hasSharedMemService, lastPacketID := 0 }

/-- The expression `cm.service != nil && cm.service.IsRunning()`. -/
def IsConnected (cm : ConnectionManager) : Bool :=
  match cm.service with
  | some running => running
  | none => false

/-- The call `cm.service.Stop()` on a service that is not nil. -/
def stopService (cm : ConnectionManager) : ConnectionManager :=
  { cm with service := cm.service.map (fun _ => false) }

def connectBroadcast (cm : ConnectionManager) : ConnectionManager :=
  { cm with service := some true }

def handleGameOff (cm : ConnectionManager) (currentPacketID : Int)
    (isBroadcastConnected : Bool) : ConnectionManager :=
  let cm :=
    if currentPacketID ≤ cm.lastPacketID ∨ currentPacketID = 0 then
      if isBroadcastConnected then { stopService cm with lastPacketID := 0 } else cm
    else
      if !isBroadcastConnected then connectBroadcast cm else cm
  { cm with lastPacketID := currentPacketID }

/-- One tick of `monitorConnection`. -/
def checkAndReconnect (cm : ConnectionManager) (data : LatestData) : ConnectionManager :=
  if !cm.hasSharedMemService then cm
  else
    match data with
    | LatestData.failed => if IsConnected cm then stopService cm else cm
    | LatestData.read status packetId =>
      let isGameRunning := decide (status ≠ ACOff)
      let isBroadcastConnected := IsConnected cm
      if status = ACOff then handleGameOff cm packetId isBroadcastConnected
      else if isGameRunning then
        if !isBroadcastConnected then connectBroadcast cm else cm
      else cm

/-- The manager after a sequence of ticks that read the status off with the given
packet ids. -/
def ticksOff (cm : ConnectionManager) (packetIds : List Int) : ConnectionManager :=
  packetIds.foldl (fun cm packetId => checkAndReconnect cm (LatestData.read ACOff packetId)) cm

/-- A manager with a running session whose last packet id is `lastPacketID`. -/
def attachedAt (lastPacketID : Int) : ConnectionManager :=
  { service := some true, hasSharedMemService := true, lastPacketID := lastPacketID }

end Broadcast

/-!
# Gap tracker (`internal/acc/gaps/tracker.go`)

The tracker computes with `float32` and `float64`. A finite floating-point number is
kept as an integer mantissa and a binary exponent; every arithmetic operation
computes the exact rational result and rounds it once to the precision of its type
(24 bits for `float32`, 53 bits for `float64`), to nearest with ties to even, as
IEEE 754 prescribes and as Go does when it does not fuse operations. Exponent range
(overflow, subnormal numbers), infinities and NaN are not represented. The clock is
an explicit argument in nanoseconds; a `time.Time` that `IsZero` is `none`.
-/

namespace Gaps

/-- A finite binary floating-point number, of value `m * 2 ^ e`. -/
structure Flt where
  m : Int
  e : Int
  deriving DecidableEq, Repr

/-- Numerator of the value over the denominator `den`. -/
def Flt.num (x : Flt) : Int := x.m * 2 ^ x.e.toNat

/-- Denominator of the value, a power of two. -/
def Flt.den (x : Flt) : Nat := 2 ^ (-x.e).toNat

/-- The value as a rational number. -/
def Flt.toRat (x : Flt) : ℚ := (x.num : ℚ) / (x.den : ℚ)

/-- Halving until the number is below 2; the first argument bounds the recursion. -/
def log2Fuel : Nat → Nat → Nat
  | 0, _ => 0
  | fuel + 1, n => if n ≥ 2 then log2Fuel fuel (n / 2) + 1 else 0

/-- Largest `k` with `2 ^ k ≤ n`, for positive `n`. -/
def log2 (n : Nat) : Nat := log2Fuel n n

/-- Largest `k` with `2 ^ k ≤ n / d`, for positive `n` and `d`. -/
def floorLog2 (n d : Nat) : Int :=
  if d * 2 ^ log2 n ≤ n * 2 ^ log2 d then (log2 n : Int) - (log2 d : Int)
  else (log2 n : Int) - (log2 d : Int) - 1

/-- Rounding of the positive rational `n / d` to `p` significant bits, to nearest,
ties to even. -/
def roundPos (p : Nat) (n d : Nat) : Flt :=
  let e : Int := floorLog2 n d - ((p : Int) - 1)
  let scaledNum : Nat := n * 2 ^ (-e).toNat
  let scaledDen : Nat := d * 2 ^ e.toNat
  let q : Nat := scaledNum / scaledDen
  let r : Nat := scaledNum % scaledDen
  let up : Nat := if scaledDen < 2 * r ∨ (2 * r = scaledDen ∧ q % 2 = 1) then 1 else 0
  { m := ((q + up : Nat) : Int), e := e }

/-- Rounding of the rational `num / den` (`den` positive) to `p` significant bits. -/
def roundQ (p : Nat) (num : Int) (den : Nat) : Flt :=
  if num = 0 then { m := 0, e := 0 }
  else if num > 0 then roundPos p num.toNat den
  else { m := -(roundPos p (-num).toNat den).m, e := (roundPos p (-num).toNat den).e }

/-- Conversion of an integer to a floating-point type of precision `p`. -/
def ofInt (p : Nat) (i : Int) : Flt := roundQ p i 1

/-- Conversion of a floating-point number to precision `p`. -/
def toPrec (p : Nat) (x : Flt) : Flt := roundQ p x.num x.den

def fmul (p : Nat) (x y : Flt) : Flt := roundQ p (x.num * y.num) (x.den * y.den)

def fadd (p : Nat) (x y : Flt) : Flt :=
  roundQ p (x.num * (y.den : Int) + y.num * (x.den : Int)) (x.den * y.den)

def fsub (p : Nat) (x y : Flt) : Flt :=
  roundQ p (x.num * (y.den : Int) - y.num * (x.den : Int)) (x.den * y.den)

/-- Division; the divisor is never zero where the tracker divides. -/
def fdiv (p : Nat) (x y : Flt) : Flt :=
  if y.num > 0 then roundQ p (x.num * (y.den : Int)) (x.den * y.num.toNat)
  else if y.num < 0 then roundQ p (-(x.num * (y.den : Int))) (x.den * (-y.num).toNat)
  else { m := 0, e := 0 }

/-- The comparison `x < y`. -/
def flt (x y : Flt) : Bool := decide (x.num * (y.den : Int) < y.num * (x.den : Int))

/-- The conversion `int(x)`: truncation toward zero. -/
def ftrunc (x : Flt) : Int :=
  if x.num ≥ 0 then x.num / (x.den : Int) else -((-x.num) / (x.den : Int))

/-- The function `math.Floor` followed by `int(...)`. -/
def ffloor (x : Flt) : Int := x.num / (x.den : Int)

/-- The `float32` constant 1.5. -/
def onePointFive : Flt := { m := 3, e := -1 }

/-- The `float32` returned for an unknown gap. -/
def minusOne : Flt := { m := -1, e := 0 }

def GapDistanceMeter : Int := 50

/-- One minute and one second as `time.Duration`, in nanoseconds. -/
def Minute : Int := 60000000000

def Second : Int := 1000000000

/-- The method `Duration.Seconds` followed by the conversion to `float32`:
`float32(float64(sec) + float64(nsec) / 1e9)` with `sec = d / Second` and
`nsec = d % Second`; used for durations that are not negative. -/
def secondsFloat32 (d : Int) : Flt :=
  toPrec 24 (fadd 53 (ofInt 53 (d / Second)) (fdiv 53 (ofInt 53 (d % Second)) (ofInt 53 Second)))

/-- Tracker state: per car the `PassedAt` time of each checkpoint (`none` is the zero
time), and the number of checkpoints. -/
structure GapTracker where
  gapData : Nat → Option (List (Option Int))
  totalGaps : Int

def NewGapTracker : GapTracker := { gapData := fun _ => none, totalGaps := 0 }

/-- The method `Initialize`; `float64(trackMeters) / GapDistanceMeter` is a `float64`
division. -/
def Initialize (_gt : GapTracker) (trackMeters : Flt) : GapTracker :=
  { gapData := fun _ => none,
    totalGaps := ffloor (fdiv 53 (toPrec 53 trackMeters) (ofInt 53 GapDistanceMeter)) }

/-- The value `gapStep := 1.0 / float32(gt.totalGaps)`. -/
def gapStep (totalGaps : Int) : Flt := fdiv 24 (ofInt 24 1) (ofInt 24 totalGaps)

/-- The test of the loop body of `UpdateCarPosition` for checkpoint `i`:
`splinePosition > estimatedGapSpline && splinePosition < estimatedGapSpline+gapStep*1.5`
with `estimatedGapSpline := float32(i) * gapStep`. -/
def inWindow (totalGaps : Int) (i : Nat) (splinePosition : Flt) : Bool :=
  let estimatedGapSpline := fmul 24 (ofInt 24 i) (gapStep totalGaps)
  flt estimatedGapSpline splinePosition &&
    flt splinePosition (fadd 24 estimatedGapSpline (fmul 24 (gapStep totalGaps) onePointFive))

/-- The new content of `data[i].PassedAt`, given its old content: it becomes `now`
when the old one is zero or more than a minute old. Both clock reads of the body
(`time.Since` and `time.Now`) return `now`. -/
def stamp (now : Int) (old : Option Int) : Option Int :=
  match old with
  | none => some now
  | some passedAt => if now - passedAt > Minute then some now else some passedAt

/-- The loop `for i := 0; i < gt.totalGaps; i++` of `UpdateCarPosition`, from index
`i` on; the first argument bounds the number of remaining iterations. -/
def updateLoop (totalGaps : Int) (splinePosition : Flt) (now : Int) :
    Nat → Nat → List (Option Int) → List (Option Int)
  | 0, _, data => data
  | fuel + 1, i, data =>
    if (i : Int) < totalGaps then
      updateLoop totalGaps splinePosition now fuel (i + 1)
        (if inWindow totalGaps i splinePosition then
          match data[i]? with
          | some old => data.set i (stamp now old)
          | none => data
        else data)
    else data

def UpdateCarPosition (gt : GapTracker) (now : Int) (carIndex : Nat) (splinePosition : Flt) :
    GapTracker :=
  if gt.totalGaps ≤ 0 then gt
  else
    let data :=
      match gt.gapData carIndex with
      | some data => data
      | none => List.replicate gt.totalGaps.toNat none
    { gt with
      gapData := fun k =>
        if k = carIndex then
          some (updateLoop gt.totalGaps splinePosition now gt.totalGaps.toNat 0 data)
        else gt.gapData k }

/-- The index `estimatedIndex` of `timeGapBetweenInternal`, clamped to
`0 .. totalGaps - 1`. -/
def estimatedIndex (totalGaps : Int) (splineCurrent : Flt) : Int :=
  let estimatedIndex := ftrunc (fmul 24 (ofInt 24 totalGaps) splineCurrent)
  let estimatedIndex := if estimatedIndex < 0 then 0 else estimatedIndex
  if estimatedIndex ≥ totalGaps then totalGaps - 1 else estimatedIndex

/-- What one activation of `timeGapBetweenInternal` finds before it looks at its
`retry` flag: a value to return, or a negative gap. -/
inductive Attempt where
  | result (gap : Flt)
  | negative
  deriving DecidableEq, Repr

/-- The body of `timeGapBetweenInternal` up to and including `if gap >= 0`. -/
def attempt (gt : GapTracker) (currentCarIndex : Nat) (splineCurrent : Flt)
    (carAheadIndex : Nat) : Attempt :=
  if gt.totalGaps ≤ 0 then Attempt.result minusOne
  else
    match gt.gapData currentCarIndex, gt.gapData carAheadIndex with
    | some gapsA, some gapsB =>
      match gapsA[(estimatedIndex gt.totalGaps splineCurrent).toNat]?,
            gapsB[(estimatedIndex gt.totalGaps splineCurrent).toNat]? with
      | some (some passedAtA), some (some passedAtB) =>
        if passedAtA - passedAtB ≥ 0 then Attempt.result (secondsFloat32 (passedAtA - passedAtB))
        else Attempt.negative
      | _, _ => Attempt.result minusOne
    | _, _ => Attempt.result minusOne

/-- The recursive function `timeGapBetweenInternal`. Its only recursive call passes
`retry = true` and therefore does not recurse again; that inner activation is written
out as a second `attempt`. -/
def timeGapBetweenInternal (gt : GapTracker) (currentCarIndex : Nat) (splineCurrent : Flt)
    (carAheadIndex : Nat) (retry : Bool) : Flt :=
  match attempt gt currentCarIndex splineCurrent carAheadIndex with
  | Attempt.result gap => gap
  | Attempt.negative =>
    if !retry then
      match attempt gt currentCarIndex (fsub 24 splineCurrent (gapStep gt.totalGaps))
          carAheadIndex with
      | Attempt.result gap => gap
      | Attempt.negative => minusOne
    else minusOne

def TimeGapBetween (gt : GapTracker) (currentCarIndex : Nat) (splineCurrent : Flt)
    (carAheadIndex : Nat) : Flt :=
  timeGapBetweenInternal gt currentCarIndex splineCurrent carAheadIndex false

/-- The `float32` nearest to the decimal constant `num / den`. -/
def float32Const (num : Int) (den : Nat) : Flt := roundQ 24 num den

/-- A tracker initialised with a track of 5000 m. -/
def tracker5000 : GapTracker := Initialize NewGapTracker (ofInt 24 5000)

/-- The `PassedAt` time of checkpoint `i` of a car; `none` when it is the zero time
or when the car has no array yet. -/
def passedAt (gt : GapTracker) (carIndex : Nat) (i : Nat) : Option Int :=
  match gt.gapData carIndex with
  | some data => (data[i]?).join
  | none => none

/-- The tracker of 5000 m after car 1 was seen at spline 0.100 at time 0 and car 2
at spline 0.100 at time 1.237 s (scenario S4). -/
def trackerS4 : GapTracker :=
  UpdateCarPosition (UpdateCarPosition tracker5000 0 1 (float32Const 1 10)) 1237000000 2
    (float32Const 1 10)

/-- The tracker of 5000 m after car 1 was seen at spline 0 at time 0 and car 2 at
spline 0 at time 1.237 s. -/
def trackerAtZero : GapTracker :=
  UpdateCarPosition (UpdateCarPosition tracker5000 0 1 (float32Const 0 1)) 1237000000 2
    (float32Const 0 1)

/-- The tracker of 5000 m after car 1 was seen at spline 0.5 at time 0 and car 2 at
spline 0.5 at time 1.237 s. -/
def trackerAtHalf : GapTracker :=
  UpdateCarPosition (UpdateCarPosition tracker5000 0 1 (float32Const 1 2)) 1237000000 2
    (float32Const 1 2)

/-- The tracker of 5000 m after car 1 passed spline 0.995 at time 0 and spline 0.005
at 10 s, and car 2 passed spline 0.995 at 5 s and spline 0.005 at 7 s. -/
def trackerWrap : GapTracker :=
  UpdateCarPosition
    (UpdateCarPosition
      (UpdateCarPosition
        (UpdateCarPosition tracker5000 0 1 (float32Const 995 1000))
        5000000000 2 (float32Const 995 1000))
      7000000000 2 (float32Const 5 1000))
    10000000000 1 (float32Const 5 1000)

/-- The tracker of 5000 m after car 1 was seen at spline 0.42 at time 0 and car 2 at
spline 0.42 at time 1.237 s. -/
def trackerAtPoint42 : GapTracker :=
  UpdateCarPosition (UpdateCarPosition tracker5000 0 1 (float32Const 42 100)) 1237000000 2
    (float32Const 42 100)

/-- The function `math.Float32frombits` on the patterns of finite numbers: sign bit,
eight exponent bits, 23 fraction bits. Patterns with exponent 255 (infinities, NaN)
are outside the model. -/
def float32frombits (b : Nat) : Flt :=
  let sign : Int := if (b / 2147483648) % 2 = 1 then -1 else 1
  let exponent := (b / 8388608) % 256
  let fraction := b % 8388608
  if exponent = 0 then { m := sign * (fraction : Int), e := -149 }
  else { m := sign * ((8388608 + fraction : Nat) : Int), e := (exponent : Int) - 150 }

/-- The floating-point constants 0, 1 and 2. -/
def fzero : Flt := { m := 0, e := 0 }

def fone : Flt := { m := 1, e := 0 }

def ftwo : Flt := { m := 2, e := 0 }

/-- Decimal digits of a natural number, padded with zeros on the left to `width`. -/
def padZeros (width : Nat) (n : Nat) : String :=
  String.mk (List.replicate (width - (toString n).length) '0') ++ toString n

/-- The verb `%.3f` of `fmt.Sprintf` on a number that is not negative: the exact
binary value rounded to three decimals, to nearest with ties to even; `intWidth` is
the minimal number of digits before the point (1 for `%.3f`, 2 for `%06.3f`). -/
def fmtFixed3 (intWidth : Nat) (x : Flt) : String :=
  let scaled : Nat := x.num.toNat * 1000
  let q := scaled / x.den
  let r := scaled % x.den
  let n := if x.den < 2 * r ∨ (2 * r = x.den ∧ q % 2 = 1) then q + 1 else q
  padZeros intWidth (n / 1000) ++ "." ++ padZeros 3 (n % 1000)

end Gaps

/-!
# Leaderboard (`internal/acc/leaderboard/tracker.go`)

The descriptor map `cars` is the list of its entries in the order in which the
`range` loop visits them: Go leaves that order open, and the statements hold for
every list. The sample map `updates` is a lookup. Map values are pointers that are
not nil. The `float32` spline position of a sample is decoded with
`float32frombits` and the arithmetic on it is that of the floating-point model of
the gap tracker. `time.Now()` is an explicit argument.
-/

namespace Leaderboard

open Broadcast (CarInfo RealtimeCarUpdate GetLapTimeMS GetCurrentDriverName wrapInt32
  CarLocationPitlane)
open Gaps (Flt float32frombits fzero fone ftwo ofInt fsub fadd fmul fdiv flt ftrunc fmtFixed3)

structure DriverPosition where
  Position : Int
  CarIndex : Nat
  CarNumber : Int
  DriverName : List Broadcast.Byte
  TeamName : List Broadcast.Byte
  CarModel : Nat
  BestLap : Int
  LastLap : Int
  CurrentLap : Int
  Laps : Nat
  Gap : String
  Interval : String
  GapMS : Int
  IntervalMS : Int
  SplinePosition : Flt
  IsPlayer : Bool
  IsInPit : Bool
  CupPosition : Int
  Category : Nat
  Location : Nat
  Speed : Nat
  deriving DecidableEq, Repr

structure LeaderboardTracker where
  positions : List DriverPosition
  playerCarIndex : Nat
  sessionType : Nat
  leaderBestLap : Int
  lastUpdateTime : Int
  deriving DecidableEq, Repr

def NewLeaderboardTracker (now : Int) : LeaderboardTracker :=
  { positions := [], playerCarIndex := 0, sessionType := 0, leaderBestLap := 0,
    lastUpdateTime := now }

/-- The library function `sort.Slice`, which is not part of the repository. Its
contract is that the result is a rearrangement of the slice in which no element is
`less` than an element before it; the order of elements that are not ordered by
`less` is left open. The model is the insertion sort, and the statements about
sorted rows use the contract only. -/
def sortSlice {α : Type} (less : α → α → Bool) (l : List α) : List α :=
  l.insertionSort (fun a b => less b a = false)

/-- The conversion `int32(x)` of a `float32`: truncation toward zero. For values
outside the `int32` range Go leaves the result to the implementation; the model
keeps the truncated integer there. -/
def int32OfFloat (x : Flt) : Int := ftrunc x

/-- The function `formatTimeGap`; `seconds` is a `float64`. -/
def formatTimeGap (ms : Int) : String :=
  if ms ≤ 0 then "---"
  else
    let seconds := fdiv 53 (ofInt 53 ms) (ofInt 53 1000)
    if flt seconds (ofInt 53 60) then "+" ++ fmtFixed3 1 seconds
    else
      let minutes := ftrunc (fdiv 53 seconds (ofInt 53 60))
      let secs := fsub 53 seconds (ofInt 53 (minutes * 60))
      "+" ++ toString minutes ++ ":" ++ fmtFixed3 2 secs

/-- The row built in the loop body of `Update` for the entry `carIndex, carInfo` of
the descriptor map and its sample `update`. The gap fields are filled later. -/
def newPosition (playerCarIndex : Nat) (carIndex : Nat) (carInfo : CarInfo)
    (update : RealtimeCarUpdate) : DriverPosition :=
  { Position := (update.Position : Int),
    CarIndex := carIndex,
    CarNumber := carInfo.RaceNumber,
    DriverName := GetCurrentDriverName carInfo,
    TeamName := carInfo.TeamName,
    CarModel := carInfo.CarModelType,
    BestLap := GetLapTimeMS update.BestSessionLap,
    LastLap := GetLapTimeMS update.LastLap,
    CurrentLap := 0,
    Laps := update.Laps,
    Gap := "",
    Interval := "",
    GapMS := 0,
    IntervalMS := 0,
    SplinePosition := float32frombits update.SplinePosition,
    IsPlayer := decide (carIndex = playerCarIndex),
    IsInPit := decide (update.CarLocation = CarLocationPitlane),
    CupPosition := (update.CupPosition : Int),
    Category := carInfo.CupCategory,
    Location := update.CarLocation,
    Speed := update.Kmh }

/-- The loop `for carIndex, carInfo := range cars` of `Update`. -/
def buildPositions (playerCarIndex : Nat) (updates : Nat → Option RealtimeCarUpdate) :
    List (Nat × CarInfo) → List DriverPosition
  | [] => []
  | (carIndex, carInfo) :: rest =>
    match updates carIndex with
    | none => buildPositions playerCarIndex updates rest
    | some update =>
      newPosition playerCarIndex carIndex carInfo update
        :: buildPositions playerCarIndex updates rest

/-- The estimate `int32(splineDiff * float32(lt.leaderBestLap))` with
`splineDiff := ahead - current`, increased by 1.0 when negative. -/
def estimatedMS (leaderBestLap : Int) (ahead current : Flt) : Int :=
  let splineDiff := fsub 24 ahead current
  let splineDiff := if flt splineDiff fzero then fadd 24 splineDiff fone else splineDiff
  int32OfFloat (fmul 24 splineDiff (ofInt 24 leaderBestLap))

/-- The leader branch of the loop body of `calculateGaps` (`i == 0`). -/
def leaderRow (pos : DriverPosition) : DriverPosition :=
  { pos with Gap := "Leader", Interval := "---", GapMS := 0, IntervalMS := 0 }

/-- The gap to the leader written by the loop body of `calculateGaps` for `i > 0`. -/
def gapFields (leaderBestLap : Int) (leaderPos currentPos : DriverPosition) :
    String × Int :=
  let lapDiff : Int := (leaderPos.Laps : Int) - (currentPos.Laps : Int)
  if lapDiff > 0 then
    (if lapDiff > 1 then "+" ++ toString lapDiff ++ " Laps"
      else "+" ++ toString lapDiff ++ " Lap",
     wrapInt32 (lapDiff * leaderBestLap))
  else
    let estimatedGapMS :=
      estimatedMS leaderBestLap leaderPos.SplinePosition currentPos.SplinePosition
    (formatTimeGap estimatedGapMS, estimatedGapMS)

/-- The interval to the row ahead written by the loop body of `calculateGaps`. -/
def intervalFields (leaderBestLap : Int) (previousPos currentPos : DriverPosition) :
    String × Int :=
  let prevLapDiff : Int := (previousPos.Laps : Int) - (currentPos.Laps : Int)
  if prevLapDiff > 0 then
    ("+" ++ toString prevLapDiff ++ " L", wrapInt32 (prevLapDiff * leaderBestLap))
  else
    let estimatedIntervalMS :=
      estimatedMS leaderBestLap previousPos.SplinePosition currentPos.SplinePosition
    (formatTimeGap estimatedIntervalMS, estimatedIntervalMS)

/-- The loop body of `calculateGaps` for `i > 0`. -/
def gapRow (leaderBestLap : Int) (leaderPos previousPos currentPos : DriverPosition) :
    DriverPosition :=
  { currentPos with
    Gap := (gapFields leaderBestLap leaderPos currentPos).1,
    GapMS := (gapFields leaderBestLap leaderPos currentPos).2,
    Interval := (intervalFields leaderBestLap previousPos currentPos).1,
    IntervalMS := (intervalFields leaderBestLap previousPos currentPos).2 }

/-- The iterations `i > 0` of the loop of `calculateGaps`; `previousPos` is the row
`lt.positions[i-1]` as the iteration before left it. -/
def gapRows (leaderBestLap : Int) (leaderPos : DriverPosition) :
    DriverPosition → List DriverPosition → List DriverPosition
  | _, [] => []
  | previousPos, currentPos :: rest =>
    gapRow leaderBestLap leaderPos previousPos currentPos
      :: gapRows leaderBestLap leaderPos
          (gapRow leaderBestLap leaderPos previousPos currentPos) rest

def calculateGaps (lt : LeaderboardTracker) : LeaderboardTracker :=
  match lt.positions with
  | [] => lt
  | first :: rest =>
    let leaderBestLap := if first.BestLap > 0 then first.BestLap else lt.leaderBestLap
    { lt with
      leaderBestLap := leaderBestLap,
      positions := leaderRow first :: gapRows leaderBestLap (leaderRow first) (leaderRow first) rest }

/-- The comparison passed to `sort.Slice` by `Update`. -/
def lessPosition (a b : DriverPosition) : Bool := decide (a.Position < b.Position)

def Update (lt : LeaderboardTracker) (now : Int) (cars : List (Nat × CarInfo))
    (updates : Nat → Option RealtimeCarUpdate) (sessionType : Nat) (playerCarIndex : Nat) :
    LeaderboardTracker :=
  let lt := { lt with sessionType := sessionType, playerCarIndex := playerCarIndex,
                      positions := buildPositions playerCarIndex updates cars }
  let lt := { lt with positions := sortSlice lessPosition lt.positions }
  let lt := calculateGaps lt
  { lt with lastUpdateTime := now }

/-- The test `gapSeconds < 2.0 && gapSeconds > 0` of `GetBattles`, with
`gapSeconds := float32(pos.IntervalMS) / 1000.0`. -/
def inBattle (pos : DriverPosition) : Bool :=
  let gapSeconds := fdiv 24 (ofInt 24 pos.IntervalMS) (ofInt 24 1000)
  flt gapSeconds ftwo && flt fzero gapSeconds

/-- The iterations `i > 0` of the loop of `GetBattles`; `previous` is the row
`lt.positions[i-1]`. The result is the pair of `battles` and `currentBattle`. -/
def battlesLoop :
    List DriverPosition → DriverPosition → List (List DriverPosition) → List DriverPosition →
      List (List DriverPosition) × List DriverPosition
  | [], _, battles, currentBattle => (battles, currentBattle)
  | pos :: rest, previous, battles, currentBattle =>
    if inBattle pos then
      battlesLoop rest pos battles
        ((if currentBattle.length = 0 then currentBattle ++ [previous] else currentBattle)
          ++ [pos])
    else
      battlesLoop rest pos
        (if currentBattle.length ≥ 2 then battles ++ [currentBattle] else battles) []

def GetBattles (lt : LeaderboardTracker) : List (List DriverPosition) :=
  match lt.positions with
  | [] => []
  | first :: rest =>
    let r := battlesLoop rest first [] [first]
    if r.2.length ≥ 2 then r.1 ++ [r.2] else r.1

/-- The comparison passed to `sort.Slice` by `SortByBestLap`. -/
def lessBestLap (a b : DriverPosition) : Bool :=
  if a.BestLap = 0 then false
  else if b.BestLap = 0 then true
  else decide (a.BestLap < b.BestLap)

/-- The loop `for i := range lt.positions` of `SortByBestLap`, from index `i` on. -/
def renumber : Nat → List DriverPosition → List DriverPosition
  | _, [] => []
  | i, pos :: rest => { pos with Position := (i : Int) + 1 } :: renumber (i + 1) rest

def SortByBestLap (lt : LeaderboardTracker) : LeaderboardTracker :=
  { lt with positions := renumber 0 (sortSlice lessBestLap lt.positions) }

/-- A row with its `Position` cleared: rows are compared up to renumbering. -/
def clearPosition (pos : DriverPosition) : DriverPosition := { pos with Position := 0 }

/-- The row condition of a battle in the words of the specification: an interval to
the car ahead below 2.0 s. -/
def intervalBelowTwoSeconds (pos : DriverPosition) : Bool := decide (pos.IntervalMS < 2000)

/-- The row condition that `GetBattles` applies: a positive interval below 2.0 s. -/
def closeBehind (pos : DriverPosition) : Bool :=
  decide (0 < pos.IntervalMS ∧ pos.IntervalMS < 2000)

/-- The maximal runs of consecutive rows in which every row after the first
satisfies `cond`, in order, restricted to the runs of two or more rows. -/
def maximalRuns (cond : DriverPosition → Bool) (rows : List DriverPosition) :
    List (List DriverPosition) :=
  (rows.splitBy (fun _ pos => cond pos)).filter (fun run => decide (2 ≤ run.length))

/-! ## Examples -/

/-- A sample of car `carIndex` with the given official position, lap count, bit
pattern of the spline position and first split of the best session lap; the other
fields are zero or absent. -/
def sampleOf (carIndex position laps splineBits : Nat) (bestSplit : Int) :
    RealtimeCarUpdate :=
  { CarIndex := carIndex, DriverIndex := 0, DriverCount := 1, Gear := 0, WorldPosX := 0,
    WorldPosY := 0, Heading := 0, CarLocation := 1, Kmh := 0, Position := position,
    CupPosition := position, TrackPosition := 0, SplinePosition := splineBits, Laps := laps,
    Delta := 0, BestSessionLap := { Splits := [some bestSplit, none, none] }, LastLap := {},
    CurrentLap := {} }

/-- The descriptors of cars 3, 5 and 9, visited in this order. -/
def threeCars : List (Nat × CarInfo) :=
  [(3, { CarIndex := 3 }), (5, { CarIndex := 5 }), (9, { CarIndex := 9 })]

/-- Samples of car 3 in position 2 and of car 5 in position 1; car 9 has no sample,
and the sample of car 7 has no descriptor. -/
def samplesOfTwo (carIndex : Nat) : Option RealtimeCarUpdate :=
  if carIndex = 3 then some (sampleOf 3 2 4 0x3F000000 95000)
  else if carIndex = 5 then some (sampleOf 5 1 4 0x3F400000 91000)
  else if carIndex = 7 then some (sampleOf 7 3 4 0x3E800000 99000)
  else none

/-- Samples of three cars on lap 4 of a qualifying session: car 5 in position 1 at
spline 0.5 with a best lap of 100 s, car 3 in position 2 at spline 0.75, car 9 in
position 3 at spline 0.25. -/
def samplesQualifying (carIndex : Nat) : Option RealtimeCarUpdate :=
  if carIndex = 5 then some (sampleOf 5 1 4 0x3F000000 100000)
  else if carIndex = 3 then some (sampleOf 3 2 4 0x3F400000 101000)
  else if carIndex = 9 then some (sampleOf 9 3 4 0x3E800000 102000)
  else none

/-- Samples of three cars on lap 4 that follow each other on the track: car 5 in
position 1 at spline 4096/8192 with a best lap of 1 s, car 3 in position 2 at spline
4091/8192, car 9 in position 3 at spline 4086/8192. -/
def samplesInLine (carIndex : Nat) : Option RealtimeCarUpdate :=
  if carIndex = 5 then some (sampleOf 5 1 4 0x3F000000 1000)
  else if carIndex = 3 then some (sampleOf 3 2 4 0x3EFFB000 1000)
  else if carIndex = 9 then some (sampleOf 9 3 4 0x3EFF6000 1000)
  else none

/-- A row of car `carIndex` with the given position, best lap and interval to the
car ahead; the other fields are zero or empty. -/
def rowOf (carIndex : Nat) (position bestLap intervalMS : Int) : DriverPosition :=
  { Position := position, CarIndex := carIndex, CarNumber := 0, DriverName := [],
    TeamName := [], CarModel := 0, BestLap := bestLap, LastLap := 0, CurrentLap := 0,
    Laps := 0, Gap := "", Interval := "", GapMS := 0, IntervalMS := intervalMS,
    SplinePosition := fzero, IsPlayer := false, IsInPit := false, CupPosition := 0,
    Category := 0, Location := 0, Speed := 0 }

/-- A leaderboard of four rows; rows 2 and 4 have no best lap, row 2 is level with
the leader (interval 0) and row 3 is 1.5 s behind row 2. -/
def boardOfFour : LeaderboardTracker :=
  { NewLeaderboardTracker 0 with
    positions := [rowOf 5 1 95000 0, rowOf 3 2 0 0, rowOf 9 3 91000 1500, rowOf 7 4 0 2500] }


def GetPlayerPosition (lt : LeaderboardTracker) : Option DriverPosition :=
  lt.positions.find? (fun pos => pos.IsPlayer)

/-- The method `GetRelativePositions`; the loop reads `lt.positions[i]` for `i` from
`startIdx` up to `endIdx - 1`, indices that lie within the slice. -/
def GetRelativePositions (lt : LeaderboardTracker) (range_ : Int) : List DriverPosition :=
  match GetPlayerPosition lt with
  | none => lt.positions
  | some playerPos =>
    let playerIdx := playerPos.Position - 1
    let startIdx := if playerIdx - range_ < 0 then 0 else playerIdx - range_
    let endIdx :=
      if playerIdx + range_ + 1 > (lt.positions.length : Int) then (lt.positions.length : Int)
      else playerIdx + range_ + 1
    (List.range' startIdx.toNat (endIdx - startIdx).toNat).filterMap
      (fun i => lt.positions[i]?)

/-- Samples of car 3 in position 2 and of car 9 in position 3; car 5, which holds
position 1, has no sample yet. -/
def samplesWithoutLeader (carIndex : Nat) : Option RealtimeCarUpdate :=
  if carIndex = 3 then some (sampleOf 3 2 4 0x3F000000 95000)
  else if carIndex = 9 then some (sampleOf 9 3 4 0x3E800000 99000)
  else none

end Leaderboard

/-!
# Lap tracker (`internal/acc/laps/tracker.go`)

The pointers `bestLap` and `lastLap` point to the lap value built by the call that
set them; they are kept as optional values, `none` for nil. `time.Now()` is an
explicit argument.
-/

namespace Laps

open Broadcast (LapInfo LapType GetLapTimeMS)

structure LapData where
  LapNumber : Int
  LapTime : Int
  Sector1 : Int
  Sector2 : Int
  Sector3 : Int
  IsValid : Bool
  IsValidForBest : Bool
  IsOutlap : Bool
  IsInlap : Bool
  IsPersonalBest : Bool
  IsSessionBest : Bool
  Timestamp : Int
  CarIndex : Nat
  DriverIndex : Nat
  deriving DecidableEq, Repr

structure LapTracker where
  laps : List LapData
  currentLap : Option LapData
  bestLap : Option LapData
  lastLap : Option LapData
  bestSector1 : Int
  bestSector2 : Int
  bestSector3 : Int
  currentSector : Int
  sectorStartTime : Int
  carIndex : Nat
  deriving DecidableEq, Repr

/-- The constant `math.MaxInt32`. -/
def MaxInt32 : Int := 2147483647

def NewLapTracker (carIndex : Nat) : LapTracker :=
  { laps := [], currentLap := none, bestLap := none, lastLap := none,
    bestSector1 := MaxInt32, bestSector2 := MaxInt32, bestSector3 := MaxInt32,
    currentSector := 0, sectorStartTime := 0, carIndex := carIndex }

/-- The value given to `lap.Sector1`, `lap.Sector2`, `lap.Sector3` (for `i` = 0, 1, 2):
the split `i` when `len(lapInfo.Splits) >= i + 1` and the split is not nil, and the
zero value otherwise. -/
def sectorOf (lapInfo : LapInfo) (i : Nat) : Int :=
  match lapInfo.Splits[i]? with
  | some (some split) => split
  | _ => 0

/-- The value `lap` of `UpdateFromBroadcast` after the sector times are extracted
and before the personal-best flag is decided. -/
def lapOf (lapNumber : Int) (now : Int) (lapInfo : LapInfo) : LapData :=
  { LapNumber := lapNumber,
    LapTime := GetLapTimeMS lapInfo,
    Sector1 := sectorOf lapInfo 0,
    Sector2 := sectorOf lapInfo 1,
    Sector3 := sectorOf lapInfo 2,
    IsValid := !lapInfo.IsInvalid,
    IsValidForBest := lapInfo.IsValidForBest,
    IsOutlap := decide (lapInfo.Type_ = LapType.Outlap),
    IsInlap := decide (lapInfo.Type_ = LapType.Inlap),
    IsPersonalBest := false,
    IsSessionBest := false,
    Timestamp := now,
    CarIndex := lapInfo.CarIndex,
    DriverIndex := lapInfo.DriverIndex }

/-- The update of one best-sector slot:
`if lap.IsValidForBest { if sector > 0 && sector < best { best = sector } }`. -/
def updateBestSector (lap : LapData) (sector best : Int) : Int :=
  if lap.IsValidForBest then
    if sector > 0 ∧ sector < best then sector else best
  else best

/-- The condition under which `UpdateFromBroadcast` makes `lap` the best lap. -/
def isNewBest (lap : LapData) (bestLap : Option LapData) : Bool :=
  lap.IsValidForBest && decide (lap.LapTime > 0) &&
    (match bestLap with
     | none => true
     | some best => decide (lap.LapTime < best.LapTime))

/-- The method `UpdateFromBroadcast`; the argument `none` is the nil pointer. -/
def UpdateFromBroadcast (lt : LapTracker) (now : Int) (lapInfo : Option LapInfo) : LapTracker :=
  match lapInfo with
  | none => lt
  | some lapInfo =>
    let lap := lapOf ((lt.laps.length : Int) + 1) now lapInfo
    let bestSector1 := updateBestSector lap lap.Sector1 lt.bestSector1
    let bestSector2 := updateBestSector lap lap.Sector2 lt.bestSector2
    let bestSector3 := updateBestSector lap lap.Sector3 lt.bestSector3
    let newBest := isNewBest lap lt.bestLap
    let lap := if newBest then { lap with IsPersonalBest := true } else lap
    { lt with
      bestSector1 := bestSector1,
      bestSector2 := bestSector2,
      bestSector3 := bestSector3,
      bestLap := if newBest then some lap else lt.bestLap,
      lastLap := some lap,
      laps := lt.laps ++ [lap] }

def GetBestLap (lt : LapTracker) : Option LapData := lt.bestLap

def GetLastLap (lt : LapTracker) : Option LapData := lt.lastLap

def GetLapCount (lt : LapTracker) : Int := lt.laps.length

def GetBestSector (lt : LapTracker) (sector : Int) : Int :=
  if sector = 1 then lt.bestSector1
  else if sector = 2 then lt.bestSector2
  else if sector = 3 then lt.bestSector3
  else 0

def GetLapHistory (lt : LapTracker) : List LapData := lt.laps

def GetRecentLaps (lt : LapTracker) (count : Int) : List LapData :=
  if count ≤ 0 then []
  else
    let totalLaps : Int := lt.laps.length
    let count := if count > totalLaps then totalLaps else count
    lt.laps.drop (totalLaps - count).toNat

def IsImproving (lt : LapTracker) : Bool :=
  match GetRecentLaps lt 3 with
  | first :: second :: third :: _ =>
    decide (third.LapTime < second.LapTime) && decide (second.LapTime < first.LapTime)
  | _ => false

/-! ## Notions used in the statements -/

/-- The tracker after a sequence of calls of `UpdateFromBroadcast` with records that
are not nil; each call comes with its clock reading. -/
def feed (lt : LapTracker) (records : List (Int × LapInfo)) : LapTracker :=
  records.foldl (fun lt r => UpdateFromBroadcast lt r.1 (some r.2)) lt

/-- A record that can become the best lap: valid for best, with a positive computed
time. -/
def eligible (lapInfo : LapInfo) : Prop :=
  lapInfo.IsValidForBest = true ∧ 0 < GetLapTimeMS lapInfo

/-- A clean lap: valid, neither outlap nor inlap. -/
def isClean (lap : LapData) : Bool := lap.IsValid && !lap.IsOutlap && !lap.IsInlap

/-- The improving flag in the words of the specification: at least three clean laps
exist and the lap times of the three most recent clean laps are strictly decreasing
in time order. -/
def improvingOverCleanLaps (laps : List LapData) : Bool :=
  match (laps.filter isClean).reverse with
  | third :: second :: first :: _ =>
    decide (third.LapTime < second.LapTime) && decide (second.LapTime < first.LapTime)
  | _ => false

/-! ## Examples -/

/-- A lap record of car 7 with three splits, valid for best unless `invalid`. -/
def recordOf (split1 split2 split3 : Int) (invalid : Bool) (lapType : LapType) : LapInfo :=
  { LaptimeMS := some (split1 + split2 + split3),
    Splits := [some split1, some split2, some split3],
    CarIndex := 7, DriverIndex := 0, IsInvalid := invalid, IsValidForBest := !invalid,
    Type_ := lapType }

/-- Three regular laps of 100 s, 99 s and 98 s followed by an inlap of 150 s. -/
def lapsThenInlap : List (Int × LapInfo) :=
  [(1, recordOf 30000 30000 40000 false LapType.Regular),
   (2, recordOf 30000 30000 39000 false LapType.Regular),
   (3, recordOf 30000 30000 38000 false LapType.Regular),
   (4, recordOf 50000 50000 50000 false LapType.Inlap)]

/-- An outlap of 150 s, an invalid lap of 120 s and a regular lap of 100 s. -/
def lapsAfterPit : List (Int × LapInfo) :=
  [(1, recordOf 50000 50000 50000 false LapType.Outlap),
   (2, recordOf 40000 40000 40000 true LapType.Regular),
   (3, recordOf 30000 30000 40000 false LapType.Regular)]


def GetTheoreticalBest (lt : LapTracker) : Int :=
  if lt.bestSector1 = MaxInt32 ∨ lt.bestSector2 = MaxInt32 ∨ lt.bestSector3 = MaxInt32 then 0
  else Broadcast.wrapInt32 (Broadcast.wrapInt32 (lt.bestSector1 + lt.bestSector2) + lt.bestSector3)

/-- A record with three splits, all present and positive, whose sum is an `int32`. -/
def completeSplits (lapInfo : LapInfo) : Bool :=
  match lapInfo.Splits with
  | [some a, some b, some c] =>
    decide (0 < a) && decide (0 < b) && decide (0 < c) && decide (a + b + c ≤ MaxInt32)
  | _ => false

/-- A lap of 105 s with three splits, and a lap whose first split is absent and whose
other splits are 30 s and 40 s; both are valid for best. -/
def lapsWithMissingSplit : List (Int × LapInfo) :=
  [(1, recordOf 35000 30000 40000 false LapType.Regular),
   (2, { LaptimeMS := some 104000, Splits := [none, some 30000, some 40000],
         CarIndex := 7, DriverIndex := 0, IsInvalid := false, IsValidForBest := true,
         Type_ := LapType.Regular })]

end Laps

/-!
# Incident tracker (`internal/acc/incidents/tracker.go`)

A `time.Duration` is its number of nanoseconds. The keys of the history are
`float64` values converted from `int64` milliseconds; their magnitude is below
`2^53`, so the conversions, the differences and the comparisons on them are exact
and the keys are kept as integers. The history is the list of the entries of the map
in the order in which a `range` loop visits them: Go leaves that order open, and the
statements about a single call hold for every list. The per-key map from car index
to sample is an association list with one binding per car. Callbacks are counted;
the incidents handed to them are returned with the tracker.
-/

namespace Incidents

open Broadcast (Byte CarInfo RealtimeCarUpdate BroadcastingEvent GetCurrentDriverName
  wrapUint16)
open Gaps (Flt float32frombits ofInt fmul ftrunc)

def IncidentTypeAccident : Nat := 0

/-- Incident record; `Timestamp` is the clock reading and `SessionTime` a
`time.Duration`, both in nanoseconds. -/
structure Incident where
  Type_ : Nat
  Timestamp : Int
  SessionTime : Int
  CarIndex : Nat
  DriverName : List Byte
  RaceNumber : Int
  Location : String
  Message : List Byte
  Severity : Int
  InvolvedCars : List Nat
  deriving DecidableEq, Repr

/-- Tracker state. `lastAccidentTime` is `none` for the zero time, `trackDistance` is
the bit pattern of the `float32`, `callbacks` is the number of registered callbacks. -/
structure IncidentTracker where
  incidents : List Incident
  realtimeCarHistory : List (Int × List (Nat × RealtimeCarUpdate))
  lastAccidentTime : Option Int
  trackDistance : Nat
  currentSessionTime : Int
  callbacks : Nat
  deriving DecidableEq, Repr

/-- One millisecond as a `time.Duration`. -/
def Millisecond : Int := 1000000

/-- The constant `HistoryRetentionTime.Milliseconds()`. -/
def HistoryRetentionMs : Int := 20000

def NewIncidentTracker : IncidentTracker :=
  { incidents := [], realtimeCarHistory := [], lastAccidentTime := none, trackDistance := 0,
    currentSessionTime := 0, callbacks := 0 }

/-- The method `Duration.Milliseconds`: the `int64` quotient by `1e6`, which Go
truncates toward zero. -/
def Milliseconds (d : Int) : Int :=
  if d ≥ 0 then d / Millisecond else -((-d) / Millisecond)

/-- The assignment `m[k] = v` on an association list. -/
def mapSet {β : Type} (m : List (Int × β)) (k : Int) (v : β) : List (Int × β) :=
  match m with
  | [] => [(k, v)]
  | (k1, v1) :: rest => if k1 = k then (k, v) :: rest else (k1, v1) :: mapSet rest k v

/-- The lookup `m[k]` with its presence flag. -/
def mapGet {β : Type} (m : List (Int × β)) (k : Int) : Option β :=
  match m with
  | [] => none
  | (k1, v1) :: rest => if k1 = k then some v1 else mapGet rest k

/-- The assignment `m[carIndex] = carUpdate` on the map of one key. -/
def carSet (m : List (Nat × RealtimeCarUpdate)) (carIndex : Nat)
    (carUpdate : RealtimeCarUpdate) : List (Nat × RealtimeCarUpdate) :=
  match m with
  | [] => [(carIndex, carUpdate)]
  | (c, u) :: rest =>
    if c = carIndex then (carIndex, carUpdate) :: rest else (c, u) :: carSet rest carIndex carUpdate

/-- The lookup `m[carIndex]` with its presence flag. -/
def carGet (m : List (Nat × RealtimeCarUpdate)) (carIndex : Nat) : Option RealtimeCarUpdate :=
  match m with
  | [] => none
  | (c, u) :: rest => if c = carIndex then some u else carGet rest carIndex

/-- The method `cleanOldHistory`: every key with `currentKey - key > 20000` is
deleted. -/
def cleanOldHistory (history : List (Int × List (Nat × RealtimeCarUpdate)))
    (currentKey : Int) : List (Int × List (Nat × RealtimeCarUpdate)) :=
  history.filter (fun entry => !decide (currentKey - entry.1 > HistoryRetentionMs))

def UpdateRealtimeCarUpdate (it : IncidentTracker) (carUpdate : RealtimeCarUpdate)
    (sessionTime : Int) : IncidentTracker :=
  let it := { it with currentSessionTime := sessionTime }
  let key := Milliseconds sessionTime
  if key = 0 then it
  else
    let history :=
      match mapGet it.realtimeCarHistory key with
      | some _ => it.realtimeCarHistory
      | none => mapSet it.realtimeCarHistory key []
    let history :=
      match mapGet history key with
      | some cars => mapSet history key (carSet cars carUpdate.CarIndex carUpdate)
      | none => history
    { it with realtimeCarHistory := cleanOldHistory history key }

/-- The loop of `getValidHistoryKey`; the pair is `nearest` and `nearestKey`. -/
def nearestLoop (requestedKey : Int) :
    List (Int × List (Nat × RealtimeCarUpdate)) → Int × Int → Int × Int
  | [], acc => acc
  | entry :: rest, acc =>
    let diff := |entry.1 - requestedKey|
    nearestLoop requestedKey rest (if diff < acc.1 then (diff, entry.1) else acc)

def getValidHistoryKey (it : IncidentTracker) (requestedKey : Int) : Int :=
  match mapGet it.realtimeCarHistory requestedKey with
  | some _ => requestedKey
  | none => (nearestLoop requestedKey it.realtimeCarHistory (999999, 0)).2

def formatLocation (splinePercent : Int) : String :=
  if splinePercent < 10 then "Start/Finish"
  else if splinePercent < 30 then "Sector 1"
  else if splinePercent < 60 then "Sector 2"
  else if splinePercent < 90 then "Sector 3"
  else "Final Sector"

/-- The value `int(carUpdate.SplinePosition * 100)`, a `float32` product. -/
def splinePercent (carUpdate : RealtimeCarUpdate) : Int :=
  ftrunc (fmul 24 (float32frombits carUpdate.SplinePosition) (ofInt 24 100))

/-- The method `HandleAccidentEvent`; `carInfo = none` is the nil pointer. The second
component lists the incidents handed to the callbacks, one per callback. -/
def HandleAccidentEvent (it : IncidentTracker) (now : Int) (event : BroadcastingEvent)
    (carInfo : Option CarInfo) : IncidentTracker × List Incident :=
  match carInfo with
  | none => (it, [])
  | some carInfo =>
    let correctedSessionTime := it.currentSessionTime - 5000 * Millisecond
    let key := getValidHistoryKey it (Milliseconds correctedSessionTime)
    match mapGet it.realtimeCarHistory key with
    | none => (it, [])
    | some historyData =>
      match carGet historyData (wrapUint16 event.CarId) with
      | none => (it, [])
      | some carUpdate =>
        let incident : Incident :=
          { Type_ := IncidentTypeAccident,
            Timestamp := now,
            SessionTime := key * Millisecond,
            CarIndex := wrapUint16 event.CarId,
            DriverName := GetCurrentDriverName carInfo,
            RaceNumber := carInfo.RaceNumber,
            Location := formatLocation (splinePercent carUpdate),
            Message := event.Msg,
            Severity := 1,
            InvolvedCars := [] }
        ({ it with
            incidents := it.incidents ++ [incident],
            lastAccidentTime :=
              match it.lastAccidentTime with
              | none => some now
              | some t => some t },
         List.replicate it.callbacks incident)

/-! ## Notions used in the statements -/

/-- The keys of the history. -/
def historyKeys (it : IncidentTracker) : List Int := it.realtimeCarHistory.map (fun e => e.1)

/-- The tracker after a sequence of calls of `UpdateRealtimeCarUpdate`. -/
def feed (it : IncidentTracker) (calls : List (RealtimeCarUpdate × Int)) : IncidentTracker :=
  calls.foldl (fun it c => UpdateRealtimeCarUpdate it c.1 c.2) it

/-- The retention bound in the words of the specification: no key is more than
20000 below the largest key of the history. -/
def withinRetention (it : IncidentTracker) : Prop :=
  ∀ k ∈ historyKeys it, ∀ newest ∈ historyKeys it, newest - k ≤ HistoryRetentionMs

/-! ## Examples -/

/-- A sample of car `carIndex` with the given bit pattern of the spline position;
the other fields are zero or absent. -/
def sampleAt (carIndex splineBits : Nat) : RealtimeCarUpdate :=
  { CarIndex := carIndex, DriverIndex := 0, DriverCount := 1, Gear := 0, WorldPosX := 0,
    WorldPosY := 0, Heading := 0, CarLocation := 1, Kmh := 0, Position := 1,
    CupPosition := 1, TrackPosition := 0, SplinePosition := splineBits, Laps := 0,
    Delta := 0, BestSessionLap := {}, LastLap := {}, CurrentLap := {} }

/-- The accident event of scenario S5: car 7, message "Contact". -/
def contactEvent : BroadcastingEvent :=
  { Type_ := 4, Msg := Broadcast.bytesOf "Contact", TimeMs := 20000, CarId := 7 }

end Incidents

/-!
# Position graph (`internal/acc/trackposition/graph.go`)

The map of cars is a function from the car index to the car, `none` for an absent
key. The spline position is a `float32`; the lap index is an `int`, far from its
bounds.
-/

namespace TrackPosition

open Broadcast (CarLocationNone CarLocationTrack CarLocationPitlane CarLocationPitEntry
  CarLocationPitExit)
open Gaps (Flt flt fzero float32Const)

structure Car where
  CarIndex : Nat
  LapIndex : Int
  SplinePosition : Flt
  Location : Nat
  PreviousLocation : Nat
  deriving DecidableEq, Repr

structure PositionGraph where
  cars : Nat → Option Car

def NewPositionGraph : PositionGraph := { cars := fun _ => none }

def AddCar (pg : PositionGraph) (carIndex : Nat) : PositionGraph :=
  match pg.cars carIndex with
  | some _ => pg
  | none =>
    { cars := fun k =>
        if k = carIndex then
          some { CarIndex := carIndex, Location := CarLocationNone, LapIndex := 0,
                 SplinePosition := fzero, PreviousLocation := CarLocationNone }
        else pg.cars k }

def GetCar (pg : PositionGraph) (carIndex : Nat) : Option Car := pg.cars carIndex

def RemoveCar (pg : PositionGraph) (carIndex : Nat) : PositionGraph :=
  { cars := fun k => if k = carIndex then none else pg.cars k }

/-- The first statement of `UpdateLocation`: the change of location. -/
def changeLocation (car : Car) (newLocation : Nat) : Car :=
  if newLocation ≠ car.Location then
    { car with PreviousLocation := car.Location, Location := newLocation }
  else car

/-- The three statements of `UpdateLocation` that run when the spline wraps. -/
def countLap (car : Car) (newLocation : Nat) : Car :=
  let car : Car :=
    if newLocation = CarLocationTrack ∧ car.Location = CarLocationTrack then
      { car with LapIndex := car.LapIndex + 1 }
    else car
  let car : Car :=
    if newLocation = CarLocationPitlane ∧ car.Location = CarLocationPitlane ∧
        car.PreviousLocation = CarLocationPitEntry then
      if car.LapIndex > 0 then { car with LapIndex := car.LapIndex + 1 } else car
    else car
  if newLocation = CarLocationTrack ∧ car.Location = CarLocationNone then
    { car with PreviousLocation := car.Location, Location := newLocation }
  else car

/-- The statements of `UpdateLocation` on the car found in the map. -/
def updateCar (car : Car) (newSplinePosition : Flt) (newLocation : Nat) : Car :=
  let car := changeLocation car newLocation
  let car :=
    if flt newSplinePosition car.SplinePosition ∧
        flt (float32Const 99 100) car.SplinePosition then
      countLap car newLocation
    else car
  { car with SplinePosition := newSplinePosition }

def UpdateLocation (pg : PositionGraph) (carIndex : Nat) (newSplinePosition : Flt)
    (newLocation : Nat) : PositionGraph :=
  match pg.cars carIndex with
  | none => pg
  | some car =>
    { cars := fun k =>
        if k = carIndex then some (updateCar car newSplinePosition newLocation)
        else pg.cars k }

def Reset (pg : PositionGraph) : PositionGraph :=
  { cars := fun k =>
      (pg.cars k).map (fun car =>
        { car with Location := CarLocationNone, LapIndex := 0, SplinePosition := fzero,
                   PreviousLocation := CarLocationNone }) }

def Clear (_pg : PositionGraph) : PositionGraph := NewPositionGraph

/-! ## Notions used in the statements -/

/-- A call of a method of the graph that changes it. -/
inductive Call where
  | addCar (carIndex : Nat)
  | removeCar (carIndex : Nat)
  | updateLocation (carIndex : Nat) (newSplinePosition : Flt) (newLocation : Nat)
  | reset
  | clear
  deriving DecidableEq, Repr

def applyCall (pg : PositionGraph) : Call → PositionGraph
  | Call.addCar carIndex => AddCar pg carIndex
  | Call.removeCar carIndex => RemoveCar pg carIndex
  | Call.updateLocation carIndex newSplinePosition newLocation =>
    UpdateLocation pg carIndex newSplinePosition newLocation
  | Call.reset => Reset pg
  | Call.clear => Clear pg

/-- The graph after a sequence of calls on a new graph. -/
def run (calls : List Call) : PositionGraph := calls.foldl applyCall NewPositionGraph

/-- The spline wraps: the stored position is above 0.99 and the new one is below the
stored one. -/
def wraps (car : Car) (newSplinePosition : Flt) : Prop :=
  flt (float32Const 99 100) car.SplinePosition = true ∧
    flt newSplinePosition car.SplinePosition = true

/-- The car came into the pit lane through the pit entry: it is in the pit entry, or
it is in the pit lane and was in the pit entry before. -/
def viaPitEntry (car : Car) : Prop :=
  car.Location = CarLocationPitEntry ∨
    (car.Location = CarLocationPitlane ∧ car.PreviousLocation = CarLocationPitEntry)

/-! ## Examples -/

/-- Car 3 is added and seen in the pit exit at spline 0.995. -/
def leavingPits : List Call :=
  [Call.addCar 3, Call.updateLocation 3 (float32Const 995 1000) CarLocationPitExit]

/-- Car 3 is added, seen in the pit entry at spline 0.98 and in the pit lane at spline
0.995. -/
def enteringPits : List Call :=
  [Call.addCar 3, Call.updateLocation 3 (float32Const 98 100) CarLocationPitEntry,
   Call.updateLocation 3 (float32Const 995 1000) CarLocationPitlane]

/-- Car 3 is added and seen at spline 0.995 with the location none. -/
def waitingAtLine : List Call :=
  [Call.addCar 3, Call.updateLocation 3 (float32Const 995 1000) CarLocationNone]

/-- Car 3 is added and seen on the track at spline 0.5 and at spline 0.995. -/
def onTrack : List Call :=
  [Call.addCar 3, Call.updateLocation 3 (float32Const 1 2) CarLocationTrack,
   Call.updateLocation 3 (float32Const 995 1000) CarLocationTrack]

end TrackPosition

/-!
# Session time tracker (`internal/acc/sessiontime/tracker.go`)

The `float64` steps of `Update` are computed in the floating-point model of the gap
tracker, at 53 bits. The callbacks registered with `OnMultiplierChanged` are run with
each new multiplier; the tracker keeps the list of the values announced.
-/

namespace SessionTime

open Gaps (Flt flt fzero fone ofInt fadd fdiv ftrunc)

structure SessionTimeTracker where
  timeMultiplier : Int
  lastServerMillis : Int
  serverChanges : Int
  announced : List Int
  deriving DecidableEq, Repr

def NewSessionTimeTracker : SessionTimeTracker :=
  { timeMultiplier := -1, lastServerMillis := -1, serverChanges := 0, announced := [] }

/-- The `float64` constant 0.5. -/
def half : Flt := { m := 1, e := -1 }

/-- The statements of `Update` that compute the candidate from the change of the
value: the two roundings and the division by 5; `none` when the rounded change is not
positive. -/
def possibleMultiplier (serverTimeChange : Flt) : Option Int :=
  let serverTimeChange := ofInt 53 (ftrunc (fadd 53 serverTimeChange half))
  let serverTimeChange := ofInt 53 ((ftrunc serverTimeChange).tdiv 5 * 5)
  if flt fzero serverTimeChange then
    some (ftrunc (fadd 53 (fdiv 53 serverTimeChange (ofInt 53 5)) half))
  else none

/-- The statements of `Update` that check the range of the candidate and store it. -/
def adopt (st : SessionTimeTracker) (possibleMultiplier : Int) : SessionTimeTracker :=
  if possibleMultiplier > 0 ∧ possibleMultiplier < 25 then
    if st.timeMultiplier ≠ possibleMultiplier then
      { st with timeMultiplier := possibleMultiplier,
                announced := st.announced ++ [possibleMultiplier] }
    else st
  else st

/-- The method `Update`; `timeOfDay` is a `time.Duration` in nanoseconds. -/
def Update (st : SessionTimeTracker) (timeOfDay : Int) : SessionTimeTracker :=
  let newMilliseconds := Incidents.Milliseconds timeOfDay
  if newMilliseconds ≠ st.lastServerMillis then
    let serverTimeChange := ofInt 53 (newMilliseconds - st.lastServerMillis)
    let st1 : SessionTimeTracker :=
      if flt serverTimeChange (ofInt 53 240000) = true ∧
          flt serverTimeChange (ofInt 53 1) = false then
        if st.lastServerMillis ≠ -1 ∧ st.serverChanges > 3 then
          match possibleMultiplier serverTimeChange with
          | some candidate => adopt st candidate
          | none => st
        else st
      else st
    { st1 with lastServerMillis := newMilliseconds, serverChanges := st.serverChanges + 1 }
  else st

def Reset (st : SessionTimeTracker) : SessionTimeTracker :=
  { st with serverChanges := 0, lastServerMillis := -1, timeMultiplier := -1 }

def GetTimeMultiplier (st : SessionTimeTracker) : Int := st.timeMultiplier

/-! ## Notions used in the statements -/

/-- The tracker after a sequence of updates of a new tracker. -/
def feed (values : List Int) : SessionTimeTracker := values.foldl Update NewSessionTimeTracker

/-- The number of the updates of a sequence that change the stored value in
milliseconds, which is `last` before the first of them. -/
def countChanges : Int → List Int → Int
  | _, [] => 0
  | last, timeOfDay :: rest =>
    if Incidents.Milliseconds timeOfDay ≠ last then
      countChanges (Incidents.Milliseconds timeOfDay) rest + 1
    else countChanges last rest

/-- A time of day of `ms` milliseconds, as a duration. -/
def msOfDay (ms : Int) : Int := ms * 1000000

end SessionTime

/-!
# Shared-memory strings (`internal/sharedmemory/utils.go`)

A slice of `uint16` is a list of naturals below 65536, a rune a natural, a string the
list of its bytes. The functions `utf16.Decode` and the conversion `string([]rune)`
belong to the Go library; they are written out after their documentation: a valid
surrogate pair gives one rune, a lone surrogate gives U+FFFD, and the conversion to a
string writes each rune in UTF-8, U+FFFD for a value that is not a valid rune.
-/

namespace SharedMemory

open Broadcast (Byte byte)

def surr1 : Nat := 0xd800

def surr2 : Nat := 0xdc00

def surr3 : Nat := 0xe000

def replacementChar : Nat := 0xFFFD

/-- The function `utf16.DecodeRune` on a valid surrogate pair. -/
def DecodeRune (r1 r2 : Nat) : Nat := (((r1 - surr1) <<< 10) ||| (r2 - surr2)) + 0x10000

/-- The function `utf16.Decode`. -/
def Decode : List Nat → List Nat
  | [] => []
  | [r] => if r < surr1 ∨ surr3 ≤ r then [r] else [replacementChar]
  | r :: r2 :: rest =>
    if r < surr1 ∨ surr3 ≤ r then r :: Decode (r2 :: rest)
    else if r < surr2 ∧ surr2 ≤ r2 ∧ r2 < surr3 then DecodeRune r r2 :: Decode rest
    else replacementChar :: Decode (r2 :: rest)

/-- The UTF-8 encoding of one rune, as the conversion to a string writes it. -/
def encodeRune (r : Nat) : List Byte :=
  if r < 0x80 then [byte r]
  else if r < 0x800 then [byte (0xC0 ||| (r >>> 6)), byte (0x80 ||| (r &&& 0x3F))]
  else if (surr1 ≤ r ∧ r < surr3) ∨ 0x10FFFF < r then [byte 0xEF, byte 0xBF, byte 0xBD]
  else if r < 0x10000 then
    [byte (0xE0 ||| (r >>> 12)), byte (0x80 ||| ((r >>> 6) &&& 0x3F)),
     byte (0x80 ||| (r &&& 0x3F))]
  else
    [byte (0xF0 ||| (r >>> 18)), byte (0x80 ||| ((r >>> 12) &&& 0x3F)),
     byte (0x80 ||| ((r >>> 6) &&& 0x3F)), byte (0x80 ||| (r &&& 0x3F))]

/-- The conversion `string(runes)`. -/
def stringOfRunes (runes : List Nat) : List Byte := runes.flatMap encodeRune

/-- The loop of `UTF16ToString`: the index `i` at which it finds `v == 0` and breaks,
`none` when it runs to the end. -/
def zeroIndex : List Nat → Option Nat
  | [] => none
  | v :: rest => if v = 0 then some 0 else (zeroIndex rest).map (fun i => i + 1)

def UTF16ToString (s : List Nat) : List Byte :=
  let s := match zeroIndex s with
    | some i => s.take i
    | none => s
  stringOfRunes (Decode s)

end SharedMemory

/-!
# Fuel calculator (`internal/acc/fuel/calculator.go`)

The `float32` values are numbers of the floating-point model of the gap tracker, at 24
bits; the tank capacity is the field `maxFuel`, which `NewFuelCalculator` reads from the
table of car models.
-/

namespace Fuel

open Gaps (Flt flt fzero ofInt fadd fsub fmul fdiv float32Const)

structure FuelCalculator where
  carModel : Nat
  maxFuel : Flt
  consumptionHistory : List Flt
  lastFuelLevel : Flt
  initialized : Bool
  deriving DecidableEq, Repr

def calculateAverageConsumption (fc : FuelCalculator) : Flt :=
  if fc.consumptionHistory.length = 0 then fzero
  else
    fdiv 24 (fc.consumptionHistory.foldl (fun sum consumption => fadd 24 sum consumption) fzero)
      (ofInt 24 fc.consumptionHistory.length)

def CalculateFuelForLaps (fc : FuelCalculator) (laps : Int) : Flt :=
  let avgConsumption := calculateAverageConsumption fc
  let avgConsumption := if flt fzero avgConsumption then avgConsumption else ofInt 24 3
  let fuelNeeded := fmul 24 avgConsumption (ofInt 24 laps)
  let fuelNeeded := fmul 24 fuelNeeded (float32Const 105 100)
  if flt fc.maxFuel fuelNeeded then fc.maxFuel else fuelNeeded

def CalculateRefuelAmount (fc : FuelCalculator) (currentFuel : Flt) (lapsRemaining : Int) :
    Flt :=
  let fuelNeeded := CalculateFuelForLaps fc lapsRemaining
  let refuelAmount := fsub 24 fuelNeeded currentFuel
  let refuelAmount := if flt refuelAmount fzero then fzero else refuelAmount
  if flt fc.maxFuel (fadd 24 currentFuel refuelAmount) then fsub 24 fc.maxFuel currentFuel
  else refuelAmount

def GetFuelToAdd (fc : FuelCalculator) (currentFuel : Flt) (_lapsToFinish : Int)
    (targetLaps : Int) : Flt :=
  let fuelForTarget := CalculateFuelForLaps fc targetLaps
  let toAdd := fsub 24 fuelForTarget currentFuel
  let toAdd :=
    if flt fc.maxFuel (fadd 24 currentFuel toAdd) then fsub 24 fc.maxFuel currentFuel
    else toAdd
  if flt toAdd fzero then fzero else toAdd

/-! ## Examples -/

/-- A calculator of a car with a tank of 120 litres, before any lap is measured. -/
def calculator120 : FuelCalculator :=
  { carModel := 0, maxFuel := ofInt 24 120, consumptionHistory := [],
    lastFuelLevel := fzero, initialized := false }

end Fuel

namespace Broadcast

/-! ## Basic facts about readers -/

theorem byte_val (n : Nat) : (byte n).val = n % 256 := rfl

theorem run_bind_ok {α β : Type} (a : Reader α) (f : α → Reader β) (d d' : List Byte) (x : α)
    (h : a.run d = .ok (x, d')) : (a >>= f).run d = (f x).run d' := by
  have h' : a d = .ok (x, d') := h
  show (a d >>= fun r => f r.1 r.2) = f x d'
  rw [h']
  rfl

theorem run_bind_error {α β : Type} (a : Reader α) (f : α → Reader β) (d : List Byte)
    (e : Error) (h : a.run d = .error e) : (a >>= f).run d = .error e := by
  have h' : a d = .error e := h
  show (a d >>= fun r => f r.1 r.2) = .error e
  rw [h']
  rfl

theorem extends_pure {α : Type} (a : α) : Extends (pure a : Reader α) := by
  intro d v rest s h
  have h' : (Except.ok (a, d) : Except Error (α × List Byte)) = .ok (v, rest) := h
  injection h' with h'
  injection h' with h1 h2
  subst h1 h2
  rfl

theorem extends_fail {α : Type} (e : Error) : Extends (fail e : Reader α) := by
  intro d v rest s h
  exact absurd h (by intro h'; cases h')

theorem extends_liftE {α : Type} (e : Except Error α) : Extends (liftE e) := by
  intro d v rest s h
  cases e with
  | error err => exact absurd h (by intro h'; cases h')
  | ok a =>
    have h' : (Except.ok (a, d) : Except Error (α × List Byte)) = .ok (v, rest) := h
    injection h' with h'
    injection h' with h1 h2
    subst h1 h2
    rfl

theorem extends_bind {α β : Type} {a : Reader α} {f : α → Reader β}
    (ha : Extends a) (hf : ∀ x, Extends (f x)) : Extends (a >>= f) := by
  intro d v rest s h
  cases hd : a.run d with
  | error e =>
    rw [run_bind_error a f d e hd] at h
    cases h
  | ok r =>
    obtain ⟨x, d'⟩ := r
    rw [run_bind_ok a f d d' x hd] at h
    rw [run_bind_ok a f (d ++ s) (d' ++ s) x (ha d x d' s hd)]
    exact hf x _ _ _ _ h

theorem extends_ite {α : Type} (c : Prop) [Decidable c] {a b : Reader α}
    (ha : Extends a) (hb : Extends b) : Extends (if c then a else b) := by
  split
  · exact ha
  · exact hb

theorem extends_readUint8 : Extends readUint8 := by
  intro d v rest s h
  match d, h with
  | b :: t, h =>
    have h' : (Except.ok (b.val, t) : Except Error (Nat × List Byte)) = .ok (v, rest) := h
    injection h' with h'
    injection h' with h1 h2
    subst h1 h2
    rfl

theorem extends_readUint16 : Extends readUint16 := by
  intro d v rest s h
  match d, h with
  | b0 :: b1 :: t, h =>
    have h' : (Except.ok (b0.val + 256 * b1.val, t) : Except Error (Nat × List Byte))
        = .ok (v, rest) := h
    injection h' with h'
    injection h' with h1 h2
    subst h1 h2
    rfl

theorem extends_readInt32 : Extends readInt32 := by
  intro d v rest s h
  match d, h with
  | b0 :: b1 :: b2 :: b3 :: t, h =>
    have h' : (Except.ok (toInt32 (b0.val + 256 * b1.val + 65536 * b2.val
        + 16777216 * b3.val), t) : Except Error (Int × List Byte)) = .ok (v, rest) := h
    injection h' with h'
    injection h' with h1 h2
    subst h1 h2
    rfl

theorem extends_readFloat32 : Extends readFloat32 := by
  intro d v rest s h
  match d, h with
  | b0 :: b1 :: b2 :: b3 :: t, h =>
    have h' : (Except.ok (b0.val + 256 * b1.val + 65536 * b2.val
        + 16777216 * b3.val, t) : Except Error (Nat × List Byte)) = .ok (v, rest) := h
    injection h' with h'
    injection h' with h1 h2
    subst h1 h2
    rfl

theorem extends_readBytes (n : Nat) : Extends (readBytes n) := by
  intro d v rest s h
  by_cases hn : n ≤ d.length
  · have h' : (if n ≤ d.length then Except.ok (d.take n, d.drop n) else .error .eof :
        Except Error (List Byte × List Byte)) = .ok (v, rest) := h
    rw [if_pos hn] at h'
    injection h' with h'
    injection h' with h1 h2
    subst h1 h2
    show (if n ≤ (d ++ s).length then Except.ok ((d ++ s).take n, (d ++ s).drop n)
        else .error .eof : Except Error (List Byte × List Byte)) = _
    rw [if_pos (by rw [List.length_append]; omega)]
    rw [List.take_append_of_le_length hn, List.drop_append_of_le_length hn]
  · have h' : (if n ≤ d.length then Except.ok (d.take n, d.drop n) else .error .eof :
        Except Error (List Byte × List Byte)) = .ok (v, rest) := h
    rw [if_neg hn] at h'
    cases h'

theorem extends_readString : Extends readString :=
  extends_bind extends_readUint16 (fun n => extends_readBytes n)


theorem extends_readLapSplits (splitCount : Nat) :
    ∀ (fuel i : Nat) (lap : LapInfo), Extends (readLapSplits splitCount fuel i lap) := by
  intro fuel
  induction fuel with
  | zero => intro i lap; exact extends_pure lap
  | succ n ih =>
    intro i lap
    unfold readLapSplits
    apply extends_ite
    · exact extends_bind extends_readInt32 (fun _ => ih _ _)
    · exact extends_pure lap

theorem extends_readLap : Extends readLap := by
  unfold readLap
  repeat (first
    | exact extends_pure _
    | exact extends_readLapSplits _ _ _ _
    | apply extends_ite
    | (apply extends_bind extends_readInt32; intro _)
    | (apply extends_bind extends_readUint16; intro _)
    | (apply extends_bind extends_readUint8; intro _)
    | (apply extends_bind (extends_readLapSplits _ _ _ _); intro _))


theorem extends_readCarIndexes : ∀ n : Nat, Extends (readCarIndexes n) := by
  intro n
  induction n with
  | zero => exact extends_pure _
  | succ n ih =>
    unfold readCarIndexes
    repeat' (first
      | exact extends_readUint16 | exact extends_liftE _ | exact ih | exact extends_pure _
      | refine extends_bind ?_ (fun _ => ?_))

theorem extends_readDrivers : ∀ n : Nat, Extends (readDrivers n) := by
  intro n
  induction n with
  | zero => exact extends_pure _
  | succ n ih =>
    unfold readDrivers
    repeat' (first
      | exact extends_readUint16 | exact extends_readUint8 | exact extends_readString
      | exact extends_liftE _ | exact ih | exact extends_pure _
      | refine extends_bind ?_ (fun _ => ?_))

theorem extends_readStrings : ∀ n : Nat, Extends (readStrings n) := by
  intro n
  induction n with
  | zero => exact extends_pure _
  | succ n ih =>
    unfold readStrings
    repeat' (first
      | exact extends_readString | exact ih | exact extends_pure _
      | refine extends_bind ?_ (fun _ => ?_))

theorem extends_readCameraSets :
    ∀ (n : Nat) (m : List (List Byte × List (List Byte))), Extends (readCameraSets n m) := by
  intro n
  induction n with
  | zero => intro m; exact extends_pure _
  | succ n ih =>
    intro m
    unfold readCameraSets
    repeat' (first
      | exact extends_readString | exact extends_readUint8 | exact extends_readStrings _
      | exact ih _ | exact extends_fail _
      | apply extends_ite
      | refine extends_bind ?_ (fun _ => ?_))

theorem extends_readReplayTimes (b : Bool) : Extends (readReplayTimes b) := by
  unfold readReplayTimes
  repeat' (first
    | exact extends_readFloat32 | exact extends_pure _
    | apply extends_ite
    | refine extends_bind ?_ (fun _ => ?_))

theorem extends_UnmarshalRegistrationResult : Extends UnmarshalRegistrationResult := by
  unfold UnmarshalRegistrationResult
  repeat' (first
    | exact extends_readInt32 | exact extends_readUint8 | exact extends_readString
    | exact extends_pure _
    | refine extends_bind ?_ (fun _ => ?_))

theorem extends_UnmarshalEntryList : Extends UnmarshalEntryList := by
  unfold UnmarshalEntryList
  repeat' (first
    | exact extends_readInt32 | exact extends_readUint16 | exact extends_readCarIndexes _
    | exact extends_pure _ | exact extends_fail _
    | apply extends_ite
    | refine extends_bind ?_ (fun _ => ?_))

theorem extends_UnmarshalEntryListCar : Extends UnmarshalEntryListCar := by
  unfold UnmarshalEntryListCar
  repeat' (first
    | exact extends_readInt32 | exact extends_readUint16 | exact extends_readUint8
    | exact extends_readString | exact extends_readDrivers _ | exact extends_liftE _
    | exact extends_pure _ | exact extends_fail _
    | apply extends_ite
    | refine extends_bind ?_ (fun _ => ?_))

theorem extends_UnmarshalTrackData : Extends UnmarshalTrackData := by
  unfold UnmarshalTrackData
  repeat' (first
    | exact extends_readInt32 | exact extends_readUint8 | exact extends_readString
    | exact extends_readCameraSets _ _ | exact extends_readStrings _
    | exact extends_pure _ | exact extends_fail _
    | apply extends_ite
    | refine extends_bind ?_ (fun _ => ?_))

theorem extends_UnmarshalRealtimeUpdate : Extends UnmarshalRealtimeUpdate := by
  unfold UnmarshalRealtimeUpdate
  repeat' (first
    | exact extends_readInt32 | exact extends_readUint16 | exact extends_readUint8
    | exact extends_readFloat32 | exact extends_readString | exact extends_readLap
    | exact extends_readReplayTimes _ | exact extends_pure _
    | refine extends_bind ?_ (fun _ => ?_))

theorem extends_UnmarshalRealtimeCarUpdate : Extends UnmarshalRealtimeCarUpdate := by
  unfold UnmarshalRealtimeCarUpdate
  repeat' (first
    | exact extends_readInt32 | exact extends_readUint16 | exact extends_readUint8
    | exact extends_readFloat32 | exact extends_readLap | exact extends_liftE _
    | exact extends_pure _
    | refine extends_bind ?_ (fun _ => ?_))

theorem extends_UnmarshalBroadcastingEvent : Extends UnmarshalBroadcastingEvent := by
  unfold UnmarshalBroadcastingEvent
  repeat' (first
    | exact extends_readInt32 | exact extends_readUint8 | exact extends_readString
    | exact extends_pure _
    | refine extends_bind ?_ (fun _ => ?_))

/-- A reader that consumed a whole buffer fails on every proper prefix of it. -/
theorem truncated_run_error {α : Type} {r : Reader α} (hr : Extends r)
    (body suf : List Byte) (v : α) (hsuf : suf ≠ [])
    (h : r.run (body ++ suf) = .ok (v, [])) : ∃ e, r.run body = .error e := by
  cases hb : r.run body with
  | error e => exact ⟨e, rfl⟩
  | ok x =>
    obtain ⟨w, rest⟩ := x
    have h2 := hr body w rest suf hb
    rw [h] at h2
    injection h2 with h2
    injection h2 with _ h3
    have : suf = [] := (List.append_eq_nil.mp h3.symm).2
    exact absurd this hsuf


theorem readUint8_cons (b : Byte) (rest : List Byte) :
    readUint8.run (b :: rest) = .ok (b.val, rest) := rfl

theorem readInt32_putInt32 (v : Int) (rest : List Byte)
    (h : -2147483648 ≤ v ∧ v ≤ 2147483647) :
    readInt32.run (putInt32 v ++ rest) = .ok (v, rest) := by
  simp only [putInt32, readInt32, StateT.run, List.cons_append, List.nil_append, byte_val,
    toInt32]
  congr 2
  split <;> omega

theorem readUint16_putUint16 (v : Nat) (rest : List Byte) (h : v < 65536) :
    readUint16.run (putUint16 v ++ rest) = .ok (v, rest) := by
  simp only [putUint16, readUint16, StateT.run, List.cons_append, List.nil_append, byte_val]
  congr 2
  omega

theorem readBytes_append (l rest : List Byte) :
    (readBytes l.length).run (l ++ rest) = .ok (l, rest) := by
  simp [readBytes, StateT.run]

theorem unmarshalRegistrationResult_frame (N : Int) (success readonly : Byte)
    (msg : List Byte) (hN : -2147483648 ≤ N ∧ N ≤ 2147483647) (hmsg : msg.length ≤ 65535) :
    UnmarshalRegistrationResult.run
        (putInt32 N ++ [success, readonly] ++ putUint16 msg.length ++ msg)
      = .ok ({ ConnectionId := N, Success := decide (success.val > 0),
               IsReadonly := decide (readonly.val = 0), ErrorMsg := msg }, []) := by
  unfold UnmarshalRegistrationResult
  rw [List.append_assoc, List.append_assoc]
  rw [run_bind_ok _ _ _ _ _ (readInt32_putInt32 N _ hN)]
  rw [List.cons_append, List.cons_append, List.nil_append]
  rw [run_bind_ok _ _ _ _ _ (readUint8_cons _ _)]
  rw [run_bind_ok _ _ _ _ _ (readUint8_cons _ _)]
  have hs : readString.run (putUint16 msg.length ++ msg) = .ok (msg, []) := by
    unfold readString
    rw [run_bind_ok _ _ _ _ _ (readUint16_putUint16 _ _ (by omega))]
    simpa using readBytes_append msg []
  rw [run_bind_ok _ _ _ _ _ hs]
  rfl

/-! ## Registration result -/

/-- C1. A registration-result frame carrying id `N` and a non-zero success byte is
accepted, sets the connection id to `N`, and hands exactly two frames to the send
function: `0A` followed by `N` as little-endian int32, then `0B` followed by the same. -/
theorem registration_success_emits_requests (p : Protocol) (now : Int) (N : Int)
    (success readonly : Byte) (msg : List Byte)
    (hN : -2147483648 ≤ N ∧ N ≤ 2147483647) (hs : success ≠ 0)
    (hmsg : msg.length ≤ 65535) :
    (ProcessMessage p now
        (0x01 :: (putInt32 N ++ [success, readonly] ++ putUint16 msg.length ++ msg))).err
      = none ∧
    (ProcessMessage p now
        (0x01 :: (putInt32 N ++ [success, readonly] ++ putUint16 msg.length ++ msg))).state.connectionId
      = N ∧
    (ProcessMessage p now
        (0x01 :: (putInt32 N ++ [success, readonly] ++ putUint16 msg.length ++ msg))).sent
      = [0x0A :: putInt32 N, 0x0B :: putInt32 N] := by
  have hsv : success.val > 0 := by
    rcases Nat.eq_zero_or_pos success.val with h0 | h0
    · exact absurd (Fin.ext h0) hs
    · exact h0
  have hrun := unmarshalRegistrationResult_frame N success readonly msg hN hmsg
  have hP : ProcessMessage p now
      (0x01 :: (putInt32 N ++ [success, readonly] ++ putUint16 msg.length ++ msg))
      = handleRegistrationResult p
          (putInt32 N ++ [success, readonly] ++ putUint16 msg.length ++ msg) := by
    unfold ProcessMessage
    rw [if_neg (by simp), readUint8_cons]
    rfl
  rw [hP]
  unfold handleRegistrationResult
  rw [hrun]
  simp [hsv, RequestEntryList, RequestTrackData, MarshalEntryListRequest,
    MarshalTrackDataRequest, writeUint8, writeInt32, OutboundRequestEntryList,
    OutboundRequestTrackData, bind, Except.bind, pure, Except.pure]
  constructor <;> rfl

/-- Witness for C1: scenario S1 with id 42 (`01 2A000000 01 01 0000`), the two frames
are `0A 2A000000` and `0B 2A000000`. -/
theorem registration_success_emits_requests_witness :
    (ProcessMessage exampleEngine 0 [0x01, 0x2A, 0, 0, 0, 1, 1, 0, 0]).err = none ∧
    (ProcessMessage exampleEngine 0 [0x01, 0x2A, 0, 0, 0, 1, 1, 0, 0]).state.connectionId = 42 ∧
    (ProcessMessage exampleEngine 0 [0x01, 0x2A, 0, 0, 0, 1, 1, 0, 0]).sent
      = [[0x0A, 0x2A, 0, 0, 0], [0x0B, 0x2A, 0, 0, 0]] :=
  registration_success_emits_requests exampleEngine 0 42 1 1 [] (by decide) (by decide)
    (by decide)

/-! ## Dispatch on the discriminator -/

theorem processMessage_cons (p : Protocol) (now : Int) (b : Byte) (body : List Byte) :
    ProcessMessage p now (b :: body) =
      if b.val = InboundRegistrationResult then handleRegistrationResult p body
      else if b.val = InboundEntryList then handleEntryList p body
      else if b.val = InboundEntryListCar then handleEntryListCar p body
      else if b.val = InboundTrackData then handleTrackData p body
      else if b.val = InboundRealtimeUpdate then handleRealtimeUpdate p body
      else if b.val = InboundRealtimeCarUpdate then handleRealtimeCarUpdate p now body
      else if b.val = InboundBroadcastingEvent then handleBroadcastingEvent p body
      else { state := p, err := none, events := [], sent := [] } := by
  unfold ProcessMessage
  rw [if_neg (by simp), readUint8_cons]

theorem consumesAll_run {α : Type} (r : Reader α) (d : List Byte)
    (h : consumesAll r d = true) : ∃ v, r.run d = .ok (v, []) := by
  unfold consumesAll at h
  split at h
  · next v hv => exact ⟨v, hv⟩
  · cases h

theorem wellFormedFrame_cons (b : Byte) (body : List Byte) :
    wellFormedFrame (b :: body) =
      if b.val = InboundRegistrationResult then consumesAll UnmarshalRegistrationResult body
      else if b.val = InboundEntryList then consumesAll UnmarshalEntryList body
      else if b.val = InboundEntryListCar then consumesAll UnmarshalEntryListCar body
      else if b.val = InboundTrackData then consumesAll UnmarshalTrackData body
      else if b.val = InboundRealtimeUpdate then consumesAll UnmarshalRealtimeUpdate body
      else if b.val = InboundRealtimeCarUpdate then consumesAll UnmarshalRealtimeCarUpdate body
      else if b.val = InboundBroadcastingEvent then consumesAll UnmarshalBroadcastingEvent body
      else false := rfl

theorem handleRegistrationResult_error (p : Protocol) (d : List Byte) (e : Error)
    (h : UnmarshalRegistrationResult.run d = .error e) :
    rejected p (handleRegistrationResult p d) := by
  unfold handleRegistrationResult
  rw [h]
  exact ⟨by simp, rfl, rfl, rfl⟩

theorem handleEntryList_error (p : Protocol) (d : List Byte) (e : Error)
    (h : UnmarshalEntryList.run d = .error e) : rejected p (handleEntryList p d) := by
  unfold handleEntryList
  rw [h]
  exact ⟨by simp, rfl, rfl, rfl⟩

theorem handleEntryListCar_error (p : Protocol) (d : List Byte) (e : Error)
    (h : UnmarshalEntryListCar.run d = .error e) : rejected p (handleEntryListCar p d) := by
  unfold handleEntryListCar
  rw [h]
  exact ⟨by simp, rfl, rfl, rfl⟩

theorem handleTrackData_error (p : Protocol) (d : List Byte) (e : Error)
    (h : UnmarshalTrackData.run d = .error e) : rejected p (handleTrackData p d) := by
  unfold handleTrackData
  rw [h]
  exact ⟨by simp, rfl, rfl, rfl⟩

theorem handleRealtimeUpdate_error (p : Protocol) (d : List Byte) (e : Error)
    (h : UnmarshalRealtimeUpdate.run d = .error e) :
    rejected p (handleRealtimeUpdate p d) := by
  unfold handleRealtimeUpdate
  rw [h]
  exact ⟨by simp, rfl, rfl, rfl⟩

theorem handleRealtimeCarUpdate_error (p : Protocol) (now : Int) (d : List Byte) (e : Error)
    (h : UnmarshalRealtimeCarUpdate.run d = .error e) :
    rejected p (handleRealtimeCarUpdate p now d) := by
  unfold handleRealtimeCarUpdate
  rw [h]
  exact ⟨by simp, rfl, rfl, rfl⟩

theorem handleBroadcastingEvent_error (p : Protocol) (d : List Byte) (e : Error)
    (h : UnmarshalBroadcastingEvent.run d = .error e) :
    rejected p (handleBroadcastingEvent p d) := by
  unfold handleBroadcastingEvent
  rw [h]
  exact ⟨by simp, rfl, rfl, rfl⟩

/-- Truncation of a frame that its decoder consumes to the last byte: every proper,
non-empty prefix of such a frame is rejected. `ProcessMessage` returns an error,
invokes no callback, sends no frame and leaves the engine state (connection id and
entry-list cache included) as it was. -/
theorem truncated_frame_rejected (p : Protocol) (now : Int) (pre suf : List Byte)
    (hwf : wellFormedFrame (pre ++ suf) = true) (hpre : pre ≠ []) (hsuf : suf ≠ []) :
    (ProcessMessage p now pre).err ≠ none ∧ (ProcessMessage p now pre).events = [] ∧
    (ProcessMessage p now pre).sent = [] ∧ (ProcessMessage p now pre).state = p := by
  obtain ⟨b, body, rfl⟩ := List.exists_cons_of_ne_nil hpre
  rw [List.cons_append] at hwf
  rw [wellFormedFrame_cons] at hwf
  rw [processMessage_cons]
  split at hwf
  · next h1 =>
    rw [if_pos h1]
    obtain ⟨v, hv⟩ := consumesAll_run _ _ hwf
    obtain ⟨e, he⟩ := truncated_run_error extends_UnmarshalRegistrationResult body suf v hsuf hv
    exact handleRegistrationResult_error p body e he
  · next h1 =>
    rw [if_neg h1]
    split at hwf
    · next h2 =>
      rw [if_pos h2]
      obtain ⟨v, hv⟩ := consumesAll_run _ _ hwf
      obtain ⟨e, he⟩ := truncated_run_error extends_UnmarshalEntryList body suf v hsuf hv
      exact handleEntryList_error p body e he
    · next h2 =>
      rw [if_neg h2]
      split at hwf
      · next h3 =>
        rw [if_pos h3]
        obtain ⟨v, hv⟩ := consumesAll_run _ _ hwf
        obtain ⟨e, he⟩ := truncated_run_error extends_UnmarshalEntryListCar body suf v hsuf hv
        exact handleEntryListCar_error p body e he
      · next h3 =>
        rw [if_neg h3]
        split at hwf
        · next h4 =>
          rw [if_pos h4]
          obtain ⟨v, hv⟩ := consumesAll_run _ _ hwf
          obtain ⟨e, he⟩ := truncated_run_error extends_UnmarshalTrackData body suf v hsuf hv
          exact handleTrackData_error p body e he
        · next h4 =>
          rw [if_neg h4]
          split at hwf
          · next h5 =>
            rw [if_pos h5]
            obtain ⟨v, hv⟩ := consumesAll_run _ _ hwf
            obtain ⟨e, he⟩ :=
              truncated_run_error extends_UnmarshalRealtimeUpdate body suf v hsuf hv
            exact handleRealtimeUpdate_error p body e he
          · next h5 =>
            rw [if_neg h5]
            split at hwf
            · next h6 =>
              rw [if_pos h6]
              obtain ⟨v, hv⟩ := consumesAll_run _ _ hwf
              obtain ⟨e, he⟩ :=
                truncated_run_error extends_UnmarshalRealtimeCarUpdate body suf v hsuf hv
              exact handleRealtimeCarUpdate_error p now body e he
            · next h6 =>
              rw [if_neg h6]
              split at hwf
              · next h7 =>
                rw [if_pos h7]
                obtain ⟨v, hv⟩ := consumesAll_run _ _ hwf
                obtain ⟨e, he⟩ :=
                  truncated_run_error extends_UnmarshalBroadcastingEvent body suf v hsuf hv
                exact handleBroadcastingEvent_error p body e he
              · cases hwf

/-- Example of a rejected truncation: the entry-list-car frame of car 5 cut after its
20th byte. -/
theorem truncated_frame_rejected_witness :
    wellFormedFrame (frameEntryListCar5.take 20 ++ frameEntryListCar5.drop 20) = true ∧
    (ProcessMessage exampleEngine 0 (frameEntryListCar5.take 20)).err ≠ none ∧
    (ProcessMessage exampleEngine 0 (frameEntryListCar5.take 20)).events = [] ∧
    (ProcessMessage exampleEngine 0 (frameEntryListCar5.take 20)).sent = [] ∧
    (ProcessMessage exampleEngine 0 (frameEntryListCar5.take 20)).state = exampleEngine :=
  ⟨by decide,
   truncated_frame_rejected exampleEngine 0 (frameEntryListCar5.take 20)
     (frameEntryListCar5.drop 20) (by decide) (by decide) (by decide)⟩

/-! ## Unknown discriminator -/

/-- C6, as the code behaves: a non-empty frame whose discriminator is not one of 1..7
is ignored. `ProcessMessage` returns no error, invokes no callback, sends no frame
and leaves the engine state as it was. -/
theorem unknown_discriminator_ignored (p : Protocol) (now : Int) (b : Byte)
    (body : List Byte)
    (hb : b.val ≠ 1 ∧ b.val ≠ 2 ∧ b.val ≠ 3 ∧ b.val ≠ 4 ∧ b.val ≠ 5 ∧ b.val ≠ 6 ∧ b.val ≠ 7) :
    (ProcessMessage p now (b :: body)).err = none ∧
    (ProcessMessage p now (b :: body)).events = [] ∧
    (ProcessMessage p now (b :: body)).sent = [] ∧
    (ProcessMessage p now (b :: body)).state = p := by
  obtain ⟨h1, h2, h3, h4, h5, h6, h7⟩ := hb
  rw [processMessage_cons]
  rw [if_neg (show ¬ b.val = InboundRegistrationResult from h1),
    if_neg (show ¬ b.val = InboundEntryList from h4),
    if_neg (show ¬ b.val = InboundEntryListCar from h6),
    if_neg (show ¬ b.val = InboundTrackData from h5),
    if_neg (show ¬ b.val = InboundRealtimeUpdate from h2),
    if_neg (show ¬ b.val = InboundRealtimeCarUpdate from h3),
    if_neg (show ¬ b.val = InboundBroadcastingEvent from h7)]
  exact ⟨rfl, rfl, rfl, rfl⟩

/-- Witness for C6: the one-byte frame `08`. -/
theorem unknown_discriminator_ignored_witness :
    (ProcessMessage exampleEngine 0 [0x08]).err = none ∧
    (ProcessMessage exampleEngine 0 [0x08]).events = [] ∧
    (ProcessMessage exampleEngine 0 [0x08]).sent = [] ∧
    (ProcessMessage exampleEngine 0 [0x08]).state = exampleEngine :=
  unknown_discriminator_ignored exampleEngine 0 0x08 [] (by decide)

/-- Counterexample to C6 as stated: the frame `08 00 FF` starts with a byte outside
1..7 and `ProcessMessage` returns no error for it. -/
theorem unknown_discriminator_no_error :
    (0x08 : Byte).val ≠ 1 ∧ (0x08 : Byte).val ≠ 2 ∧ (0x08 : Byte).val ≠ 3 ∧
    (0x08 : Byte).val ≠ 4 ∧ (0x08 : Byte).val ≠ 5 ∧ (0x08 : Byte).val ≠ 6 ∧
    (0x08 : Byte).val ≠ 7 ∧
    (ProcessMessage exampleEngine 0 [0x08, 0x00, 0xFF]).err = none := by
  decide

/-! ## Registration request -/

/-- C10, as the code behaves: `MarshalRegistrationRequest` never returns an error. For
strings of any length it returns byte 1, byte 4, then each string as its length
modulo 65536 (little-endian uint16) followed by all of its bytes, with the interval
as little-endian int32 before the command password; `RequestConnection` hands
exactly that frame to the send function. -/
theorem marshalRegistrationRequest_total (p : Protocol)
    (displayName connectionPassword : List Byte) (msRealtimeUpdateInterval : Int)
    (commandPassword : List Byte) :
    MarshalRegistrationRequest displayName connectionPassword msRealtimeUpdateInterval
        commandPassword
      = .ok ([0x01, 0x04] ++ putUint16 (displayName.length % 65536) ++ displayName
          ++ putUint16 (connectionPassword.length % 65536) ++ connectionPassword
          ++ putInt32 msRealtimeUpdateInterval
          ++ putUint16 (commandPassword.length % 65536) ++ commandPassword) ∧
    (RequestConnection p displayName connectionPassword msRealtimeUpdateInterval
        commandPassword).2
      = [[0x01, 0x04] ++ putUint16 (displayName.length % 65536) ++ displayName
          ++ putUint16 (connectionPassword.length % 65536) ++ connectionPassword
          ++ putInt32 msRealtimeUpdateInterval
          ++ putUint16 (commandPassword.length % 65536) ++ commandPassword] := by
  have h : MarshalRegistrationRequest displayName connectionPassword
      msRealtimeUpdateInterval commandPassword
      = .ok ([0x01, 0x04] ++ putUint16 (displayName.length % 65536) ++ displayName
          ++ putUint16 (connectionPassword.length % 65536) ++ connectionPassword
          ++ putInt32 msRealtimeUpdateInterval
          ++ putUint16 (commandPassword.length % 65536) ++ commandPassword) := by
    simp only [MarshalRegistrationRequest, writeUint8, writeString, writeInt32, bind,
      Except.bind, pure, Except.pure, List.nil_append, List.append_assoc]
    rfl
  refine ⟨h, ?_⟩
  unfold RequestConnection
  rw [h]

/-- Counterexample to C10 as stated: a display name of 65536 bytes is marshalled
without error and `RequestConnection` hands the frame to the send function. -/
theorem oversized_display_name_accepted :
    (List.replicate 65536 (0x41 : Byte)).length > 65535 ∧
    ∃ data, MarshalRegistrationRequest (List.replicate 65536 0x41) [] 0 [] = .ok data ∧
      RequestConnection exampleEngine (List.replicate 65536 0x41) [] 0 [] = (none, [data]) :=
  ⟨by rw [List.length_replicate]; omega, _, rfl, rfl⟩

/-! ## Entry-list car -/

/-- C2, as the code behaves: an entry-list-car frame that decodes to a descriptor is
accepted whether or not its car index is a key of the cache. `ProcessMessage` returns
no error, sends no frame, stores the descriptor under its car index (other keys are
kept) and invokes `OnEntrylistUpdate` with it when the slot is assigned. -/
theorem entryListCar_stored_and_dispatched (p : Protocol) (now : Int)
    (body rest : List Byte) (carInfo : CarInfo)
    (h : UnmarshalEntryListCar.run body = .ok (carInfo, rest)) :
    (ProcessMessage p now (0x06 :: body)).err = none ∧
    (ProcessMessage p now (0x06 :: body)).sent = [] ∧
    (ProcessMessage p now (0x06 :: body)).events
      = (if p.OnEntrylistUpdate then [Event.EntrylistUpdate carInfo] else []) ∧
    (ProcessMessage p now (0x06 :: body)).state.entryListCars carInfo.CarIndex
      = some carInfo ∧
    ∀ k, k ≠ carInfo.CarIndex →
      (ProcessMessage p now (0x06 :: body)).state.entryListCars k = p.entryListCars k := by
  have hP : ProcessMessage p now (0x06 :: body) = handleEntryListCar p body := by
    rw [processMessage_cons]
    rfl
  rw [hP]
  unfold handleEntryListCar
  rw [h]
  refine ⟨rfl, rfl, rfl, ?_, ?_⟩
  · simp
  · intro k hk
    simp [hk]

/-- Witness for C2 as amended: the frame of car 5 fed after an entry list that lists
no car. -/
theorem entryListCar_stored_and_dispatched_witness :
    (ProcessMessage (feed exampleEngine [(0, frameEntryListEmpty)]) 0 frameEntryListCar5).err
      = none ∧
    (ProcessMessage (feed exampleEngine [(0, frameEntryListEmpty)]) 0 frameEntryListCar5).sent
      = [] ∧
    (ProcessMessage (feed exampleEngine [(0, frameEntryListEmpty)]) 0
        frameEntryListCar5).events
      = [Event.EntrylistUpdate
          { CarIndex := 5, CarModelType := 3,
            TeamName := [0x52, 0x65, 0x64, 0x20, 0x46, 0x65, 0x72, 0x72, 0x61, 0x72, 0x69],
            RaceNumber := 31, CupCategory := 0, CurrentDriverIndex := 0,
            Drivers := [{ FirstName := [0x4A, 0x6F, 0x68, 0x6E], LastName := [0x44, 0x6F, 0x65],
                          ShortName := [0x4A, 0x44, 0x4F], Category := 2, Nationality := 17 }],
            Nationality := 17 }] :=
  have h := entryListCar_stored_and_dispatched (feed exampleEngine [(0, frameEntryListEmpty)])
    0 (frameEntryListCar5.drop 1) []
    { CarIndex := 5, CarModelType := 3,
      TeamName := [0x52, 0x65, 0x64, 0x20, 0x46, 0x65, 0x72, 0x72, 0x61, 0x72, 0x69],
      RaceNumber := 31, CupCategory := 0, CurrentDriverIndex := 0,
      Drivers := [{ FirstName := [0x4A, 0x6F, 0x68, 0x6E], LastName := [0x44, 0x6F, 0x65],
                    ShortName := [0x4A, 0x44, 0x4F], Category := 2, Nationality := 17 }],
      Nationality := 17 } rfl
  ⟨h.1, h.2.1, h.2.2.1⟩

/-- Counterexample to C2 as stated: after an entry list that lists no car the cache
has no key 5, yet the well-formed entry-list-car frame of car 5 invokes a callback
and adds key 5 to the cache. -/
theorem unlisted_car_not_ignored :
    wellFormedFrame frameEntryListCar5 = true ∧
    (feed exampleEngine [(0, frameEntryListEmpty)]).entryListCars 5 = none ∧
    (ProcessMessage (feed exampleEngine [(0, frameEntryListEmpty)]) 0
        frameEntryListCar5).events ≠ [] ∧
    (ProcessMessage (feed exampleEngine [(0, frameEntryListEmpty)]) 0
        frameEntryListCar5).state.entryListCars 5 ≠ none := by
  decide

/-! ## Realtime car update and the desync rule -/

theorem processMessage_realtimeCarUpdate (p : Protocol) (now : Int) (body : List Byte) :
    ProcessMessage p now (0x03 :: body) = handleRealtimeCarUpdate p now body := by
  rw [processMessage_cons]
  rfl

/-- C5, as the code behaves: with connection id 42 and no descriptor cached for car 5
(in particular with an empty cache), a realtime-car-update for car 5, whatever its
driver count, is accepted and invokes no callback; it makes the engine send exactly
the frame `0A 2A 00 00 00` when more than one second has passed since
`lastEntryListRequest`, and no frame otherwise. -/
theorem desync_request_needs_one_second (p : Protocol) (now : Int) (body rest : List Byte)
    (update : RealtimeCarUpdate) (hid : p.connectionId = 42)
    (hcache : p.entryListCars 5 = none)
    (hrun : UnmarshalRealtimeCarUpdate.run body = .ok (update, rest))
    (hcar : update.CarIndex = 5) :
    (ProcessMessage p now (0x03 :: body)).err = none ∧
    (ProcessMessage p now (0x03 :: body)).events = [] ∧
    (ProcessMessage p now (0x03 :: body)).sent
      = (if now - p.lastEntryListRequest > Second then [[0x0A, 0x2A, 0, 0, 0]] else []) := by
  rw [processMessage_realtimeCarUpdate]
  unfold handleRealtimeCarUpdate
  rw [hrun]
  simp only [hcar, hcache, entryDesync, if_true]
  by_cases ht : now - p.lastEntryListRequest > Second
  · rw [if_pos ht, if_pos ht]
    refine ⟨rfl, rfl, ?_⟩
    simp only [RequestEntryList, MarshalEntryListRequest, hid]
    rfl
  · rw [if_neg ht, if_neg ht]
    exact ⟨rfl, rfl, rfl⟩

/-- Witness for C5 as amended: the engine that was refused registration with id 42 at
clock 0 receives the update two seconds later. -/
theorem desync_request_needs_one_second_witness :
    (ProcessMessage (feed exampleEngine [(0, frameRegistrationRefused42)]) 2000000000
        (frameRealtimeCarUpdate5 1)).err = none ∧
    (ProcessMessage (feed exampleEngine [(0, frameRegistrationRefused42)]) 2000000000
        (frameRealtimeCarUpdate5 1)).events = [] ∧
    (ProcessMessage (feed exampleEngine [(0, frameRegistrationRefused42)]) 2000000000
        (frameRealtimeCarUpdate5 1)).sent = [[0x0A, 0x2A, 0, 0, 0]] :=
  desync_request_needs_one_second (feed exampleEngine [(0, frameRegistrationRefused42)])
    2000000000 (realtimeCarUpdate5Head 1 ++ lapAbsent ++ lapAbsent ++ lapAbsent) _ _
    rfl rfl rfl rfl

/-- Counterexample to C5 as stated: an engine created at clock 0 that has connection
id 42 and an empty cache receives the update for car 5 with driver count 1 half a
second later; no callback is invoked, but no frame is sent either. -/
theorem desync_request_suppressed_in_first_second :
    (feed exampleEngine [(0, frameRegistrationRefused42)]).connectionId = 42 ∧
    (∀ k, (feed exampleEngine [(0, frameRegistrationRefused42)]).entryListCars k = none) ∧
    wellFormedFrame (frameRealtimeCarUpdate5 1) = true ∧
    (ProcessMessage (feed exampleEngine [(0, frameRegistrationRefused42)]) 500000000
        (frameRealtimeCarUpdate5 1)).err = none ∧
    (ProcessMessage (feed exampleEngine [(0, frameRegistrationRefused42)]) 500000000
        (frameRealtimeCarUpdate5 1)).events = [] ∧
    (ProcessMessage (feed exampleEngine [(0, frameRegistrationRefused42)]) 500000000
        (frameRealtimeCarUpdate5 1)).sent = [] :=
  ⟨by decide, fun _ => rfl, by decide, by decide, by decide, by decide⟩

theorem handleRegistrationResult_last (p : Protocol) (body : List Byte) :
    (handleRegistrationResult p body).state.lastEntryListRequest = p.lastEntryListRequest := by
  unfold handleRegistrationResult
  split <;> rfl

theorem handleEntryList_last (p : Protocol) (body : List Byte) :
    (handleEntryList p body).state.lastEntryListRequest = p.lastEntryListRequest := by
  unfold handleEntryList
  split <;> rfl

theorem handleEntryListCar_last (p : Protocol) (body : List Byte) :
    (handleEntryListCar p body).state.lastEntryListRequest = p.lastEntryListRequest := by
  unfold handleEntryListCar
  split <;> rfl

theorem handleTrackData_last (p : Protocol) (body : List Byte) :
    (handleTrackData p body).state.lastEntryListRequest = p.lastEntryListRequest := by
  unfold handleTrackData
  split <;> rfl

theorem handleRealtimeUpdate_last (p : Protocol) (body : List Byte) :
    (handleRealtimeUpdate p body).state.lastEntryListRequest = p.lastEntryListRequest := by
  unfold handleRealtimeUpdate
  split <;> rfl

theorem handleBroadcastingEvent_last (p : Protocol) (body : List Byte) :
    (handleBroadcastingEvent p body).state.lastEntryListRequest = p.lastEntryListRequest := by
  unfold handleBroadcastingEvent
  split <;> rfl

theorem requestEntryList_sent (p : Protocol) :
    (RequestEntryList p).2 = [0x0A :: putInt32 p.connectionId] := rfl

/-- A realtime-car-update step either sends nothing and keeps the time of the last
request, or sends, in which case more than a second had passed since the last
request and the time of the last request becomes the current clock reading. -/
theorem handleRealtimeCarUpdate_last (p : Protocol) (now : Int) (body : List Byte) :
    ((handleRealtimeCarUpdate p now body).sent = [] ∧
      (handleRealtimeCarUpdate p now body).state.lastEntryListRequest
        = p.lastEntryListRequest) ∨
    ((handleRealtimeCarUpdate p now body).sent ≠ [] ∧
      now - p.lastEntryListRequest > Second ∧
      (handleRealtimeCarUpdate p now body).state.lastEntryListRequest = now) := by
  unfold handleRealtimeCarUpdate
  split
  · exact Or.inl ⟨rfl, rfl⟩
  · split
    · split
      · next ht =>
        refine Or.inr ⟨?_, ht, rfl⟩
        simp [requestEntryList_sent]
      · exact Or.inl ⟨rfl, rfl⟩
    · exact Or.inl ⟨rfl, rfl⟩

theorem head_val_of_head? (b : Byte) (body : List Byte) (n : Byte)
    (h : (b :: body).head? = some n) : b.val = n.val := by
  simp only [List.head?_cons, Option.some.injEq] at h
  rw [h]

/-- Effect of one step on the time of the last entry-list request. -/
theorem processMessage_last (p : Protocol) (now : Int) (data : List Byte) :
    (¬ (data.head? = some 3 ∧ (ProcessMessage p now data).sent ≠ []) ∧
      (ProcessMessage p now data).state.lastEntryListRequest = p.lastEntryListRequest) ∨
    ((data.head? = some 3 ∧ (ProcessMessage p now data).sent ≠ []) ∧
      now - p.lastEntryListRequest > Second ∧
      (ProcessMessage p now data).state.lastEntryListRequest = now) := by
  cases data with
  | nil => exact Or.inl ⟨by simp, rfl⟩
  | cons b body =>
    by_cases h3 : b.val = InboundRealtimeCarUpdate
    · have hb : b = 3 := Fin.ext h3
      subst hb
      rw [processMessage_realtimeCarUpdate]
      rcases handleRealtimeCarUpdate_last p now body with ⟨h1, h2⟩ | ⟨h1, h2, h4⟩
      · exact Or.inl ⟨fun h => h.2 h1, h2⟩
      · exact Or.inr ⟨⟨rfl, h1⟩, h2, h4⟩
    · left
      refine ⟨fun h => h3 (head_val_of_head? b body 3 h.1), ?_⟩
      rw [processMessage_cons, if_neg h3]
      split
      · exact handleRegistrationResult_last p body
      · split
        · exact handleEntryList_last p body
        · split
          · exact handleEntryListCar_last p body
          · split
            · exact handleTrackData_last p body
            · split
              · exact handleRealtimeUpdate_last p body
              · split
                · exact handleBroadcastingEvent_last p body
                · rfl

theorem desyncRequestTimes_spaced (p : Protocol) (inputs : List (Int × List Byte)) :
    (desyncRequestTimes p inputs).Pairwise (fun a b => b - a > Second) ∧
    ∀ t ∈ desyncRequestTimes p inputs, t - p.lastEntryListRequest > Second := by
  induction inputs generalizing p with
  | nil => exact ⟨List.Pairwise.nil, fun t ht => by cases ht⟩
  | cons x rest ih =>
    obtain ⟨now, data⟩ := x
    obtain ⟨ihp, iht⟩ := ih (ProcessMessage p now data).state
    rcases processMessage_last p now data with ⟨hno, hlast⟩ | ⟨hyes, hgt, hlast⟩
    · unfold desyncRequestTimes
      rw [if_neg hno]
      rw [hlast] at iht
      exact ⟨ihp, iht⟩
    · unfold desyncRequestTimes
      rw [if_pos hyes]
      rw [hlast] at iht
      refine ⟨List.Pairwise.cons iht ihp, ?_⟩
      intro t ht
      rcases List.mem_cons.mp ht with h | h
      · rw [h]; exact hgt
      · have := iht t h
        unfold Second at this hgt ⊢
        omega

/-- C4. Over any timed sequence of inbound frames, the clock readings at which a
realtime-car-update made the engine send a request-entry-list frame are pairwise more
than one second apart, from any engine state. -/
theorem desync_requests_more_than_one_second_apart (p : Protocol)
    (inputs : List (Int × List Byte)) :
    (desyncRequestTimes p inputs).Pairwise (fun a b => b - a > Second) :=
  (desyncRequestTimes_spaced p inputs).1

/-- The desync rule does fire: five updates for the unknown car 5 at 0.5 s, 1.5 s,
2.0 s, 2.5 s and 2.500000001 s after construction produce requests at 1.5 s and at
2.500000001 s only. -/
theorem desyncRequestTimes_example :
    desyncRequestTimes exampleEngine
      [(500000000, frameRealtimeCarUpdate5 1), (1500000000, frameRealtimeCarUpdate5 1),
       (2000000000, frameRealtimeCarUpdate5 1), (2500000000, frameRealtimeCarUpdate5 1),
       (2500000001, frameRealtimeCarUpdate5 1)]
      = [1500000000, 2500000001] := by
  decide

/-! ## Ordering of entry-list-car and realtime-car-update dispatches -/

theorem feed_append (p : Protocol) (a b : List (Int × List Byte)) :
    feed p (a ++ b) = feed (feed p a) b := by
  induction a generalizing p with
  | nil => rfl
  | cons x rest ih =>
    obtain ⟨now, data⟩ := x
    exact ih _

theorem noEntryListAccepted_append (p : Protocol) (l : List (Int × List Byte)) (now : Int)
    (data : List Byte) :
    noEntryListAccepted p (l ++ [(now, data)])
      = (noEntryListAccepted p l && !(entryListAccepted (feed p l) now data)) := by
  induction l generalizing p with
  | nil => simp [noEntryListAccepted, feed]
  | cons x rest ih =>
    obtain ⟨t, d⟩ := x
    show (!(entryListAccepted p t d)
        && noEntryListAccepted (ProcessMessage p t d).state (rest ++ [(now, data)]))
      = ((!(entryListAccepted p t d) && noEntryListAccepted (ProcessMessage p t d).state rest)
          && !(entryListAccepted (feed (ProcessMessage p t d).state rest) now data))
    rw [ih, Bool.and_assoc]

theorem storePlaceholders_drivers (l : List Nat) :
    ∀ (cars : Nat → Option CarInfo) (k : Nat) (info : CarInfo),
      storePlaceholders cars l k = some info → info.Drivers = [] ∨ cars k = some info := by
  induction l with
  | nil => intro cars k info h; exact Or.inr h
  | cons x rest ih =>
    intro cars k info h
    rcases ih _ k info h with h1 | h1
    · exact Or.inl h1
    · by_cases hk : k = x
      · rw [if_pos hk] at h1
        injection h1 with h1
        left
        rw [← h1]
      · rw [if_neg hk] at h1
        exact Or.inr h1

theorem handleRegistrationResult_cache (p : Protocol) (body : List Byte) :
    (handleRegistrationResult p body).state.entryListCars = p.entryListCars ∧
    (handleRegistrationResult p body).state.OnEntrylistUpdate = p.OnEntrylistUpdate ∧
    ∀ u, Event.RealtimeCarUpdate u ∉ (handleRegistrationResult p body).events := by
  unfold handleRegistrationResult
  split
  · exact ⟨rfl, rfl, fun u h => by cases h⟩
  · refine ⟨rfl, rfl, fun u h => ?_⟩
    dsimp only at h
    split at h
    · simp at h
    · cases h

theorem handleTrackData_cache (p : Protocol) (body : List Byte) :
    (handleTrackData p body).state.entryListCars = p.entryListCars ∧
    (handleTrackData p body).state.OnEntrylistUpdate = p.OnEntrylistUpdate ∧
    ∀ u, Event.RealtimeCarUpdate u ∉ (handleTrackData p body).events := by
  unfold handleTrackData
  split
  · exact ⟨rfl, rfl, fun u h => by cases h⟩
  · refine ⟨rfl, rfl, fun u h => ?_⟩
    dsimp only at h
    split at h
    · simp at h
    · cases h

theorem handleRealtimeUpdate_cache (p : Protocol) (body : List Byte) :
    (handleRealtimeUpdate p body).state.entryListCars = p.entryListCars ∧
    (handleRealtimeUpdate p body).state.OnEntrylistUpdate = p.OnEntrylistUpdate ∧
    ∀ u, Event.RealtimeCarUpdate u ∉ (handleRealtimeUpdate p body).events := by
  unfold handleRealtimeUpdate
  split
  · exact ⟨rfl, rfl, fun u h => by cases h⟩
  · refine ⟨rfl, rfl, fun u h => ?_⟩
    dsimp only at h
    split at h
    · simp at h
    · cases h

theorem handleBroadcastingEvent_cache (p : Protocol) (body : List Byte) :
    (handleBroadcastingEvent p body).state.entryListCars = p.entryListCars ∧
    (handleBroadcastingEvent p body).state.OnEntrylistUpdate = p.OnEntrylistUpdate ∧
    ∀ u, Event.RealtimeCarUpdate u ∉ (handleBroadcastingEvent p body).events := by
  unfold handleBroadcastingEvent
  split
  · exact ⟨rfl, rfl, fun u h => by cases h⟩
  · refine ⟨rfl, rfl, fun u h => ?_⟩
    dsimp only at h
    split at h
    · simp at h
    · cases h

/-- A realtime-car-update step keeps the cache, and forwards an update only when
the cache holds a descriptor of that car with the same number of drivers. -/
theorem handleRealtimeCarUpdate_cache (p : Protocol) (now : Int) (body : List Byte) :
    (handleRealtimeCarUpdate p now body).state.entryListCars = p.entryListCars ∧
    (handleRealtimeCarUpdate p now body).state.OnEntrylistUpdate = p.OnEntrylistUpdate ∧
    ∀ u, Event.RealtimeCarUpdate u ∈ (handleRealtimeCarUpdate p now body).events →
      ∃ info, p.entryListCars u.CarIndex = some info ∧
        info.Drivers.length = u.DriverCount := by
  unfold handleRealtimeCarUpdate
  split
  · exact ⟨rfl, rfl, fun u h => by cases h⟩
  · next update rest hrun =>
    split
    · split
      · exact ⟨rfl, rfl, fun u h => by cases h⟩
      · exact ⟨rfl, rfl, fun u h => by cases h⟩
    · next hsync =>
      refine ⟨rfl, rfl, fun u h => ?_⟩
      dsimp only at h
      split at h
      · simp only [List.mem_singleton, Event.RealtimeCarUpdate.injEq] at h
        subst h
        unfold entryDesync at hsync
        split at hsync
        · exact absurd rfl hsync
        · next info hinfo =>
          refine ⟨info, hinfo, ?_⟩
          simpa using hsync
      · cases h

theorem handleEntryList_cache (p : Protocol) (body : List Byte) :
    (((handleEntryList p body).err ≠ none ∧
        (handleEntryList p body).state.entryListCars = p.entryListCars) ∨
      ((handleEntryList p body).err = none ∧
        ∀ k info, (handleEntryList p body).state.entryListCars k = some info →
          info.Drivers = [])) ∧
    (handleEntryList p body).state.OnEntrylistUpdate = p.OnEntrylistUpdate ∧
    ∀ u, Event.RealtimeCarUpdate u ∉ (handleEntryList p body).events := by
  unfold handleEntryList
  split
  · exact ⟨Or.inl ⟨by simp, rfl⟩, rfl, fun u h => by cases h⟩
  · refine ⟨Or.inr ⟨rfl, fun k info h => ?_⟩, rfl, fun u h => by cases h⟩
    rcases storePlaceholders_drivers _ _ k info h with h1 | h1
    · exact h1
    · cases h1

theorem handleEntryListCar_cache (p : Protocol) (body : List Byte) :
    ((handleEntryListCar p body).state.entryListCars = p.entryListCars ∨
      ∃ c, (∀ k, (handleEntryListCar p body).state.entryListCars k
              = if k = c.CarIndex then some c else p.entryListCars k) ∧
        (p.OnEntrylistUpdate = true →
          Event.EntrylistUpdate c ∈ (handleEntryListCar p body).events)) ∧
    (handleEntryListCar p body).state.OnEntrylistUpdate = p.OnEntrylistUpdate ∧
    ∀ u, Event.RealtimeCarUpdate u ∉ (handleEntryListCar p body).events := by
  unfold handleEntryListCar
  split
  · exact ⟨Or.inl rfl, rfl, fun u h => by cases h⟩
  · next carInfo rest hrun =>
    refine ⟨Or.inr ⟨carInfo, fun k => rfl, fun hOn => ?_⟩, rfl, fun u h => ?_⟩
    · simp [hOn]
    · dsimp only at h
      split at h
      · simp at h
      · cases h

/-- Effect of one step on the cache, on the `OnEntrylistUpdate` slot and on the
forwarding of realtime car updates. -/
theorem processMessage_cache (p : Protocol) (now : Int) (data : List Byte) :
    ((entryListAccepted p now data = true ∧
        ∀ k info, (ProcessMessage p now data).state.entryListCars k = some info →
          info.Drivers = []) ∨
      (entryListAccepted p now data = false ∧
        ((ProcessMessage p now data).state.entryListCars = p.entryListCars ∨
          ∃ c, (∀ k, (ProcessMessage p now data).state.entryListCars k
                  = if k = c.CarIndex then some c else p.entryListCars k) ∧
            (p.OnEntrylistUpdate = true →
              Event.EntrylistUpdate c ∈ (ProcessMessage p now data).events)))) ∧
    (ProcessMessage p now data).state.OnEntrylistUpdate = p.OnEntrylistUpdate ∧
    ∀ u, Event.RealtimeCarUpdate u ∈ (ProcessMessage p now data).events →
      ∃ info, p.entryListCars u.CarIndex = some info ∧
        info.Drivers.length = u.DriverCount := by
  cases data with
  | nil =>
    refine ⟨Or.inr ⟨by simp [entryListAccepted], Or.inl rfl⟩, rfl, fun u h => ?_⟩
    cases h
  | cons b body =>
    by_cases h4 : b.val = InboundEntryList
    · have hb : b = 4 := Fin.ext h4
      subst hb
      have hP : ProcessMessage p now (4 :: body) = handleEntryList p body := by
        rw [processMessage_cons]
        rfl
      unfold entryListAccepted
      rw [hP]
      obtain ⟨hc, hf, hu⟩ := handleEntryList_cache p body
      refine ⟨?_, hf, fun u h => absurd h (hu u)⟩
      rcases hc with ⟨he, hsame⟩ | ⟨he, hempty⟩
      · exact Or.inr ⟨by simp [he], Or.inl hsame⟩
      · exact Or.inl ⟨by simp [he], hempty⟩
    · have hna : entryListAccepted p now (b :: body) = false := by
        unfold entryListAccepted
        have hne : ¬ (b :: body).head? = some 4 :=
          fun h => h4 (head_val_of_head? b body 4 h)
        rw [decide_eq_false hne]
        rfl
      rw [processMessage_cons, if_neg h4]
      split
      · obtain ⟨hc, hf, hu⟩ := handleRegistrationResult_cache p body
        exact ⟨Or.inr ⟨hna, Or.inl hc⟩, hf, fun u h => absurd h (hu u)⟩
      · split
        · obtain ⟨hc, hf, hu⟩ := handleEntryListCar_cache p body
          exact ⟨Or.inr ⟨hna, hc⟩, hf, fun u h => absurd h (hu u)⟩
        · split
          · obtain ⟨hc, hf, hu⟩ := handleTrackData_cache p body
            exact ⟨Or.inr ⟨hna, Or.inl hc⟩, hf, fun u h => absurd h (hu u)⟩
          · split
            · obtain ⟨hc, hf, hu⟩ := handleRealtimeUpdate_cache p body
              exact ⟨Or.inr ⟨hna, Or.inl hc⟩, hf, fun u h => absurd h (hu u)⟩
            · split
              · obtain ⟨hc, hf, hu⟩ := handleRealtimeCarUpdate_cache p now body
                exact ⟨Or.inr ⟨hna, Or.inl hc⟩, hf, hu⟩
              · split
                · obtain ⟨hc, hf, hu⟩ := handleBroadcastingEvent_cache p body
                  exact ⟨Or.inr ⟨hna, Or.inl hc⟩, hf, fun u h => absurd h (hu u)⟩
                · exact ⟨Or.inr ⟨hna, Or.inl rfl⟩, rfl, fun u h => by cases h⟩

theorem feed_OnEntrylistUpdate (p : Protocol) (l : List (Int × List Byte)) :
    (feed p l).OnEntrylistUpdate = p.OnEntrylistUpdate := by
  induction l generalizing p with
  | nil => rfl
  | cons x rest ih =>
    obtain ⟨now, data⟩ := x
    show (feed (ProcessMessage p now data).state rest).OnEntrylistUpdate = _
    rw [ih, (processMessage_cache p now data).2.1]

theorem feed_snoc (p : Protocol) (l : List (Int × List Byte)) (now : Int) (data : List Byte) :
    feed p (l ++ [(now, data)]) = (ProcessMessage (feed p l) now data).state := by
  rw [feed_append]
  rfl

theorem dispatchedSince_snoc (p0 : Protocol) (l : List (Int × List Byte)) (now : Int)
    (data : List Byte) (k : Nat) (h : DispatchedSinceEntryList p0 l k)
    (hna : entryListAccepted (feed p0 l) now data = false) :
    DispatchedSinceEntryList p0 (l ++ [(now, data)]) k := by
  obtain ⟨pre1, t, d, pre2, c, hpre, hev, hc, hno⟩ := h
  refine ⟨pre1, t, d, pre2 ++ [(now, data)], c, ?_, hev, hc, ?_⟩
  · rw [hpre]
    simp
  · rw [noEntryListAccepted_append, hno, ← feed_append]
    have : pre1 ++ [(t, d)] ++ pre2 = l := by rw [hpre]; simp
    rw [this, hna]
    rfl

/-- Every cached descriptor that has drivers was dispatched to `OnEntrylistUpdate`
after the last accepted entry-list frame. -/
theorem cached_drivers_dispatched (p0 : Protocol) (hfresh : ∀ k, p0.entryListCars k = none)
    (hOn : p0.OnEntrylistUpdate = true) (pre : List (Int × List Byte)) :
    ∀ (k : Nat) (info : CarInfo), (feed p0 pre).entryListCars k = some info →
      info.Drivers ≠ [] → DispatchedSinceEntryList p0 pre k := by
  induction pre using List.reverseRecOn with
  | nil =>
    intro k info h _
    rw [show feed p0 [] = p0 from rfl, hfresh k] at h
    cases h
  | append_singleton l a ih =>
    obtain ⟨now, data⟩ := a
    intro k info h hdrv
    rw [feed_snoc] at h
    rcases (processMessage_cache (feed p0 l) now data).1 with ⟨_, hempty⟩ | ⟨hna, hc⟩
    · exact absurd (hempty k info h) hdrv
    · rcases hc with hsame | ⟨c, hupd, hev⟩
      · rw [hsame] at h
        exact dispatchedSince_snoc p0 l now data k (ih k info h hdrv) hna
      · rw [hupd k] at h
        by_cases hk : k = c.CarIndex
        · refine ⟨l, now, data, [], c, rfl, ?_, hk.symm, rfl⟩
          exact hev (by rw [feed_OnEntrylistUpdate]; exact hOn)
        · rw [if_neg hk] at h
          exact dispatchedSince_snoc p0 l now data k (ih k info h hdrv) hna

/-- C3, as the code behaves: on an engine that starts with an empty cache and has the
`OnEntrylistUpdate` slot assigned, whenever a realtime-car-update with a non-zero
driver count is dispatched to `OnRealtimeCarUpdate`, a descriptor of the same car has
been dispatched to `OnEntrylistUpdate` by an earlier frame, and no entry-list frame
has been accepted in between. -/
theorem forwarded_update_follows_descriptor (p0 : Protocol)
    (hfresh : ∀ k, p0.entryListCars k = none) (hOn : p0.OnEntrylistUpdate = true)
    (pre : List (Int × List Byte)) (now : Int) (data : List Byte) (u : RealtimeCarUpdate)
    (hdisp : Event.RealtimeCarUpdate u ∈ (ProcessMessage (feed p0 pre) now data).events)
    (hcount : u.DriverCount ≠ 0) :
    DispatchedSinceEntryList p0 pre u.CarIndex := by
  obtain ⟨info, hinfo, hlen⟩ := (processMessage_cache (feed p0 pre) now data).2.2 u hdisp
  refine cached_drivers_dispatched p0 hfresh hOn pre u.CarIndex info hinfo ?_
  intro hnil
  rw [hnil] at hlen
  exact hcount hlen.symm

/-- Witness for C3 as amended: entry list of car 5, then the descriptor of car 5, then
an update for car 5 with one driver, which is forwarded. -/
theorem forwarded_update_follows_descriptor_witness :
    DispatchedSinceEntryList exampleEngine
      [(0, frameEntryListCar5Only), (0, frameEntryListCar5)] 5 :=
  forwarded_update_follows_descriptor exampleEngine (fun _ => rfl) rfl
    [(0, frameEntryListCar5Only), (0, frameEntryListCar5)] 0 (frameRealtimeCarUpdate5 1) _
    (List.Mem.head _) (by decide)

/-- Counterexample to C3 as stated: after the entry list of car 5 alone, an update
for car 5 with driver count 0 is dispatched to `OnRealtimeCarUpdate`, although the
only earlier frame invoked no callback at all. -/
theorem update_forwarded_without_descriptor :
    (ProcessMessage exampleEngine 0 frameEntryListCar5Only).events = [] ∧
    ∃ u, u.CarIndex = 5 ∧
      (ProcessMessage (feed exampleEngine [(0, frameEntryListCar5Only)]) 0
        (frameRealtimeCarUpdate5 0)).events = [Event.RealtimeCarUpdate u] :=
  ⟨by decide, _, rfl, rfl⟩

/-! ## Lap records -/

theorem readLap_eq :
    readLap = (do
      let lapTimeMs ← readInt32
      let carIndex ← readUint16
      let driverIndex ← readUint16
      let splitCount ← readUint8
      let lap ← readLapSplits splitCount 3 0
        { (if lapTimeMs = InvalidLapTime then ({ } : LapInfo)
            else { LaptimeMS := some lapTimeMs }) with
          CarIndex := carIndex, DriverIndex := driverIndex }
      readLapFlags lap) := by
  unfold readLap readLapFlags
  rfl

theorem readLapSplits_zero (k i : Nat) (lap : LapInfo) (d : List Byte) :
    (readLapSplits k 0 i lap).run d = .ok (lap, d) := rfl

theorem readLapSplits_stop (k fuel i : Nat) (lap : LapInfo) (d : List Byte)
    (h : ¬ (i < k ∧ i < 3)) : (readLapSplits k (fuel + 1) i lap).run d = .ok (lap, d) := by
  unfold readLapSplits
  rw [if_neg h]
  rfl

theorem readLapSplits_read (k fuel i : Nat) (lap : LapInfo) (d d' : List Byte) (v : Int)
    (h : i < k ∧ i < 3) (hr : readInt32.run d = .ok (v, d')) :
    (readLapSplits k (fuel + 1) i lap).run d
      = (readLapSplits k fuel (i + 1)
          (if v = InvalidSectorTime then { lap with Splits := lap.Splits.set i none }
            else { lap with Splits := lap.Splits.set i (some v) })).run d' := by
  conv => lhs; unfold readLapSplits
  rw [if_pos h, run_bind_ok _ _ _ _ _ hr]


theorem flatMap_cons_putInt32 (a : Int) (l : List Int) :
    (a :: l).flatMap putInt32 = putInt32 a ++ l.flatMap putInt32 := by
  simp [List.flatMap]

theorem readLapSplits_wire (splits : List Int)
    (hs : ∀ s ∈ splits, -2147483648 ≤ s ∧ s ≤ 2147483647)
    (lap : LapInfo) (hl : lap.Splits = [none, none, none]) (rest : List Byte) :
    (readLapSplits splits.length 3 0 lap).run (splits.flatMap putInt32 ++ rest)
      = .ok ({ lap with Splits := [expectedSlot splits 0, expectedSlot splits 1,
                                   expectedSlot splits 2] },
             (splits.drop 3).flatMap putInt32 ++ rest) := by
  match splits, hs with
  | [], _ =>
    rw [readLapSplits_stop _ _ _ _ _ (by simp)]
    simp [expectedSlot, ← hl]
  | [a], hs =>
    have ha := hs a (by simp)
    simp only [flatMap_cons_putInt32, List.append_assoc]
    rw [readLapSplits_read _ _ _ _ _ _ _ (by simp) (readInt32_putInt32 a _ ha)]
    rw [readLapSplits_stop _ _ _ _ _ (by simp)]
    by_cases h1 : a = 2147483647 <;>
      simp [expectedSlot, InvalidSectorTime, hl, h1, List.flatMap]
  | [a, b], hs =>
    have ha := hs a (by simp)
    have hb := hs b (by simp)
    simp only [flatMap_cons_putInt32, List.append_assoc]
    rw [readLapSplits_read _ _ _ _ _ _ _ (by simp) (readInt32_putInt32 a _ ha)]
    rw [readLapSplits_read _ _ _ _ _ _ _ (by simp) (readInt32_putInt32 b _ hb)]
    rw [readLapSplits_stop _ _ _ _ _ (by simp)]
    by_cases h1 : a = 2147483647 <;> by_cases h2 : b = 2147483647 <;>
      simp [expectedSlot, InvalidSectorTime, hl, h1, h2, List.flatMap]
  | a :: b :: c :: more, hs =>
    have ha := hs a (by simp)
    have hb := hs b (by simp)
    have hc := hs c (by simp)
    simp only [flatMap_cons_putInt32, List.append_assoc]
    rw [readLapSplits_read _ _ _ _ _ _ _ (by simp) (readInt32_putInt32 a _ ha)]
    rw [readLapSplits_read _ _ _ _ _ _ _ (by simp) (readInt32_putInt32 b _ hb)]
    rw [readLapSplits_read _ _ _ _ _ _ _ (by simp) (readInt32_putInt32 c _ hc)]
    rw [readLapSplits_zero]
    by_cases h1 : a = 2147483647 <;> by_cases h2 : b = 2147483647 <;>
      by_cases h3 : c = 2147483647 <;>
      simp [expectedSlot, InvalidSectorTime, hl, h1, h2, h3]


theorem readLapFlags_run (lap : LapInfo) (a b c d : Byte) (rest : List Byte) :
    (readLapFlags lap).run (a :: b :: c :: d :: rest)
      = .ok ({ lap with
                IsInvalid := decide (a.val > 0), IsValidForBest := decide (b.val > 0),
                Type_ := if c.val > 0 then LapType.Outlap
                         else if d.val > 0 then LapType.Inlap else LapType.Regular },
             rest) := by
  unfold readLapFlags
  rw [run_bind_ok _ _ _ _ _ (readUint8_cons a _), run_bind_ok _ _ _ _ _ (readUint8_cons b _),
    run_bind_ok _ _ _ _ _ (readUint8_cons c _), run_bind_ok _ _ _ _ _ (readUint8_cons d _)]
  by_cases hc : c.val > 0
  · rw [if_pos hc, if_pos hc]; rfl
  · rw [if_neg hc, if_neg hc]
    by_cases hd : d.val > 0
    · rw [if_pos hd, if_pos hd]; rfl
    · rw [if_neg hd, if_neg hd]; rfl

/-- On a lap record laid out as the format prescribes, `readLap` decodes the header
and the first three splits, then reads its four flag bytes right after the third
split (or after the last split when there are fewer than three). -/
theorem readLap_wire (lapTime : Int) (carIndex driverIndex : Nat) (splits : List Int)
    (f1 f2 f3 f4 : Byte) (tail : List Byte)
    (hT : -2147483648 ≤ lapTime ∧ lapTime ≤ 2147483647)
    (hcar : carIndex < 65536) (hdrv : driverIndex < 65536)
    (hs : ∀ s ∈ splits, -2147483648 ≤ s ∧ s ≤ 2147483647) (hk : splits.length ≤ 255) :
    readLap.run (lapWire lapTime carIndex driverIndex splits f1 f2 f3 f4 ++ tail)
      = (readLapFlags
          { LaptimeMS := if lapTime = 2147483647 then none else some lapTime,
            Splits := [expectedSlot splits 0, expectedSlot splits 1, expectedSlot splits 2],
            CarIndex := carIndex, DriverIndex := driverIndex }).run
          ((splits.drop 3).flatMap putInt32 ++ ([f1, f2, f3, f4] ++ tail)) := by
  rw [readLap_eq]
  unfold lapWire
  simp only [List.append_assoc]
  rw [run_bind_ok _ _ _ _ _ (readInt32_putInt32 lapTime _ hT)]
  rw [run_bind_ok _ _ _ _ _ (readUint16_putUint16 carIndex _ hcar)]
  rw [run_bind_ok _ _ _ _ _ (readUint16_putUint16 driverIndex _ hdrv)]
  rw [List.singleton_append, run_bind_ok _ _ _ _ _ (readUint8_cons _ _)]
  have hlen : (byte splits.length).val = splits.length := by
    rw [byte_val]
    omega
  rw [hlen]
  by_cases h1 : lapTime = 2147483647
  · rw [run_bind_ok _ _ _ _ _ (readLapSplits_wire splits hs _ (by simp [InvalidLapTime, h1]) _)]
    simp [InvalidLapTime, h1]
  · rw [run_bind_ok _ _ _ _ _ (readLapSplits_wire splits hs _ (by simp [InvalidLapTime, h1]) _)]
    simp [InvalidLapTime, h1]

theorem four_bytes_of_length (l : List Byte) (h : 4 ≤ l.length) :
    ∃ a b c d rest, l = a :: b :: c :: d :: rest := by
  match l, h with
  | a :: b :: c :: d :: rest, _ => exact ⟨a, b, c, d, rest, rfl⟩

/-- C9. On every lap record laid out as the format prescribes, `readLap` succeeds; the
total time of the result is absent exactly when the wire lap time is 2147483647 and
is the wire lap time otherwise; split slot `i` of the result, for `i` in 0, 1, 2,
holds wire split `i` when that split exists and is not 2147483647 and is absent
otherwise, so that splits of index 3 or more never appear. -/
theorem readLap_times_and_splits (lapTime : Int) (carIndex driverIndex : Nat)
    (splits : List Int) (f1 f2 f3 f4 : Byte) (tail : List Byte)
    (hT : -2147483648 ≤ lapTime ∧ lapTime ≤ 2147483647)
    (hcar : carIndex < 65536) (hdrv : driverIndex < 65536)
    (hs : ∀ s ∈ splits, -2147483648 ≤ s ∧ s ≤ 2147483647) (hk : splits.length ≤ 255) :
    ∃ lap rest,
      readLap.run (lapWire lapTime carIndex driverIndex splits f1 f2 f3 f4 ++ tail)
        = .ok (lap, rest) ∧
      (lap.LaptimeMS = none ↔ lapTime = 2147483647) ∧
      (lapTime ≠ 2147483647 → lap.LaptimeMS = some lapTime) ∧
      lap.Splits = [expectedSlot splits 0, expectedSlot splits 1, expectedSlot splits 2] ∧
      lap.Splits.length = 3 := by
  rw [readLap_wire lapTime carIndex driverIndex splits f1 f2 f3 f4 tail hT hcar hdrv hs hk]
  obtain ⟨a, b, c, d, rest, hl⟩ := four_bytes_of_length
    ((splits.drop 3).flatMap putInt32 ++ ([f1, f2, f3, f4] ++ tail))
    (by simp only [List.length_append, List.length_cons]; omega)
  rw [hl, readLapFlags_run]
  refine ⟨_, rest, rfl, ?_, ?_, rfl, rfl⟩
  · by_cases h1 : lapTime = 2147483647 <;> simp [h1]
  · intro h1
    simp [h1]

/-- Witness for C9: lap time 90001, four wire splits 30000, 2147483647, 31000, 1. -/
theorem readLap_times_and_splits_witness :
    ∃ lap rest,
      readLap.run (lapWire 90001 5 0 [30000, 2147483647, 31000, 1] 0 1 0 0 ++ [])
        = .ok (lap, rest) ∧
      (lap.LaptimeMS = none ↔ (90001 : Int) = 2147483647) ∧
      ((90001 : Int) ≠ 2147483647 → lap.LaptimeMS = some 90001) ∧
      lap.Splits = [expectedSlot [30000, 2147483647, 31000, 1] 0,
                    expectedSlot [30000, 2147483647, 31000, 1] 1,
                    expectedSlot [30000, 2147483647, 31000, 1] 2] ∧
      lap.Splits.length = 3 :=
  readLap_times_and_splits 90001 5 0 [30000, 2147483647, 31000, 1] 0 1 0 0 []
    (by decide) (by decide) (by decide) (by decide) (by decide)

/-- For a record with at most three splits `readLap` consumes the record and nothing
else, and returns the four flags of the record. -/
theorem readLap_consumes_record_upto_three (lapTime : Int) (carIndex driverIndex : Nat)
    (splits : List Int) (f1 f2 f3 f4 : Byte) (tail : List Byte)
    (hT : -2147483648 ≤ lapTime ∧ lapTime ≤ 2147483647)
    (hcar : carIndex < 65536) (hdrv : driverIndex < 65536)
    (hs : ∀ s ∈ splits, -2147483648 ≤ s ∧ s ≤ 2147483647) (hk : splits.length ≤ 3) :
    ∃ lap,
      readLap.run (lapWire lapTime carIndex driverIndex splits f1 f2 f3 f4 ++ tail)
        = .ok (lap, tail) ∧
      lap.IsInvalid = decide (f1.val > 0) ∧ lap.IsValidForBest = decide (f2.val > 0) ∧
      lap.Type_ = (if f3.val > 0 then LapType.Outlap
                   else if f4.val > 0 then LapType.Inlap else LapType.Regular) := by
  rw [readLap_wire lapTime carIndex driverIndex splits f1 f2 f3 f4 tail hT hcar hdrv hs
    (by omega)]
  rw [List.drop_eq_nil_of_le hk]
  exact ⟨_, readLapFlags_run _ f1 f2 f3 f4 tail, rfl, rfl, rfl⟩

/-- C8, the code at a record with four splits. The record below is 13 + 4 * 4 = 29
bytes long with flags invalid 0, valid-for-best 1, outlap 0, inlap 0, and is followed
by one byte `AA`. `readLap` stops after 25 bytes: it takes the four bytes of the
fourth split (`01 00 00 00`) for the flags, so it reports the lap as invalid and not
valid for best, and leaves the four flag bytes of the record unread. -/
theorem readLap_four_splits_misaligned :
    (lapWire 90001 5 0 [30000, 30000, 30000, 1] 0 1 0 0).length = 13 + 4 * 4 ∧
    readLap.run (lapWire 90001 5 0 [30000, 30000, 30000, 1] 0 1 0 0 ++ [0xAA])
      = .ok ({ LaptimeMS := some 90001, Splits := [some 30000, some 30000, some 30000],
               CarIndex := 5, DriverIndex := 0, IsInvalid := true, IsValidForBest := false,
               Type_ := LapType.Regular },
             [0, 1, 0, 0, 0xAA]) :=
  ⟨by decide, rfl⟩

/-- C7, the code at a truncated frame. The realtime-car-update frame below is laid out
as the wire format prescribes, its current lap carrying four splits; the frame
without its last byte is a proper, non-empty prefix of it. Because `readLap` stops
four bytes before the end of such a record, `ProcessMessage` accepts the truncated
frame: it returns no error, sends a request-entry-list frame and moves the time of
the last request. -/
theorem truncated_four_split_frame_accepted :
    frameRealtimeCarUpdateFourSplits
      = frameRealtimeCarUpdateFourSplits.dropLast ++ [0] ∧
    frameRealtimeCarUpdateFourSplits.dropLast ≠ [] ∧
    (ProcessMessage exampleEngine 2000000000 frameRealtimeCarUpdateFourSplits.dropLast).err
      = none ∧
    (ProcessMessage exampleEngine 2000000000 frameRealtimeCarUpdateFourSplits.dropLast).sent
      = [[0x0A, 0, 0, 0, 0]] ∧
    (ProcessMessage exampleEngine 2000000000
        frameRealtimeCarUpdateFourSplits.dropLast).state.lastEntryListRequest
      ≠ exampleEngine.lastEntryListRequest := by
  decide

/-! ## Registration request: layout and decoding -/

theorem marshalRegistrationRequest_layout (displayName connectionPassword : List Byte)
    (msRealtimeUpdateInterval : Int) (commandPassword : List Byte) :
    MarshalRegistrationRequest displayName connectionPassword msRealtimeUpdateInterval
        commandPassword
      = .ok ([0x01, 0x04] ++ (putUint16 (displayName.length % 65536) ++ (displayName
          ++ (putUint16 (connectionPassword.length % 65536) ++ (connectionPassword
          ++ (putInt32 msRealtimeUpdateInterval
          ++ (putUint16 (commandPassword.length % 65536) ++ commandPassword))))))) := by
  simp only [MarshalRegistrationRequest, writeUint8, writeString, writeInt32, bind,
    Except.bind, pure, Except.pure, List.nil_append, List.append_assoc]
  rfl

theorem readString_putString (s rest : List Byte) (h : s.length ≤ 65535) :
    readString.run (putUint16 s.length ++ (s ++ rest)) = .ok (s, rest) := by
  unfold readString
  rw [run_bind_ok _ _ _ _ _ (readUint16_putUint16 _ _ (by omega))]
  exact readBytes_append s rest

/-- C11. For strings of at most 65535 bytes and an int32 interval,
`MarshalRegistrationRequest` returns byte 1, byte 4, the display name, the connection
password, the interval as little-endian int32 and the command password, each string
as its little-endian uint16 length followed by its bytes; reading that frame back
with `readUint8`, `readString` and `readInt32` consumes it entirely and returns the
four arguments. -/
theorem registration_request_roundtrip (displayName connectionPassword : List Byte)
    (msRealtimeUpdateInterval : Int) (commandPassword : List Byte)
    (hdn : displayName.length ≤ 65535) (hcp : connectionPassword.length ≤ 65535)
    (hcmd : commandPassword.length ≤ 65535)
    (hms : -2147483648 ≤ msRealtimeUpdateInterval ∧ msRealtimeUpdateInterval ≤ 2147483647) :
    MarshalRegistrationRequest displayName connectionPassword msRealtimeUpdateInterval
        commandPassword
      = .ok ([0x01, 0x04] ++ putUint16 displayName.length ++ displayName
          ++ putUint16 connectionPassword.length ++ connectionPassword
          ++ putInt32 msRealtimeUpdateInterval
          ++ putUint16 commandPassword.length ++ commandPassword) ∧
    decodeRegistrationRequest.run
        ([0x01, 0x04] ++ putUint16 displayName.length ++ displayName
          ++ putUint16 connectionPassword.length ++ connectionPassword
          ++ putInt32 msRealtimeUpdateInterval
          ++ putUint16 commandPassword.length ++ commandPassword)
      = .ok ((1, 4, displayName, connectionPassword, msRealtimeUpdateInterval,
              commandPassword), []) := by
  constructor
  · rw [marshalRegistrationRequest_layout, Nat.mod_eq_of_lt (by omega : displayName.length < 65536),
      Nat.mod_eq_of_lt (by omega : connectionPassword.length < 65536),
      Nat.mod_eq_of_lt (by omega : commandPassword.length < 65536)]
    simp only [List.append_assoc]
  · unfold decodeRegistrationRequest
    simp only [List.append_assoc, List.cons_append, List.nil_append]
    rw [run_bind_ok _ _ _ _ _ (readUint8_cons _ _), run_bind_ok _ _ _ _ _ (readUint8_cons _ _),
      run_bind_ok _ _ _ _ _ (readString_putString displayName _ hdn),
      run_bind_ok _ _ _ _ _ (readString_putString connectionPassword _ hcp),
      run_bind_ok _ _ _ _ _ (readInt32_putInt32 msRealtimeUpdateInterval _ hms)]
    have hlast := readString_putString commandPassword [] hcmd
    rw [List.append_nil] at hlast
    rw [run_bind_ok _ _ _ _ _ hlast]
    rfl

/-- Witness for C11: name "AB", empty connection password, interval 250, command
password "C". -/
theorem registration_request_roundtrip_witness :
    MarshalRegistrationRequest [0x41, 0x42] [] 250 [0x43]
      = .ok [1, 4, 2, 0, 0x41, 0x42, 0, 0, 0xFA, 0, 0, 0, 1, 0, 0x43] ∧
    decodeRegistrationRequest.run [1, 4, 2, 0, 0x41, 0x42, 0, 0, 0xFA, 0, 0, 0, 1, 0, 0x43]
      = .ok ((1, 4, [0x41, 0x42], [], 250, [0x43]), []) :=
  registration_request_roundtrip [0x41, 0x42] [] 250 [0x43] (by decide) (by decide)
    (by decide) (by decide)

/-! ## Entry list -/

theorem flatMap_cons_putUint16 (a : Nat) (l : List Nat) :
    (a :: l).flatMap putUint16 = putUint16 a ++ l.flatMap putUint16 := by
  simp [List.flatMap]

theorem readCarIndexes_wire (L : List Nat) (rest : List Byte) (h : ∀ i ∈ L, i ≤ 10000) :
    (readCarIndexes L.length).run (L.flatMap putUint16 ++ rest) = .ok (L, rest) := by
  induction L with
  | nil => rfl
  | cons a l ih =>
    have ha : a ≤ 10000 := h a (by simp)
    rw [flatMap_cons_putUint16, List.append_assoc]
    show (readCarIndexes (l.length + 1)).run _ = _
    unfold readCarIndexes
    rw [run_bind_ok _ _ _ _ _ (readUint16_putUint16 a _ (by omega))]
    have hv : (liftE (ValidateCarIndex a)).run (l.flatMap putUint16 ++ rest)
        = .ok ((), l.flatMap putUint16 ++ rest) := by
      unfold ValidateCarIndex
      rw [if_neg (by omega)]
      rfl
    rw [run_bind_ok _ _ _ _ _ hv,
      run_bind_ok _ _ _ _ _ (ih (fun i hi => h i (List.mem_cons_of_mem a hi)))]
    rfl

theorem storePlaceholders_eq (L : List Nat) :
    ∀ (cars : Nat → Option CarInfo) (k : Nat),
      storePlaceholders cars L k = if k ∈ L then some { CarIndex := k } else cars k := by
  induction L with
  | nil => intro cars k; simp [storePlaceholders]
  | cons a l ih =>
    intro cars k
    show storePlaceholders _ l k = _
    rw [ih]
    by_cases hk : k ∈ l
    · rw [if_pos hk, if_pos (List.mem_cons_of_mem a hk)]
    · rw [if_neg hk]
      by_cases hka : k = a
      · rw [if_pos hka, if_pos (by rw [hka]; exact List.mem_cons_self a l), hka]
      · rw [if_neg hka, if_neg (by simp [hka, hk])]

/-- C12. Whatever the cache held before, an entry-list frame listing the car indices
`L` (at most 200 of them, each one a valid index) is accepted, invokes no callback
and sends no frame; afterwards the cache has a key `k` exactly when `k` is in `L`, and
the descriptor under `k` is the placeholder that carries index `k`, no driver and
zero in every other field. -/
theorem entryList_resets_cache (p : Protocol) (now : Int) (connectionId : Int)
    (L : List Nat)
    (hid : -2147483648 ≤ connectionId ∧ connectionId ≤ 2147483647)
    (hlen : L.length ≤ 200) (hidx : ∀ i ∈ L, i ≤ 10000) :
    (ProcessMessage p now
        (0x04 :: (putInt32 connectionId ++ putUint16 L.length ++ L.flatMap putUint16))).err
      = none ∧
    (ProcessMessage p now
        (0x04 :: (putInt32 connectionId ++ putUint16 L.length ++ L.flatMap putUint16))).events
      = [] ∧
    (ProcessMessage p now
        (0x04 :: (putInt32 connectionId ++ putUint16 L.length ++ L.flatMap putUint16))).sent
      = [] ∧
    ∀ k, (ProcessMessage p now
        (0x04 :: (putInt32 connectionId ++ putUint16 L.length
          ++ L.flatMap putUint16))).state.entryListCars k
      = if k ∈ L then some { CarIndex := k, Drivers := [] } else none := by
  have hP : ProcessMessage p now
      (0x04 :: (putInt32 connectionId ++ putUint16 L.length ++ L.flatMap putUint16))
      = handleEntryList p (putInt32 connectionId ++ putUint16 L.length ++ L.flatMap putUint16) := by
    rw [processMessage_cons]
    rfl
  have hrun : UnmarshalEntryList.run
      (putInt32 connectionId ++ putUint16 L.length ++ L.flatMap putUint16)
      = .ok ((connectionId, L), []) := by
    unfold UnmarshalEntryList
    rw [List.append_assoc, run_bind_ok _ _ _ _ _ (readInt32_putInt32 connectionId _ hid),
      run_bind_ok _ _ _ _ _ (readUint16_putUint16 L.length _ (by omega)),
      if_neg (by omega)]
    have hr := readCarIndexes_wire L [] hidx
    rw [List.append_nil] at hr
    rw [run_bind_ok _ _ _ _ _ hr]
    rfl
  rw [hP]
  unfold handleEntryList
  rw [hrun]
  refine ⟨rfl, rfl, rfl, fun k => ?_⟩
  exact storePlaceholders_eq L _ k

/-- Witness for C12: the entry list of cars 5 and 9 fed to an engine whose cache holds
the descriptor of car 5. -/
theorem entryList_resets_cache_witness :
    (ProcessMessage (feed exampleEngine [(0, frameEntryListCar5)]) 0 frameEntryList5And9).err
      = none ∧
    (ProcessMessage (feed exampleEngine [(0, frameEntryListCar5)]) 0
        frameEntryList5And9).events = [] ∧
    (ProcessMessage (feed exampleEngine [(0, frameEntryListCar5)]) 0
        frameEntryList5And9).sent = [] ∧
    ∀ k, (ProcessMessage (feed exampleEngine [(0, frameEntryListCar5)]) 0
        frameEntryList5And9).state.entryListCars k
      = if k ∈ [5, 9] then some { CarIndex := k, Drivers := [] } else none :=
  entryList_resets_cache (feed exampleEngine [(0, frameEntryListCar5)]) 0 42 [5, 9]
    (by decide) (by decide) (by decide)

/-! ## Entry-list car: validated fields -/

theorem run_bind_inv {α β : Type} (a : Reader α) (f : α → Reader β) (d : List Byte) (v : β)
    (rest : List Byte) (h : (a >>= f).run d = .ok (v, rest)) :
    ∃ x d', a.run d = .ok (x, d') ∧ (f x).run d' = .ok (v, rest) := by
  cases ha : a.run d with
  | error e =>
    rw [run_bind_error a f d e ha] at h
    cases h
  | ok r =>
    obtain ⟨x, d'⟩ := r
    rw [run_bind_ok a f d d' x ha] at h
    exact ⟨x, d', rfl, h⟩

theorem run_pure_inv {α : Type} (a v : α) (d rest : List Byte)
    (h : (pure a : Reader α).run d = .ok (v, rest)) : v = a ∧ rest = d := by
  have h' : (Except.ok (a, d) : Except Error (α × List Byte)) = .ok (v, rest) := h
  injection h' with h'
  injection h' with h1 h2
  exact ⟨h1.symm, h2.symm⟩

theorem run_fail_inv {α : Type} (e : Error) (v : α) (d rest : List Byte)
    (h : (fail e : Reader α).run d = .ok (v, rest)) : False := by
  cases h

theorem readDrivers_length (n : Nat) :
    ∀ (d : List Byte) (drivers : List DriverInfo) (rest : List Byte),
      (readDrivers n).run d = .ok (drivers, rest) → drivers.length = n := by
  induction n with
  | zero =>
    intro d drivers rest h
    obtain ⟨h1, _⟩ := run_pure_inv _ _ _ _ h
    rw [h1]
    rfl
  | succ n ih =>
    intro d drivers rest h
    unfold readDrivers at h
    obtain ⟨firstName, d1, _, h⟩ := run_bind_inv _ _ _ _ _ h
    obtain ⟨lastName, d2, _, h⟩ := run_bind_inv _ _ _ _ _ h
    obtain ⟨shortName, d3, _, h⟩ := run_bind_inv _ _ _ _ _ h
    obtain ⟨category, d4, _, h⟩ := run_bind_inv _ _ _ _ _ h
    obtain ⟨_, d5, _, h⟩ := run_bind_inv _ _ _ _ _ h
    obtain ⟨driverNationality, d6, _, h⟩ := run_bind_inv _ _ _ _ _ h
    obtain ⟨tail, d7, htail, h⟩ := run_bind_inv _ _ _ _ _ h
    obtain ⟨h1, _⟩ := run_pure_inv _ _ _ _ h
    rw [h1, List.length_cons, ih d6 tail d7 htail]

/-- C13. A car that `UnmarshalEntryListCar` returns without error has a cup category
of at most 4, between 1 and 10 drivers and a current driver index below the number
of drivers, so `GetCurrentDriver` on it is not nil; no accepted frame has zero
drivers. -/
theorem unmarshalEntryListCar_validated (d rest : List Byte) (car : CarInfo)
    (h : UnmarshalEntryListCar.run d = .ok (car, rest)) :
    car.CupCategory ≤ 4 ∧ 1 ≤ car.Drivers.length ∧ car.Drivers.length ≤ 10 ∧
    car.CurrentDriverIndex < car.Drivers.length ∧
    (∃ driver, GetCurrentDriver car = some driver) := by
  unfold UnmarshalEntryListCar at h
  obtain ⟨carIndex, d1, _, h⟩ := run_bind_inv _ _ _ _ _ h
  obtain ⟨_, d2, _, h⟩ := run_bind_inv _ _ _ _ _ h
  obtain ⟨carModelType, d3, _, h⟩ := run_bind_inv _ _ _ _ _ h
  obtain ⟨teamName, d4, _, h⟩ := run_bind_inv _ _ _ _ _ h
  obtain ⟨raceNumber, d5, _, h⟩ := run_bind_inv _ _ _ _ _ h
  obtain ⟨cupCategory, d6, _, h⟩ := run_bind_inv _ _ _ _ _ h
  by_cases hcup : cupCategory > 4
  · rw [if_pos hcup] at h
    exact (run_fail_inv _ _ _ _ h).elim
  rw [if_neg hcup] at h
  obtain ⟨currentDriverIndex, d7, _, h⟩ := run_bind_inv _ _ _ _ _ h
  obtain ⟨nationality, d8, _, h⟩ := run_bind_inv _ _ _ _ _ h
  obtain ⟨driverCount, d9, _, h⟩ := run_bind_inv _ _ _ _ _ h
  by_cases hcount : driverCount > 10
  · rw [if_pos hcount] at h
    exact (run_fail_inv _ _ _ _ h).elim
  rw [if_neg hcount] at h
  by_cases hcur : currentDriverIndex ≥ driverCount
  · rw [if_pos hcur] at h
    exact (run_fail_inv _ _ _ _ h).elim
  rw [if_neg hcur] at h
  obtain ⟨drivers, d10, hdrivers, h⟩ := run_bind_inv _ _ _ _ _ h
  obtain ⟨hcar, _⟩ := run_pure_inv _ _ _ _ h
  have hlen := readDrivers_length driverCount d9 drivers d10 hdrivers
  subst hcar
  simp only
  have hidx : currentDriverIndex < drivers.length := by omega
  refine ⟨by omega, by omega, by omega, hidx, ?_⟩
  unfold GetCurrentDriver
  simp only
  rw [if_pos hidx]
  exact ⟨drivers[currentDriverIndex], List.getElem?_eq_getElem hidx⟩

/-- Witness for C13: the entry-list-car frame of car 5 with its single driver. -/
theorem unmarshalEntryListCar_validated_witness :
    ∃ car rest, UnmarshalEntryListCar.run (frameEntryListCar5.drop 1) = .ok (car, rest) ∧
      car.CupCategory ≤ 4 ∧ 1 ≤ car.Drivers.length ∧ car.Drivers.length ≤ 10 ∧
      car.CurrentDriverIndex < car.Drivers.length ∧
      (∃ driver, GetCurrentDriver car = some driver) :=
  ⟨_, _, rfl, unmarshalEntryListCar_validated (frameEntryListCar5.drop 1) _ _ rfl⟩

/-- A frame that declares zero drivers is rejected with a validation error, whatever
its other fields and whatever follows. -/
theorem unmarshalEntryListCar_zero_drivers (carIndex : Nat) (carModelType : Byte)
    (teamName : List Byte) (raceNumber : Int) (cupCategory currentDriverIndex : Byte)
    (nationality : Nat) (tail : List Byte)
    (hidx : carIndex ≤ 10000) (hteam : teamName.length ≤ 65535)
    (hrace : -2147483648 ≤ raceNumber ∧ raceNumber ≤ 2147483647)
    (hnat : nationality < 65536) :
    UnmarshalEntryListCar.run
        (putUint16 carIndex ++ (carModelType :: (putUint16 teamName.length ++ (teamName
          ++ (putInt32 raceNumber ++ (cupCategory :: currentDriverIndex
          :: (putUint16 nationality ++ (0 :: tail))))))))
      = .error Error.validation := by
  unfold UnmarshalEntryListCar
  rw [run_bind_ok _ _ _ _ _ (readUint16_putUint16 carIndex _ (by omega))]
  have hv : ∀ d, (liftE (ValidateCarIndex carIndex)).run d = .ok ((), d) := by
    intro d
    unfold ValidateCarIndex
    rw [if_neg (by omega)]
    rfl
  rw [run_bind_ok _ _ _ _ _ (hv _), run_bind_ok _ _ _ _ _ (readUint8_cons _ _),
    run_bind_ok _ _ _ _ _ (readString_putString teamName _ hteam),
    run_bind_ok _ _ _ _ _ (readInt32_putInt32 raceNumber _ hrace),
    run_bind_ok _ _ _ _ _ (readUint8_cons _ _)]
  by_cases hcup : cupCategory.val > 4
  · rw [if_pos hcup]
    rfl
  · rw [if_neg hcup, run_bind_ok _ _ _ _ _ (readUint8_cons _ _),
      run_bind_ok _ _ _ _ _ (readUint16_putUint16 nationality _ hnat),
      run_bind_ok _ _ _ _ _ (readUint8_cons _ _)]
    rw [if_neg (by decide),
      if_pos (show currentDriverIndex.val ≥ (0 : Byte).val from Nat.zero_le _)]
    rfl

/-! ## Driver category names -/

/-- C14, as the code behaves: decoding the entry-list-car frame of scenario S2, whose
single driver record carries category byte 02, yields a driver whose category value
is 2, and the value 2 is named "Gold"; the value named "Silver" is 1. -/
theorem driver_category_two_is_gold :
    (∃ car rest, UnmarshalEntryListCar.run (frameEntryListCar5.drop 1) = .ok (car, rest) ∧
      car.Drivers.map (fun driver => driver.Category) = [2]) ∧
    DriverCategoryString 2 = "Gold" ∧ DriverCategoryGold = 2 ∧
    DriverCategoryString 1 = "Silver" ∧ DriverCategorySilver = 1 :=
  ⟨⟨_, _, rfl, rfl⟩, rfl, rfl, rfl, rfl⟩

/-- Counterexample to C14 as stated: the name of driver-category value 2 is not
"Silver", and the constant `DriverCategorySilver` is not 2. -/
theorem driver_category_two_is_not_silver :
    DriverCategoryString 2 ≠ "Silver" ∧ DriverCategorySilver ≠ 2 := by
  decide

/-! ## Car index validation -/

theorem validateCarIndex_ok_iff (index : Nat) :
    ValidateCarIndex index = .ok () ↔ index ≤ 10000 := by
  unfold ValidateCarIndex
  by_cases h : index > 10000
  · rw [if_pos h]
    constructor
    · intro h'; cases h'
    · intro h'; omega
  · rw [if_neg h]
    constructor
    · intro _; omega
    · intro _; rfl

/-- C16, the code at index 10000: `ValidateCarIndex` returns no error for 10000,
which is outside the range 0..9999, and rejects 10001. -/
theorem validateCarIndex_accepts_10000 :
    ValidateCarIndex 10000 = .ok () ∧ ValidateCarIndex 10001 = .error Error.validation :=
  ⟨rfl, rfl⟩

/-- C17, counterexample: `ValidateCarIndex` returns no error for 0, 50 and 999, and
returns no error for 1000 and 2000 either, for which the test expects one. -/
theorem validateCarIndex_accepts_1000 :
    ValidateCarIndex 0 = .ok () ∧ ValidateCarIndex 50 = .ok () ∧
    ValidateCarIndex 999 = .ok () ∧ ValidateCarIndex 1000 = .ok () ∧
    ValidateCarIndex 2000 = .ok () :=
  ⟨rfl, rfl, rfl, rfl, rfl⟩

/-- C17, amended: `ValidateCarIndex` returns no error for every index of the range
0..9999, below 1000 or not, and returns an error for every index above 10000. -/
theorem validateCarIndex_valid_range (index : Nat) :
    (index ≤ 9999 → ValidateCarIndex index = .ok ()) ∧
    (10000 < index → ValidateCarIndex index = .error Error.validation) := by
  constructor
  · intro h
    exact (validateCarIndex_ok_iff index).mpr (by omega)
  · intro h
    unfold ValidateCarIndex
    rw [if_pos h]

theorem validateCarIndex_valid_range_witness :
    ValidateCarIndex 1000 = .ok () ∧ ValidateCarIndex 20000 = .error Error.validation :=
  ⟨(validateCarIndex_valid_range 1000).1 (by decide),
    (validateCarIndex_valid_range 20000).2 (by decide)⟩

/-! ## Broadcasting event -/

/-- C15, the code at car id 65541. The cache holds the descriptor of car 5 and no
key 65541; the broadcasting event with car id 65541 is dispatched with the descriptor
of car 5 attached, because the lookup key is the car id truncated to 16 bits. -/
theorem broadcastingEvent_truncated_car_id :
    (feed exampleEngine [(0, frameEntryListCar5)]).entryListCars 65541 = none ∧
    ∃ car, (ProcessMessage (feed exampleEngine [(0, frameEntryListCar5)]) 0
        frameBroadcastingEvent65541).events
      = [Event.BroadcastingEvent
          { Type_ := 4, Msg := [0x43, 0x6F, 0x6E, 0x74, 0x61, 0x63, 0x74], TimeMs := 20000,
            CarId := 65541, CarData := some car }] ∧
      car.CarIndex = 5 :=
  ⟨rfl, _, rfl, rfl⟩

/-- For a car id in 0..65535 and a cache whose descriptors carry the index they are
stored under, the dispatched event carries the cached descriptor of that car exactly
when there is one, and an attached descriptor has the car id as index. -/
theorem broadcastingEvent_in_range (p : Protocol) (now : Int) (body rest : List Byte)
    (event : BroadcastingEvent)
    (hcache : ∀ k info, p.entryListCars k = some info → info.CarIndex = k)
    (hOn : p.OnBroadcastingEvent = true)
    (hrun : UnmarshalBroadcastingEvent.run body = .ok (event, rest))
    (hid : 0 ≤ event.CarId ∧ event.CarId ≤ 65535) :
    (ProcessMessage p now (0x07 :: body)).events
      = [Event.BroadcastingEvent
          { event with CarData := p.entryListCars event.CarId.toNat }] ∧
    ∀ info, p.entryListCars event.CarId.toNat = some info →
      (info.CarIndex : Int) = event.CarId := by
  have hP : ProcessMessage p now (0x07 :: body) = handleBroadcastingEvent p body := by
    rw [processMessage_cons]
    rfl
  have hkey : (event.CarId % 65536).toNat = event.CarId.toNat := by
    rw [Int.emod_eq_of_lt hid.1 (by omega)]
  have hnil : event.CarData = none := by
    unfold UnmarshalBroadcastingEvent at hrun
    obtain ⟨_, _, _, hrun⟩ := run_bind_inv _ _ _ _ _ hrun
    obtain ⟨_, _, _, hrun⟩ := run_bind_inv _ _ _ _ _ hrun
    obtain ⟨_, _, _, hrun⟩ := run_bind_inv _ _ _ _ _ hrun
    obtain ⟨_, _, _, hrun⟩ := run_bind_inv _ _ _ _ _ hrun
    obtain ⟨h1, _⟩ := run_pure_inv _ _ _ _ hrun
    rw [h1]
  constructor
  · rw [hP]
    unfold handleBroadcastingEvent
    rw [hrun]
    simp only [hOn, if_true, hkey]
    cases hc : p.entryListCars event.CarId.toNat with
    | none =>
      simp only
      congr 2
      cases event
      simp only at hnil
      subst hnil
      rfl
    | some info => rfl
  · intro info hinfo
    rw [hcache _ info hinfo]
    omega

end Broadcast

namespace Gaps

/-! ## Update of the checkpoint stamps -/

theorem updateLoop_getElem? (totalGaps : Int) (splinePosition : Flt) (now : Int) (j : Nat) :
    ∀ (fuel i : Nat) (data : List (Option Int)), ((i + fuel : Nat) : Int) ≤ totalGaps →
      (updateLoop totalGaps splinePosition now fuel i data)[j]?
        = if i ≤ j ∧ j < i + fuel ∧ inWindow totalGaps j splinePosition = true
          then (data[j]?).map (stamp now) else data[j]? := by
  intro fuel
  induction fuel with
  | zero =>
    intro i data _
    have : ¬ (i ≤ j ∧ j < i + 0 ∧ inWindow totalGaps j splinePosition = true) := by omega
    rw [if_neg this]
    rfl
  | succ fuel ih =>
    intro i data hle
    have hi : (i : Int) < totalGaps := by omega
    unfold updateLoop
    rw [if_pos hi, ih (i + 1) _ (by omega)]
    by_cases hji : j = i
    · subst hji
      have h1 : ¬ (j + 1 ≤ j ∧ j < j + 1 + fuel ∧ inWindow totalGaps j splinePosition = true) := by
        omega
      rw [if_neg h1]
      by_cases hw : inWindow totalGaps j splinePosition = true
      · rw [if_pos hw, if_pos ⟨Nat.le_refl j, by omega, hw⟩]
        cases hd : data[j]? with
        | none => simp [hd]
        | some old =>
          have hlt : j < data.length := by
            rcases Nat.lt_or_ge j data.length with h | h
            · exact h
            · rw [List.getElem?_eq_none h] at hd
              cases hd
          simp [List.getElem?_set_self hlt]
      · rw [if_neg hw, if_neg (fun h => hw h.2.2)]
    · have hset : (if inWindow totalGaps i splinePosition = true then
            match data[i]? with
            | some old => data.set i (stamp now old)
            | none => data
          else data)[j]? = data[j]? := by
        split
        · split
          · exact List.getElem?_set_ne (fun h => hji h.symm)
          · rfl
        · rfl
      rw [hset]
      by_cases hc : i ≤ j ∧ j < i + (fuel + 1) ∧ inWindow totalGaps j splinePosition = true
      · rw [if_pos hc, if_pos ⟨by omega, by omega, hc.2.2⟩]
      · rw [if_neg hc, if_neg (fun h => hc ⟨by omega, by omega, h.2.2⟩)]

/-- The array of a car before an update: the stored one, or a fresh array of unset
stamps when the car is new. -/
theorem updateCarPosition_gapData (gt : GapTracker) (now : Int) (carIndex : Nat)
    (splinePosition : Flt) (h : 0 < gt.totalGaps) (k : Nat) :
    (UpdateCarPosition gt now carIndex splinePosition).gapData k
      = if k = carIndex then
          some (updateLoop gt.totalGaps splinePosition now gt.totalGaps.toNat 0
            (match gt.gapData carIndex with
              | some data => data
              | none => List.replicate gt.totalGaps.toNat none))
        else gt.gapData k := by
  unfold UpdateCarPosition
  rw [if_neg (by omega)]

theorem passedAt_update (gt : GapTracker) (now : Int) (carIndex : Nat) (splinePosition : Flt)
    (i : Nat) (hN : 0 < gt.totalGaps) (hi : (i : Int) < gt.totalGaps)
    (hwf : ∀ data, gt.gapData carIndex = some data → data.length = gt.totalGaps.toNat) :
    passedAt (UpdateCarPosition gt now carIndex splinePosition) carIndex i
      = if inWindow gt.totalGaps i splinePosition = true
        then stamp now (passedAt gt carIndex i) else passedAt gt carIndex i := by
  have hiN : i < gt.totalGaps.toNat := by omega
  unfold passedAt
  rw [updateCarPosition_gapData gt now carIndex splinePosition hN, if_pos rfl]
  simp only
  rw [updateLoop_getElem? gt.totalGaps splinePosition now i gt.totalGaps.toNat 0 _ (by omega)]
  cases hd : gt.gapData carIndex with
  | none =>
    simp only
    have hrep : (List.replicate gt.totalGaps.toNat (none : Option Int))[i]? = some none := by
      rw [List.getElem?_replicate]
      simp [hiN]
    rw [hrep]
    by_cases hw : inWindow gt.totalGaps i splinePosition = true
    · rw [if_pos ⟨Nat.zero_le i, by omega, hw⟩, if_pos hw]
      rfl
    · rw [if_neg (fun h => hw h.2.2), if_neg hw]
      rfl
  | some data =>
    simp only
    have hlen := hwf data hd
    have hget : data[i]? = some data[i] := List.getElem?_eq_getElem (by omega)
    rw [hget]
    by_cases hw : inWindow gt.totalGaps i splinePosition = true
    · rw [if_pos ⟨Nat.zero_le i, by omega, hw⟩, if_pos hw]
      rfl
    · rw [if_neg (fun h => hw h.2.2), if_neg hw]

/-- C19, amended. With `N` checkpoints, an update of a car at clock reading `now`
leaves the stamp of checkpoint `i` as it was when it is set and at most 60 s old; it
sets it to `now` when the spline position passes the `float32` window test of
checkpoint `i` (strictly between `float32(i) * gapStep` and that plus `gapStep * 1.5`,
each operation rounded to `float32`) and the stamp is unset or more than 60 s old, and
leaves it as it was in every other case; the arrays of all other cars are untouched. -/
theorem updateCarPosition_stamps (gt : GapTracker) (now : Int) (carIndex : Nat)
    (splinePosition : Flt) (i : Nat) (hN : 0 < gt.totalGaps) (hi : (i : Int) < gt.totalGaps)
    (hwf : ∀ data, gt.gapData carIndex = some data → data.length = gt.totalGaps.toNat) :
    (∀ t, passedAt gt carIndex i = some t → now - t ≤ Minute →
      passedAt (UpdateCarPosition gt now carIndex splinePosition) carIndex i = some t) ∧
    (inWindow gt.totalGaps i splinePosition = true ∧
        (passedAt gt carIndex i = none ∨
          ∃ t, passedAt gt carIndex i = some t ∧ now - t > Minute) →
      passedAt (UpdateCarPosition gt now carIndex splinePosition) carIndex i = some now) ∧
    (¬ (inWindow gt.totalGaps i splinePosition = true ∧
        (passedAt gt carIndex i = none ∨
          ∃ t, passedAt gt carIndex i = some t ∧ now - t > Minute)) →
      passedAt (UpdateCarPosition gt now carIndex splinePosition) carIndex i
        = passedAt gt carIndex i) ∧
    ∀ other, other ≠ carIndex →
      (UpdateCarPosition gt now carIndex splinePosition).gapData other = gt.gapData other := by
  have key := passedAt_update gt now carIndex splinePosition i hN hi hwf
  refine ⟨?_, ?_, ?_, ?_⟩
  · intro t ht hage
    rw [key, ht]
    split
    · unfold stamp
      simp only
      rw [if_neg (by omega)]
    · rfl
  · rintro ⟨hw, hold⟩
    rw [key, if_pos hw]
    rcases hold with hnone | ⟨t, ht, hage⟩
    · rw [hnone]
      rfl
    · rw [ht]
      unfold stamp
      simp only
      rw [if_pos hage]
  · intro hnot
    rw [key]
    by_cases hw : inWindow gt.totalGaps i splinePosition = true
    · rw [if_pos hw]
      cases hp : passedAt gt carIndex i with
      | none => exact absurd ⟨hw, Or.inl hp⟩ hnot
      | some t =>
        unfold stamp
        simp only
        rw [if_neg (fun hage => hnot ⟨hw, Or.inr ⟨t, hp, hage⟩⟩)]
    · rw [if_neg hw]
  · intro other hother
    rw [updateCarPosition_gapData gt now carIndex splinePosition hN, if_neg hother]

set_option maxRecDepth 1000000 in
/-- Witness for C19: on the tracker of scenario S4, car 1 is seen again at spline
0.100 two seconds after its first sample; checkpoint 10, stamped at time 0, keeps
its stamp, and the array of car 2 is untouched. -/
theorem updateCarPosition_stamps_witness :
    (∀ t, passedAt trackerS4 1 10 = some t → 2000000000 - t ≤ Minute →
      passedAt (UpdateCarPosition trackerS4 2000000000 1 (float32Const 1 10)) 1 10 = some t) ∧
    (inWindow trackerS4.totalGaps 10 (float32Const 1 10) = true ∧
        (passedAt trackerS4 1 10 = none ∨
          ∃ t, passedAt trackerS4 1 10 = some t ∧ 2000000000 - t > Minute) →
      passedAt (UpdateCarPosition trackerS4 2000000000 1 (float32Const 1 10)) 1 10
        = some 2000000000) ∧
    (¬ (inWindow trackerS4.totalGaps 10 (float32Const 1 10) = true ∧
        (passedAt trackerS4 1 10 = none ∨
          ∃ t, passedAt trackerS4 1 10 = some t ∧ 2000000000 - t > Minute)) →
      passedAt (UpdateCarPosition trackerS4 2000000000 1 (float32Const 1 10)) 1 10
        = passedAt trackerS4 1 10) ∧
    ∀ other, other ≠ 1 →
      (UpdateCarPosition trackerS4 2000000000 1 (float32Const 1 10)).gapData other
        = trackerS4.gapData other :=
  updateCarPosition_stamps trackerS4 2000000000 1 (float32Const 1 10) 10 (by decide)
    (by decide) (by
      intro data hdata
      have h : trackerS4.gapData 1 = some (List.replicate 9 none ++ [some 0, some 0]
          ++ List.replicate 89 none) := by decide
      rw [h] at hdata
      injection hdata with hdata
      rw [← hdata]
      decide)

/-! ## The time-gap query -/

theorem attempt_eq (gt : GapTracker) (currentCarIndex : Nat) (spline : Flt)
    (carAheadIndex : Nat) (hN : 0 < gt.totalGaps) (gapsA gapsB : List (Option Int))
    (hA : gt.gapData currentCarIndex = some gapsA)
    (hB : gt.gapData carAheadIndex = some gapsB) :
    attempt gt currentCarIndex spline carAheadIndex
      = match passedAt gt currentCarIndex (estimatedIndex gt.totalGaps spline).toNat,
              passedAt gt carAheadIndex (estimatedIndex gt.totalGaps spline).toNat with
        | some passedAtA, some passedAtB =>
          if passedAtA - passedAtB ≥ 0 then
            Attempt.result (secondsFloat32 (passedAtA - passedAtB))
          else Attempt.negative
        | _, _ => Attempt.result minusOne := by
  unfold attempt passedAt
  rw [if_neg (by omega), hA, hB]
  simp only
  cases h1 : gapsA[(estimatedIndex gt.totalGaps spline).toNat]? with
  | none => rfl
  | some a =>
    cases a with
    | none => rfl
    | some passedAtA =>
      cases h2 : gapsB[(estimatedIndex gt.totalGaps spline).toNat]? with
      | none => rfl
      | some b =>
        cases b with
        | none => rfl
        | some passedAtB => rfl

theorem estimatedIndex_range (totalGaps : Int) (spline : Flt) (hN : 0 < totalGaps) :
    0 ≤ estimatedIndex totalGaps spline ∧ estimatedIndex totalGaps spline < totalGaps := by
  unfold estimatedIndex
  simp only
  split <;> split <;> omega

/-- C20, as the code behaves. With `N > 0` checkpoints and both cars known, let `i` be
the index estimated from the spline of the car behind. If a stamp is missing at `i`
the query returns -1 at once, without a retry; if both stamps exist and the
difference is not negative it returns the difference in seconds; if the difference
is negative it retries once, at the index estimated from the spline minus `1 / N`
(clamped to `0 .. N - 1` like every estimated index), and returns the difference
found there when both stamps exist and it is not negative, and -1 otherwise. -/
theorem timeGapBetween_rule (gt : GapTracker) (currentCarIndex : Nat) (spline : Flt)
    (carAheadIndex : Nat) (hN : 0 < gt.totalGaps) (gapsA gapsB : List (Option Int))
    (hA : gt.gapData currentCarIndex = some gapsA)
    (hB : gt.gapData carAheadIndex = some gapsB) :
    ((passedAt gt currentCarIndex (estimatedIndex gt.totalGaps spline).toNat = none ∨
        passedAt gt carAheadIndex (estimatedIndex gt.totalGaps spline).toNat = none) →
      TimeGapBetween gt currentCarIndex spline carAheadIndex = minusOne) ∧
    (∀ tA tB,
      passedAt gt currentCarIndex (estimatedIndex gt.totalGaps spline).toNat = some tA →
      passedAt gt carAheadIndex (estimatedIndex gt.totalGaps spline).toNat = some tB →
      tA - tB ≥ 0 →
      TimeGapBetween gt currentCarIndex spline carAheadIndex = secondsFloat32 (tA - tB)) ∧
    (∀ tA tB,
      passedAt gt currentCarIndex (estimatedIndex gt.totalGaps spline).toNat = some tA →
      passedAt gt carAheadIndex (estimatedIndex gt.totalGaps spline).toNat = some tB →
      tA - tB < 0 →
      TimeGapBetween gt currentCarIndex spline carAheadIndex
        = match passedAt gt currentCarIndex
              (estimatedIndex gt.totalGaps (fsub 24 spline (gapStep gt.totalGaps))).toNat,
            passedAt gt carAheadIndex
              (estimatedIndex gt.totalGaps (fsub 24 spline (gapStep gt.totalGaps))).toNat with
          | some tA', some tB' =>
            if tA' - tB' ≥ 0 then secondsFloat32 (tA' - tB') else minusOne
          | _, _ => minusOne) ∧
    (0 ≤ estimatedIndex gt.totalGaps (fsub 24 spline (gapStep gt.totalGaps)) ∧
      estimatedIndex gt.totalGaps (fsub 24 spline (gapStep gt.totalGaps)) < gt.totalGaps) := by
  have h1 := attempt_eq gt currentCarIndex spline carAheadIndex hN gapsA gapsB hA hB
  have h2 := attempt_eq gt currentCarIndex (fsub 24 spline (gapStep gt.totalGaps))
    carAheadIndex hN gapsA gapsB hA hB
  refine ⟨?_, ?_, ?_, estimatedIndex_range _ _ hN⟩
  · intro hmiss
    unfold TimeGapBetween timeGapBetweenInternal
    rw [h1]
    rcases hmiss with h | h
    · rw [h]
    · rw [h]
      cases passedAt gt currentCarIndex (estimatedIndex gt.totalGaps spline).toNat <;> rfl
  · intro tA tB hA' hB' hge
    unfold TimeGapBetween timeGapBetweenInternal
    rw [h1, hA', hB']
    simp only
    rw [if_pos hge]
  · intro tA tB hA' hB' hlt
    unfold TimeGapBetween timeGapBetweenInternal
    rw [h1, hA', hB']
    simp only
    rw [if_neg (by omega), h2]
    simp only [Bool.not_false, if_true]
    cases passedAt gt currentCarIndex
        (estimatedIndex gt.totalGaps (fsub 24 spline (gapStep gt.totalGaps))).toNat with
    | none => rfl
    | some tA' =>
      cases passedAt gt carAheadIndex
          (estimatedIndex gt.totalGaps (fsub 24 spline (gapStep gt.totalGaps))).toNat with
      | none => rfl
      | some tB' =>
        by_cases hge : tA' - tB' ≥ 0
        · simp only [if_pos hge]
        · simp only [if_neg hge]

set_option maxRecDepth 1000000 in
/-- Witness for C20 as amended: on the tracker of scenario S4 both cars have a stamp
at the estimated index 10 and the query returns the difference of 1.237 s. -/
theorem timeGapBetween_rule_witness :
    TimeGapBetween trackerS4 2 (float32Const 1 10) 1 = secondsFloat32 (1237000000 - 0) :=
  (timeGapBetween_rule trackerS4 2 (float32Const 1 10) 1 (by decide) _ _ rfl rfl).2.1
    1237000000 0 (by decide) (by decide) (by decide)

set_option maxRecDepth 1000000 in
/-- Counterexample to C20 as stated, on a track of 100 checkpoints. First tracker:
both cars were seen at spline 0.5; the estimated index is 50, where no stamp exists,
while at index 49 both stamps exist with the car behind 1.237 s later; the query
returns -1 instead of retrying at 49. Second tracker: at the estimated index 0 the
difference is negative (7 s against 10 s), at index 99 both stamps exist with a
difference of 5 s; the retry is made at index 0 again and the query returns -1
instead of using checkpoint 99. -/
theorem timeGapBetween_no_retry_on_missing_no_wrap :
    (estimatedIndex trackerAtHalf.totalGaps (float32Const 1 2) = 50 ∧
      passedAt trackerAtHalf 2 50 = none ∧
      passedAt trackerAtHalf 2 49 = some 1237000000 ∧ passedAt trackerAtHalf 1 49 = some 0 ∧
      TimeGapBetween trackerAtHalf 2 (float32Const 1 2) 1 = minusOne) ∧
    (trackerWrap.totalGaps = 100 ∧
      estimatedIndex trackerWrap.totalGaps (float32Const 5 1000) = 0 ∧
      passedAt trackerWrap 2 0 = some 7000000000 ∧ passedAt trackerWrap 1 0 = some 10000000000 ∧
      passedAt trackerWrap 2 99 = some 5000000000 ∧ passedAt trackerWrap 1 99 = some 0 ∧
      estimatedIndex trackerWrap.totalGaps
        (fsub 24 (float32Const 5 1000) (gapStep trackerWrap.totalGaps)) = 0 ∧
      TimeGapBetween trackerWrap 2 (float32Const 5 1000) 1 = minusOne) := by
  decide

/-! ## Rounding error of the floating-point model -/

theorem log2Fuel_spec : ∀ (fuel n : Nat), n ≤ fuel → n ≠ 0 →
    2 ^ log2Fuel fuel n ≤ n ∧ n < 2 ^ (log2Fuel fuel n + 1) := by
  intro fuel
  induction fuel with
  | zero => intro n h1 h2; omega
  | succ fuel ih =>
    intro n h1 h2
    unfold log2Fuel
    by_cases h : n ≥ 2
    · rw [if_pos h]
      obtain ⟨ih1, ih2⟩ := ih (n / 2) (by omega) (by omega)
      rw [pow_succ] at ih2 ⊢
      constructor
      · omega
      · rw [pow_succ]
        omega
    · rw [if_neg h]
      simp
      omega

theorem log2_spec (n : Nat) (h : n ≠ 0) : 2 ^ log2 n ≤ n ∧ n < 2 ^ (log2 n + 1) :=
  log2Fuel_spec n n (Nat.le_refl n) h

theorem floorLog2_le (n d : Nat) (hn : 0 < n) (hd : 0 < d) :
    (2 : ℚ) ^ floorLog2 n d ≤ (n : ℚ) / (d : ℚ) := by
  have hdq : (0 : ℚ) < d := by exact_mod_cast hd
  obtain ⟨ha, _⟩ := log2_spec n (by omega)
  obtain ⟨_, hb⟩ := log2_spec d (by omega)
  unfold floorLog2
  by_cases hc : d * 2 ^ log2 n ≤ n * 2 ^ log2 d
  · rw [if_pos hc, zpow_sub₀ (by norm_num), zpow_natCast, zpow_natCast,
      div_le_div_iff₀ (by positivity) hdq]
    have : ((d * 2 ^ log2 n : Nat) : ℚ) ≤ ((n * 2 ^ log2 d : Nat) : ℚ) := by exact_mod_cast hc
    push_cast at this
    linarith
  · rw [if_neg hc, zpow_sub₀ (by norm_num), zpow_sub₀ (by norm_num), zpow_natCast,
      zpow_natCast, zpow_one, div_div, div_le_div_iff₀ (by positivity) hdq]
    have h1 : 2 ^ log2 n * d ≤ n * (2 ^ log2 d * 2) := by
      calc 2 ^ log2 n * d ≤ n * d := Nat.mul_le_mul_right d ha
        _ ≤ n * (2 ^ log2 d * 2) := by
          apply Nat.mul_le_mul_left
          rw [pow_succ] at hb
          omega
    have : ((2 ^ log2 n * d : Nat) : ℚ) ≤ ((n * (2 ^ log2 d * 2) : Nat) : ℚ) := by
      exact_mod_cast h1
    push_cast at this
    linarith

theorem two_zpow_toNat (e : Int) :
    ((2 : ℚ) ^ e.toNat) / ((2 : ℚ) ^ (-e).toNat) = (2 : ℚ) ^ e := by
  rcases le_total 0 e with h | h
  · have h1 : (-e).toNat = 0 := by omega
    rw [h1, pow_zero, div_one, ← zpow_natCast, Int.toNat_of_nonneg h]
  · have h1 : e.toNat = 0 := by omega
    have h2 : ((-e).toNat : Int) = -e := Int.toNat_of_nonneg (by omega)
    rw [h1, pow_zero, one_div, ← zpow_natCast, h2, zpow_neg, inv_inv]

theorem toRat_mk (m e : Int) : Flt.toRat { m := m, e := e } = (m : ℚ) * (2 : ℚ) ^ e := by
  unfold Flt.toRat Flt.num Flt.den
  simp only
  push_cast
  rw [mul_div_assoc, two_zpow_toNat]


/-- Rounding a quotient of naturals to the nearest integer is off by at most one half. -/
theorem nearest_error (a b : Nat) (hb : 0 < b) (up : Nat)
    (hup : up = if b < 2 * (a % b) ∨ (2 * (a % b) = b ∧ (a / b) % 2 = 1) then 1 else 0) :
    |(((a / b + up : Nat) : ℚ)) - (a : ℚ) / (b : ℚ)| ≤ 1 / 2 := by
  have hbq : (0 : ℚ) < b := by exact_mod_cast hb
  have hdm : (a : ℚ) = (b : ℚ) * ((a / b : Nat) : ℚ) + ((a % b : Nat) : ℚ) := by
    exact_mod_cast (Nat.div_add_mod a b).symm
  have hr : ((a % b : Nat) : ℚ) < b := by exact_mod_cast Nat.mod_lt a hb
  have hr0 : (0 : ℚ) ≤ ((a % b : Nat) : ℚ) := by positivity
  have hquot : (a : ℚ) / b = ((a / b : Nat) : ℚ) + ((a % b : Nat) : ℚ) / b := by
    rw [hdm]
    field_simp
    ring
  rw [hquot]
  push_cast
  by_cases hc : b < 2 * (a % b) ∨ (2 * (a % b) = b ∧ (a / b) % 2 = 1)
  · rw [if_pos hc] at hup
    subst hup
    have h2 : (b : ℚ) ≤ 2 * ((a % b : Nat) : ℚ) := by
      rcases hc with h | ⟨h, _⟩
      · have : ((b : Nat) : ℚ) < ((2 * (a % b) : Nat) : ℚ) := by exact_mod_cast h
        push_cast at this
        linarith
      · have : ((2 * (a % b) : Nat) : ℚ) = ((b : Nat) : ℚ) := by exact_mod_cast h
        push_cast at this
        linarith
    have h3 : (1 : ℚ) / 2 ≤ ((a % b : Nat) : ℚ) / b := by
      rw [div_le_div_iff₀ (by norm_num) hbq]
      linarith
    have h4 : ((a % b : Nat) : ℚ) / b < 1 := by
      rw [div_lt_one hbq]
      exact hr
    rw [abs_le]
    push_cast
    constructor <;> linarith
  · rw [if_neg hc] at hup
    subst hup
    have h2 : 2 * ((a % b : Nat) : ℚ) ≤ (b : ℚ) := by
      have : 2 * (a % b) ≤ b := by
        rcases Nat.lt_or_ge b (2 * (a % b)) with h | h
        · exact absurd (Or.inl h) hc
        · exact h
      have : ((2 * (a % b) : Nat) : ℚ) ≤ ((b : Nat) : ℚ) := by exact_mod_cast this
      push_cast at this
      linarith
    have h3 : ((a % b : Nat) : ℚ) / b ≤ 1 / 2 := by
      rw [div_le_div_iff₀ hbq (by norm_num)]
      linarith
    have h4 : (0 : ℚ) ≤ ((a % b : Nat) : ℚ) / b := by positivity
    rw [abs_le]
    push_cast
    constructor <;> linarith

/-- The result of `roundPos` is within half a unit in the last place of `n / d`. -/
theorem roundPos_error (p n d : Nat) (hd : 0 < d) :
    |(roundPos p n d).toRat - (n : ℚ) / (d : ℚ)|
      ≤ (2 : ℚ) ^ (floorLog2 n d - ((p : Int) - 1)) / 2 := by
  have hdq : (0 : ℚ) < d := by exact_mod_cast hd
  unfold roundPos
  simp only
  rw [toRat_mk, Int.cast_natCast]
  generalize hE : floorLog2 n d - ((p : Int) - 1) = e
  have hSn : (0 : ℚ) < (2 : ℚ) ^ (-e).toNat := by positivity
  have hSd : (0 : ℚ) < (2 : ℚ) ^ e.toNat := by positivity
  have hne := nearest_error (n * 2 ^ (-e).toNat) (d * 2 ^ e.toNat)
    (Nat.mul_pos hd (by positivity)) _ rfl
  have hscale : ((n * 2 ^ (-e).toNat : Nat) : ℚ) / ((d * 2 ^ e.toNat : Nat) : ℚ)
      = (n : ℚ) / d / (2 : ℚ) ^ e := by
    rw [← two_zpow_toNat e]
    push_cast
    field_simp
  rw [hscale] at hne
  have hpos : (0 : ℚ) < (2 : ℚ) ^ e := by positivity
  have hmul := mul_le_mul_of_nonneg_right hne (le_of_lt hpos)
  rw [← abs_of_pos hpos, ← abs_mul, abs_of_pos hpos, sub_mul, div_mul_cancel₀ _ (ne_of_gt hpos)]
    at hmul
  linarith


theorem roundPos_bound (p n d : Nat) (hn : 0 < n) (hd : 0 < d) (k : Int)
    (hlt : (n : ℚ) / (d : ℚ) < (2 : ℚ) ^ k) :
    |(roundPos p n d).toRat - (n : ℚ) / (d : ℚ)| ≤ (2 : ℚ) ^ (k - (p : Int)) := by
  have h1 := roundPos_error p n d hd
  have h2 := floorLog2_le n d hn hd
  have h3 : floorLog2 n d < k :=
    (zpow_lt_iff_lt (by norm_num : (1 : ℚ) < 2)).mp (lt_of_le_of_lt h2 hlt)
  have h4 : (2 : ℚ) ^ (floorLog2 n d - ((p : Int) - 1)) ≤ (2 : ℚ) ^ (k - (p : Int)) :=
    zpow_le_of_le (by norm_num) (by omega)
  have h5 : (0 : ℚ) < (2 : ℚ) ^ (floorLog2 n d - ((p : Int) - 1)) := by positivity
  linarith

theorem roundQ_bound (p : Nat) (num : Int) (den : Nat) (hden : 0 < den) (k : Int)
    (hlt : |(num : ℚ) / (den : ℚ)| < (2 : ℚ) ^ k) :
    |(roundQ p num den).toRat - (num : ℚ) / (den : ℚ)| ≤ (2 : ℚ) ^ (k - (p : Int)) := by
  have hdq : (0 : ℚ) < den := by exact_mod_cast hden
  unfold roundQ
  by_cases h0 : num = 0
  · rw [if_pos h0, h0, toRat_mk]
    simp only [Int.cast_zero, zero_mul, zero_div, sub_zero, abs_zero]
    positivity
  · rw [if_neg h0]
    by_cases hpos : num > 0
    · rw [if_pos hpos]
      have hcast : ((num.toNat : Nat) : ℚ) = (num : ℚ) := by
        have : ((num.toNat : Nat) : Int) = num := Int.toNat_of_nonneg (by omega)
        exact_mod_cast this
      have hb := roundPos_bound p num.toNat den (by omega) hden k (by
        rw [hcast]
        exact lt_of_le_of_lt (le_abs_self _) hlt)
      rw [hcast] at hb
      exact hb
    · rw [if_neg hpos]
      have hcast : (((-num).toNat : Nat) : ℚ) = -(num : ℚ) := by
        have : (((-num).toNat : Nat) : Int) = -num := Int.toNat_of_nonneg (by omega)
        exact_mod_cast this
      have hb := roundPos_bound p (-num).toNat den (by omega) hden k (by
        rw [hcast, neg_div]
        exact lt_of_le_of_lt (neg_le_abs _) hlt)
      rw [hcast] at hb
      have hm : Flt.toRat (Flt.mk (-(roundPos p (-num).toNat den).m)
          (roundPos p (-num).toNat den).e)
          = -(roundPos p (-num).toNat den).toRat := by
        rw [toRat_mk]
        have : (roundPos p (-num).toNat den).toRat
            = ((roundPos p (-num).toNat den).m : ℚ) * (2 : ℚ) ^ (roundPos p (-num).toNat den).e :=
          toRat_mk _ _
        rw [this]
        push_cast
        ring
      rw [hm]
      have : -(roundPos p (-num).toNat den).toRat - (num : ℚ) / den
          = -((roundPos p (-num).toNat den).toRat - -(num : ℚ) / den) := by ring
      rw [this, abs_neg]
      exact hb

theorem den_pos (x : Flt) : 0 < x.den := by
  unfold Flt.den
  positivity

theorem toRat_eq (x : Flt) : x.toRat = (x.num : ℚ) / (x.den : ℚ) := rfl

theorem ofInt_bound (p : Nat) (i : Int) (k : Int) (hlt : |(i : ℚ)| < (2 : ℚ) ^ k) :
    |(ofInt p i).toRat - (i : ℚ)| ≤ (2 : ℚ) ^ (k - (p : Int)) := by
  have h := roundQ_bound p i 1 (by norm_num) k (by simpa using hlt)
  simpa [ofInt] using h

theorem toPrec_bound (p : Nat) (x : Flt) (k : Int) (hlt : |x.toRat| < (2 : ℚ) ^ k) :
    |(toPrec p x).toRat - x.toRat| ≤ (2 : ℚ) ^ (k - (p : Int)) :=
  roundQ_bound p x.num x.den (den_pos x) k hlt

theorem fadd_bound (p : Nat) (x y : Flt) (k : Int)
    (hlt : |x.toRat + y.toRat| < (2 : ℚ) ^ k) :
    |(fadd p x y).toRat - (x.toRat + y.toRat)| ≤ (2 : ℚ) ^ (k - (p : Int)) := by
  have hx : (0 : ℚ) < x.den := by exact_mod_cast den_pos x
  have hy : (0 : ℚ) < y.den := by exact_mod_cast den_pos y
  have hid : (((x.num * (y.den : Int) + y.num * (x.den : Int) : Int) : ℚ))
      / (((x.den * y.den : Nat) : ℚ)) = x.toRat + y.toRat := by
    rw [toRat_eq, toRat_eq]
    push_cast
    field_simp
  have h := roundQ_bound p (x.num * (y.den : Int) + y.num * (x.den : Int)) (x.den * y.den)
    (Nat.mul_pos (den_pos x) (den_pos y)) k (by rw [hid]; exact hlt)
  rw [hid] at h
  exact h

theorem fdiv_bound (p : Nat) (x y : Flt) (k : Int) (hy : 0 < y.num)
    (hlt : |x.toRat / y.toRat| < (2 : ℚ) ^ k) :
    |(fdiv p x y).toRat - x.toRat / y.toRat| ≤ (2 : ℚ) ^ (k - (p : Int)) := by
  have hxd : (0 : ℚ) < x.den := by exact_mod_cast den_pos x
  have hyd : (0 : ℚ) < y.den := by exact_mod_cast den_pos y
  have hyn : (0 : ℚ) < (y.num : ℚ) := by exact_mod_cast hy
  have hcast : ((y.num.toNat : Nat) : ℚ) = (y.num : ℚ) := by
    have : ((y.num.toNat : Nat) : Int) = y.num := Int.toNat_of_nonneg (by omega)
    exact_mod_cast this
  have hid : (((x.num * (y.den : Int) : Int) : ℚ)) / (((x.den * y.num.toNat : Nat) : ℚ))
      = x.toRat / y.toRat := by
    rw [toRat_eq, toRat_eq]
    push_cast
    rw [hcast]
    field_simp
  unfold fdiv
  rw [if_pos hy]
  have h := roundQ_bound p (x.num * (y.den : Int)) (x.den * y.num.toNat)
    (Nat.mul_pos (den_pos x) (by omega)) k (by rw [hid]; exact hlt)
  rw [hid] at h
  exact h


theorem ofInt_second : ofInt 53 Second = { m := 8388608000000000, e := -23 } := by decide

theorem zpow_small_53_6 : (2 : ℚ) ^ ((6 : Int) - ((53 : Nat) : Int)) ≤ 1 / 100000000 := by
  norm_num [zpow_neg]

theorem zpow_small_53_30 : (2 : ℚ) ^ ((30 : Int) - ((53 : Nat) : Int)) ≤ 1 / 1000000 := by
  norm_num [zpow_neg]

theorem zpow_small_53_1 : (2 : ℚ) ^ ((1 : Int) - ((53 : Nat) : Int)) ≤ 1 / 100000000 := by
  norm_num [zpow_neg]

theorem zpow_small_24_6 : (2 : ℚ) ^ ((6 : Int) - ((24 : Nat) : Int)) ≤ 1 / 100000 := by
  norm_num [zpow_neg]


/-- The `float32` number of seconds of a duration below one minute is within one
millisecond (indeed within a few microseconds) of the duration. -/
theorem secondsFloat32_error (d : Int) (h0 : 0 ≤ d) (h1 : d < 60000000000) :
    |(secondsFloat32 d).toRat - (d : ℚ) / 1000000000| ≤ 1 / 1000 := by
  have hsec0 : 0 ≤ d / 1000000000 := by omega
  have hsec1 : d / 1000000000 ≤ 59 := by omega
  have hns0 : 0 ≤ d % 1000000000 := by omega
  have hns1 : d % 1000000000 < 1000000000 := by omega
  have hd : d = 1000000000 * (d / 1000000000) + d % 1000000000 := by omega
  have hdq : (d : ℚ) = 1000000000 * ((d / 1000000000 : Int) : ℚ)
      + ((d % 1000000000 : Int) : ℚ) := by exact_mod_cast hd
  have qsec0 : (0 : ℚ) ≤ ((d / 1000000000 : Int) : ℚ) := by exact_mod_cast hsec0
  have qsec1 : ((d / 1000000000 : Int) : ℚ) ≤ 59 := by exact_mod_cast hsec1
  have qns0 : (0 : ℚ) ≤ ((d % 1000000000 : Int) : ℚ) := by exact_mod_cast hns0
  have qns1 : ((d % 1000000000 : Int) : ℚ) < 1000000000 := by exact_mod_cast hns1
  generalize hS : ((d / 1000000000 : Int) : ℚ) = S at hdq qsec0 qsec1
  generalize hR : ((d % 1000000000 : Int) : ℚ) = R at hdq qns0 qns1
  -- float64(sec)
  have b1 := le_trans (ofInt_bound 53 (d / 1000000000) 6 (by
    rw [hS, abs_of_nonneg qsec0]
    norm_num
    linarith)) zpow_small_53_6
  -- float64(nsec)
  have b2 := le_trans (ofInt_bound 53 (d % 1000000000) 30 (by
    rw [hR, abs_of_nonneg qns0]
    norm_num
    linarith)) zpow_small_53_30
  rw [hS] at b1
  rw [hR] at b2
  generalize hx1 : (ofInt 53 (d / 1000000000)) = x1 at b1
  generalize hx2 : (ofInt 53 (d % 1000000000)) = x2 at b2
  have hv3 : (ofInt 53 Second).toRat = 1000000000 := by
    rw [ofInt_second, toRat_mk]
    norm_num [zpow_neg]
  have hn3 : 0 < (ofInt 53 Second).num := by
    rw [ofInt_second]
    decide
  rw [abs_le] at b1 b2
  -- float64(nsec) / 1e9
  have hq : |x2.toRat / (ofInt 53 Second).toRat| < (2 : ℚ) ^ (1 : Int) := by
    rw [hv3, abs_lt]
    norm_num
    constructor
    · rw [lt_div_iff (by norm_num)]
      linarith [b2.1]
    · rw [div_lt_iff (by norm_num)]
      linarith [b2.2]
  have b4 := le_trans (fdiv_bound 53 x2 (ofInt 53 Second) 1 hn3 hq) zpow_small_53_1
  rw [hv3, abs_le] at b4
  have hquot : x2.toRat / 1000000000 = R / 1000000000 + (x2.toRat - R) / 1000000000 := by
    ring
  have hq0 : (0 : ℚ) ≤ R / 1000000000 := by positivity
  have hq1 : R / 1000000000 < 1 := by
    rw [div_lt_one (by norm_num)]
    exact qns1
  have herr2a : (x2.toRat - R) / 1000000000 ≤ 1 / 1000000 := by
    rw [div_le_iff (by norm_num)]
    linarith [b2.2]
  have herr2b : -(1 / 1000000 : ℚ) ≤ (x2.toRat - R) / 1000000000 := by
    rw [le_div_iff (by norm_num)]
    linarith [b2.1]
  generalize hx4 : fdiv 53 x2 (ofInt 53 Second) = x4 at b4
  -- the float64 sum
  have hs : |x1.toRat + x4.toRat| < (2 : ℚ) ^ (6 : Int) := by
    rw [abs_lt]
    norm_num
    constructor <;> linarith [b1.1, b1.2, b4.1, b4.2]
  have b5 := le_trans (fadd_bound 53 x1 x4 6 hs) zpow_small_53_6
  rw [abs_le] at b5
  generalize hx5 : fadd 53 x1 x4 = x5 at b5
  -- the conversion to float32
  have h5 : |x5.toRat| < (2 : ℚ) ^ (6 : Int) := by
    rw [abs_lt]
    norm_num
    constructor <;> linarith [b1.1, b1.2, b4.1, b4.2, b5.1, b5.2]
  have b6 := le_trans (toPrec_bound 24 x5 6 h5) zpow_small_24_6
  rw [abs_le] at b6
  have hsplit : (d : ℚ) / 1000000000 = S + R / 1000000000 := by
    rw [hdq]
    field_simp
    ring
  have hdef : secondsFloat32 d = toPrec 24 (fadd 53 (ofInt 53 (d / 1000000000))
      (fdiv 53 (ofInt 53 (d % 1000000000)) (ofInt 53 Second))) := rfl
  rw [hdef, hx1, hx2, hx4, hx5, hsplit, abs_le]
  constructor <;>
    linarith [b1.1, b1.2, b4.1, b4.2, b5.1, b5.2, b6.1, b6.2, herr2a, herr2b, hquot]

/-! ## The gap of two cars seen at the same position -/

theorem updateCarPosition_totalGaps (gt : GapTracker) (now : Int) (carIndex : Nat)
    (splinePosition : Flt) :
    (UpdateCarPosition gt now carIndex splinePosition).totalGaps = gt.totalGaps := by
  unfold UpdateCarPosition
  split <;> rfl

theorem passedAt_of_none (gt : GapTracker) (carIndex i : Nat) (h : gt.gapData carIndex = none) :
    passedAt gt carIndex i = none := by
  unfold passedAt
  rw [h]

theorem passedAt_congr (gt gt2 : GapTracker) (carIndex i : Nat)
    (h : gt2.gapData carIndex = gt.gapData carIndex) :
    passedAt gt2 carIndex i = passedAt gt carIndex i := by
  unfold passedAt
  rw [h]

/-- Two cars without an array are seen at the same spline position, the second one
`D ≥ 0` nanoseconds after the first; when the position passes the window test of
its estimated index, the query returns the conversion of `D` to seconds. -/
theorem timeGapBetween_fresh_pair (gt : GapTracker) (hN : 0 < gt.totalGaps) (a b : Nat)
    (hab : a ≠ b) (ha : gt.gapData a = none) (hb : gt.gapData b = none) (s : Flt) (t D : Int)
    (hD : 0 ≤ D)
    (hw : inWindow gt.totalGaps (estimatedIndex gt.totalGaps s).toNat s = true) :
    TimeGapBetween (UpdateCarPosition (UpdateCarPosition gt t a s) (t + D) b s) b s a
      = secondsFloat32 D := by
  have hr := estimatedIndex_range gt.totalGaps s hN
  have hi : (((estimatedIndex gt.totalGaps s).toNat : Nat) : Int) < gt.totalGaps := by omega
  have hN1 : 0 < (UpdateCarPosition gt t a s).totalGaps := by
    rw [updateCarPosition_totalGaps]
    exact hN
  have htot1 : (UpdateCarPosition gt t a s).totalGaps = gt.totalGaps :=
    updateCarPosition_totalGaps gt t a s
  have htot2 : (UpdateCarPosition (UpdateCarPosition gt t a s) (t + D) b s).totalGaps
      = gt.totalGaps := by
    rw [updateCarPosition_totalGaps, updateCarPosition_totalGaps]
  have hN2 : 0 < (UpdateCarPosition (UpdateCarPosition gt t a s) (t + D) b s).totalGaps := by
    rw [htot2]
    exact hN
  -- the stamp of the car ahead
  have hpa1 : passedAt (UpdateCarPosition gt t a s) a (estimatedIndex gt.totalGaps s).toNat
      = some t := by
    rw [passedAt_update gt t a s _ hN hi (by
      intro data hdata
      rw [ha] at hdata
      cases hdata), if_pos hw, passedAt_of_none gt a _ ha]
    rfl
  have hga : (UpdateCarPosition (UpdateCarPosition gt t a s) (t + D) b s).gapData a
      = (UpdateCarPosition gt t a s).gapData a := by
    rw [updateCarPosition_gapData _ _ _ _ hN1, if_neg hab]
  have hpa2 : passedAt (UpdateCarPosition (UpdateCarPosition gt t a s) (t + D) b s) a
      (estimatedIndex gt.totalGaps s).toNat = some t := by
    rw [passedAt_congr _ _ a _ hga, hpa1]
  -- the stamp of the car behind
  have hgb1 : (UpdateCarPosition gt t a s).gapData b = none := by
    rw [updateCarPosition_gapData _ _ _ _ hN, if_neg (fun h => hab h.symm), hb]
  have hpb2 : passedAt (UpdateCarPosition (UpdateCarPosition gt t a s) (t + D) b s) b
      (estimatedIndex gt.totalGaps s).toNat = some (t + D) := by
    rw [passedAt_update (UpdateCarPosition gt t a s) (t + D) b s _ hN1 (by rw [htot1]; exact hi)
      (by
        intro data hdata
        rw [hgb1] at hdata
        cases hdata), htot1, if_pos hw, passedAt_of_none _ b _ hgb1]
    rfl
  -- both cars have an array
  have hA : ∃ gapsA, (UpdateCarPosition (UpdateCarPosition gt t a s) (t + D) b s).gapData b
      = some gapsA := by
    rw [updateCarPosition_gapData _ _ _ _ hN1, if_pos rfl]
    exact ⟨_, rfl⟩
  have hB : ∃ gapsB, (UpdateCarPosition (UpdateCarPosition gt t a s) (t + D) b s).gapData a
      = some gapsB := by
    rw [hga, updateCarPosition_gapData _ _ _ _ hN, if_pos rfl]
    exact ⟨_, rfl⟩
  obtain ⟨gapsA, hA⟩ := hA
  obtain ⟨gapsB, hB⟩ := hB
  unfold TimeGapBetween timeGapBetweenInternal
  rw [attempt_eq _ b s a hN2 gapsA gapsB hA hB, htot2, hpb2, hpa2]
  simp only
  rw [if_pos (by omega)]
  simp only
  congr 1
  omega

set_option maxRecDepth 1000000 in
/-- C18, as the code behaves. On the tracker initialised with 5000 m (100
checkpoints), two distinct cars without earlier samples are seen at the same spline
position `s`, car `a` at time `t` and car `b` at time `t + D` with `0 < D < 60 s`.
When `s` passes the window test of the checkpoint at its own estimated index, so
that the sample stamps the checkpoint the query reads, the time-gap query for `b`
behind `a` at `s` returns `D` seconds within 1 ms. -/
theorem timeGapBetween_same_spline (s : Flt) (a b : Nat) (hab : a ≠ b) (t D : Int)
    (hD0 : 0 < D) (hD1 : D < 60000000000)
    (hw : inWindow 100 (estimatedIndex 100 s).toNat s = true) :
    |(TimeGapBetween
        (UpdateCarPosition (UpdateCarPosition tracker5000 t a s) (t + D) b s) b s a).toRat
      - (D : ℚ) / 1000000000| ≤ 1 / 1000 := by
  have htot : tracker5000.totalGaps = 100 := by decide
  rw [timeGapBetween_fresh_pair tracker5000 (by rw [htot]; decide) a b hab rfl rfl s t D
    (le_of_lt hD0) (by rw [htot]; exact hw)]
  exact secondsFloat32_error D (le_of_lt hD0) hD1

set_option maxRecDepth 1000000 in
/-- Witness for C18 as amended, scenario S4: car 1 at spline 0.100 at time 0, car 2
at spline 0.100 at 1.237 s; the query returns 1.237 s within 1 ms. -/
theorem timeGapBetween_same_spline_witness :
    |(TimeGapBetween
        (UpdateCarPosition (UpdateCarPosition tracker5000 0 1 (float32Const 1 10))
          (0 + 1237000000) 2 (float32Const 1 10)) 2 (float32Const 1 10) 1).toRat
      - ((1237000000 : Int) : ℚ) / 1000000000| ≤ 1 / 1000 :=
  timeGapBetween_same_spline (float32Const 1 10) 1 2 (by decide) 0 1237000000 (by decide)
    (by decide) (by decide)

set_option maxRecDepth 1000000 in
/-- Counterexample to C18 as stated, on the tracker of 5000 m (100 checkpoints), with
car 1 seen at time 0 and car 2 at 1.237 s, both at the same spline position. At
spline 0 the sample stamps no checkpoint at all; at spline 0.42 it stamps checkpoint
41 only, while the query reads checkpoint 42. In both cases the query returns -1,
which is not within 1 ms of 1.237 s. -/
theorem timeGapBetween_same_spline_unknown :
    tracker5000.totalGaps = 100 ∧
    ((∀ i, i < 100 → inWindow 100 i (float32Const 0 1) = false) ∧
      TimeGapBetween trackerAtZero 2 (float32Const 0 1) 1 = minusOne) ∧
    (estimatedIndex 100 (float32Const 42 100) = 42 ∧
      inWindow 100 42 (float32Const 42 100) = false ∧
      inWindow 100 41 (float32Const 42 100) = true ∧
      passedAt trackerAtPoint42 1 41 = some 0 ∧
      passedAt trackerAtPoint42 2 41 = some 1237000000 ∧
      TimeGapBetween trackerAtPoint42 2 (float32Const 42 100) 1 = minusOne) ∧
    ¬ |minusOne.toRat - (1237000000 : ℚ) / 1000000000| ≤ 1 / 1000 := by
  refine ⟨by decide, ⟨by decide, by decide⟩, by decide, ?_⟩
  have h : minusOne.toRat = -1 := by
    simp [minusOne, Flt.toRat, Flt.num, Flt.den]
  rw [h, abs_le]
  norm_num

set_option maxRecDepth 1000000 in
/-- C19, counterexample: with 100 checkpoints and the spline position of bit pattern
`0x3CCCCCCC`, the `float32` just below 0.025, the position lies strictly between 1/100
and (1 + 1.5)/100 and the stamp of checkpoint 1 of car 7 is unset; the update at time
5 leaves it unset and stamps checkpoint 2 only, because the `float32` upper bound of
the window of checkpoint 1 is rounded to the position itself. -/
theorem updateCarPosition_skips_inside_interval :
    tracker5000.totalGaps = 100 ∧
    ((1 : ℚ) / 100 < (float32frombits 0x3CCCCCCC).toRat ∧
      (float32frombits 0x3CCCCCCC).toRat < (1 + 3 / 2) / 100) ∧
    fadd 24 (fmul 24 (ofInt 24 1) (gapStep 100)) (fmul 24 (gapStep 100) onePointFive)
      = float32frombits 0x3CCCCCCC ∧
    inWindow 100 1 (float32frombits 0x3CCCCCCC) = false ∧
    passedAt tracker5000 7 1 = none ∧
    passedAt (UpdateCarPosition tracker5000 5 7 (float32frombits 0x3CCCCCCC)) 7 1 = none ∧
    passedAt (UpdateCarPosition tracker5000 5 7 (float32frombits 0x3CCCCCCC)) 7 2 = some 5 := by
  refine ⟨by decide, ?_, by decide, by decide, by decide, by decide, by decide⟩
  have h : float32frombits 0x3CCCCCCC = { m := 13421772, e := -29 } := by decide
  rw [h, toRat_mk]
  norm_num [zpow_neg]

/-! ## Relative rounding error and comparisons -/

theorem flt_iff (x y : Flt) : flt x y = true ↔ x.toRat < y.toRat := by
  have hx : (0 : ℚ) < x.den := by exact_mod_cast den_pos x
  have hy : (0 : ℚ) < y.den := by exact_mod_cast den_pos y
  unfold flt
  rw [decide_eq_true_iff, toRat_eq, toRat_eq, div_lt_div_iff hx hy]
  constructor
  · intro h
    exact_mod_cast h
  · intro h
    exact_mod_cast h

theorem roundPos_rel (p n d : Nat) (hn : 0 < n) (hd : 0 < d) :
    |(roundPos p n d).toRat - (n : ℚ) / (d : ℚ)| ≤ (n : ℚ) / (d : ℚ) * (2 : ℚ) ^ (-(p : Int)) := by
  have h1 := roundPos_error p n d hd
  have h2 := floorLog2_le n d hn hd
  have h3 : (2 : ℚ) ^ (floorLog2 n d - ((p : Int) - 1)) / 2
      = (2 : ℚ) ^ floorLog2 n d * (2 : ℚ) ^ (-(p : Int)) := by
    rw [show floorLog2 n d - ((p : Int) - 1) = floorLog2 n d + (-(p : Int)) + 1 by ring,
      zpow_add₀ (by norm_num), zpow_add₀ (by norm_num), zpow_one]
    ring
  rw [h3] at h1
  have h4 : (0 : ℚ) ≤ (2 : ℚ) ^ (-(p : Int)) := by positivity
  exact le_trans h1 (mul_le_mul_of_nonneg_right h2 h4)

theorem roundQ_rel (p : Nat) (num : Int) (den : Nat) (hden : 0 < den) :
    |(roundQ p num den).toRat - (num : ℚ) / (den : ℚ)|
      ≤ |(num : ℚ) / (den : ℚ)| * (2 : ℚ) ^ (-(p : Int)) := by
  have hdq : (0 : ℚ) < den := by exact_mod_cast hden
  unfold roundQ
  by_cases h0 : num = 0
  · rw [if_pos h0, h0, toRat_mk]
    simp
  · rw [if_neg h0]
    by_cases hpos : num > 0
    · rw [if_pos hpos]
      have hcast : ((num.toNat : Nat) : ℚ) = (num : ℚ) := by
        have : ((num.toNat : Nat) : Int) = num := Int.toNat_of_nonneg (by omega)
        exact_mod_cast this
      have hb := roundPos_rel p num.toNat den (by omega) hden
      rw [hcast] at hb
      have hq : (0 : ℚ) ≤ (num : ℚ) / den := by
        have : (0 : ℚ) ≤ (num : ℚ) := by exact_mod_cast le_of_lt hpos
        positivity
      rw [abs_of_nonneg hq]
      exact hb
    · rw [if_neg hpos]
      have hcast : (((-num).toNat : Nat) : ℚ) = -(num : ℚ) := by
        have : (((-num).toNat : Nat) : Int) = -num := Int.toNat_of_nonneg (by omega)
        exact_mod_cast this
      have hb := roundPos_rel p (-num).toNat den (by omega) hden
      rw [hcast] at hb
      have hm : Flt.toRat (Flt.mk (-(roundPos p (-num).toNat den).m)
          (roundPos p (-num).toNat den).e)
          = -(roundPos p (-num).toNat den).toRat := by
        rw [toRat_mk]
        have : (roundPos p (-num).toNat den).toRat
            = ((roundPos p (-num).toNat den).m : ℚ) * (2 : ℚ) ^ (roundPos p (-num).toNat den).e :=
          toRat_mk _ _
        rw [this]
        push_cast
        ring
      rw [hm]
      have hneg : (num : ℚ) / den ≤ 0 := by
        have : (num : ℚ) ≤ 0 := by exact_mod_cast (show num ≤ 0 by omega)
        exact div_nonpos_of_nonpos_of_nonneg this (le_of_lt hdq)
      have : -(roundPos p (-num).toNat den).toRat - (num : ℚ) / den
          = -((roundPos p (-num).toNat den).toRat - -(num : ℚ) / den) := by ring
      rw [this, abs_neg, abs_of_nonpos hneg, ← neg_div]
      exact hb

theorem ofInt_rel (p : Nat) (i : Int) :
    |(ofInt p i).toRat - (i : ℚ)| ≤ |(i : ℚ)| * (2 : ℚ) ^ (-(p : Int)) := by
  have h := roundQ_rel p i 1 (by norm_num)
  simpa [ofInt] using h

theorem fdiv_rel (p : Nat) (x y : Flt) (hy : 0 < y.num) :
    |(fdiv p x y).toRat - x.toRat / y.toRat|
      ≤ |x.toRat / y.toRat| * (2 : ℚ) ^ (-(p : Int)) := by
  have hxd : (0 : ℚ) < x.den := by exact_mod_cast den_pos x
  have hyd : (0 : ℚ) < y.den := by exact_mod_cast den_pos y
  have hyn : (0 : ℚ) < (y.num : ℚ) := by exact_mod_cast hy
  have hcast : ((y.num.toNat : Nat) : ℚ) = (y.num : ℚ) := by
    have : ((y.num.toNat : Nat) : Int) = y.num := Int.toNat_of_nonneg (by omega)
    exact_mod_cast this
  have hid : (((x.num * (y.den : Int) : Int) : ℚ)) / (((x.den * y.num.toNat : Nat) : ℚ))
      = x.toRat / y.toRat := by
    rw [toRat_eq, toRat_eq]
    push_cast
    rw [hcast]
    field_simp
  unfold fdiv
  rw [if_pos hy]
  have h := roundQ_rel p (x.num * (y.den : Int)) (x.den * y.num.toNat)
    (Nat.mul_pos (den_pos x) (by omega))
  rw [hid] at h
  exact h

theorem zpow_neg_24 : (2 : ℚ) ^ (-((24 : Nat) : Int)) = 1 / 16777216 := by
  norm_num [zpow_neg]

/-- The quotient `float32(x) / 1000.0` lies strictly between 0 and 2 exactly when
the integer `x` lies strictly between 0 and 2000. -/
theorem milliseconds_between (x : Int) :
    (flt (fdiv 24 (ofInt 24 x) (ofInt 24 1000)) ftwo
      && flt fzero (fdiv 24 (ofInt 24 x) (ofInt 24 1000)))
      = decide (0 < x ∧ x < 2000) := by
  by_cases h2000 : x = 2000
  · rw [h2000]
    decide
  have h1000 : ofInt 24 1000 = { m := 16384000, e := -14 } := by decide
  have hv : (ofInt 24 1000).toRat = 1000 := by
    rw [h1000, toRat_mk]
    norm_num [zpow_neg]
  have hn : 0 < (ofInt 24 1000).num := by
    rw [h1000]
    decide
  have h2 : ftwo.toRat = 2 := by
    unfold ftwo
    rw [toRat_mk]
    norm_num
  have h0 : fzero.toRat = 0 := by
    unfold fzero
    rw [toRat_mk]
    norm_num
  have ha := ofInt_rel 24 x
  have hg := fdiv_rel 24 (ofInt 24 x) (ofInt 24 1000) hn
  rw [hv, zpow_neg_24] at hg
  rw [zpow_neg_24] at ha
  generalize (fdiv 24 (ofInt 24 x) (ofInt 24 1000)) = g at hg ⊢
  generalize (ofInt 24 x).toRat = a at ha hg
  have key1 : flt g ftwo = decide (g.toRat < 2) := by
    rw [Bool.eq_iff_iff, flt_iff, h2, decide_eq_true_iff]
  have key2 : flt fzero g = decide (0 < g.toRat) := by
    rw [Bool.eq_iff_iff, flt_iff, h0, decide_eq_true_iff]
  rw [key1, key2, ← Bool.decide_and]
  rw [decide_eq_decide]
  rw [abs_le] at ha hg
  rcases le_or_lt x 0 with hx | hx
  · have hxq : (x : ℚ) ≤ 0 := by exact_mod_cast hx
    rw [abs_of_nonpos hxq] at ha
    have ha0 : a ≤ 0 := by linarith [ha.2]
    rw [abs_of_nonpos (by linarith : a / 1000 ≤ 0)] at hg
    constructor
    · intro h
      exfalso
      linarith [hg.2, h.2]
    · intro h
      omega
  · have hxq : (0 : ℚ) < (x : ℚ) := by exact_mod_cast hx
    rw [abs_of_pos hxq] at ha
    have ha0 : 0 < a := by linarith [ha.1]
    rw [abs_of_pos (by linarith : 0 < a / 1000)] at hg
    have hgpos : 0 < g.toRat := by linarith [hg.1]
    rcases lt_or_le x 2000 with hlt | hge
    · have hxq2 : (x : ℚ) ≤ 1999 := by exact_mod_cast (show x ≤ 1999 by omega)
      constructor
      · intro _
        exact ⟨hx, hlt⟩
      · intro _
        exact ⟨by linarith [hg.2, ha.2], hgpos⟩
    · constructor
      · intro h
        exfalso
        have hxq2 : (2001 : ℚ) ≤ (x : ℚ) := by exact_mod_cast (show 2001 ≤ x by omega)
        linarith [hg.1, ha.1, h.1]
      · intro h
        omega

theorem fsub_rel (p : Nat) (x y : Flt) :
    |(fsub p x y).toRat - (x.toRat - y.toRat)|
      ≤ |x.toRat - y.toRat| * (2 : ℚ) ^ (-(p : Int)) := by
  have hx : (0 : ℚ) < x.den := by exact_mod_cast den_pos x
  have hy : (0 : ℚ) < y.den := by exact_mod_cast den_pos y
  have hid : (((x.num * (y.den : Int) - y.num * (x.den : Int) : Int) : ℚ))
      / (((x.den * y.den : Nat) : ℚ)) = x.toRat - y.toRat := by
    rw [toRat_eq, toRat_eq]
    push_cast
    field_simp
    ring
  have h := roundQ_rel p (x.num * (y.den : Int) - y.num * (x.den : Int)) (x.den * y.den)
    (Nat.mul_pos (den_pos x) (den_pos y))
  rw [hid] at h
  exact h

theorem fmul_rel (p : Nat) (x y : Flt) :
    |(fmul p x y).toRat - x.toRat * y.toRat|
      ≤ |x.toRat * y.toRat| * (2 : ℚ) ^ (-(p : Int)) := by
  have hx : (0 : ℚ) < x.den := by exact_mod_cast den_pos x
  have hy : (0 : ℚ) < y.den := by exact_mod_cast den_pos y
  have hid : (((x.num * y.num : Int) : ℚ)) / (((x.den * y.den : Nat) : ℚ))
      = x.toRat * y.toRat := by
    rw [toRat_eq, toRat_eq]
    push_cast
    field_simp
  have h := roundQ_rel p (x.num * y.num) (x.den * y.den)
    (Nat.mul_pos (den_pos x) (den_pos y))
  rw [hid] at h
  exact h

/-- Truncation of a number that is not negative: the integer part. -/
theorem ftrunc_bounds (x : Flt) (h : 0 ≤ x.toRat) :
    ((ftrunc x : Int) : ℚ) ≤ x.toRat ∧ x.toRat < ((ftrunc x : Int) : ℚ) + 1 := by
  have hd : (0 : ℚ) < x.den := by exact_mod_cast den_pos x
  have hdi : (0 : Int) < (x.den : Int) := by exact_mod_cast den_pos x
  have hnum : 0 ≤ x.num := by
    rw [toRat_eq] at h
    have h2 : (0 : ℚ) ≤ (x.num : ℚ) := by
      have := mul_nonneg h (le_of_lt hd)
      rwa [div_mul_cancel₀ _ (ne_of_gt hd)] at this
    exact_mod_cast h2
  unfold ftrunc
  rw [if_pos hnum, toRat_eq]
  have hdm := Int.ediv_add_emod x.num (x.den : Int)
  have hm0 := Int.emod_nonneg x.num (ne_of_gt hdi)
  have hm1 := Int.emod_lt_of_pos x.num hdi
  have hq : (x.num : ℚ) = (x.den : ℚ) * ((x.num / (x.den : Int) : Int) : ℚ)
      + ((x.num % (x.den : Int) : Int) : ℚ) := by
    exact_mod_cast hdm.symm
  have hm0q : (0 : ℚ) ≤ ((x.num % (x.den : Int) : Int) : ℚ) := by exact_mod_cast hm0
  have hm1q : ((x.num % (x.den : Int) : Int) : ℚ) < (x.den : ℚ) := by exact_mod_cast hm1
  constructor
  · rw [le_div_iff hd]
    nlinarith
  · rw [div_lt_iff hd]
    nlinarith

theorem fzero_toRat : fzero.toRat = 0 := by
  unfold fzero
  rw [toRat_mk]
  norm_num

theorem fone_toRat : fone.toRat = 1 := by
  unfold fone
  rw [toRat_mk]
  norm_num

end Gaps

namespace Leaderboard

open Broadcast (CarInfo RealtimeCarUpdate)
open Gaps (Flt fzero fone ftwo ofInt fsub fadd fmul fdiv flt ftrunc)

/-! ## Sorting -/

theorem sortSlice_perm {α : Type} (less : α → α → Bool) (l : List α) :
    (sortSlice less l).Perm l :=
  List.perm_insertionSort _ l

/-- The contract of `sort.Slice` for a comparison given by a key in a linear order. -/
theorem sortSlice_sorted_of_key {α κ : Type} [LinearOrder κ] (less : α → α → Bool)
    (key : α → κ) (hkey : ∀ a b, less a b = true ↔ key a < key b) (l : List α) :
    (sortSlice less l).Pairwise (fun a b => key a ≤ key b) := by
  have hrel : ∀ a b, (less b a = false) ↔ key a ≤ key b := by
    intro a b
    rw [← Bool.not_eq_true, hkey b a, not_lt]
  haveI : IsTotal α (fun a b => less b a = false) :=
    ⟨fun a b => by
      rw [hrel a b, hrel b a]
      exact le_total _ _⟩
  haveI : IsTrans α (fun a b => less b a = false) :=
    ⟨fun a b c hab hbc => by
      rw [hrel] at hab hbc ⊢
      exact le_trans hab hbc⟩
  have hs : List.Sorted (fun a b => less b a = false) (sortSlice less l) :=
    List.sorted_insertionSort _ l
  exact List.Pairwise.imp (fun {a b} h => (hrel a b).1 h) hs

theorem lessPosition_key (a b : DriverPosition) :
    lessPosition a b = true ↔ a.Position < b.Position := by
  unfold lessPosition
  exact decide_eq_true_iff

/-! ## Rows built by `Update` -/

/-- A row without the fields that `calculateGaps` writes. -/
theorem gapRows_map {β : Type} (f : DriverPosition → β)
    (hf : ∀ (pos : DriverPosition) (g i : String) (gms ims : Int),
      f { pos with Gap := g, Interval := i, GapMS := gms, IntervalMS := ims } = f pos)
    (leaderBestLap : Int) (leaderPos : DriverPosition) :
    ∀ (rest : List DriverPosition) (previousPos : DriverPosition),
      (gapRows leaderBestLap leaderPos previousPos rest).map f = rest.map f := by
  intro rest
  induction rest with
  | nil =>
    intro previousPos
    rfl
  | cons currentPos rest ih =>
    intro previousPos
    unfold gapRows
    rw [List.map_cons, List.map_cons, ih]
    congr 1
    exact hf currentPos _ _ _ _

theorem calculateGaps_map {β : Type} (f : DriverPosition → β)
    (hf : ∀ (pos : DriverPosition) (g i : String) (gms ims : Int),
      f { pos with Gap := g, Interval := i, GapMS := gms, IntervalMS := ims } = f pos)
    (lt : LeaderboardTracker) :
    (calculateGaps lt).positions.map f = lt.positions.map f := by
  unfold calculateGaps
  cases h : lt.positions with
  | nil => simp [h]
  | cons first rest =>
    simp only
    rw [List.map_cons, List.map_cons, gapRows_map f hf]
    congr 1
    exact hf first _ _ _ _

theorem calculateGaps_head (lt : LeaderboardTracker) (first : DriverPosition)
    (h : (calculateGaps lt).positions.head? = some first) :
    first.Gap = "Leader" ∧ first.Interval = "---" ∧ first.GapMS = 0 ∧ first.IntervalMS = 0 := by
  unfold calculateGaps at h
  cases hp : lt.positions with
  | nil =>
    rw [hp] at h
    simp only at h
    rw [hp] at h
    cases h
  | cons p rest =>
    rw [hp] at h
    simp only [List.head?_cons, Option.some.injEq] at h
    rw [← h]
    exact ⟨rfl, rfl, rfl, rfl⟩

theorem update_positions (lt : LeaderboardTracker) (now : Int) (cars : List (Nat × CarInfo))
    (updates : Nat → Option RealtimeCarUpdate) (sessionType playerCarIndex : Nat) :
    (Update lt now cars updates sessionType playerCarIndex).positions
      = (calculateGaps
          { lt with sessionType := sessionType, playerCarIndex := playerCarIndex,
                    positions := sortSlice lessPosition
                      (buildPositions playerCarIndex updates cars) }).positions :=
  rfl

theorem buildPositions_map (playerCarIndex : Nat) (updates : Nat → Option RealtimeCarUpdate)
    (cars : List (Nat × CarInfo)) :
    (buildPositions playerCarIndex updates cars).map (fun r => (r.CarIndex, r.Position))
      = cars.filterMap (fun c => (updates c.1).map (fun u => (c.1, (u.Position : Int)))) := by
  induction cars with
  | nil => rfl
  | cons c rest ih =>
    obtain ⟨carIndex, carInfo⟩ := c
    unfold buildPositions
    cases hu : updates carIndex with
    | none =>
      simp only [List.filterMap_cons, hu, Option.map_none']
      exact ih
    | some update =>
      simp only [List.filterMap_cons, hu, Option.map_some', List.map_cons]
      rw [ih]
      rfl

theorem buildPositions_map_position (playerCarIndex : Nat)
    (updates : Nat → Option RealtimeCarUpdate) (cars : List (Nat × CarInfo)) :
    (buildPositions playerCarIndex updates cars).map (fun r => r.Position)
      = List.map (fun n : Nat => (n : Int))
          ((cars.filterMap (fun c => updates c.1)).map (fun u => u.Position)) := by
  induction cars with
  | nil => rfl
  | cons c rest ih =>
    obtain ⟨carIndex, carInfo⟩ := c
    unfold buildPositions
    cases hu : updates carIndex with
    | none =>
      simp only [List.filterMap_cons, hu]
      exact ih
    | some update =>
      simp only [List.filterMap_cons, hu, List.map_cons]
      rw [ih]
      rfl

theorem buildPositions_distinct (playerCarIndex : Nat)
    (updates : Nat → Option RealtimeCarUpdate) (cars : List (Nat × CarInfo))
    (hdistinct : ((cars.filterMap (fun c => updates c.1)).map (fun u => u.Position)).Nodup) :
    ((buildPositions playerCarIndex updates cars).map (fun r => r.Position)).Nodup := by
  rw [buildPositions_map_position]
  exact hdistinct.map (fun a b h => by exact_mod_cast h)

/-- C21. For every descriptor map (in any iteration order) and sample map in which the
cars that have both a descriptor and a sample carry pairwise distinct official
positions, the rows after `Update` are exactly those cars with the positions of their
samples, they are ordered by strictly increasing position, and the first row has
`Gap = "Leader"`, `Interval = "---"`, `GapMS = 0` and `IntervalMS = 0`. -/
theorem update_rows_ordered_by_position (lt : LeaderboardTracker) (now : Int)
    (cars : List (Nat × CarInfo)) (updates : Nat → Option RealtimeCarUpdate)
    (sessionType playerCarIndex : Nat)
    (hdistinct : ((cars.filterMap (fun c => updates c.1)).map (fun u => u.Position)).Nodup) :
    (((Update lt now cars updates sessionType playerCarIndex).positions.map
        (fun r => (r.CarIndex, r.Position))).Perm
      (cars.filterMap (fun c => (updates c.1).map (fun u => (c.1, (u.Position : Int)))))) ∧
    (Update lt now cars updates sessionType playerCarIndex).positions.Pairwise
      (fun a b => a.Position < b.Position) ∧
    ∀ first, (Update lt now cars updates sessionType playerCarIndex).positions.head? = some first →
      first.Gap = "Leader" ∧ first.Interval = "---" ∧ first.GapMS = 0 ∧ first.IntervalMS = 0 := by
  rw [update_positions]
  refine ⟨?_, ?_, ?_⟩
  · rw [calculateGaps_map (fun r => (r.CarIndex, r.Position)) (fun _ _ _ _ _ => rfl),
      ← buildPositions_map playerCarIndex]
    exact (sortSlice_perm _ _).map _
  · have hle : ((calculateGaps
          { lt with sessionType := sessionType, playerCarIndex := playerCarIndex,
                    positions := sortSlice lessPosition
                      (buildPositions playerCarIndex updates cars) }).positions.map
          (fun r => r.Position)).Pairwise (fun x y => x ≤ y) := by
      rw [calculateGaps_map (fun r => r.Position) (fun _ _ _ _ _ => rfl), List.pairwise_map]
      exact sortSlice_sorted_of_key lessPosition (fun r => r.Position) lessPosition_key _
    have hne : ((calculateGaps
          { lt with sessionType := sessionType, playerCarIndex := playerCarIndex,
                    positions := sortSlice lessPosition
                      (buildPositions playerCarIndex updates cars) }).positions.map
          (fun r => r.Position)).Pairwise (fun x y => x ≠ y) := by
      rw [calculateGaps_map (fun r => r.Position) (fun _ _ _ _ _ => rfl)]
      exact ((sortSlice_perm lessPosition _).map _).nodup_iff.2
        (buildPositions_distinct playerCarIndex updates cars hdistinct)
    rw [List.pairwise_map] at hle hne
    exact (hle.and hne).imp (fun {a b} h => lt_of_le_of_ne h.1 h.2)
  · intro first hfirst
    exact calculateGaps_head _ first hfirst

/-! ## Qualifying order -/

/-- The key by which `lessBestLap` compares: the best lap, or infinity when it is 0. -/
theorem lessBestLap_key (a b : DriverPosition) :
    lessBestLap a b = true ↔
      (if a.BestLap = 0 then (⊤ : WithTop Int) else (a.BestLap : WithTop Int))
        < (if b.BestLap = 0 then (⊤ : WithTop Int) else (b.BestLap : WithTop Int)) := by
  unfold lessBestLap
  by_cases ha : a.BestLap = 0
  · rw [if_pos ha, if_pos ha]
    simp
  · rw [if_neg ha, if_neg ha]
    by_cases hb : b.BestLap = 0
    · rw [if_pos hb, if_pos hb]
      simp [WithTop.coe_lt_top]
    · rw [if_neg hb, if_neg hb, decide_eq_true_iff]
      exact WithTop.coe_lt_coe.symm

theorem renumber_map {β : Type} (f : DriverPosition → β)
    (hf : ∀ (pos : DriverPosition) (p : Int), f { pos with Position := p } = f pos) :
    ∀ (l : List DriverPosition) (i : Nat), (renumber i l).map f = l.map f := by
  intro l
  induction l with
  | nil =>
    intro i
    rfl
  | cons pos rest ih =>
    intro i
    unfold renumber
    rw [List.map_cons, List.map_cons, ih]
    congr 1
    exact hf pos _

theorem renumber_length : ∀ (l : List DriverPosition) (i : Nat),
    (renumber i l).length = l.length := by
  intro l
  induction l with
  | nil =>
    intro i
    rfl
  | cons pos rest ih =>
    intro i
    unfold renumber
    rw [List.length_cons, List.length_cons, ih]

theorem renumber_position : ∀ (l : List DriverPosition) (i k : Nat) (r : DriverPosition),
    (renumber i l)[k]? = some r → r.Position = (i : Int) + (k : Int) + 1 := by
  intro l
  induction l with
  | nil =>
    intro i k r h
    cases k <;> cases h
  | cons pos rest ih =>
    intro i k r h
    unfold renumber at h
    cases k with
    | zero =>
      simp only [List.getElem?_cons_zero, Option.some.injEq] at h
      rw [← h]
      simp
    | succ k =>
      simp only [List.getElem?_cons_succ] at h
      have := ih (i + 1) k r h
      rw [this]
      push_cast
      ring

/-- C24. For every leaderboard whose best-lap values are not negative, `SortByBestLap`
rearranges the rows, changing nothing but their `Position` (no row added, dropped or
duplicated); of two rows, the later one has a positive best lap only if the earlier
one has a positive best lap that is not larger, so the rows with a best lap come
first in non-decreasing order and the rows with best lap 0 after them; and the
`Position` of the row at index `k` is `k + 1`. -/
theorem sortByBestLap_order (lt : LeaderboardTracker)
    (hnonneg : ∀ r ∈ lt.positions, 0 ≤ r.BestLap) :
    (((SortByBestLap lt).positions.map clearPosition).Perm
      (lt.positions.map clearPosition)) ∧
    (SortByBestLap lt).positions.Pairwise
      (fun a b => (a.BestLap = 0 → b.BestLap = 0) ∧
        (0 < b.BestLap → 0 < a.BestLap ∧ a.BestLap ≤ b.BestLap)) ∧
    ∀ (k : Nat) (r : DriverPosition), (SortByBestLap lt).positions[k]? = some r →
      r.Position = (k : Int) + 1 := by
  have hpos : (SortByBestLap lt).positions = renumber 0 (sortSlice lessBestLap lt.positions) :=
    rfl
  rw [hpos]
  refine ⟨?_, ?_, ?_⟩
  · rw [renumber_map clearPosition (fun _ _ => rfl)]
    exact (sortSlice_perm _ _).map _
  · have hsorted := sortSlice_sorted_of_key lessBestLap
      (fun r => if r.BestLap = 0 then (⊤ : WithTop Int) else (r.BestLap : WithTop Int))
      lessBestLap_key lt.positions
    have hkeys : ((sortSlice lessBestLap lt.positions).map (fun r => r.BestLap)).Pairwise
        (fun x y => (x = 0 → y = 0) ∧ (0 < y → 0 < x ∧ x ≤ y)) := by
      rw [List.pairwise_map]
      refine List.Pairwise.imp_of_mem ?_ hsorted
      intro a b ha _ hab
      have ha0 : 0 ≤ a.BestLap := hnonneg a ((sortSlice_perm _ _).mem_iff.1 ha)
      simp only at hab
      constructor
      · intro hz
        rw [if_pos hz, top_le_iff] at hab
        by_contra hb
        rw [if_neg hb] at hab
        exact WithTop.coe_ne_top hab
      · intro hb
        have hb0 : b.BestLap ≠ 0 := by omega
        rw [if_neg hb0] at hab
        have hane : a.BestLap ≠ 0 := by
          intro hz
          rw [if_pos hz, top_le_iff] at hab
          exact WithTop.coe_ne_top hab
        rw [if_neg hane, WithTop.coe_le_coe] at hab
        exact ⟨by omega, hab⟩
    rw [← renumber_map (fun r => r.BestLap) (fun _ _ => rfl) _ 0, List.pairwise_map] at hkeys
    exact hkeys
  · intro k r h
    have := renumber_position _ 0 k r h
    rw [this]
    simp

/-! ## Battles -/

theorem inBattle_eq_closeBehind (pos : DriverPosition) : inBattle pos = closeBehind pos :=
  Gaps.milliseconds_between pos.IntervalMS

theorem filter_long_singleton (run : List DriverPosition) :
    [run].filter (fun run => decide (2 ≤ run.length))
      = if run.length ≥ 2 then [run] else [] := by
  by_cases h : 2 ≤ run.length
  · rw [List.filter_cons_of_pos (by simpa using h), if_pos h]
    rfl
  · rw [List.filter_cons_of_neg (by simpa using h), if_neg h]
    rfl

/-- The loop of `GetBattles` against the loop of `List.splitBy`: `currentBattle` is
the group under construction, or empty when that group is the previous row alone. -/
theorem battlesLoop_splitBy :
    ∀ (rest : List DriverPosition) (previous : DriverPosition) (g : List DriverPosition)
      (gs : List (List DriverPosition)) (battles : List (List DriverPosition))
      (currentBattle : List DriverPosition),
      (currentBattle = (previous :: g).reverse ∨ (currentBattle = [] ∧ g = [])) →
      battles = gs.reverse.filter (fun run => decide (2 ≤ run.length)) →
      (if (battlesLoop rest previous battles currentBattle).2.length ≥ 2 then
          (battlesLoop rest previous battles currentBattle).1
            ++ [(battlesLoop rest previous battles currentBattle).2]
        else (battlesLoop rest previous battles currentBattle).1)
        = (List.splitBy.loop (fun _ pos => closeBehind pos) rest previous g gs).filter
            (fun run => decide (2 ≤ run.length)) := by
  intro rest
  induction rest with
  | nil =>
    intro previous g gs battles currentBattle hcb hb
    unfold battlesLoop List.splitBy.loop
    simp only
    rw [List.reverse_cons, List.filter_append, ← hb, filter_long_singleton]
    rcases hcb with h | ⟨h, hg⟩
    · rw [h]
      by_cases hl : (previous :: g).reverse.length ≥ 2
      · rw [if_pos hl, if_pos hl]
      · rw [if_neg hl, if_neg hl, List.append_nil]
    · subst h hg
      rw [if_neg (by decide), if_neg (by simp), List.append_nil]
  | cons pos rest ih =>
    intro previous g gs battles currentBattle hcb hb
    unfold battlesLoop List.splitBy.loop
    rw [inBattle_eq_closeBehind]
    cases hc : closeBehind pos with
    | true =>
      simp only [if_true]
      apply ih
      · left
        rcases hcb with h | ⟨h, hg⟩
        · have hlen : currentBattle.length ≠ 0 := by
            rw [h]
            simp
          rw [if_neg hlen, h]
          simp
        · subst h hg
          simp
      · exact hb
    | false =>
      simp only [Bool.false_eq_true, if_false]
      apply ih
      · right
        exact ⟨rfl, rfl⟩
      · rw [List.reverse_cons, List.filter_append, ← hb, filter_long_singleton]
        rcases hcb with h | ⟨h, hg⟩
        · rw [h]
          by_cases hl : (previous :: g).reverse.length ≥ 2
          · rw [if_pos hl, if_pos hl]
          · rw [if_neg hl, if_neg hl, List.append_nil]
        · subst h hg
          rw [if_neg (by decide), if_neg (by simp), List.append_nil]

/-- C23, as the code behaves. `GetBattles` returns exactly the maximal runs of two or
more consecutive rows in which every row after the first has a positive interval to
the car ahead below 2.0 s (`0 < IntervalMS < 2000`), each run once and in leaderboard
order. -/
theorem getBattles_maximal_runs (lt : LeaderboardTracker) :
    GetBattles lt = maximalRuns closeBehind lt.positions := by
  unfold GetBattles maximalRuns
  cases lt.positions with
  | nil => rfl
  | cons first rest =>
    simp only
    exact battlesLoop_splitBy rest first [] [] [] [first] (Or.inl rfl) rfl

/-- The estimate for a spline difference `x - y` in `[0, 1)` and a leader best lap
in `[0, 2^20)` ms is the exact product, rounded down, up to a fifth of a millisecond. -/
theorem estimatedMS_bounds (b : Int) (x y : Flt) (hb0 : 0 ≤ b) (hb1 : b < 1048576)
    (hxy : y.toRat ≤ x.toRat) (hlt : x.toRat - y.toRat < 1) :
    (x.toRat - y.toRat) * (b : ℚ) - 6 / 5 < ((estimatedMS b x y : Int) : ℚ) ∧
      ((estimatedMS b x y : Int) : ℚ) ≤ (x.toRat - y.toRat) * (b : ℚ) + 1 / 5 := by
  have hd := Gaps.fsub_rel 24 x y
  have hbf := Gaps.ofInt_rel 24 b
  rw [Gaps.zpow_neg_24] at hd hbf
  have hA0 : 0 ≤ x.toRat - y.toRat := by linarith
  have hbq0 : (0 : ℚ) ≤ (b : ℚ) := by exact_mod_cast hb0
  have hbq1 : (b : ℚ) ≤ 1048575 := by exact_mod_cast (show b ≤ 1048575 by omega)
  rw [abs_of_nonneg hA0, abs_le] at hd
  rw [abs_of_nonneg hbq0, abs_le] at hbf
  have hd0 : 0 ≤ (fsub 24 x y).toRat := by linarith [hd.1]
  have hnot : flt (fsub 24 x y) fzero = false := by
    rw [← Bool.not_eq_true, Gaps.flt_iff, Gaps.fzero_toRat]
    linarith
  unfold estimatedMS int32OfFloat
  simp only
  rw [hnot]
  simp only [Bool.false_eq_true, if_false]
  have hp := Gaps.fmul_rel 24 (fsub 24 x y) (ofInt 24 b)
  rw [Gaps.zpow_neg_24] at hp
  have hbf0 : 0 ≤ (ofInt 24 b).toRat := by linarith [hbf.1]
  have hP0 : 0 ≤ (fsub 24 x y).toRat * (ofInt 24 b).toRat := mul_nonneg hd0 hbf0
  rw [abs_of_nonneg hP0, abs_le] at hp
  have hr0 : 0 ≤ (fmul 24 (fsub 24 x y) (ofInt 24 b)).toRat := by linarith [hp.1]
  obtain ⟨ht1, ht2⟩ := Gaps.ftrunc_bounds _ hr0
  generalize (fmul 24 (fsub 24 x y) (ofInt 24 b)).toRat = r at hp hr0 ht1 ht2
  generalize ((ftrunc (fmul 24 (fsub 24 x y) (ofInt 24 b)) : Int) : ℚ) = t at ht1 ht2 ⊢
  generalize (fsub 24 x y).toRat = d at hd hd0 hp hP0
  generalize (ofInt 24 b).toRat = bf at hbf hbf0 hp hP0
  generalize x.toRat - y.toRat = A at hd hA0 hlt ⊢
  generalize (b : ℚ) = B at hbf hbq0 hbq1 ⊢
  -- the exact product against the product of the rounded factors
  have hup : d * bf ≤ A * B * ((1 + 1 / 16777216) * (1 + 1 / 16777216)) := by
    have h1 : d ≤ A * (1 + 1 / 16777216) := by linarith [hd.2]
    have h2 : bf ≤ B * (1 + 1 / 16777216) := by linarith [hbf.2]
    have h3 : d * bf ≤ (A * (1 + 1 / 16777216)) * (B * (1 + 1 / 16777216)) :=
      mul_le_mul h1 h2 hbf0 (by positivity)
    linarith
  have hlow : A * B * ((1 - 1 / 16777216) * (1 - 1 / 16777216)) ≤ d * bf := by
    have h1 : A * (1 - 1 / 16777216) ≤ d := by linarith [hd.1]
    have h2 : B * (1 - 1 / 16777216) ≤ bf := by linarith [hbf.1]
    have h3 : (A * (1 - 1 / 16777216)) * (B * (1 - 1 / 16777216)) ≤ d * bf :=
      mul_le_mul h1 h2 (by positivity) hd0
    linarith
  have hAB0 : 0 ≤ A * B := mul_nonneg hA0 hbq0
  have hAB1 : A * B ≤ 1048575 := by
    have : A * B ≤ 1 * 1048575 := mul_le_mul (le_of_lt hlt) hbq1 hbq0 (by norm_num)
    linarith
  constructor
  · nlinarith [hp.1, hlow, hAB0, hAB1]
  · nlinarith [hp.2, hup, hAB0, hAB1]

/-! ## Gaps and intervals of rows on the same lap -/

theorem gapRows_getElem? (leaderBestLap : Int) (leaderPos : DriverPosition) :
    ∀ (rest : List DriverPosition) (previousPos : DriverPosition) (i : Nat)
      (rp r : DriverPosition),
      (previousPos :: gapRows leaderBestLap leaderPos previousPos rest)[i]? = some rp →
      (gapRows leaderBestLap leaderPos previousPos rest)[i]? = some r →
      ∃ currentPos, r = gapRow leaderBestLap leaderPos rp currentPos := by
  intro rest
  induction rest with
  | nil =>
    intro previousPos i rp r _ hr
    unfold gapRows at hr
    cases i <;> cases hr
  | cons currentPos rest ih =>
    intro previousPos i rp r hp hr
    unfold gapRows at hp hr
    cases i with
    | zero =>
      simp only [List.getElem?_cons_zero, Option.some.injEq] at hp hr
      rw [← hp, ← hr]
      exact ⟨currentPos, rfl⟩
    | succ i =>
      simp only [List.getElem?_cons_succ] at hp hr
      exact ih _ i rp r hp hr

/-- After `calculateGaps`, a row below the leader carries the estimate of its gap when
it is on the lap of the leader, and the estimate of its interval when it is on the
lap of the row ahead. -/
theorem calculateGaps_estimates (lt : LeaderboardTracker) (k : Nat)
    (r0 rp rk : DriverPosition)
    (h0 : (calculateGaps lt).positions[0]? = some r0)
    (hp : (calculateGaps lt).positions[k]? = some rp)
    (hk : (calculateGaps lt).positions[k + 1]? = some rk) :
    (r0.Laps = rk.Laps → rk.GapMS
      = estimatedMS (calculateGaps lt).leaderBestLap r0.SplinePosition rk.SplinePosition) ∧
    (rp.Laps = rk.Laps → rk.IntervalMS
      = estimatedMS (calculateGaps lt).leaderBestLap rp.SplinePosition rk.SplinePosition) := by
  unfold calculateGaps at h0 hp hk ⊢
  cases hpos : lt.positions with
  | nil =>
    rw [hpos] at hk
    simp only at hk
    rw [hpos] at hk
    cases hk
  | cons first rest =>
    rw [hpos] at h0 hp hk
    simp only [List.getElem?_cons_zero, Option.some.injEq, List.getElem?_cons_succ] at h0 hp hk
    simp only
    obtain ⟨currentPos, hrow⟩ := gapRows_getElem? _ _ rest _ k rp rk hp hk
    have hs : rk.SplinePosition = currentPos.SplinePosition := by
      rw [hrow]
      rfl
    have hl : rk.Laps = currentPos.Laps := by
      rw [hrow]
      rfl
    constructor
    · intro hlap0
      have hl0 : ¬ ((leaderRow first).Laps : Int) - (currentPos.Laps : Int) > 0 := by
        rw [h0, hlap0, hl]
        omega
      rw [hs, ← h0, hrow]
      show (gapFields _ (leaderRow first) currentPos).2 = _
      unfold gapFields
      simp only
      rw [if_neg hl0]
    · intro hlapp
      have hlp : ¬ ((rp.Laps : Int) - (currentPos.Laps : Int) > 0) := by
        rw [hlapp, hl]
        omega
      rw [hs, hrow]
      show (intervalFields _ rp currentPos).2 = _
      unfold intervalFields
      simp only
      rw [if_neg hlp]

theorem calculateGaps_leader_gap (lt : LeaderboardTracker) (r0 : DriverPosition)
    (h0 : (calculateGaps lt).positions[0]? = some r0) : r0.GapMS = 0 := by
  rw [← List.head?_eq_getElem?] at h0
  exact (calculateGaps_head lt r0 h0).2.2.1

/-- The relation between the gap and the interval of a row and the gap of the row
ahead, for rows on the lap of the leader whose spline positions do not increase. -/
theorem calculateGaps_gap_minus_interval (lt : LeaderboardTracker) (k : Nat)
    (r0 rp rk : DriverPosition)
    (h0 : (calculateGaps lt).positions[0]? = some r0)
    (hp : (calculateGaps lt).positions[k]? = some rp)
    (hk : (calculateGaps lt).positions[k + 1]? = some rk)
    (hlap0 : r0.Laps = rk.Laps) (hlapp : rp.Laps = rk.Laps)
    (hb0 : 0 ≤ (calculateGaps lt).leaderBestLap)
    (hb1 : (calculateGaps lt).leaderBestLap < 1048576)
    (hk0 : flt rk.SplinePosition fzero = false) (h01 : flt r0.SplinePosition fone = true)
    (hpk : flt rp.SplinePosition rk.SplinePosition = false)
    (h0p : flt r0.SplinePosition rp.SplinePosition = false) :
    rp.GapMS - 1 ≤ rk.GapMS - rk.IntervalMS ∧ rk.GapMS - rk.IntervalMS ≤ rp.GapMS + 2 := by
  have hest := calculateGaps_estimates lt k r0 rp rk h0 hp hk
  have hg := hest.1 hlap0
  have hi := hest.2 hlapp
  rw [← Bool.not_eq_true, Gaps.flt_iff, Gaps.fzero_toRat, not_lt] at hk0
  rw [Gaps.flt_iff, Gaps.fone_toRat] at h01
  rw [← Bool.not_eq_true, Gaps.flt_iff, not_lt] at hpk h0p
  have e1 := estimatedMS_bounds _ r0.SplinePosition rk.SplinePosition hb0 hb1
    (le_trans hpk h0p) (by linarith)
  have e2 := estimatedMS_bounds _ rp.SplinePosition rk.SplinePosition hb0 hb1 hpk
    (by linarith)
  rw [← hg] at e1
  rw [← hi] at e2
  -- the gap of row `k`
  have e3 : ((r0.SplinePosition.toRat - rp.SplinePosition.toRat)
        * ((calculateGaps lt).leaderBestLap : ℚ) - 6 / 5 < (rp.GapMS : ℚ)) ∧
      (rp.GapMS : ℚ) ≤ (r0.SplinePosition.toRat - rp.SplinePosition.toRat)
        * ((calculateGaps lt).leaderBestLap : ℚ) + 1 / 5 := by
    cases k with
    | zero =>
      have hrp : rp = r0 := by
        rw [h0] at hp
        exact (Option.some.inj hp).symm
      have hz : rp.GapMS = 0 := by
        rw [hrp]
        exact calculateGaps_leader_gap _ r0 h0
      rw [hz, hrp]
      norm_num
    | succ j =>
      have hj : ∃ rj, (calculateGaps lt).positions[j]? = some rj := by
        cases hjj : (calculateGaps lt).positions[j]? with
        | some rj => exact ⟨rj, rfl⟩
        | none =>
          rw [List.getElem?_eq_none_iff] at hjj
          have := List.getElem?_eq_none_iff.2 (Nat.le_succ_of_le hjj)
          rw [this] at hp
          cases hp
      obtain ⟨rj, hj⟩ := hj
      have hgp := (calculateGaps_estimates lt j r0 rj rp h0 hj hp).1 (by rw [hlap0, hlapp])
      have e := estimatedMS_bounds _ r0.SplinePosition rp.SplinePosition hb0 hb1 h0p
        (by linarith)
      rw [← hgp] at e
      exact e
  have hX : ((rp.GapMS : Int) : ℚ) - 1 - 1 < ((rk.GapMS - rk.IntervalMS : Int) : ℚ) ∧
      ((rk.GapMS - rk.IntervalMS : Int) : ℚ) < ((rp.GapMS : Int) : ℚ) + 2 + 1 := by
    push_cast
    constructor <;> nlinarith [e1.1, e1.2, e2.1, e2.2, e3.1, e3.2]
  constructor
  · have h2 : ((rp.GapMS - 1 - 1 : Int) : ℚ) < ((rk.GapMS - rk.IntervalMS : Int) : ℚ) := by
      have := hX.1
      push_cast
      push_cast at this
      linarith
    have h3 : rp.GapMS - 1 - 1 < rk.GapMS - rk.IntervalMS := by exact_mod_cast h2
    omega
  · have h2 : ((rk.GapMS - rk.IntervalMS : Int) : ℚ) < ((rp.GapMS + 2 + 1 : Int) : ℚ) := by
      have := hX.2
      push_cast
      push_cast at this
      linarith
    have h3 : rk.GapMS - rk.IntervalMS < rp.GapMS + 2 + 1 := by exact_mod_cast h2
    omega

/-- C22, as the code behaves. After `Update`, take a row `k + 1` that is on the lap
of the leader and of row `k`. Its `GapMS` and `IntervalMS` are the `float32`
estimates `int32(d * float32(leaderBestLap))`, with `d` the spline difference to the
leader, respectively to row `k`, increased by 1.0 when negative. When in addition
the spline positions lie in `[0, 1)` and do not increase from the leader to row `k`
to row `k + 1`, and the leader's best lap lies in `[0, 2^20)` ms, then
`GapMS[k+1] - IntervalMS[k+1]` lies between `GapMS[k] - 1` and `GapMS[k] + 2`. -/
theorem update_gap_minus_interval (lt : LeaderboardTracker) (now : Int)
    (cars : List (Nat × CarInfo)) (updates : Nat → Option RealtimeCarUpdate)
    (sessionType playerCarIndex : Nat) (k : Nat) (r0 rp rk : DriverPosition)
    (h0 : (Update lt now cars updates sessionType playerCarIndex).positions[0]? = some r0)
    (hp : (Update lt now cars updates sessionType playerCarIndex).positions[k]? = some rp)
    (hk : (Update lt now cars updates sessionType playerCarIndex).positions[k + 1]? = some rk)
    (hlap0 : r0.Laps = rk.Laps) (hlapp : rp.Laps = rk.Laps) :
    rk.GapMS = estimatedMS (Update lt now cars updates sessionType playerCarIndex).leaderBestLap
        r0.SplinePosition rk.SplinePosition ∧
    rk.IntervalMS
      = estimatedMS (Update lt now cars updates sessionType playerCarIndex).leaderBestLap
          rp.SplinePosition rk.SplinePosition ∧
    (0 ≤ (Update lt now cars updates sessionType playerCarIndex).leaderBestLap →
      (Update lt now cars updates sessionType playerCarIndex).leaderBestLap < 1048576 →
      flt rk.SplinePosition fzero = false → flt r0.SplinePosition fone = true →
      flt rp.SplinePosition rk.SplinePosition = false →
      flt r0.SplinePosition rp.SplinePosition = false →
      rp.GapMS - 1 ≤ rk.GapMS - rk.IntervalMS ∧ rk.GapMS - rk.IntervalMS ≤ rp.GapMS + 2) :=
  ⟨(calculateGaps_estimates _ k r0 rp rk h0 hp hk).1 hlap0,
    (calculateGaps_estimates _ k r0 rp rk h0 hp hk).2 hlapp,
    fun hb0 hb1 hk0 h01 hpk h0p =>
      calculateGaps_gap_minus_interval _ k r0 rp rk h0 hp hk hlap0 hlapp hb0 hb1 hk0 h01 hpk h0p⟩

/-! ## Examples -/

set_option maxRecDepth 100000 in
/-- Witness for C21: descriptors of cars 3, 5 and 9, samples of car 3 in position 2 and
car 5 in position 1; the rows are car 5 and car 3, in this order. -/
theorem update_rows_ordered_by_position_witness :
    (((Update (NewLeaderboardTracker 0) 1 threeCars samplesOfTwo 0 5).positions.map
        (fun r => (r.CarIndex, r.Position))).Perm
      (threeCars.filterMap
        (fun c => (samplesOfTwo c.1).map (fun u => (c.1, (u.Position : Int)))))) ∧
    (Update (NewLeaderboardTracker 0) 1 threeCars samplesOfTwo 0 5).positions.Pairwise
      (fun a b => a.Position < b.Position) ∧
    ∀ first, (Update (NewLeaderboardTracker 0) 1 threeCars samplesOfTwo 0 5).positions.head?
        = some first →
      first.Gap = "Leader" ∧ first.Interval = "---" ∧ first.GapMS = 0 ∧ first.IntervalMS = 0 :=
  update_rows_ordered_by_position (NewLeaderboardTracker 0) 1 threeCars samplesOfTwo 0 5
    (by decide)

set_option maxRecDepth 100000 in
/-- Counterexample to C22 as stated: three cars on lap 4. In the first session (a
qualifying order, positions by best lap) the leader is at spline 0.5, the second car
at 0.75 and the third at 0.25, with a leader best lap of 100 s: the gaps are 0, 75000
and 25000 ms and the intervals 0, 75000 and 50000 ms, so the third row has
`25000 - 50000` against a gap of 75000 of the row ahead. In the second session the
cars follow each other (splines 4096/8192, 4091/8192, 4086/8192, leader best lap
1 s): the gaps are 0, 0 and 1 ms, all intervals are 0, and the third row has `1 - 0`
against a gap of 0 of the row ahead. -/
theorem gap_minus_interval_differs :
    ((Update (NewLeaderboardTracker 0) 1 threeCars samplesQualifying 4 5).positions.map
        (fun r => (r.CarIndex, r.Laps, r.GapMS, r.IntervalMS))
      = [(5, 4, 0, 0), (3, 4, 75000, 75000), (9, 4, 25000, 50000)]) ∧
    ((Update (NewLeaderboardTracker 0) 1 threeCars samplesInLine 10 5).positions.map
        (fun r => (r.CarIndex, r.Laps, r.GapMS, r.IntervalMS))
      = [(5, 4, 0, 0), (3, 4, 0, 0), (9, 4, 1, 0)]) := by
  constructor <;> decide

set_option maxRecDepth 100000 in
/-- Witness for C22 as amended: the three cars that follow each other on lap 4; for
the third row the difference of gap and interval is within the bounds around the
gap of the second row. -/
theorem update_gap_minus_interval_witness :
    ((Update (NewLeaderboardTracker 0) 1 threeCars samplesInLine 10 5).positions.getD 1
        (rowOf 0 0 0 0)).GapMS - 1
      ≤ ((Update (NewLeaderboardTracker 0) 1 threeCars samplesInLine 10 5).positions.getD 2
          (rowOf 0 0 0 0)).GapMS
        - ((Update (NewLeaderboardTracker 0) 1 threeCars samplesInLine 10 5).positions.getD 2
          (rowOf 0 0 0 0)).IntervalMS ∧
    ((Update (NewLeaderboardTracker 0) 1 threeCars samplesInLine 10 5).positions.getD 2
          (rowOf 0 0 0 0)).GapMS
        - ((Update (NewLeaderboardTracker 0) 1 threeCars samplesInLine 10 5).positions.getD 2
          (rowOf 0 0 0 0)).IntervalMS
      ≤ ((Update (NewLeaderboardTracker 0) 1 threeCars samplesInLine 10 5).positions.getD 1
        (rowOf 0 0 0 0)).GapMS + 2 :=
  (update_gap_minus_interval (NewLeaderboardTracker 0) 1 threeCars samplesInLine 10 5 1
    ((Update (NewLeaderboardTracker 0) 1 threeCars samplesInLine 10 5).positions.getD 0
      (rowOf 0 0 0 0))
    ((Update (NewLeaderboardTracker 0) 1 threeCars samplesInLine 10 5).positions.getD 1
      (rowOf 0 0 0 0))
    ((Update (NewLeaderboardTracker 0) 1 threeCars samplesInLine 10 5).positions.getD 2
      (rowOf 0 0 0 0))
    (by decide) (by decide) (by decide) (by decide) (by decide)).2.2
    (by decide) (by decide) (by decide) (by decide) (by decide) (by decide)

set_option maxRecDepth 100000 in
/-- Counterexample to C23 as stated: a leaderboard of four rows with intervals 0 ms
for the second row, 1500 ms for the third and 2500 ms for the fourth. The maximal
run of rows whose interval is below 2.0 s is made of the first three rows (cars 5, 3
and 9); `GetBattles` returns the run of cars 3 and 9, because an interval of 0 does
not join a row to the row ahead. -/
theorem getBattles_skips_zero_interval :
    (maximalRuns intervalBelowTwoSeconds boardOfFour.positions).map
        (fun run => run.map (fun r => r.CarIndex)) = [[5, 3, 9]] ∧
    (GetBattles boardOfFour).map (fun run => run.map (fun r => r.CarIndex)) = [[3, 9]] := by
  constructor <;> decide

set_option maxRecDepth 100000 in
/-- Witness for C24: the leaderboard of four rows with best laps 95000, 0, 91000, 0. -/
theorem sortByBestLap_order_witness :
    (((SortByBestLap boardOfFour).positions.map clearPosition).Perm
      (boardOfFour.positions.map clearPosition)) ∧
    (SortByBestLap boardOfFour).positions.Pairwise
      (fun a b => (a.BestLap = 0 → b.BestLap = 0) ∧
        (0 < b.BestLap → 0 < a.BestLap ∧ a.BestLap ≤ b.BestLap)) ∧
    ∀ (k : Nat) (r : DriverPosition), (SortByBestLap boardOfFour).positions[k]? = some r →
      r.Position = (k : Int) + 1 :=
  sortByBestLap_order boardOfFour (by decide)

end Leaderboard

namespace Laps

open Broadcast (LapInfo LapType GetLapTimeMS)

/-! ## One call of `UpdateFromBroadcast` -/

theorem updateFromBroadcast_some (lt : LapTracker) (now : Int) (lapInfo : LapInfo) :
    UpdateFromBroadcast lt now (some lapInfo)
      = { lt with
          bestSector1 := updateBestSector (lapOf ((lt.laps.length : Int) + 1) now lapInfo)
            (sectorOf lapInfo 0) lt.bestSector1,
          bestSector2 := updateBestSector (lapOf ((lt.laps.length : Int) + 1) now lapInfo)
            (sectorOf lapInfo 1) lt.bestSector2,
          bestSector3 := updateBestSector (lapOf ((lt.laps.length : Int) + 1) now lapInfo)
            (sectorOf lapInfo 2) lt.bestSector3,
          bestLap :=
            if isNewBest (lapOf ((lt.laps.length : Int) + 1) now lapInfo) lt.bestLap then
              some { lapOf ((lt.laps.length : Int) + 1) now lapInfo with IsPersonalBest := true }
            else lt.bestLap,
          lastLap :=
            some (if isNewBest (lapOf ((lt.laps.length : Int) + 1) now lapInfo) lt.bestLap then
              { lapOf ((lt.laps.length : Int) + 1) now lapInfo with IsPersonalBest := true }
              else lapOf ((lt.laps.length : Int) + 1) now lapInfo),
          laps := lt.laps ++
            [if isNewBest (lapOf ((lt.laps.length : Int) + 1) now lapInfo) lt.bestLap then
              { lapOf ((lt.laps.length : Int) + 1) now lapInfo with IsPersonalBest := true }
              else lapOf ((lt.laps.length : Int) + 1) now lapInfo] } := by
  unfold UpdateFromBroadcast
  simp only
  cases isNewBest (lapOf ((lt.laps.length : Int) + 1) now lapInfo) lt.bestLap <;> rfl

theorem isNewBest_iff (lap : LapData) (bestLap : Option LapData) :
    isNewBest lap bestLap = true ↔
      lap.IsValidForBest = true ∧ 0 < lap.LapTime ∧
        ∀ best, bestLap = some best → lap.LapTime < best.LapTime := by
  unfold isNewBest
  cases bestLap with
  | none => simp
  | some best => simp [and_assoc]

theorem updateBestSector_idem (lap : LapData) (sector best : Int) :
    updateBestSector lap sector (updateBestSector lap sector best)
      = updateBestSector lap sector best := by
  unfold updateBestSector
  by_cases hv : lap.IsValidForBest = true
  · simp only [if_pos hv]
    by_cases hc : sector > 0 ∧ sector < best
    · simp only [if_pos hc]
      rw [if_neg (by omega)]
    · simp only [if_neg hc]
  · simp only [if_neg hv]

/-- What a second call with the same record changes and what it leaves: the best
lap and the best sectors stay, the history receives a second entry for the record
(numbered one higher, stamped with the second clock reading, never flagged as
personal best), and that entry becomes the last lap. -/
theorem updateFromBroadcast_twice (lt : LapTracker) (now1 now2 : Int) (lapInfo : LapInfo) :
    (UpdateFromBroadcast (UpdateFromBroadcast lt now1 (some lapInfo)) now2 (some lapInfo)).bestLap
      = (UpdateFromBroadcast lt now1 (some lapInfo)).bestLap ∧
    (UpdateFromBroadcast (UpdateFromBroadcast lt now1 (some lapInfo)) now2
        (some lapInfo)).bestSector1
      = (UpdateFromBroadcast lt now1 (some lapInfo)).bestSector1 ∧
    (UpdateFromBroadcast (UpdateFromBroadcast lt now1 (some lapInfo)) now2
        (some lapInfo)).bestSector2
      = (UpdateFromBroadcast lt now1 (some lapInfo)).bestSector2 ∧
    (UpdateFromBroadcast (UpdateFromBroadcast lt now1 (some lapInfo)) now2
        (some lapInfo)).bestSector3
      = (UpdateFromBroadcast lt now1 (some lapInfo)).bestSector3 ∧
    (UpdateFromBroadcast (UpdateFromBroadcast lt now1 (some lapInfo)) now2 (some lapInfo)).laps
      = (UpdateFromBroadcast lt now1 (some lapInfo)).laps
          ++ [lapOf ((lt.laps.length : Int) + 2) now2 lapInfo] ∧
    (UpdateFromBroadcast (UpdateFromBroadcast lt now1 (some lapInfo)) now2 (some lapInfo)).lastLap
      = some (lapOf ((lt.laps.length : Int) + 2) now2 lapInfo) := by
  have hnot : isNewBest (lapOf (((UpdateFromBroadcast lt now1 (some lapInfo)).laps.length : Int) + 1)
      now2 lapInfo) (UpdateFromBroadcast lt now1 (some lapInfo)).bestLap = false := by
    rw [← Bool.not_eq_true, isNewBest_iff]
    rintro ⟨hv, hpos, hlt⟩
    rw [updateFromBroadcast_some] at hlt
    simp only at hlt
    by_cases hn : isNewBest (lapOf ((lt.laps.length : Int) + 1) now1 lapInfo) lt.bestLap = true
    · rw [if_pos hn] at hlt
      have := hlt _ rfl
      exact absurd this (lt_irrefl _)
    · rw [if_neg hn] at hlt
      apply hn
      rw [isNewBest_iff]
      exact ⟨hv, hpos, hlt⟩
  have hlen : (((UpdateFromBroadcast lt now1 (some lapInfo)).laps.length : Int) + 1)
      = (lt.laps.length : Int) + 2 := by
    rw [updateFromBroadcast_some]
    simp only [List.length_append, List.length_singleton]
    push_cast
    ring
  rw [updateFromBroadcast_some (UpdateFromBroadcast lt now1 (some lapInfo)) now2 lapInfo, hnot,
    hlen]
  refine ⟨rfl, ?_, ?_, ?_, rfl, rfl⟩
  · rw [updateFromBroadcast_some]
    exact updateBestSector_idem _ _ _
  · rw [updateFromBroadcast_some]
    exact updateBestSector_idem _ _ _
  · rw [updateFromBroadcast_some]
    exact updateBestSector_idem _ _ _

/-! ## Sequences of calls -/

theorem lapFeed_snoc (lt : LapTracker) (records : List (Int × LapInfo)) (x : Int × LapInfo) :
    feed lt (records ++ [x]) = UpdateFromBroadcast (feed lt records) x.1 (some x.2) := by
  unfold feed
  rw [List.foldl_append]
  rfl

theorem feed_length (lt : LapTracker) (records : List (Int × LapInfo)) :
    (feed lt records).laps.length = lt.laps.length + records.length := by
  induction records using List.reverseRecOn with
  | nil => rfl
  | append_singleton records x ih =>
    rw [lapFeed_snoc, updateFromBroadcast_some]
    simp only [List.length_append, List.length_singleton]
    rw [ih]
    omega

/-- A best-sector slot after a sequence of calls: the least positive split of its
sector over the records that are valid for best, capped by `MaxInt32`. -/
theorem feed_bestSector (s : Nat) (slot : LapTracker → Int)
    (hstep : ∀ lt now lapInfo, slot (UpdateFromBroadcast lt now (some lapInfo))
      = updateBestSector (lapOf ((lt.laps.length : Int) + 1) now lapInfo) (sectorOf lapInfo s)
          (slot lt))
    (lt0 : LapTracker) (h0 : slot lt0 = MaxInt32) (records : List (Int × LapInfo))
    (hrange : ∀ x ∈ records, sectorOf x.2 s ≤ MaxInt32) :
    (∀ x ∈ records, x.2.IsValidForBest = true → 0 < sectorOf x.2 s →
      slot (feed lt0 records) ≤ sectorOf x.2 s) ∧
    (slot (feed lt0 records) = MaxInt32 ∨
      ∃ x ∈ records, x.2.IsValidForBest = true ∧ 0 < sectorOf x.2 s ∧
        slot (feed lt0 records) = sectorOf x.2 s) := by
  induction records using List.reverseRecOn with
  | nil =>
    constructor
    · intro x hx
      cases hx
    · left
      exact h0
  | append_singleton records y ih =>
    have ih' := ih (fun x hx => hrange x (List.mem_append_left _ hx))
    have hy := hrange y (List.mem_append_right _ (List.mem_singleton_self y))
    rw [lapFeed_snoc, hstep]
    unfold updateBestSector
    have hv : (lapOf (((feed lt0 records).laps.length : Int) + 1) y.1 y.2).IsValidForBest
        = y.2.IsValidForBest := rfl
    rw [hv]
    by_cases hval : y.2.IsValidForBest = true
    · rw [if_pos hval]
      by_cases hc : sectorOf y.2 s > 0 ∧ sectorOf y.2 s < slot (feed lt0 records)
      · rw [if_pos hc]
        constructor
        · intro x hx hxv hxp
          rcases List.mem_append.1 hx with h | h
          · have := ih'.1 x h hxv hxp
            omega
          · rw [List.mem_singleton.1 h]
        · right
          exact ⟨y, List.mem_append_right _ (List.mem_singleton_self y), hval, hc.1, rfl⟩
      · rw [if_neg hc]
        constructor
        · intro x hx hxv hxp
          rcases List.mem_append.1 hx with h | h
          · exact ih'.1 x h hxv hxp
          · rw [List.mem_singleton.1 h]
            rw [List.mem_singleton.1 h] at hxp
            omega
        · rcases ih'.2 with h | ⟨x, hx, h⟩
          · left
            exact h
          · right
            exact ⟨x, List.mem_append_left _ hx, h⟩
    · rw [if_neg hval]
      constructor
      · intro x hx hxv hxp
        rcases List.mem_append.1 hx with h | h
        · exact ih'.1 x h hxv hxp
        · rw [List.mem_singleton.1 h] at hxv
          exact absurd hxv hval
      · rcases ih'.2 with h | ⟨x, hx, h⟩
        · left
          exact h
        · right
          exact ⟨x, List.mem_append_left _ hx, h⟩

/-- The best lap after a sequence of calls on a tracker without laps. -/
theorem feed_bestLap (lt0 : LapTracker) (h0 : lt0.bestLap = none) (hl : lt0.laps = [])
    (records : List (Int × LapInfo)) :
    ((feed lt0 records).bestLap = none → ∀ x ∈ records, ¬ eligible x.2) ∧
    (∀ best, (feed lt0 records).bestLap = some best →
      ∃ (i : Nat) (now : Int) (lapInfo : LapInfo),
        records[i]? = some (now, lapInfo) ∧ eligible lapInfo ∧
        best = { lapOf ((i : Int) + 1) now lapInfo with IsPersonalBest := true } ∧
        ∀ (j : Nat) (x : Int × LapInfo), records[j]? = some x → eligible x.2 →
          GetLapTimeMS lapInfo ≤ GetLapTimeMS x.2 ∧
          (j < i → GetLapTimeMS lapInfo < GetLapTimeMS x.2)) := by
  induction records using List.reverseRecOn with
  | nil =>
    constructor
    · intro _ x hx
      cases hx
    · intro best hb
      rw [show feed lt0 [] = lt0 from rfl, h0] at hb
      cases hb
  | append_singleton records y ih =>
    have hlen : ((feed lt0 records).laps.length : Int) + 1 = (records.length : Int) + 1 := by
      rw [feed_length, hl]
      simp
    rw [lapFeed_snoc, updateFromBroadcast_some, hlen]
    simp only
    by_cases hn : isNewBest (lapOf ((records.length : Int) + 1) y.1 y.2)
        (feed lt0 records).bestLap = true
    · rw [if_pos hn]
      rw [isNewBest_iff] at hn
      obtain ⟨hv, hpos, hlt⟩ := hn
      have hel : eligible y.2 := ⟨hv, hpos⟩
      constructor
      · intro h
        cases h
      · intro best hb
        refine ⟨records.length, y.1, y.2, ?_, hel, (Option.some.inj hb).symm, ?_⟩
        · rw [List.getElem?_append_right (Nat.le_refl _)]
          simp
        · intro j x hj hx
          rcases Nat.lt_or_ge j records.length with hjl | hjl
          · rw [List.getElem?_append_left hjl] at hj
            cases hprev : (feed lt0 records).bestLap with
            | none =>
              exact absurd hx (ih.1 hprev x (List.getElem?_mem hj))
            | some prev =>
              obtain ⟨i, now, lapInfo, _, _, hbest, hmin⟩ := ih.2 prev hprev
              have h1 := (hmin j x hj hx).1
              have h2 : (lapOf ((records.length : Int) + 1) y.1 y.2).LapTime < prev.LapTime :=
                hlt prev hprev
              rw [hbest] at h2
              have h3 : GetLapTimeMS y.2 < GetLapTimeMS lapInfo := h2
              constructor
              · omega
              · intro _
                omega
          · rw [List.getElem?_append_right hjl] at hj
            have hj0 : j - records.length = 0 := by
              rcases Nat.eq_zero_or_pos (j - records.length) with h | h
              · exact h
              · rw [List.getElem?_eq_none (by simp only [List.length_singleton]; omega)] at hj
                cases hj
            rw [hj0] at hj
            simp only [List.getElem?_cons_zero, Option.some.injEq] at hj
            rw [← hj]
            constructor
            · exact le_refl _
            · intro h
              omega
    · rw [if_neg hn]
      constructor
      · intro hnone x hx
        rcases List.mem_append.1 hx with h | h
        · exact ih.1 hnone x h
        · rw [List.mem_singleton.1 h]
          intro hel
          apply hn
          rw [isNewBest_iff]
          refine ⟨hel.1, hel.2, ?_⟩
          intro best hb
          rw [hnone] at hb
          cases hb
      · intro best hb
        obtain ⟨i, now, lapInfo, hi, hel, hbest, hmin⟩ := ih.2 best hb
        have hil : i < records.length := by
          rcases Nat.lt_or_ge i records.length with h | h
          · exact h
          · rw [List.getElem?_eq_none h] at hi
            cases hi
        refine ⟨i, now, lapInfo, ?_, hel, hbest, ?_⟩
        · rw [List.getElem?_append_left hil]
          exact hi
        · intro j x hj hx
          rcases Nat.lt_or_ge j records.length with hjl | hjl
          · rw [List.getElem?_append_left hjl] at hj
            exact hmin j x hj hx
          · rw [List.getElem?_append_right hjl] at hj
            have hj0 : j - records.length = 0 := by
              rcases Nat.eq_zero_or_pos (j - records.length) with h | h
              · exact h
              · rw [List.getElem?_eq_none (by simp only [List.length_singleton]; omega)] at hj
                cases hj
            rw [hj0] at hj
            simp only [List.getElem?_cons_zero, Option.some.injEq] at hj
            rw [← hj]
            have hnb : ¬ (GetLapTimeMS y.2 < GetLapTimeMS lapInfo) := by
              intro hlt
              apply hn
              rw [isNewBest_iff]
              rw [← hj] at hx
              refine ⟨hx.1, hx.2, ?_⟩
              intro b hb2
              rw [hb] at hb2
              rw [← Option.some.inj hb2, hbest]
              exact hlt
            constructor
            · omega
            · intro h
              omega

/-! ## Best lap and best sectors -/

/-- The computed time of a record is the plain sum of its present splits when these
are not negative and at most a third of `MaxInt32`, so that no partial sum leaves
the `int32` range. -/
theorem getLapTimeMS_eq_sum (lapInfo : LapInfo) (a b c : Option Int)
    (hsplits : lapInfo.Splits = [a, b, c])
    (hrange : ∀ split ∈ lapInfo.Splits, 0 ≤ split.getD 0 ∧ split.getD 0 ≤ 715827882) :
    GetLapTimeMS lapInfo = a.getD 0 + b.getD 0 + c.getD 0 := by
  rw [hsplits] at hrange
  have ha := hrange a (by simp)
  have hb := hrange b (by simp)
  have hc := hrange c (by simp)
  unfold GetLapTimeMS
  rw [hsplits]
  cases a <;> cases b <;> cases c <;>
    simp only [List.foldl_cons, List.foldl_nil, Option.getD_some, Option.getD_none,
      Broadcast.wrapInt32] at ha hb hc ⊢ <;>
    omega

theorem sectorOf_le (lapInfo : LapInfo) (s : Nat)
    (h : ∀ split ∈ lapInfo.Splits, split.getD 0 ≤ MaxInt32) : sectorOf lapInfo s ≤ MaxInt32 := by
  unfold sectorOf
  cases hs : lapInfo.Splits[s]? with
  | none =>
    simp only
    decide
  | some split =>
    cases split with
    | none =>
      simp only
      decide
    | some v =>
      simp only
      exact h (some v) (List.getElem?_mem hs)

/-- C26. After any sequence of `UpdateFromBroadcast` calls on a fresh tracker, with
splits that are `int32` values: `GetBestLap` is nil exactly when no fed record was
valid for best with a positive computed time (`GetLapTimeMS`, the `int32` sum of the
splits that are present); otherwise it is the lap built from the earliest fed record
that attains the least computed time among those records, flagged as personal best;
and the best value of each sector is at most every positive split of that sector in
a record valid for best, and is either 2147483647 or one of those splits. -/
theorem best_lap_and_sectors_of_feed (carIndex : Nat) (records : List (Int × LapInfo))
    (hrange : ∀ x ∈ records, ∀ split ∈ x.2.Splits, split.getD 0 ≤ MaxInt32) :
    (GetBestLap (feed (NewLapTracker carIndex) records) = none ↔
      ∀ x ∈ records, ¬ eligible x.2) ∧
    (∀ best, GetBestLap (feed (NewLapTracker carIndex) records) = some best →
      ∃ (i : Nat) (now : Int) (lapInfo : LapInfo),
        records[i]? = some (now, lapInfo) ∧ eligible lapInfo ∧
        best = { lapOf ((i : Int) + 1) now lapInfo with IsPersonalBest := true } ∧
        ∀ (j : Nat) (x : Int × LapInfo), records[j]? = some x → eligible x.2 →
          GetLapTimeMS lapInfo ≤ GetLapTimeMS x.2 ∧
          (j < i → GetLapTimeMS lapInfo < GetLapTimeMS x.2)) ∧
    (∀ s : Nat, s < 3 →
      (∀ x ∈ records, x.2.IsValidForBest = true → 0 < sectorOf x.2 s →
        GetBestSector (feed (NewLapTracker carIndex) records) ((s : Int) + 1)
          ≤ sectorOf x.2 s) ∧
      (GetBestSector (feed (NewLapTracker carIndex) records) ((s : Int) + 1) = MaxInt32 ∨
        ∃ x ∈ records, x.2.IsValidForBest = true ∧ 0 < sectorOf x.2 s ∧
          GetBestSector (feed (NewLapTracker carIndex) records) ((s : Int) + 1)
            = sectorOf x.2 s)) := by
  have hb := feed_bestLap (NewLapTracker carIndex) rfl rfl records
  refine ⟨⟨hb.1, ?_⟩, hb.2, ?_⟩
  · intro hnone
    cases hbest : GetBestLap (feed (NewLapTracker carIndex) records) with
    | none => rfl
    | some best =>
      obtain ⟨i, now, lapInfo, hi, hel, _, _⟩ := hb.2 best hbest
      exact absurd hel (hnone _ (List.getElem?_mem hi))
  · intro s hs
    have hr : ∀ x ∈ records, sectorOf x.2 s ≤ MaxInt32 :=
      fun x hx => sectorOf_le x.2 s (hrange x hx)
    interval_cases s
    · exact feed_bestSector 0 (fun lt => lt.bestSector1)
        (fun lt now lapInfo => by rw [updateFromBroadcast_some])
        (NewLapTracker carIndex) rfl records hr
    · exact feed_bestSector 1 (fun lt => lt.bestSector2)
        (fun lt now lapInfo => by rw [updateFromBroadcast_some])
        (NewLapTracker carIndex) rfl records hr
    · exact feed_bestSector 2 (fun lt => lt.bestSector3)
        (fun lt now lapInfo => by rw [updateFromBroadcast_some])
        (NewLapTracker carIndex) rfl records hr

/-- Witness for C26: three regular laps of 100 s, 99 s and 98 s and an inlap of 150 s;
the best lap is the third one. -/
theorem best_lap_and_sectors_of_feed_witness :
    ∃ (i : Nat) (now : Int) (lapInfo : LapInfo),
      lapsThenInlap[i]? = some (now, lapInfo) ∧ eligible lapInfo ∧
      (⟨3, 98000, 30000, 30000, 38000, true, true, false, false, true, false, 3, 7, 0⟩ : LapData)
        = { lapOf ((i : Int) + 1) now lapInfo with IsPersonalBest := true } ∧
      ∀ (j : Nat) (x : Int × LapInfo), lapsThenInlap[j]? = some x → eligible x.2 →
        GetLapTimeMS lapInfo ≤ GetLapTimeMS x.2 ∧
        (j < i → GetLapTimeMS lapInfo < GetLapTimeMS x.2) :=
  (best_lap_and_sectors_of_feed 7 lapsThenInlap (by decide)).2.1
    ⟨3, 98000, 30000, 30000, 38000, true, true, false, false, true, false, 3, 7, 0⟩ (by decide)

/-! ## Repeated records -/

/-- Calling `UpdateFromBroadcast` twice with one record, on a fresh tracker. The
history and the lap count after the second call differ from those after the first:
the record is appended again as lap 2. (C25) -/
theorem updateFromBroadcast_twice_appends :
    GetLapCount (UpdateFromBroadcast (NewLapTracker 7) 1
      (some (recordOf 30000 30000 40000 false LapType.Regular))) = 1 ∧
    GetLapCount (UpdateFromBroadcast (UpdateFromBroadcast (NewLapTracker 7) 1
      (some (recordOf 30000 30000 40000 false LapType.Regular))) 1
      (some (recordOf 30000 30000 40000 false LapType.Regular))) = 2 ∧
    (GetLapHistory (UpdateFromBroadcast (UpdateFromBroadcast (NewLapTracker 7) 1
      (some (recordOf 30000 30000 40000 false LapType.Regular))) 1
      (some (recordOf 30000 30000 40000 false LapType.Regular)))).map
        (fun lap => (lap.LapNumber, lap.LapTime, lap.IsPersonalBest))
      = [(1, 100000, true), (2, 100000, false)] ∧
    GetLastLap (UpdateFromBroadcast (UpdateFromBroadcast (NewLapTracker 7) 1
      (some (recordOf 30000 30000 40000 false LapType.Regular))) 1
      (some (recordOf 30000 30000 40000 false LapType.Regular)))
      ≠ GetLastLap (UpdateFromBroadcast (NewLapTracker 7) 1
      (some (recordOf 30000 30000 40000 false LapType.Regular))) := by
  decide

/-! ## The improving flag -/

theorem getRecentLaps_three (lt : LapTracker) :
    GetRecentLaps lt 3 = lt.laps.drop (lt.laps.length - 3) := by
  unfold GetRecentLaps
  rw [if_neg (by decide)]
  simp only
  by_cases h : (3 : Int) > (lt.laps.length : Int)
  · rw [if_pos h]
    have h1 : ((lt.laps.length : Int) - (lt.laps.length : Int)).toNat = 0 := by omega
    have h2 : lt.laps.length - 3 = 0 := by omega
    rw [h1, h2]
  · rw [if_neg h]
    have h1 : ((lt.laps.length : Int) - 3).toNat = lt.laps.length - 3 := by omega
    rw [h1]

/-- C27, as the code behaves. `IsImproving` is true exactly when the history holds at
least three laps and the lap times of its last three laps, clean or not, are
strictly decreasing in time order. -/
theorem isImproving_iff (lt : LapTracker) :
    IsImproving lt = true ↔
      ∃ (earlier : List LapData) (first second third : LapData),
        lt.laps = earlier ++ [first, second, third] ∧
        third.LapTime < second.LapTime ∧ second.LapTime < first.LapTime := by
  unfold IsImproving
  rw [getRecentLaps_three]
  constructor
  · intro h
    have hsplit := List.take_append_drop (lt.laps.length - 3) lt.laps
    have hlen : (lt.laps.drop (lt.laps.length - 3)).length ≤ 3 := by
      rw [List.length_drop]
      omega
    cases hd : lt.laps.drop (lt.laps.length - 3) with
    | nil =>
      rw [hd] at h
      cases h
    | cons first rest1 =>
      cases rest1 with
      | nil =>
        rw [hd] at h
        cases h
      | cons second rest2 =>
        cases rest2 with
        | nil =>
          rw [hd] at h
          cases h
        | cons third rest3 =>
          rw [hd] at h hlen hsplit
          have hnil : rest3 = [] := by
            cases rest3 with
            | nil => rfl
            | cons _ _ =>
              simp only [List.length_cons] at hlen
              omega
          subst hnil
          simp only [Bool.and_eq_true, decide_eq_true_eq] at h
          exact ⟨_, first, second, third, hsplit.symm, h.1, h.2⟩
  · rintro ⟨earlier, first, second, third, hl, h1, h2⟩
    have hdrop : lt.laps.drop (lt.laps.length - 3) = [first, second, third] := by
      rw [hl]
      have : (earlier ++ [first, second, third]).length - 3 = earlier.length := by
        simp
      rw [this, List.drop_left]
    rw [hdrop]
    simp only [Bool.and_eq_true, decide_eq_true_eq]
    exact ⟨h1, h2⟩

/-- Counterexample to C27 as stated. After three regular laps of 100 s, 99 s and 98 s
and an inlap of 150 s, the three most recent clean laps are strictly decreasing but
`IsImproving` is false; after an outlap of 150 s, an invalid lap of 120 s and a
regular lap of 100 s there is one clean lap only but `IsImproving` is true. -/
theorem isImproving_counts_unclean_laps :
    (improvingOverCleanLaps (feed (NewLapTracker 7) lapsThenInlap).laps = true ∧
      IsImproving (feed (NewLapTracker 7) lapsThenInlap) = false) ∧
    (improvingOverCleanLaps (feed (NewLapTracker 7) lapsAfterPit).laps = false ∧
      IsImproving (feed (NewLapTracker 7) lapsAfterPit) = true) := by
  decide

end Laps

namespace Incidents

open Broadcast (Byte CarInfo RealtimeCarUpdate BroadcastingEvent GetCurrentDriverName
  wrapUint16)

/-! ## The history map -/

theorem mapGet_isSome {β : Type} (m : List (Int × β)) (k : Int) :
    (mapGet m k).isSome = true ↔ k ∈ m.map (fun e => e.1) := by
  induction m with
  | nil => simp [mapGet]
  | cons e rest ih =>
    obtain ⟨k1, v1⟩ := e
    unfold mapGet
    by_cases h : k1 = k
    · rw [if_pos h]
      simp [h]
    · rw [if_neg h, ih]
      simp only [List.map_cons, List.mem_cons]
      constructor
      · intro hm
        exact Or.inr hm
      · intro hm
        rcases hm with hm | hm
        · exact absurd hm.symm h
        · exact hm

theorem mapSet_keys {β : Type} (m : List (Int × β)) (k : Int) (v : β) (k2 : Int)
    (h : k2 ∈ (mapSet m k v).map (fun e => e.1)) :
    k2 ∈ m.map (fun e => e.1) ∨ k2 = k := by
  induction m with
  | nil =>
    unfold mapSet at h
    simp only [List.map_cons, List.map_nil, List.mem_singleton] at h
    exact Or.inr h
  | cons e rest ih =>
    obtain ⟨k1, v1⟩ := e
    unfold mapSet at h
    by_cases hk : k1 = k
    · rw [if_pos hk] at h
      simp only [List.map_cons, List.mem_cons] at h ⊢
      rcases h with h | h
      · exact Or.inr h
      · exact Or.inl (Or.inr h)
    · rw [if_neg hk] at h
      simp only [List.map_cons, List.mem_cons] at h ⊢
      rcases h with h | h
      · exact Or.inl (Or.inl h)
      · rcases ih h with h2 | h2
        · exact Or.inl (Or.inr h2)
        · exact Or.inr h2

theorem milliseconds_mono (a b : Int) (h : a ≤ b) : Milliseconds a ≤ Milliseconds b := by
  unfold Milliseconds Millisecond
  split <;> split <;> omega

/-- After a call whose session time has a key other than 0, every key of the
history was in the history before or is the key just written, and none is more than
20000 below the key just written. -/
theorem updateRealtimeCarUpdate_keys (it : IncidentTracker) (carUpdate : RealtimeCarUpdate)
    (sessionTime : Int) (hkey : Milliseconds sessionTime ≠ 0) (k : Int)
    (hk : k ∈ historyKeys (UpdateRealtimeCarUpdate it carUpdate sessionTime)) :
    (k ∈ historyKeys it ∨ k = Milliseconds sessionTime) ∧
      Milliseconds sessionTime - k ≤ HistoryRetentionMs := by
  unfold UpdateRealtimeCarUpdate at hk
  simp only at hk
  rw [if_neg hkey] at hk
  unfold historyKeys cleanOldHistory at hk
  simp only [List.mem_map, List.mem_filter, Bool.not_eq_true', decide_eq_false_iff_not,
    not_lt] at hk
  obtain ⟨e, ⟨he, hle⟩, hek⟩ := hk
  rw [← hek]
  refine ⟨?_, by omega⟩
  have hmem : e.1 ∈ List.map (fun e => e.1)
      (match mapGet
          (match mapGet it.realtimeCarHistory (Milliseconds sessionTime) with
            | some _ => it.realtimeCarHistory
            | none => mapSet it.realtimeCarHistory (Milliseconds sessionTime) [])
          (Milliseconds sessionTime) with
        | some cars =>
          mapSet
            (match mapGet it.realtimeCarHistory (Milliseconds sessionTime) with
              | some _ => it.realtimeCarHistory
              | none => mapSet it.realtimeCarHistory (Milliseconds sessionTime) [])
            (Milliseconds sessionTime) (carSet cars carUpdate.CarIndex carUpdate)
        | none =>
          match mapGet it.realtimeCarHistory (Milliseconds sessionTime) with
            | some _ => it.realtimeCarHistory
            | none => mapSet it.realtimeCarHistory (Milliseconds sessionTime) []) :=
    List.mem_map_of_mem _ he
  have hinner : ∀ k2, k2 ∈ List.map (fun e => e.1)
      (match mapGet it.realtimeCarHistory (Milliseconds sessionTime) with
        | some _ => it.realtimeCarHistory
        | none => mapSet it.realtimeCarHistory (Milliseconds sessionTime) []) →
      k2 ∈ historyKeys it ∨ k2 = Milliseconds sessionTime := by
    intro k2 h2
    cases hg : mapGet it.realtimeCarHistory (Milliseconds sessionTime) with
    | some _ =>
      rw [hg] at h2
      exact Or.inl h2
    | none =>
      rw [hg] at h2
      exact mapSet_keys _ _ _ _ h2
  split at hmem
  · rcases mapSet_keys _ _ _ _ hmem with h | h
    · exact hinner _ h
    · exact Or.inr h
  · exact hinner _ hmem

theorem historyFeed_snoc (it : IncidentTracker) (calls : List (RealtimeCarUpdate × Int))
    (c : RealtimeCarUpdate × Int) :
    feed it (calls ++ [c]) = UpdateRealtimeCarUpdate (feed it calls) c.1 c.2 := by
  unfold feed
  rw [List.foldl_append]
  rfl

theorem updateRealtimeCarUpdate_zero (it : IncidentTracker) (carUpdate : RealtimeCarUpdate)
    (sessionTime : Int) (hkey : Milliseconds sessionTime = 0) :
    historyKeys (UpdateRealtimeCarUpdate it carUpdate sessionTime) = historyKeys it := by
  unfold UpdateRealtimeCarUpdate
  simp only
  rw [if_pos hkey]
  rfl

/-- Every key of the history comes from one of the calls. -/
theorem feed_keys (calls : List (RealtimeCarUpdate × Int)) :
    ∀ k ∈ historyKeys (feed NewIncidentTracker calls), ∃ c ∈ calls, k = Milliseconds c.2 := by
  induction calls using List.reverseRecOn with
  | nil =>
    intro k hk
    cases hk
  | append_singleton calls c ih =>
    intro k hk
    rw [historyFeed_snoc] at hk
    by_cases hkey : Milliseconds c.2 = 0
    · rw [updateRealtimeCarUpdate_zero _ _ _ hkey] at hk
      obtain ⟨x, hx, hxk⟩ := ih k hk
      exact ⟨x, List.mem_append_left _ hx, hxk⟩
    · rcases (updateRealtimeCarUpdate_keys _ _ _ hkey k hk).1 with h | h
      · obtain ⟨x, hx, hxk⟩ := ih k h
        exact ⟨x, List.mem_append_left _ hx, hxk⟩
      · exact ⟨c, List.mem_append_right _ (List.mem_singleton_self c), h⟩

theorem retention_sorted (calls : List (RealtimeCarUpdate × Int))
    (hsorted : (calls.map (fun c => c.2)).Pairwise (fun a b => a ≤ b)) :
    withinRetention (feed NewIncidentTracker calls) := by
  induction calls using List.reverseRecOn with
  | nil =>
    intro k hk
    cases hk
  | append_singleton calls c ih =>
    rw [List.map_append, List.pairwise_append] at hsorted
    obtain ⟨hpre, _, hlast⟩ := hsorted
    have hle : ∀ x ∈ calls, x.2 ≤ c.2 := by
      intro x hx
      exact hlast x.2 (List.mem_map_of_mem _ hx) c.2 (by simp)
    unfold withinRetention
    rw [historyFeed_snoc]
    by_cases hkey : Milliseconds c.2 = 0
    · rw [updateRealtimeCarUpdate_zero _ _ _ hkey]
      exact ih hpre
    · intro k hk newest hn
      have h1 := updateRealtimeCarUpdate_keys _ _ _ hkey k hk
      have h2 := updateRealtimeCarUpdate_keys _ _ _ hkey newest hn
      have hnew : newest ≤ Milliseconds c.2 := by
        rcases h2.1 with h | h
        · obtain ⟨x, hx, hxk⟩ := feed_keys calls newest h
          rw [hxk]
          exact milliseconds_mono _ _ (hle x hx)
        · omega
      have := h1.2
      omega

/-- C28, as the code behaves. For every sequence of `UpdateRealtimeCarUpdate` calls
on a fresh tracker whose session times never decrease, after each call the history
holds no key more than 20000 below the largest key of the history. -/
theorem retention_of_ordered_calls (calls : List (RealtimeCarUpdate × Int))
    (hsorted : (calls.map (fun c => c.2)).Pairwise (fun a b => a ≤ b)) (n : Nat) :
    withinRetention (feed NewIncidentTracker (calls.take n)) := by
  apply retention_sorted
  rw [List.map_take]
  exact hsorted.sublist (List.take_sublist n _)

/-- Witness for C28 as amended: samples at 15 s, 20 s and 45 s; after the third call
the history holds the key 45000 only. -/
theorem retention_of_ordered_calls_witness :
    withinRetention (feed NewIncidentTracker
      ([(sampleAt 7 0x3ED70A3D, 15000 * Millisecond), (sampleAt 7 0x3ED70A3D, 20000 * Millisecond),
        (sampleAt 7 0x3ED70A3D, 45000 * Millisecond)].take 3)) :=
  retention_of_ordered_calls
    [(sampleAt 7 0x3ED70A3D, 15000 * Millisecond), (sampleAt 7 0x3ED70A3D, 20000 * Millisecond),
      (sampleAt 7 0x3ED70A3D, 45000 * Millisecond)] (by decide) 3

/-- Counterexample to C28 as stated: a sample at session time 50 s followed by a
sample at session time 10 s. The second call prunes relative to its own key 10000,
so the key 50000 stays, and the key 10000 is 40000 below it. -/
theorem retention_broken_by_earlier_time :
    historyKeys (feed NewIncidentTracker
      [(sampleAt 7 0x3ED70A3D, 50000 * Millisecond), (sampleAt 7 0x3ED70A3D, 10000 * Millisecond)])
      = [50000, 10000] ∧
    ¬ withinRetention (feed NewIncidentTracker
      [(sampleAt 7 0x3ED70A3D, 50000 * Millisecond),
        (sampleAt 7 0x3ED70A3D, 10000 * Millisecond)]) := by
  have hkeys : historyKeys (feed NewIncidentTracker
      [(sampleAt 7 0x3ED70A3D, 50000 * Millisecond), (sampleAt 7 0x3ED70A3D, 10000 * Millisecond)])
      = [50000, 10000] := by decide
  refine ⟨hkeys, ?_⟩
  unfold withinRetention
  rw [hkeys]
  decide

/-! ## The key of an accident event -/

/-- The result of the loop of `getValidHistoryKey`: the start value, or a key at the
least distance from the requested key, that distance being below the start value. -/
theorem nearestLoop_spec (requestedKey : Int) :
    ∀ (history : List (Int × List (Nat × RealtimeCarUpdate))) (acc : Int × Int),
      (nearestLoop requestedKey history acc).1 ≤ acc.1 ∧
      (∀ e ∈ history, (nearestLoop requestedKey history acc).1 ≤ |e.1 - requestedKey|) ∧
      (nearestLoop requestedKey history acc = acc ∨
        ((nearestLoop requestedKey history acc).2 ∈ history.map (fun e => e.1) ∧
          (nearestLoop requestedKey history acc).1
            = |(nearestLoop requestedKey history acc).2 - requestedKey| ∧
          (nearestLoop requestedKey history acc).1 < acc.1)) := by
  intro history
  induction history with
  | nil =>
    intro acc
    unfold nearestLoop
    exact ⟨le_refl _, fun e he => (by cases he), Or.inl rfl⟩
  | cons entry rest ih =>
    intro acc
    unfold nearestLoop
    simp only
    by_cases hd : |entry.1 - requestedKey| < acc.1
    · rw [if_pos hd]
      obtain ⟨h1, h2, h3⟩ := ih (|entry.1 - requestedKey|, entry.1)
      simp only at h1 h3
      refine ⟨by omega, ?_, ?_⟩
      · intro e he
        rcases List.mem_cons.1 he with h | h
        · rw [h]
          exact h1
        · exact h2 e h
      · right
        rcases h3 with h | ⟨ha, hb, hc⟩
        · rw [h]
          simp only [List.map_cons, List.mem_cons, true_or, true_and]
          exact hd
        · refine ⟨?_, hb, by omega⟩
          simp only [List.map_cons, List.mem_cons]
          exact Or.inr ha
    · rw [if_neg hd]
      obtain ⟨h1, h2, h3⟩ := ih acc
      refine ⟨h1, ?_, ?_⟩
      · intro e he
        rcases List.mem_cons.1 he with h | h
        · rw [h]
          omega
        · exact h2 e h
      · rcases h3 with h | ⟨ha, hb, hc⟩
        · exact Or.inl h
        · right
          refine ⟨?_, hb, hc⟩
          simp only [List.map_cons, List.mem_cons]
          exact Or.inr ha

theorem mapGet_none {β : Type} (m : List (Int × β)) (k : Int) :
    mapGet m k = none ↔ k ∉ m.map (fun e => e.1) := by
  rw [← mapGet_isSome]
  cases mapGet m k <;> simp

theorem getValidHistoryKey_spec (it : IncidentTracker) (requestedKey : Int) :
    (requestedKey ∈ historyKeys it → getValidHistoryKey it requestedKey = requestedKey) ∧
    (requestedKey ∉ historyKeys it →
      (getValidHistoryKey it requestedKey ∈ historyKeys it ∧
        |getValidHistoryKey it requestedKey - requestedKey| < 999999 ∧
        ∀ k ∈ historyKeys it,
          |getValidHistoryKey it requestedKey - requestedKey| ≤ |k - requestedKey|) ∨
      (getValidHistoryKey it requestedKey = 0 ∧
        ∀ k ∈ historyKeys it, 999999 ≤ |k - requestedKey|)) := by
  unfold getValidHistoryKey historyKeys
  constructor
  · intro h
    have := (mapGet_isSome it.realtimeCarHistory requestedKey).2 h
    cases hg : mapGet it.realtimeCarHistory requestedKey with
    | none =>
      rw [hg] at this
      cases this
    | some _ => rfl
  · intro h
    rw [(mapGet_none _ _).2 h]
    simp only
    obtain ⟨h1, h2, h3⟩ := nearestLoop_spec requestedKey it.realtimeCarHistory (999999, 0)
    have hall : ∀ k ∈ List.map (fun e => e.1) it.realtimeCarHistory,
        (nearestLoop requestedKey it.realtimeCarHistory (999999, 0)).1 ≤ |k - requestedKey| := by
      intro k hk
      obtain ⟨e, he, hek⟩ := List.mem_map.1 hk
      rw [← hek]
      exact h2 e he
    rcases h3 with h | ⟨ha, hb, hc⟩
    · right
      rw [h] at hall ⊢
      exact ⟨rfl, hall⟩
    · left
      refine ⟨ha, ?_, ?_⟩
      · rw [← hb]
        exact hc
      · rw [← hb]
        exact hall

/-- C29, as the code behaves. Let `corrected` be the current session time minus
5000 ms, in milliseconds. The key that `HandleAccidentEvent` correlates against is
`corrected` itself when the history has that key. Otherwise it is a key of the
history at the least distance from `corrected`, above or below it, when some key
lies at a distance below 999999 ms, and it is 0 when there is none. The call leaves
the incident log as it was or appends one incident, whose session time is that key,
a key of the history. -/
theorem accident_key_is_nearest (it : IncidentTracker) (now : Int)
    (event : BroadcastingEvent) (carInfo : CarInfo) :
    ((Milliseconds (it.currentSessionTime - 5000 * Millisecond) ∈ historyKeys it →
        getValidHistoryKey it (Milliseconds (it.currentSessionTime - 5000 * Millisecond))
          = Milliseconds (it.currentSessionTime - 5000 * Millisecond)) ∧
      (Milliseconds (it.currentSessionTime - 5000 * Millisecond) ∉ historyKeys it →
        (getValidHistoryKey it (Milliseconds (it.currentSessionTime - 5000 * Millisecond))
            ∈ historyKeys it ∧
          |getValidHistoryKey it (Milliseconds (it.currentSessionTime - 5000 * Millisecond))
            - Milliseconds (it.currentSessionTime - 5000 * Millisecond)| < 999999 ∧
          ∀ k ∈ historyKeys it,
            |getValidHistoryKey it (Milliseconds (it.currentSessionTime - 5000 * Millisecond))
              - Milliseconds (it.currentSessionTime - 5000 * Millisecond)|
              ≤ |k - Milliseconds (it.currentSessionTime - 5000 * Millisecond)|) ∨
        (getValidHistoryKey it (Milliseconds (it.currentSessionTime - 5000 * Millisecond)) = 0 ∧
          ∀ k ∈ historyKeys it,
            999999 ≤ |k - Milliseconds (it.currentSessionTime - 5000 * Millisecond)|))) ∧
    ((HandleAccidentEvent it now event (some carInfo)).1.incidents = it.incidents ∨
      ∃ incident,
        (HandleAccidentEvent it now event (some carInfo)).1.incidents
          = it.incidents ++ [incident] ∧
        incident.SessionTime
          = getValidHistoryKey it (Milliseconds (it.currentSessionTime - 5000 * Millisecond))
              * Millisecond ∧
        getValidHistoryKey it (Milliseconds (it.currentSessionTime - 5000 * Millisecond))
          ∈ historyKeys it) := by
  refine ⟨getValidHistoryKey_spec it _, ?_⟩
  unfold HandleAccidentEvent
  simp only
  cases hg : mapGet it.realtimeCarHistory
      (getValidHistoryKey it (Milliseconds (it.currentSessionTime - 5000 * Millisecond))) with
  | none =>
    left
    rfl
  | some historyData =>
    simp only
    cases hc : carGet historyData (wrapUint16 event.CarId) with
    | none =>
      left
      rfl
    | some carUpdate =>
      right
      refine ⟨_, rfl, rfl, ?_⟩
      apply (mapGet_isSome _ _).1
      rw [hg]
      rfl

/-- Counterexample to C29 as stated: car 7 is sampled at session time 16 s and car 3
at 20 s, then an accident event for car 7 is handled. The corrected time is 15000 ms
and no key of the history is at or below it; the event is correlated against the key
16000 and an incident with session time 16 s is appended. -/
theorem accident_key_above_corrected :
    historyKeys (feed NewIncidentTracker
      [(sampleAt 7 0x3ED70A3D, 16000 * Millisecond), (sampleAt 3 0, 20000 * Millisecond)])
      = [16000, 20000] ∧
    Milliseconds ((feed NewIncidentTracker
      [(sampleAt 7 0x3ED70A3D, 16000 * Millisecond),
        (sampleAt 3 0, 20000 * Millisecond)]).currentSessionTime - 5000 * Millisecond) = 15000 ∧
    (HandleAccidentEvent (feed NewIncidentTracker
      [(sampleAt 7 0x3ED70A3D, 16000 * Millisecond), (sampleAt 3 0, 20000 * Millisecond)])
      0 contactEvent (some { CarIndex := 7 })).1.incidents.map
        (fun incident => (incident.CarIndex, incident.SessionTime))
      = [(7, 16000 * Millisecond)] := by
  decide

/-! ## Scenario S5 and the location label -/

theorem formatLocation_cases (p : Int) :
    (p < 10 ∧ formatLocation p = "Start/Finish") ∨
    ((10 ≤ p ∧ p < 30) ∧ formatLocation p = "Sector 1") ∨
    ((30 ≤ p ∧ p < 60) ∧ formatLocation p = "Sector 2") ∨
    ((60 ≤ p ∧ p < 90) ∧ formatLocation p = "Sector 3") ∨
    (90 ≤ p ∧ formatLocation p = "Final Sector") := by
  unfold formatLocation
  by_cases h1 : p < 10
  · left
    exact ⟨h1, by rw [if_pos h1]⟩
  · by_cases h2 : p < 30
    · right; left
      exact ⟨⟨by omega, h2⟩, by rw [if_neg h1, if_pos h2]⟩
    · by_cases h3 : p < 60
      · right; right; left
        exact ⟨⟨by omega, h3⟩, by rw [if_neg h1, if_neg h2, if_pos h3]⟩
      · by_cases h4 : p < 90
        · right; right; right; left
          exact ⟨⟨by omega, h4⟩, by rw [if_neg h1, if_neg h2, if_neg h3, if_pos h4]⟩
        · right; right; right; right
          exact ⟨by omega, by rw [if_neg h1, if_neg h2, if_neg h3, if_neg h4]⟩

/-- C30, as the code behaves. Car 7 is sampled with spline position 0.42 at session
time 15 s, any sample is then recorded at session time 20 s, and an accident event
for car 7 with message "Contact" and a descriptor that is not nil is handled: one
incident is appended, with location label "Sector 2", session time 15 s, car index 7
and message "Contact". The label is chosen from `int(spline * 100)`, a `float32`
product: "Start/Finish" below 10, "Sector 1" below 30, "Sector 2" below 60,
"Sector 3" below 90, "Final Sector" otherwise. -/
theorem accident_in_sector_two (second : RealtimeCarUpdate) (carInfo : CarInfo) (now : Int) :
    (HandleAccidentEvent (feed NewIncidentTracker
        [(sampleAt 7 0x3ED70A3D, 15000 * Millisecond), (second, 20000 * Millisecond)])
        now contactEvent (some carInfo)).1.incidents
      = [{ Type_ := IncidentTypeAccident, Timestamp := now,
           SessionTime := 15000 * Millisecond, CarIndex := 7,
           DriverName := GetCurrentDriverName carInfo, RaceNumber := carInfo.RaceNumber,
           Location := "Sector 2", Message := Broadcast.bytesOf "Contact", Severity := 1,
           InvolvedCars := [] }] ∧
    ∀ p : Int,
      (formatLocation p = "Start/Finish" ↔ p < 10) ∧
      (formatLocation p = "Sector 1" ↔ 10 ≤ p ∧ p < 30) ∧
      (formatLocation p = "Sector 2" ↔ 30 ≤ p ∧ p < 60) ∧
      (formatLocation p = "Sector 3" ↔ 60 ≤ p ∧ p < 90) ∧
      (formatLocation p = "Final Sector" ↔ 90 ≤ p) := by
  constructor
  · rfl
  · intro p
    rcases formatLocation_cases p with ⟨h, e⟩ | ⟨h, e⟩ | ⟨h, e⟩ | ⟨h, e⟩ | ⟨h, e⟩ <;>
      rw [e] <;> refine ⟨?_, ?_, ?_, ?_, ?_⟩ <;> constructor <;> intro hh <;>
      first | rfl | omega | exact absurd hh (by decide)

/-- Counterexample to C30 as stated: in scenario S5 (the second sample being one of
car 3) the appended incident carries the label "Sector 2" of `formatLocation`, not
"S2". -/
theorem accident_label_is_not_S2 :
    (HandleAccidentEvent (feed NewIncidentTracker
        [(sampleAt 7 0x3ED70A3D, 15000 * Millisecond), (sampleAt 3 0, 20000 * Millisecond)])
        0 contactEvent (some { CarIndex := 7 })).1.incidents.map
          (fun incident => incident.Location) = ["Sector 2"] ∧
    (HandleAccidentEvent (feed NewIncidentTracker
        [(sampleAt 7 0x3ED70A3D, 15000 * Millisecond), (sampleAt 3 0, 20000 * Millisecond)])
        0 contactEvent (some { CarIndex := 7 })).1.incidents.map
          (fun incident => incident.Location) ≠ ["S2"] := by
  decide

end Incidents

namespace Broadcast

/-! ## Connection manager -/

theorem handleGameOff_lastPacketID (cm : ConnectionManager) (currentPacketID : Int)
    (isBroadcastConnected : Bool) :
    (handleGameOff cm currentPacketID isBroadcastConnected).lastPacketID = currentPacketID := rfl

theorem isConnected_stopService (cm : ConnectionManager) : IsConnected (stopService cm) = false := by
  unfold IsConnected stopService
  cases cm.service <;> rfl

/-- A tick that reads the status off stops a running session exactly when the packet
id is 0 or not above the stored one, and stores the packet id it read. -/
theorem tick_off (cm : ConnectionManager) (packetId : Int)
    (hm : cm.hasSharedMemService = true) (hr : IsConnected cm = true) :
    (IsConnected (checkAndReconnect cm (LatestData.read ACOff packetId)) = false ↔
      (packetId = 0 ∨ packetId ≤ cm.lastPacketID)) ∧
    (checkAndReconnect cm (LatestData.read ACOff packetId)).lastPacketID = packetId ∧
    (checkAndReconnect cm (LatestData.read ACOff packetId)).hasSharedMemService = true := by
  have hstep : checkAndReconnect cm (LatestData.read ACOff packetId)
      = handleGameOff cm packetId true := by
    unfold checkAndReconnect
    simp [hm, hr]
  rw [hstep]
  refine ⟨?_, rfl, ?_⟩
  · unfold handleGameOff
    by_cases hc : packetId ≤ cm.lastPacketID ∨ packetId = 0
    · simp only [if_pos hc, if_true]
      constructor
      · intro _
        tauto
      · intro _
        exact isConnected_stopService cm
    · simp only [if_neg hc]
      constructor
      · intro hf
        have : IsConnected cm = false := hf
        rw [hr] at this
        cases this
      · intro h
        exact absurd (by tauto) hc
  · unfold handleGameOff
    by_cases hc : packetId ≤ cm.lastPacketID ∨ packetId = 0
    · simp only [if_pos hc, if_true]
      exact hm
    · simp only [if_neg hc]
      exact hm

/-- C34: a tick that reads the status off while the session runs stops the session if
and only if the packet id read is 0 or is not above the stored packet id; from a
stored id below 100 the ids 100, 101, 102 read with status off leave the session
running, and the id 0 read after them stops it. -/
theorem checkAndReconnect_stops_iff (cm : ConnectionManager)
    (hm : cm.hasSharedMemService = true) (hr : IsConnected cm = true) :
    (∀ packetId : Int,
      IsConnected (checkAndReconnect cm (LatestData.read ACOff packetId)) = false ↔
        (packetId = 0 ∨ packetId ≤ cm.lastPacketID)) ∧
    (cm.lastPacketID < 100 →
      IsConnected (ticksOff cm [100]) = true ∧
      IsConnected (ticksOff cm [100, 101]) = true ∧
      IsConnected (ticksOff cm [100, 101, 102]) = true ∧
      IsConnected (ticksOff cm [100, 101, 102, 0]) = false) := by
  refine ⟨fun packetId => (tick_off cm packetId hm hr).1, ?_⟩
  intro hlt
  have keep : ∀ (c : ConnectionManager) (packetId : Int), c.hasSharedMemService = true →
      IsConnected c = true → packetId ≠ 0 → c.lastPacketID < packetId →
      IsConnected (checkAndReconnect c (LatestData.read ACOff packetId)) = true := by
    intro c packetId h1 h2 h3 h4
    have h := (tick_off c packetId h1 h2).1
    cases hb : IsConnected (checkAndReconnect c (LatestData.read ACOff packetId)) with
    | true => rfl
    | false =>
      rcases h.mp hb with h0 | hle
      · exact absurd h0 h3
      · omega
  have t1 := tick_off cm 100 hm hr
  have c1 := keep cm 100 hm hr (by decide) hlt
  have t2 := tick_off _ 101 t1.2.2 c1
  have c2 := keep _ 101 t1.2.2 c1 (by decide) (by rw [t1.2.1]; decide)
  have t3 := tick_off _ 102 t2.2.2 c2
  have c3 := keep _ 102 t2.2.2 c2 (by decide) (by rw [t2.2.1]; decide)
  have t4 := tick_off _ 0 t3.2.2 c3
  exact ⟨c1, c2, c3, t4.1.mpr (Or.inl rfl)⟩

theorem checkAndReconnect_stops_iff_witness :
    (∀ packetId : Int,
      IsConnected (checkAndReconnect (attachedAt 42) (LatestData.read ACOff packetId)) = false ↔
        (packetId = 0 ∨ packetId ≤ (attachedAt 42).lastPacketID)) ∧
    ((attachedAt 42).lastPacketID < 100 →
      IsConnected (ticksOff (attachedAt 42) [100]) = true ∧
      IsConnected (ticksOff (attachedAt 42) [100, 101]) = true ∧
      IsConnected (ticksOff (attachedAt 42) [100, 101, 102]) = true ∧
      IsConnected (ticksOff (attachedAt 42) [100, 101, 102, 0]) = false) :=
  checkAndReconnect_stops_iff (attachedAt 42) (by decide) (by decide)

/-- C35: with a running session and the stored packet id 100, a tick that reads the
status off and the packet id 50 stops the session and leaves the stored packet id at
50, not at 0: the assignment of `currentPacketID` at the end of `handleGameOff`
overwrites the reset. A tick whose read fails stops the session and leaves the stored
packet id at 100. -/
theorem stop_leaves_packet_id :
    IsConnected (attachedAt 100) = true ∧
    IsConnected (checkAndReconnect (attachedAt 100) (LatestData.read ACOff 50)) = false ∧
    (checkAndReconnect (attachedAt 100) (LatestData.read ACOff 50)).lastPacketID = 50 ∧
    IsConnected (checkAndReconnect (attachedAt 100) LatestData.failed) = false ∧
    (checkAndReconnect (attachedAt 100) LatestData.failed).lastPacketID = 100 := by
  decide

/-! ## Computed lap time -/

theorem wrapInt32_add_wrapInt32 (x v : Int) : wrapInt32 (wrapInt32 x + v) = wrapInt32 (x + v) := by
  unfold wrapInt32
  omega

theorem getLapTimeMS_foldl (splits : List (Option Int)) (acc : Int) :
    wrapInt32 (splits.foldl
      (fun totalTime split =>
        match split with
        | some v => wrapInt32 (totalTime + v)
        | none => totalTime) acc)
      = wrapInt32 (acc + (splits.filterMap id).sum) := by
  induction splits generalizing acc with
  | nil => simp
  | cons split rest ih =>
    cases split with
    | none =>
      simp only [List.foldl_cons, List.filterMap_cons_none, id]
      exact ih acc
    | some v =>
      simp only [List.foldl_cons]
      rw [ih, wrapInt32_add_wrapInt32]
      simp [List.filterMap_cons, add_assoc]

theorem getLapTimeMS_wrapped (splits : List (Option Int)) (acc : Int)
    (hacc : wrapInt32 acc = acc) :
    wrapInt32 (splits.foldl
      (fun totalTime split =>
        match split with
        | some v => wrapInt32 (totalTime + v)
        | none => totalTime) acc)
      = splits.foldl
      (fun totalTime split =>
        match split with
        | some v => wrapInt32 (totalTime + v)
        | none => totalTime) acc := by
  induction splits generalizing acc with
  | nil => exact hacc
  | cons split rest ih =>
    cases split with
    | none => exact ih acc hacc
    | some v =>
      simp only [List.foldl_cons]
      apply ih
      unfold wrapInt32
      omega

/-- C36: the computed lap time is the sum of the splits that are present, reduced to
an `int32`; absent splits and the total reported by the server do not enter it. It is
93000 for the splits 30000, 32000, 31000, it is 61000 when the middle split is absent,
and 0 when all three are absent. -/
theorem getLapTimeMS_sum_of_present_splits (l : LapInfo) :
    GetLapTimeMS l = wrapInt32 ((l.Splits.filterMap id).sum) ∧
    (∀ total : Option Int, GetLapTimeMS { l with LaptimeMS := total } = GetLapTimeMS l) ∧
    GetLapTimeMS { l with Splits := [some 30000, some 32000, some 31000] } = 93000 ∧
    GetLapTimeMS { l with Splits := [some 30000, none, some 31000] } = 61000 ∧
    GetLapTimeMS { l with Splits := [none, none, none] } = 0 := by
  refine ⟨?_, fun _ => rfl, rfl, rfl, rfl⟩
  unfold GetLapTimeMS
  rw [← getLapTimeMS_wrapped l.Splits 0 (by decide), getLapTimeMS_foldl, zero_add]

end Broadcast

namespace SharedMemory

open Broadcast (Byte byte bytesOf)

theorem zeroIndex_take (s : List Nat) :
    (match zeroIndex s with
      | some i => s.take i
      | none => s) = s.takeWhile (fun v => decide (v ≠ 0)) := by
  induction s with
  | nil => rfl
  | cons v rest ih =>
    unfold zeroIndex
    by_cases hv : v = 0
    · simp [hv]
    · rw [if_neg hv, List.takeWhile_cons_of_pos (by simpa using hv), ← ih]
      cases zeroIndex rest <;> rfl

theorem prefix_takeWhile (s pre : List Nat) (hp : pre <+: s) (hz : 0 ∉ pre) :
    pre <+: s.takeWhile (fun v => decide (v ≠ 0)) := by
  induction s generalizing pre with
  | nil =>
    rw [List.prefix_nil] at hp
    subst hp
    exact List.nil_prefix
  | cons v rest ih =>
    cases pre with
    | nil => exact List.nil_prefix
    | cons w pre2 =>
      rw [List.cons_prefix_cons] at hp
      obtain ⟨hw, hp2⟩ := hp
      subst hw
      have hw0 : w ≠ 0 := fun h => hz (by simp [h])
      rw [List.takeWhile_cons_of_pos (by simpa using hw0), List.cons_prefix_cons]
      exact ⟨rfl, ih pre2 hp2 (fun h => hz (List.mem_cons_of_mem _ h))⟩

/-- C37: the result is the decoding of the longest prefix of the input that contains
no zero code unit: "Hi" for the units of "Hi", 0, "Bye", 0; the whole of "Test",
which has no 0; and the empty string when the first unit is 0. -/
theorem utf16ToString_longest_prefix (s : List Nat) :
    (∃ pre : List Nat, pre <+: s ∧ 0 ∉ pre ∧
      (∀ pre2 : List Nat, pre2 <+: s → 0 ∉ pre2 → pre2.length ≤ pre.length) ∧
      UTF16ToString s = stringOfRunes (Decode pre)) ∧
    UTF16ToString [72, 105, 0, 66, 121, 101, 0] = bytesOf "Hi" ∧
    UTF16ToString [84, 101, 115, 116] = bytesOf "Test" ∧
    UTF16ToString (0 :: s) = [] := by
  refine ⟨⟨s.takeWhile (fun v => decide (v ≠ 0)), List.takeWhile_prefix _, ?_, ?_, ?_⟩,
    by decide, by decide, rfl⟩
  · intro h0
    have := List.mem_takeWhile_imp h0
    simp at this
  · intro pre2 hp hz
    exact (prefix_takeWhile s pre2 hp hz).length_le
  · unfold UTF16ToString
    simp only
    rw [zeroIndex_take]

end SharedMemory

namespace TrackPosition

open Broadcast (CarLocationNone CarLocationTrack CarLocationPitlane CarLocationPitEntry
  CarLocationPitExit)
open Gaps (Flt flt fzero float32Const)

/-! ## Location pair and lap count of one update -/

theorem updateLocation_cars (pg : PositionGraph) (carIndex : Nat) (car : Car)
    (newSplinePosition : Flt) (newLocation : Nat) (h : pg.cars carIndex = some car) :
    (UpdateLocation pg carIndex newSplinePosition newLocation).cars carIndex
      = some (updateCar car newSplinePosition newLocation) := by
  unfold UpdateLocation
  rw [h]
  simp only [if_true]

theorem changeLocation_fields (car : Car) (newLocation : Nat) :
    (changeLocation car newLocation).Location = newLocation ∧
    (changeLocation car newLocation).PreviousLocation
      = (if newLocation = car.Location then car.PreviousLocation else car.Location) ∧
    (changeLocation car newLocation).LapIndex = car.LapIndex ∧
    (changeLocation car newLocation).SplinePosition = car.SplinePosition := by
  unfold changeLocation
  by_cases hl : newLocation = car.Location
  · simp [hl]
  · simp [hl]

/-- The statements run at a wrap, on a car whose location is already the new one:
the location pair stays, the lap index grows by one on the track, and in the pit lane
when the previous location is the pit entry and the lap index is positive. -/
theorem countLap_fields (car : Car) (newLocation : Nat) (hl : car.Location = newLocation) :
    (countLap car newLocation).Location = newLocation ∧
    (countLap car newLocation).PreviousLocation = car.PreviousLocation ∧
    (countLap car newLocation).SplinePosition = car.SplinePosition ∧
    (countLap car newLocation).LapIndex
      = (if newLocation = CarLocationTrack ∨
            (newLocation = CarLocationPitlane ∧ car.PreviousLocation = CarLocationPitEntry ∧
              0 < car.LapIndex)
          then car.LapIndex + 1 else car.LapIndex) := by
  obtain ⟨ci, li, sp, loc, prev⟩ := car
  simp only at hl
  subst hl
  unfold countLap
  simp only [CarLocationTrack, CarLocationPitlane, CarLocationNone, CarLocationPitEntry]
  by_cases h1 : loc = 1
  · subst h1
    simp
  · by_cases h2 : loc = 2
    · subst h2
      by_cases h3 : prev = 3
      · subst h3
        by_cases h4 : 0 < li
        · simp [h4]
        · simp [h4]
      · simp [h3]
    · simp [h1, h2]

theorem updateCar_fields (car : Car) (newSplinePosition : Flt) (newLocation : Nat) :
    (updateCar car newSplinePosition newLocation).Location = newLocation ∧
    (updateCar car newSplinePosition newLocation).PreviousLocation
      = (if newLocation = car.Location then car.PreviousLocation else car.Location) ∧
    (updateCar car newSplinePosition newLocation).LapIndex
      = (if (flt newSplinePosition car.SplinePosition = true ∧
              flt (float32Const 99 100) car.SplinePosition = true) ∧
            (newLocation = CarLocationTrack ∨
              (newLocation = CarLocationPitlane ∧
                (if newLocation = car.Location then car.PreviousLocation else car.Location)
                  = CarLocationPitEntry ∧ 0 < car.LapIndex))
          then car.LapIndex + 1 else car.LapIndex) := by
  obtain ⟨h1, h2, h3, h4⟩ := changeLocation_fields car newLocation
  obtain ⟨k1, k2, k3, k4⟩ := countLap_fields (changeLocation car newLocation) newLocation h1
  unfold updateCar
  simp only
  rw [h4]
  by_cases hw : flt newSplinePosition car.SplinePosition = true ∧
      flt (float32Const 99 100) car.SplinePosition = true
  · rw [if_pos hw]
    rw [k1, k2, k4, h2, h3]
    refine ⟨rfl, rfl, ?_⟩
    simp only [hw, true_and]
  · rw [if_neg hw]
    rw [h1, h2, h3]
    refine ⟨rfl, rfl, ?_⟩
    rw [if_neg (fun h => hw h.1)]

end TrackPosition

namespace TrackPosition

open Broadcast (CarLocationNone CarLocationTrack CarLocationPitlane CarLocationPitEntry
  CarLocationPitExit)
open Gaps (Flt flt fzero float32Const)

/-- Every car of a graph built by calls on a new graph has distinct location and
previous location, unless both are none. -/
theorem run_location_pair (calls : List Call) :
    ∀ (c : Nat) (car : Car), (run calls).cars c = some car →
      car.Location = car.PreviousLocation →
      car.Location = CarLocationNone ∧ car.PreviousLocation = CarLocationNone := by
  induction calls using List.reverseRecOn with
  | nil =>
    intro c car h
    cases h
  | append_singleton calls x ih =>
    intro c car h heq
    have hrun : run (calls ++ [x]) = applyCall (run calls) x := by
      unfold run
      rw [List.foldl_append]
      rfl
    rw [hrun] at h
    cases x with
    | addCar carIndex =>
      simp only [applyCall, AddCar] at h
      cases hc : (run calls).cars carIndex with
      | some old =>
        rw [hc] at h
        exact ih c car h heq
      | none =>
        rw [hc] at h
        simp only at h
        by_cases hk : c = carIndex
        · rw [if_pos hk] at h
          cases h
          exact ⟨rfl, rfl⟩
        · rw [if_neg hk] at h
          exact ih c car h heq
    | removeCar carIndex =>
      simp only [applyCall, RemoveCar] at h
      by_cases hk : c = carIndex
      · rw [if_pos hk] at h
        cases h
      · rw [if_neg hk] at h
        exact ih c car h heq
    | updateLocation carIndex newSplinePosition newLocation =>
      simp only [applyCall, UpdateLocation] at h
      cases hc : (run calls).cars carIndex with
      | none =>
        rw [hc] at h
        exact ih c car h heq
      | some old =>
        rw [hc] at h
        simp only at h
        by_cases hk : c = carIndex
        · rw [if_pos hk] at h
          cases h
          obtain ⟨h1, h2, _⟩ := updateCar_fields old newSplinePosition newLocation
          rw [h1, h2] at heq
          by_cases hl : newLocation = old.Location
          · rw [if_pos hl] at heq
            have := ih carIndex old hc (by rw [← hl]; exact heq)
            rw [h1, h2, if_pos hl, hl]
            exact this
          · rw [if_neg hl] at heq
            exact absurd heq hl
        · rw [if_neg hk] at h
          exact ih c car h heq
    | reset =>
      simp only [applyCall, Reset] at h
      cases hc : (run calls).cars c with
      | none =>
        rw [hc] at h
        cases h
      | some old =>
        rw [hc] at h
        cases h
        exact ⟨rfl, rfl⟩
    | clear =>
      cases h

/-- C31: a car seen in the pit exit at spline 0.995 and then on the track at spline
0.005 gets its lap index raised from 0 to 1, though its location before the call was
not the track; so does a car whose location before the call was none. The new
location is stored before the test of the track branch reads the stored one. -/
theorem lap_counted_off_track :
    flt (float32Const 99 100) (float32Const 995 1000) = true ∧
    flt (float32Const 5 1000) (float32Const 995 1000) = true ∧
    (GetCar (run leavingPits) 3).map (fun car => (car.Location, car.LapIndex))
      = some (CarLocationPitExit, 0) ∧
    (GetCar (UpdateLocation (run leavingPits) 3 (float32Const 5 1000) CarLocationTrack) 3).map
      (fun car => (car.Location, car.PreviousLocation, car.LapIndex))
      = some (CarLocationTrack, CarLocationPitExit, 1) ∧
    (GetCar (run waitingAtLine) 3).map (fun car => (car.Location, car.LapIndex))
      = some (CarLocationNone, 0) ∧
    (GetCar (UpdateLocation (run waitingAtLine) 3 (float32Const 5 1000) CarLocationTrack) 3).map
      (fun car => (car.Location, car.PreviousLocation, car.LapIndex))
      = some (CarLocationTrack, CarLocationNone, 1) := by
  decide

/-- A car in the pit lane that came through the pit entry, seen at spline 0.995 and
then at 0.005 still in the pit lane, keeps the lap index 0: the pit-lane branch counts
a lap only when the lap index is positive. -/
theorem pit_lane_lap_needs_positive_index :
    (GetCar (run enteringPits) 3).map
      (fun car => (car.Location, car.PreviousLocation, car.LapIndex))
      = some (CarLocationPitlane, CarLocationPitEntry, 0) ∧
    (GetCar (UpdateLocation (run enteringPits) 3 (float32Const 5 1000) CarLocationPitlane) 3).map
      (fun car => car.LapIndex) = some 0 := by
  decide

/-- The rule that the statements of `UpdateLocation` follow for the lap index: it
grows by one if and only if the spline wraps (stored position above the `float32` 0.99
and new position below the stored one) and either the new location is the track, or
the new location is the pit lane, the car came through the pit entry (it was in the
pit entry before the call, or in the pit lane with the pit entry as previous location)
and its lap index is positive; in every other case the lap index is unchanged. -/
theorem updateLocation_lap_count (pg : PositionGraph) (carIndex : Nat) (car : Car)
    (newSplinePosition : Flt) (newLocation : Nat) (h : pg.cars carIndex = some car) :
    ∃ car2 : Car,
      (UpdateLocation pg carIndex newSplinePosition newLocation).cars carIndex = some car2 ∧
      (car2.LapIndex = car.LapIndex + 1 ↔
        (wraps car newSplinePosition ∧
          (newLocation = CarLocationTrack ∨
            (newLocation = CarLocationPitlane ∧ viaPitEntry car ∧ 0 < car.LapIndex)))) ∧
      (¬ (wraps car newSplinePosition ∧
          (newLocation = CarLocationTrack ∨
            (newLocation = CarLocationPitlane ∧ viaPitEntry car ∧ 0 < car.LapIndex))) →
        car2.LapIndex = car.LapIndex) := by
  refine ⟨_, updateLocation_cars pg carIndex car newSplinePosition newLocation h, ?_⟩
  obtain ⟨_, _, h3⟩ := updateCar_fields car newSplinePosition newLocation
  have hvia : newLocation = CarLocationPitlane →
      ((if newLocation = car.Location then car.PreviousLocation else car.Location)
        = CarLocationPitEntry ↔ viaPitEntry car) := by
    intro hp
    unfold viaPitEntry
    by_cases hl : newLocation = car.Location
    · rw [if_pos hl, ← hl, hp]
      simp [CarLocationPitlane, CarLocationPitEntry]
    · rw [if_neg hl]
      constructor
      · intro hx
        exact Or.inl hx
      · intro hx
        rcases hx with hx | ⟨hx, _⟩
        · exact hx
        · exact absurd (hp.trans hx.symm) hl
  have hcond : ((flt newSplinePosition car.SplinePosition = true ∧
        flt (float32Const 99 100) car.SplinePosition = true) ∧
      (newLocation = CarLocationTrack ∨
        (newLocation = CarLocationPitlane ∧
          (if newLocation = car.Location then car.PreviousLocation else car.Location)
            = CarLocationPitEntry ∧ 0 < car.LapIndex))) ↔
      (wraps car newSplinePosition ∧
        (newLocation = CarLocationTrack ∨
          (newLocation = CarLocationPitlane ∧ viaPitEntry car ∧ 0 < car.LapIndex))) := by
    unfold wraps
    constructor
    · rintro ⟨⟨a, b⟩, hc⟩
      refine ⟨⟨b, a⟩, ?_⟩
      rcases hc with hc | ⟨hp, hv, hpos⟩
      · exact Or.inl hc
      · exact Or.inr ⟨hp, (hvia hp).mp hv, hpos⟩
    · rintro ⟨⟨a, b⟩, hc⟩
      refine ⟨⟨b, a⟩, ?_⟩
      rcases hc with hc | ⟨hp, hv, hpos⟩
      · exact Or.inl hc
      · exact Or.inr ⟨hp, (hvia hp).mpr hv, hpos⟩
  rw [h3]
  constructor
  · constructor
    · intro heq
      by_contra hn
      rw [if_neg (fun hx => hn (hcond.mp hx))] at heq
      omega
    · intro hx
      rw [if_pos (hcond.mpr hx)]
  · intro hn
    rw [if_neg (fun hx => hn (hcond.mp hx))]

theorem updateLocation_lap_count_witness :
    ∃ car2 : Car,
      (UpdateLocation (run onTrack) 3 (float32Const 5 1000) CarLocationTrack).cars 3
        = some car2 ∧
      (car2.LapIndex = 0 + 1 ↔
        (wraps { CarIndex := 3, LapIndex := 0, SplinePosition := float32Const 995 1000,
                 Location := CarLocationTrack, PreviousLocation := CarLocationNone }
            (float32Const 5 1000) ∧
          (CarLocationTrack = CarLocationTrack ∨
            (CarLocationTrack = CarLocationPitlane ∧
              viaPitEntry { CarIndex := 3, LapIndex := 0,
                            SplinePosition := float32Const 995 1000,
                            Location := CarLocationTrack,
                            PreviousLocation := CarLocationNone } ∧ (0 : Int) < 0)))) ∧
      (¬ (wraps { CarIndex := 3, LapIndex := 0, SplinePosition := float32Const 995 1000,
                  Location := CarLocationTrack, PreviousLocation := CarLocationNone }
            (float32Const 5 1000) ∧
          (CarLocationTrack = CarLocationTrack ∨
            (CarLocationTrack = CarLocationPitlane ∧
              viaPitEntry { CarIndex := 3, LapIndex := 0,
                            SplinePosition := float32Const 995 1000,
                            Location := CarLocationTrack,
                            PreviousLocation := CarLocationNone } ∧ (0 : Int) < 0))) →
        car2.LapIndex = 0) :=
  updateLocation_lap_count (run onTrack) 3
    { CarIndex := 3, LapIndex := 0, SplinePosition := float32Const 995 1000,
      Location := CarLocationTrack, PreviousLocation := CarLocationNone }
    (float32Const 5 1000) CarLocationTrack (by decide)

/-- C32: an update with the stored location leaves the location and the previous
location as they are; an update with another location makes the old location the
previous one and the new location the current one; so in every graph built by calls on
a new graph, a car whose location equals its previous location has both none. -/
theorem updateLocation_location_pair (pg : PositionGraph) (carIndex : Nat) (car : Car)
    (newSplinePosition : Flt) (newLocation : Nat) (h : pg.cars carIndex = some car) :
    ∃ car2 : Car,
      (UpdateLocation pg carIndex newSplinePosition newLocation).cars carIndex = some car2 ∧
      (newLocation = car.Location →
        car2.Location = car.Location ∧ car2.PreviousLocation = car.PreviousLocation) ∧
      (newLocation ≠ car.Location →
        car2.PreviousLocation = car.Location ∧ car2.Location = newLocation) ∧
      (∀ (calls : List Call) (c : Nat) (car0 : Car), (run calls).cars c = some car0 →
        car0.Location = car0.PreviousLocation →
        car0.Location = CarLocationNone ∧ car0.PreviousLocation = CarLocationNone) := by
  refine ⟨_, updateLocation_cars pg carIndex car newSplinePosition newLocation h, ?_, ?_,
    fun calls => run_location_pair calls⟩
  · intro hl
    obtain ⟨h1, h2, _⟩ := updateCar_fields car newSplinePosition newLocation
    rw [h1, h2, if_pos hl]
    exact ⟨hl, rfl⟩
  · intro hl
    obtain ⟨h1, h2, _⟩ := updateCar_fields car newSplinePosition newLocation
    rw [h1, h2, if_neg hl]
    exact ⟨rfl, rfl⟩

theorem updateLocation_location_pair_witness :
    ∃ car2 : Car,
      (UpdateLocation (run leavingPits) 3 (float32Const 5 1000) CarLocationTrack).cars 3
        = some car2 ∧
      (CarLocationTrack = CarLocationPitExit →
        car2.Location = CarLocationPitExit ∧ car2.PreviousLocation = CarLocationNone) ∧
      (CarLocationTrack ≠ CarLocationPitExit →
        car2.PreviousLocation = CarLocationPitExit ∧ car2.Location = CarLocationTrack) ∧
      (∀ (calls : List Call) (c : Nat) (car0 : Car), (run calls).cars c = some car0 →
        car0.Location = car0.PreviousLocation →
        car0.Location = CarLocationNone ∧ car0.PreviousLocation = CarLocationNone) :=
  updateLocation_location_pair (run leavingPits) 3
    { CarIndex := 3, LapIndex := 0, SplinePosition := float32Const 995 1000,
      Location := CarLocationPitExit, PreviousLocation := CarLocationNone }
    (float32Const 5 1000) CarLocationTrack (by decide)

end TrackPosition

namespace Gaps

/-! ## Exact conversions -/

theorem log2_one : log2 1 = 0 := by decide

/-- A natural number below `2 ^ p` is converted without rounding. -/
theorem roundPos_nat (p n : Nat) (hn : 0 < n) (hlt : n < 2 ^ p) :
    (roundPos p n 1).toRat = (n : ℚ) := by
  obtain ⟨ha, _⟩ := log2_spec n (by omega)
  have hlog : log2 n < p := by
    have : 2 ^ log2 n < 2 ^ p := lt_of_le_of_lt ha hlt
    exact (Nat.pow_lt_pow_iff_right (by norm_num)).mp this
  have hfl : floorLog2 n 1 = (log2 n : Int) := by
    unfold floorLog2
    rw [log2_one, if_pos (by simpa using ha)]
    simp
  unfold roundPos
  simp only
  rw [hfl]
  have he : ((log2 n : Int) - ((p : Int) - 1)).toNat = 0 := by omega
  have hk : (-((log2 n : Int) - ((p : Int) - 1))).toNat = p - 1 - log2 n := by omega
  rw [he, hk, toRat_mk]
  simp only [pow_zero, mul_one, Nat.div_one, Nat.mod_one, Nat.mul_zero]
  have hup : ¬ (1 < 0 ∨ (0 = 1 ∧ n * 2 ^ (p - 1 - log2 n) % 2 = 1)) := by omega
  rw [if_neg hup]
  have hexp : ((log2 n : Int) - ((p : Int) - 1)) = -((p - 1 - log2 n : Nat) : Int) := by omega
  rw [hexp, zpow_neg, zpow_natCast]
  push_cast
  field_simp

theorem ofInt_exact (p : Nat) (i : Int) (h : i.natAbs < 2 ^ p) : (ofInt p i).toRat = (i : ℚ) := by
  unfold ofInt roundQ
  by_cases h0 : i = 0
  · rw [if_pos h0, toRat_mk, h0]
    norm_num
  · rw [if_neg h0]
    by_cases hpos : i > 0
    · rw [if_pos hpos, roundPos_nat p i.toNat (by omega) (by omega)]
      have : ((i.toNat : Nat) : Int) = i := Int.toNat_of_nonneg (by omega)
      exact_mod_cast this
    · rw [if_neg hpos]
      have hr := roundPos_nat p (-i).toNat (by omega) (by omega)
      rw [toRat_mk] at hr ⊢
      have : (((-i).toNat : Nat) : Int) = -i := Int.toNat_of_nonneg (by omega)
      have hc : (((-i).toNat : Nat) : ℚ) = -(i : ℚ) := by exact_mod_cast this
      rw [hc] at hr
      push_cast
      linarith

end Gaps

namespace Gaps

/-! ## Rounding does not pass a representable number -/

/-- Rounding to nearest does not pass a multiple of the unit in the last place that
lies above the number rounded. -/
theorem roundPos_le_multiple (p n d : Nat) (hd : 0 < d) (K : Nat)
    (hK : (n : ℚ) / (d : ℚ) ≤ (K : ℚ) * (2 : ℚ) ^ (floorLog2 n d - ((p : Int) - 1))) :
    (roundPos p n d).toRat ≤ (K : ℚ) * (2 : ℚ) ^ (floorLog2 n d - ((p : Int) - 1)) := by
  have hdq : (0 : ℚ) < d := by exact_mod_cast hd
  unfold roundPos
  simp only
  rw [toRat_mk, Int.cast_natCast]
  generalize hE : floorLog2 n d - ((p : Int) - 1) = e at hK ⊢
  have hpos : (0 : ℚ) < (2 : ℚ) ^ e := by positivity
  have hsd : 0 < d * 2 ^ e.toNat := Nat.mul_pos hd (by positivity)
  have hscale : ((n * 2 ^ (-e).toNat : Nat) : ℚ) / ((d * 2 ^ e.toNat : Nat) : ℚ)
      = (n : ℚ) / d / (2 : ℚ) ^ e := by
    rw [← two_zpow_toNat e]
    push_cast
    field_simp
  have hle : ((n * 2 ^ (-e).toNat : Nat) : ℚ) ≤ ((K * (d * 2 ^ e.toNat) : Nat) : ℚ) := by
    have h1 : (n : ℚ) / d / (2 : ℚ) ^ e ≤ (K : ℚ) := by
      rw [div_le_iff hpos]
      exact hK
    rw [← hscale] at h1
    have hsdq : (0 : ℚ) < ((d * 2 ^ e.toNat : Nat) : ℚ) := by exact_mod_cast hsd
    rw [div_le_iff hsdq] at h1
    push_cast at h1 ⊢
    exact h1
  have hleN : n * 2 ^ (-e).toNat ≤ K * (d * 2 ^ e.toNat) := by exact_mod_cast hle
  generalize n * 2 ^ (-e).toNat = a at hleN
  generalize d * 2 ^ e.toNat = b at hleN hsd
  have hq : a / b + (if b < 2 * (a % b) ∨ (2 * (a % b) = b ∧ a / b % 2 = 1) then 1 else 0) ≤ K := by
    have hdm := Nat.div_add_mod a b
    have hqK : a / b ≤ K := by
      by_contra hc
      have h1 : K + 1 ≤ a / b := by omega
      have h2 : b * (K + 1) ≤ b * (a / b) := Nat.mul_le_mul_left b h1
      have h3 : K * b + b ≤ b * (a / b) := by
        calc K * b + b = b * (K + 1) := by ring
          _ ≤ b * (a / b) := h2
      omega
    by_cases hc : b < 2 * (a % b) ∨ (2 * (a % b) = b ∧ a / b % 2 = 1)
    · rw [if_pos hc]
      have hrem : 0 < a % b := by omega
      by_contra hc2
      have h1 : a / b = K := by omega
      rw [h1] at hdm
      have h2 : b * K = K * b := Nat.mul_comm b K
      omega
    · rw [if_neg hc]
      omega
  have hqq : (((a / b + (if b < 2 * (a % b) ∨ (2 * (a % b) = b ∧ a / b % 2 = 1) then 1 else 0)
      : Nat)) : ℚ) ≤ (K : ℚ) := by exact_mod_cast hq
  exact mul_le_mul_of_nonneg_right hqq (le_of_lt hpos)

/-- Rounding a number that is at most a number `y` with a mantissa of at most `p`
bits gives at most `y`. -/
theorem roundQ_le_of_le (p : Nat) (hp : 1 ≤ p) (num : Int) (den : Nat) (hden : 0 < den)
    (y : Flt) (hy : y.m.natAbs ≤ 2 ^ p) (hy0 : 0 ≤ y.toRat)
    (hle : (num : ℚ) / (den : ℚ) ≤ y.toRat) : (roundQ p num den).toRat ≤ y.toRat := by
  have hdq : (0 : ℚ) < den := by exact_mod_cast hden
  by_cases hnum : num ≤ 0
  · have hrel := roundQ_rel p num den hden
    have hx : (num : ℚ) / den ≤ 0 := by
      apply div_nonpos_of_nonpos_of_nonneg
      · exact_mod_cast hnum
      · exact le_of_lt hdq
    have hz1 : (2 : ℚ) ^ (-(p : Int)) ≤ 1 := by
      apply zpow_le_one_of_nonpos (by norm_num)
      omega
    have hz0 : (0 : ℚ) < (2 : ℚ) ^ (-(p : Int)) := by positivity
    rw [abs_of_nonpos hx, abs_le] at hrel
    generalize (2 : ℚ) ^ (-(p : Int)) = z at hrel hz1 hz0
    generalize (num : ℚ) / den = x at hrel hx
    have : (roundQ p num den).toRat ≤ 0 := by nlinarith [hrel.2]
    linarith
  · have hpos : num > 0 := by omega
    unfold roundQ
    rw [if_neg (by omega), if_pos hpos]
    have hn : 0 < num.toNat := by omega
    have hcast : ((num.toNat : Nat) : ℚ) = (num : ℚ) := by
      have : ((num.toNat : Nat) : Int) = num := Int.toNat_of_nonneg (by omega)
      exact_mod_cast this
    rw [← hcast] at hle
    generalize num.toNat = n at hn hle
    have hfl := floorLog2_le n den hn hden
    have hxpos : (0 : ℚ) < (n : ℚ) / den := by positivity
    obtain ⟨ym, ye⟩ := y
    have hyv : Flt.toRat { m := ym, e := ye } = (ym : ℚ) * (2 : ℚ) ^ ye := toRat_mk ym ye
    rw [hyv] at hle hy0 ⊢
    simp only at hy
    have hympos : 0 < ym := by
      by_contra hc
      have h1 : (ym : ℚ) ≤ 0 := by exact_mod_cast (by omega : ym ≤ 0)
      have h2 : (0 : ℚ) < (2 : ℚ) ^ ye := by positivity
      nlinarith
    generalize hE : floorLog2 n den - ((p : Int) - 1) = E
    have h2E : (0 : ℚ) < (2 : ℚ) ^ E := by positivity
    by_cases hc : E ≤ ye
    · -- `y` is a multiple of the unit in the last place
      have hK : (ym : ℚ) * (2 : ℚ) ^ ye
          = ((ym.toNat * 2 ^ (ye - E).toNat : Nat) : ℚ) * (2 : ℚ) ^ E := by
        have h1 : ((ym.toNat : Nat) : ℚ) = (ym : ℚ) := by
          have : ((ym.toNat : Nat) : Int) = ym := Int.toNat_of_nonneg (by omega)
          exact_mod_cast this
        have h2 : ye = ((ye - E).toNat : Int) + E := by omega
        push_cast
        rw [h1, mul_assoc, ← zpow_natCast, ← zpow_add₀ (by norm_num), ← h2]
      rw [hK] at hle ⊢
      have := roundPos_le_multiple p n den hden (ym.toNat * 2 ^ (ye - E).toNat)
        (by rw [hE]; exact hle)
      rw [hE] at this
      exact this
    · -- `y` is at most the power of two below the number
      have hym : (ym : ℚ) ≤ (2 : ℚ) ^ (p : Int) := by
        have : ym ≤ 2 ^ p := by
          have : (ym.natAbs : Int) ≤ ((2 ^ p : Nat) : Int) := by exact_mod_cast hy
          have h3 : (ym.natAbs : Int) = ym := Int.natAbs_of_nonneg (by omega)
          rw [h3] at this
          exact_mod_cast this
        have h4 : (ym : ℚ) ≤ ((2 ^ p : Int) : ℚ) := by exact_mod_cast this
        rw [zpow_natCast]
        exact_mod_cast h4
      have hye : (2 : ℚ) ^ ye ≤ (2 : ℚ) ^ (E - 1) := zpow_le_of_le (by norm_num) (by omega)
      have hyle : (ym : ℚ) * (2 : ℚ) ^ ye ≤ (2 : ℚ) ^ (floorLog2 n den) := by
        have h5 : (2 : ℚ) ^ (floorLog2 n den) = (2 : ℚ) ^ (p : Int) * (2 : ℚ) ^ (E - 1) := by
          rw [← zpow_add₀ (by norm_num)]
          congr 1
          omega
        rw [h5]
        apply mul_le_mul hym hye (by positivity) (by positivity)
      have hKq : (2 : ℚ) ^ (floorLog2 n den) = ((2 ^ (p - 1) : Nat) : ℚ) * (2 : ℚ) ^ E := by
        push_cast
        rw [← zpow_natCast, ← zpow_add₀ (by norm_num)]
        congr 1
        omega
      have hxy : (n : ℚ) / den ≤ ((2 ^ (p - 1) : Nat) : ℚ) * (2 : ℚ) ^ E := by
        rw [← hKq]
        linarith
      have := roundPos_le_multiple p n den hden (2 ^ (p - 1)) (by rw [hE]; exact hxy)
      rw [hE, ← hKq] at this
      linarith

end Gaps

namespace Gaps

theorem ftrunc_eq (x : Flt) (n : Int) (h0 : 0 ≤ n) (h1 : (n : ℚ) ≤ x.toRat)
    (h2 : x.toRat < (n : ℚ) + 1) : ftrunc x = n := by
  have hn : (0 : ℚ) ≤ (n : ℚ) := by exact_mod_cast h0
  obtain ⟨a, b⟩ := ftrunc_bounds x (le_trans hn h1)
  have h3 : ((ftrunc x : Int) : ℚ) < (n : ℚ) + 1 := lt_of_le_of_lt a h2
  have h4 : (n : ℚ) < ((ftrunc x : Int) : ℚ) + 1 := lt_of_le_of_lt h1 b
  have h5 : ftrunc x < n + 1 := by exact_mod_cast h3
  have h6 : n < ftrunc x + 1 := by exact_mod_cast h4
  omega

theorem zpow_neg_53_le : (2 : ℚ) ^ (-((53 : Nat) : Int)) ≤ 1 / 2 := by
  norm_num [zpow_neg]

/-- Comparison of a converted `int64` with a converted constant. -/
theorem flt_ofInt_lt (D c : Int) (hc0 : 0 ≤ c) (hc : c < 4503599627370496) :
    flt (ofInt 53 D) (ofInt 53 c) = true ↔ D < c := by
  rw [flt_iff, ofInt_exact 53 c (by omega)]
  by_cases hs : D.natAbs < 2 ^ 53
  · rw [ofInt_exact 53 D hs]
    exact Int.cast_lt
  · have hs2 : 9007199254740992 ≤ D.natAbs := by
      have : (2 : Nat) ^ 53 = 9007199254740992 := by norm_num
      omega
    have hrel := ofInt_rel 53 D
    have hz := zpow_neg_53_le
    have hzpos : (0 : ℚ) < (2 : ℚ) ^ (-((53 : Nat) : Int)) := by positivity
    generalize (2 : ℚ) ^ (-((53 : Nat) : Int)) = z at hrel hz hzpos
    generalize (ofInt 53 D).toRat = x at hrel
    have hcq : (c : ℚ) < 4503599627370496 := by exact_mod_cast hc
    have hc0q : (0 : ℚ) ≤ (c : ℚ) := by exact_mod_cast hc0
    rcases le_or_lt 0 D with hD | hD
    · have hD2 : (9007199254740992 : Int) ≤ D := by omega
      have hDq : (9007199254740992 : ℚ) ≤ (D : ℚ) := by exact_mod_cast hD2
      rw [abs_of_nonneg (by linarith : (0 : ℚ) ≤ (D : ℚ)), abs_le] at hrel
      constructor
      · intro hx
        nlinarith [hrel.1, hrel.2]
      · intro hx
        omega
    · have hD2 : D ≤ -9007199254740992 := by omega
      have hDq : (D : ℚ) ≤ -9007199254740992 := by exact_mod_cast hD2
      rw [abs_of_neg (by linarith : (D : ℚ) < 0), abs_le] at hrel
      constructor
      · intro _
        omega
      · intro _
        nlinarith [hrel.1, hrel.2]

end Gaps

namespace SessionTime

open Gaps

theorem half_toRat : half.toRat = 1 / 2 := by
  unfold half
  rw [toRat_mk]
  norm_num

theorem zpow_small_53_19 : (2 : ℚ) ^ ((19 : Int) - ((53 : Nat) : Int)) ≤ 1 / 100 := by
  norm_num [zpow_neg]

/-- The two roundings of the change: for a change of `D` milliseconds with
`0 ≤ D < 240000`, `int64(change + 0.5)` is `D`, and so is `int64` of the converted `D`. -/
theorem roundedChange (D : Int) (h1 : 0 ≤ D) (h2 : D < 240000) :
    ftrunc (fadd 53 (ofInt 53 D) half) = D ∧ ftrunc (ofInt 53 D) = D := by
  have hD : (ofInt 53 D).toRat = (D : ℚ) := ofInt_exact 53 D (by omega)
  have h1q : (0 : ℚ) ≤ (D : ℚ) := by exact_mod_cast h1
  have h2q : (D : ℚ) < 240000 := by exact_mod_cast h2
  constructor
  · have hb := fadd_bound 53 (ofInt 53 D) half 19 (by
      rw [hD, half_toRat, abs_of_nonneg (by linarith)]
      norm_num
      linarith)
    rw [hD, half_toRat] at hb
    have hz := zpow_small_53_19
    generalize (2 : ℚ) ^ ((19 : Int) - ((53 : Nat) : Int)) = z at hb hz
    rw [abs_le] at hb
    apply ftrunc_eq _ _ h1 <;> linarith [hb.1, hb.2]
  · rw [← hD] at h1q
    apply ftrunc_eq _ _ h1
    · rw [hD]
    · rw [hD]
      linarith

theorem ofInt_five_num : 0 < (ofInt 53 5).num := by decide

/-- The candidate: for a change already rounded down to `5 * k` milliseconds with
`0 ≤ k < 48000`, `int(change / 5 + 0.5)` is `k`. -/
theorem candidate_eq (k : Int) (h1 : 0 ≤ k) (h2 : k < 48000) :
    ftrunc (fadd 53 (fdiv 53 (ofInt 53 (k * 5)) (ofInt 53 5)) half) = k := by
  have hK : (ofInt 53 (k * 5)).toRat = ((k * 5 : Int) : ℚ) := ofInt_exact 53 (k * 5) (by omega)
  have h5 : (ofInt 53 5).toRat = 5 := by
    have := ofInt_exact 53 5 (by decide)
    simpa using this
  have h1q : (0 : ℚ) ≤ (k : ℚ) := by exact_mod_cast h1
  have h2q : (k : ℚ) < 48000 := by exact_mod_cast h2
  have hquot : (ofInt 53 (k * 5)).toRat / (ofInt 53 5).toRat = (k : ℚ) := by
    rw [hK, h5]
    push_cast
    field_simp
  generalize he : fdiv 53 (ofInt 53 (k * 5)) (ofInt 53 5) = e53
  have hd := fdiv_bound 53 (ofInt 53 (k * 5)) (ofInt 53 5) 19 ofInt_five_num (by
    rw [hquot, abs_of_nonneg h1q]
    norm_num
    linarith)
  rw [hquot, he] at hd
  have hz := zpow_small_53_19
  have hb := fadd_bound 53 e53 half 19 (by
    generalize (2 : ℚ) ^ ((19 : Int) - ((53 : Nat) : Int)) = z at hd hz
    rw [abs_le] at hd
    rw [half_toRat, abs_lt]
    norm_num
    constructor <;> linarith [hd.1, hd.2])
  rw [half_toRat] at hb
  generalize (2 : ℚ) ^ ((19 : Int) - ((53 : Nat) : Int)) = z at hd hb hz
  rw [abs_le] at hd hb
  apply ftrunc_eq _ _ h1 <;> linarith [hb.1, hb.2, hd.1, hd.2]

end SessionTime

namespace SessionTime

open Gaps

/-! ## The candidate multiplier -/

theorem possibleMultiplier_eq (D : Int) (h1 : 0 ≤ D) (h2 : D < 240000) :
    possibleMultiplier (ofInt 53 D) = if 0 < D / 5 then some (D / 5) else none := by
  have hk : D.tdiv 5 = D / 5 := Int.tdiv_eq_ediv h1 (by decide)
  have hk0 : 0 ≤ D / 5 := by omega
  have hk1 : D / 5 < 48000 := by omega
  unfold possibleMultiplier
  simp only
  rw [(roundedChange D h1 h2).1, (roundedChange D h1 h2).2, hk]
  have hx : (ofInt 53 (D / 5 * 5)).toRat = ((D / 5 * 5 : Int) : ℚ) :=
    ofInt_exact 53 (D / 5 * 5) (by omega)
  have hpos : flt fzero (ofInt 53 (D / 5 * 5)) = true ↔ 0 < D / 5 := by
    rw [flt_iff, fzero_toRat, hx]
    constructor
    · intro h
      have : (0 : Int) < D / 5 * 5 := by exact_mod_cast h
      omega
    · intro h
      have : (0 : Int) < D / 5 * 5 := by omega
      exact_mod_cast this
  by_cases hc : 0 < D / 5
  · rw [if_pos (hpos.mpr hc), if_pos hc, candidate_eq (D / 5) hk0 hk1]
  · rw [if_neg (fun h => hc (hpos.mp h)), if_neg hc]

/-- The multiplier after one update, from any state: the candidate `D / 5` when the
value changes by `1 ≤ D < 240000`, the stored value is not `-1`, more than three
changes were counted and the candidate lies in 1..24; the old multiplier otherwise. -/
theorem update_timeMultiplier (st : SessionTimeTracker) (timeOfDay : Int) :
    (Update st timeOfDay).timeMultiplier =
      if 1 ≤ Incidents.Milliseconds timeOfDay - st.lastServerMillis ∧
          Incidents.Milliseconds timeOfDay - st.lastServerMillis < 240000 ∧
          st.lastServerMillis ≠ -1 ∧ 3 < st.serverChanges ∧
          1 ≤ (Incidents.Milliseconds timeOfDay - st.lastServerMillis) / 5 ∧
          (Incidents.Milliseconds timeOfDay - st.lastServerMillis) / 5 ≤ 24
      then (Incidents.Milliseconds timeOfDay - st.lastServerMillis) / 5
      else st.timeMultiplier := by
  generalize hD : Incidents.Milliseconds timeOfDay - st.lastServerMillis = D
  unfold Update
  simp only
  by_cases hne : Incidents.Milliseconds timeOfDay ≠ st.lastServerMillis
  · rw [if_pos hne, hD]
    simp only
    have hlt : flt (ofInt 53 D) (ofInt 53 240000) = true ↔ D < 240000 :=
      flt_ofInt_lt D 240000 (by decide) (by decide)
    have hge : flt (ofInt 53 D) (ofInt 53 1) = false ↔ 1 ≤ D := by
      have := flt_ofInt_lt D 1 (by decide) (by decide)
      rw [← Bool.not_eq_true, this]
      omega
    by_cases hr : D < 240000 ∧ 1 ≤ D
    · have hfl : flt (ofInt 53 D) (ofInt 53 240000) = true ∧
          flt (ofInt 53 D) (ofInt 53 1) = false := ⟨hlt.mpr hr.1, hge.mpr hr.2⟩
      rw [if_pos hfl]
      by_cases hs : st.lastServerMillis ≠ -1 ∧ st.serverChanges > 3
      · rw [if_pos hs, possibleMultiplier_eq D (by omega) hr.1]
        by_cases hk : 0 < D / 5
        · rw [if_pos hk]
          simp only
          unfold adopt
          by_cases hk2 : D / 5 < 25
          · have hcand : D / 5 > 0 ∧ D / 5 < 25 := ⟨hk, hk2⟩
            have hall : 1 ≤ D ∧ D < 240000 ∧ st.lastServerMillis ≠ -1 ∧ 3 < st.serverChanges ∧
                1 ≤ D / 5 ∧ D / 5 ≤ 24 := ⟨hr.2, hr.1, hs.1, hs.2, by omega, by omega⟩
            simp only [if_pos hcand, if_pos hall]
            by_cases hm : st.timeMultiplier ≠ D / 5
            · simp only [if_pos hm]
            · simp only [if_neg hm]
              exact not_not.mp hm
          · have hcand : ¬ (D / 5 > 0 ∧ D / 5 < 25) := fun h => hk2 h.2
            have hall : ¬ (1 ≤ D ∧ D < 240000 ∧ st.lastServerMillis ≠ -1 ∧
                3 < st.serverChanges ∧ 1 ≤ D / 5 ∧ D / 5 ≤ 24) := fun h => hk2 (by omega)
            simp only [if_neg hcand, if_neg hall]
        · have hall : ¬ (1 ≤ D ∧ D < 240000 ∧ st.lastServerMillis ≠ -1 ∧
              3 < st.serverChanges ∧ 1 ≤ D / 5 ∧ D / 5 ≤ 24) := fun h => hk (by omega)
          simp only [if_neg hk, if_neg hall]
      · have hall : ¬ (1 ≤ D ∧ D < 240000 ∧ st.lastServerMillis ≠ -1 ∧
            3 < st.serverChanges ∧ 1 ≤ D / 5 ∧ D / 5 ≤ 24) := fun h => hs ⟨h.2.2.1, h.2.2.2.1⟩
        simp only [if_neg hs, if_neg hall]
    · have hfl : ¬ (flt (ofInt 53 D) (ofInt 53 240000) = true ∧
          flt (ofInt 53 D) (ofInt 53 1) = false) := fun h => hr ⟨hlt.mp h.1, hge.mp h.2⟩
      have hall : ¬ (1 ≤ D ∧ D < 240000 ∧ st.lastServerMillis ≠ -1 ∧
          3 < st.serverChanges ∧ 1 ≤ D / 5 ∧ D / 5 ≤ 24) := fun h => hr ⟨h.2.1, h.1⟩
      simp only [if_neg hfl, if_neg hall]
  · have hall : ¬ (1 ≤ D ∧ D < 240000 ∧ st.lastServerMillis ≠ -1 ∧
        3 < st.serverChanges ∧ 1 ≤ D / 5 ∧ D / 5 ≤ 24) := fun h => hne (by omega)
    simp only [if_neg hne, if_neg hall]

theorem update_counters (st : SessionTimeTracker) (timeOfDay : Int) :
    (Update st timeOfDay).lastServerMillis = Incidents.Milliseconds timeOfDay ∧
    (Update st timeOfDay).serverChanges =
      if Incidents.Milliseconds timeOfDay ≠ st.lastServerMillis then st.serverChanges + 1
      else st.serverChanges := by
  unfold Update
  simp only
  by_cases hne : Incidents.Milliseconds timeOfDay ≠ st.lastServerMillis
  · rw [if_pos hne, if_pos hne]
    exact ⟨rfl, rfl⟩
  · rw [if_neg hne, if_neg hne]
    exact ⟨(not_not.mp hne).symm, rfl⟩

theorem foldl_update_serverChanges (values : List Int) (st : SessionTimeTracker) :
    (values.foldl Update st).serverChanges
      = st.serverChanges + countChanges st.lastServerMillis values := by
  induction values generalizing st with
  | nil => simp [countChanges]
  | cons v rest ih =>
    rw [List.foldl_cons, ih, (update_counters st v).1, (update_counters st v).2]
    simp only [countChanges]
    by_cases hne : Incidents.Milliseconds v ≠ st.lastServerMillis
    · rw [if_pos hne, if_pos hne]
      omega
    · rw [if_neg hne, if_neg hne, not_not.mp hne]

theorem timeFeed_snoc (values : List Int) (timeOfDay : Int) :
    feed (values ++ [timeOfDay]) = Update (feed values) timeOfDay := by
  unfold feed
  rw [List.foldl_append]
  rfl

theorem feed_range (values : List Int) :
    (feed values).timeMultiplier = -1 ∨
      (1 ≤ (feed values).timeMultiplier ∧ (feed values).timeMultiplier ≤ 24) := by
  induction values using List.reverseRecOn with
  | nil => exact Or.inl rfl
  | append_singleton values v ih =>
    rw [timeFeed_snoc, update_timeMultiplier]
    split
    · rename_i h
      exact Or.inr ⟨h.2.2.2.2.1, h.2.2.2.2.2⟩
    · exact ih

end SessionTime

namespace SessionTime

open Gaps

/-- C33, amended: for a new tracker fed times of day, an update adopts the candidate
`D / 5` (rounded down), `D` being the difference in milliseconds to the value fed
before it, exactly when `1 ≤ D < 240000`, the value fed before is not `-1` ms, more
than three of the earlier updates changed the value (so on the fifth changing update at
the earliest) and the candidate lies in 1..24; otherwise it leaves the multiplier as it
is. The first update leaves the multiplier at `-1`, and the multiplier is always `-1`
or a value in 1..24. -/
theorem update_adopts_after_four_changes (pre : List Int) (prev timeOfDay : Int) :
    ((feed (pre ++ [prev, timeOfDay])).timeMultiplier =
      if 1 ≤ Incidents.Milliseconds timeOfDay - Incidents.Milliseconds prev ∧
          Incidents.Milliseconds timeOfDay - Incidents.Milliseconds prev < 240000 ∧
          Incidents.Milliseconds prev ≠ -1 ∧ 3 < countChanges (-1) (pre ++ [prev]) ∧
          1 ≤ (Incidents.Milliseconds timeOfDay - Incidents.Milliseconds prev) / 5 ∧
          (Incidents.Milliseconds timeOfDay - Incidents.Milliseconds prev) / 5 ≤ 24
      then (Incidents.Milliseconds timeOfDay - Incidents.Milliseconds prev) / 5
      else (feed (pre ++ [prev])).timeMultiplier) ∧
    (feed [timeOfDay]).timeMultiplier = -1 ∧
    (∀ values : List Int, (feed values).timeMultiplier = -1 ∨
      (1 ≤ (feed values).timeMultiplier ∧ (feed values).timeMultiplier ≤ 24)) := by
  refine ⟨?_, ?_, feed_range⟩
  · have hsplit : pre ++ [prev, timeOfDay] = (pre ++ [prev]) ++ [timeOfDay] := by simp
    have hlast : (feed (pre ++ [prev])).lastServerMillis = Incidents.Milliseconds prev := by
      rw [timeFeed_snoc]
      exact (update_counters _ _).1
    have hcount : (feed (pre ++ [prev])).serverChanges = countChanges (-1) (pre ++ [prev]) := by
      have := foldl_update_serverChanges (pre ++ [prev]) NewSessionTimeTracker
      simpa [feed, NewSessionTimeTracker] using this
    rw [hsplit, timeFeed_snoc, update_timeMultiplier, hlast, hcount]
  · have h := update_timeMultiplier NewSessionTimeTracker timeOfDay
    have hfeed : feed [timeOfDay] = Update NewSessionTimeTracker timeOfDay := rfl
    rw [hfeed, h]
    have hno : ¬ (1 ≤ Incidents.Milliseconds timeOfDay - NewSessionTimeTracker.lastServerMillis ∧
        Incidents.Milliseconds timeOfDay - NewSessionTimeTracker.lastServerMillis < 240000 ∧
        NewSessionTimeTracker.lastServerMillis ≠ -1 ∧ 3 < NewSessionTimeTracker.serverChanges ∧
        1 ≤ (Incidents.Milliseconds timeOfDay - NewSessionTimeTracker.lastServerMillis) / 5 ∧
        (Incidents.Milliseconds timeOfDay - NewSessionTimeTracker.lastServerMillis) / 5 ≤ 24) :=
      fun h => h.2.2.1 rfl
    rw [if_neg hno]
    rfl

end SessionTime

namespace SessionTime

set_option maxRecDepth 1000000 in
/-- C33, counterexample: a new tracker fed the times of day 0 ms, 10 ms, 20 ms and
30 ms keeps the multiplier -1 after the fourth update, which follows three updates and
changes the value by 10 ms (candidate 2); the fifth update, to 40 ms, adopts 2. -/
theorem fourth_update_keeps_multiplier :
    (feed [msOfDay 0, msOfDay 10, msOfDay 20]).serverChanges = 3 ∧
    GetTimeMultiplier (feed [msOfDay 0, msOfDay 10, msOfDay 20, msOfDay 30]) = -1 ∧
    GetTimeMultiplier (feed [msOfDay 0, msOfDay 10, msOfDay 20, msOfDay 30, msOfDay 40]) = 2 := by
  decide

end SessionTime

namespace Gaps

theorem fadd_value (x y : Flt) :
    (((x.num * (y.den : Int) + y.num * (x.den : Int) : Int) : ℚ))
      / (((x.den * y.den : Nat) : ℚ)) = x.toRat + y.toRat := by
  have hx : (0 : ℚ) < x.den := by exact_mod_cast den_pos x
  have hy : (0 : ℚ) < y.den := by exact_mod_cast den_pos y
  rw [toRat_eq, toRat_eq]
  push_cast
  field_simp

theorem fadd_rel (p : Nat) (x y : Flt) :
    |(fadd p x y).toRat - (x.toRat + y.toRat)|
      ≤ |x.toRat + y.toRat| * (2 : ℚ) ^ (-(p : Int)) := by
  have h := roundQ_rel p (x.num * (y.den : Int) + y.num * (x.den : Int)) (x.den * y.den)
    (Nat.mul_pos (den_pos x) (den_pos y))
  rw [fadd_value] at h
  exact h

/-- A sum that is at most a number `z` with a mantissa of at most `p` bits is rounded
to at most `z`. -/
theorem fadd_le_of_le (p : Nat) (hp : 1 ≤ p) (x y z : Flt) (hz : z.m.natAbs ≤ 2 ^ p)
    (hz0 : 0 ≤ z.toRat) (h : x.toRat + y.toRat ≤ z.toRat) : (fadd p x y).toRat ≤ z.toRat := by
  unfold fadd
  apply roundQ_le_of_le p hp _ _ (Nat.mul_pos (den_pos x) (den_pos y)) z hz hz0
  rw [fadd_value]
  exact h

end Gaps

namespace Fuel

open Gaps

/-! ## The two refuel amounts below the capacity -/

theorem zpow_neg_24_eq : (2 : ℚ) ^ (-((24 : Nat) : Int)) = 1 / 16777216 := by
  norm_num [zpow_neg]

/-- For a current level from 0 to the capacity, a `float32` of at most 24 bits, the
two functions return the same amount; it is not negative, and the level plus the
amount exceeds the capacity by at most the rounding of one `float32` operation. -/
theorem refuel_agrees_up_to_capacity (fc : FuelCalculator) (currentFuel : Flt) (laps : Int)
    (lapsToFinish : Int) (hM : fc.maxFuel.m.natAbs ≤ 2 ^ 24) (hc0 : 0 ≤ currentFuel.toRat)
    (hcM : currentFuel.toRat ≤ fc.maxFuel.toRat) :
    CalculateRefuelAmount fc currentFuel laps = GetFuelToAdd fc currentFuel lapsToFinish laps ∧
    0 ≤ (CalculateRefuelAmount fc currentFuel laps).toRat ∧
    currentFuel.toRat + (CalculateRefuelAmount fc currentFuel laps).toRat
      ≤ fc.maxFuel.toRat * (1 + 1 / 8388608) := by
  have hM0 : 0 ≤ fc.maxFuel.toRat := le_trans hc0 hcM
  unfold CalculateRefuelAmount GetFuelToAdd
  simp only
  generalize CalculateFuelForLaps fc laps = needed
  generalize ht : fsub 24 needed currentFuel = t
  have hcap : 0 ≤ (fsub 24 fc.maxFuel currentFuel).toRat ∧
      currentFuel.toRat + (fsub 24 fc.maxFuel currentFuel).toRat
        ≤ fc.maxFuel.toRat * (1 + 1 / 8388608) := by
    have hrel := fsub_rel 24 fc.maxFuel currentFuel
    have habs : |fc.maxFuel.toRat - currentFuel.toRat| = fc.maxFuel.toRat - currentFuel.toRat :=
      abs_of_nonneg (by linarith)
    rw [zpow_neg_24_eq, habs, abs_le] at hrel
    constructor
    · nlinarith [hrel.1]
    · nlinarith [hrel.2]
  have hcapf : flt (fsub 24 fc.maxFuel currentFuel) fzero = false := by
    rw [← Bool.not_eq_true, flt_iff, fzero_toRat]
    linarith [hcap.1]
  by_cases hneg : flt t fzero = true
  · have htn : t.toRat < 0 := by
      have := (flt_iff t fzero).mp hneg
      rwa [fzero_toRat] at this
    have h1 : flt fc.maxFuel (fadd 24 currentFuel fzero) = false := by
      rw [← Bool.not_eq_true, flt_iff]
      have := fadd_le_of_le 24 (by norm_num) currentFuel fzero fc.maxFuel hM hM0
        (by rw [fzero_toRat]; linarith)
      linarith
    have h2 : flt fc.maxFuel (fadd 24 currentFuel t) = false := by
      rw [← Bool.not_eq_true, flt_iff]
      have := fadd_le_of_le 24 (by norm_num) currentFuel t fc.maxFuel hM hM0 (by linarith)
      linarith
    simp only [hneg, if_true, h1, h2, Bool.false_eq_true, if_false]
    refine ⟨trivial, ?_, ?_⟩
    · rw [fzero_toRat]
    · rw [fzero_toRat]
      nlinarith
  · have hnegf : flt t fzero = false := by
      rwa [Bool.not_eq_true] at hneg
    have htp : 0 ≤ t.toRat := by
      have := (flt_iff t fzero).not.mp hneg
      rw [fzero_toRat] at this
      linarith
    by_cases hover : flt fc.maxFuel (fadd 24 currentFuel t) = true
    · simp only [hnegf, hover, hcapf, Bool.false_eq_true, if_false, if_true]
      exact ⟨trivial, hcap.1, hcap.2⟩
    · have hoverf : flt fc.maxFuel (fadd 24 currentFuel t) = false := by
        rwa [Bool.not_eq_true] at hover
      simp only [hnegf, hoverf, Bool.false_eq_true, if_false]
      refine ⟨trivial, htp, ?_⟩
      have hs : (fadd 24 currentFuel t).toRat ≤ fc.maxFuel.toRat := by
        have := (flt_iff fc.maxFuel (fadd 24 currentFuel t)).not.mp hover
        linarith
      have hrel := fadd_rel 24 currentFuel t
      have habs : |currentFuel.toRat + t.toRat| = currentFuel.toRat + t.toRat :=
        abs_of_nonneg (by linarith)
      rw [zpow_neg_24_eq, habs, abs_le] at hrel
      nlinarith [hrel.1]

end Fuel

namespace Fuel

open Gaps (Flt flt fzero ofInt fadd fsub fmul fdiv float32Const)

set_option maxRecDepth 1000000 in
/-- C39: with a tank of 120 litres, a current level of 130 litres and 10 laps to go,
`CalculateRefuelAmount` returns -10 litres, a negative amount, while `GetFuelToAdd`
returns 0. -/
theorem refuel_amount_negative_above_capacity :
    CalculateRefuelAmount calculator120 (ofInt 24 130) 10 = ofInt 24 (-10) ∧
    flt (CalculateRefuelAmount calculator120 (ofInt 24 130) 10) fzero = true ∧
    GetFuelToAdd calculator120 (ofInt 24 130) 10 10 = fzero := by
  decide

end Fuel

namespace Leaderboard

open Broadcast (CarInfo RealtimeCarUpdate)

/-! ## Rows around the player -/

theorem filterMap_range_getElem {α : Type} (L : List α) (k a : Nat) (h : a + k ≤ L.length) :
    (List.range' a k).filterMap (fun i => L[i]?) = (L.drop a).take k := by
  induction k generalizing a with
  | zero => simp
  | succ k ih =>
    have ha : a < L.length := by omega
    rw [List.range'_succ, List.filterMap_cons, List.getElem?_eq_getElem ha]
    simp only
    rw [ih (a + 1) (by omega), List.drop_eq_getElem_cons ha, List.take_succ_cons]

theorem drop_take_middle {α : Type} (pre mid post : List α) :
    ((pre ++ mid ++ post).drop pre.length).take mid.length = mid := by
  rw [List.append_assoc, List.drop_left, List.take_left]

/-- When the row of the player stands at the place that its field `Position` names
(place `i`, counted from 0, with `Position = i + 1`), `GetRelativePositions` returns
the rows from `range_` places before it to `range_` places after it, as far as the
leaderboard goes. -/
theorem getRelativePositions_window (lt : LeaderboardTracker) (range_ : Int) (i : Nat)
    (playerPos : DriverPosition) (hr : 0 ≤ range_)
    (hp : GetPlayerPosition lt = some playerPos) (hi : lt.positions[i]? = some playerPos)
    (hpos : playerPos.Position = (i : Int) + 1) :
    ∃ pre before after post : List DriverPosition,
      lt.positions = pre ++ (before ++ [playerPos] ++ after) ++ post ∧
      GetRelativePositions lt range_ = before ++ [playerPos] ++ after ∧
      pre.length + before.length = i ∧
      (before.length : Int) ≤ range_ ∧ (after.length : Int) ≤ range_ ∧
      (pre = [] ∨ (before.length : Int) = range_) ∧
      (post = [] ∨ (after.length : Int) = range_) := by
  obtain ⟨L, pci, st, lb, lu⟩ := lt
  simp only at hi ⊢
  obtain ⟨hn, hget⟩ := List.getElem?_eq_some_iff.mp hi
  obtain ⟨r, rfl⟩ := Int.eq_ofNat_of_zero_le hr
  have hsplit1 : L = L.take i ++ playerPos :: L.drop (i + 1) := by
    conv_lhs => rw [← List.take_append_drop i L, List.drop_eq_getElem_cons hn, hget]
  have hsplit2 : L.take i = L.take (i - r) ++ (L.take i).drop (i - r) := by
    conv_lhs => rw [← List.take_append_drop (i - r) (L.take i), List.take_take]
    rw [Nat.min_eq_left (by omega)]
  have hsplit3 : L.drop (i + 1)
      = (L.drop (i + 1)).take (min (i + r + 1) L.length - (i + 1))
        ++ L.drop (min (i + r + 1) L.length) := by
    conv_lhs => rw [← List.take_append_drop (min (i + r + 1) L.length - (i + 1)) (L.drop (i + 1)),
      List.drop_drop]
    congr 2
    omega
  have hL : L = L.take (i - r) ++ ((L.take i).drop (i - r) ++ [playerPos]
      ++ (L.drop (i + 1)).take (min (i + r + 1) L.length - (i + 1)))
      ++ L.drop (min (i + r + 1) L.length) := by
    conv_lhs => rw [hsplit1, hsplit2, hsplit3]
    simp only [List.append_assoc, List.singleton_append, List.cons_append, List.nil_append]
  have hlen1 : (L.take (i - r)).length = i - r := by
    rw [List.length_take]
    omega
  have hlen2 : ((L.take i).drop (i - r)).length = i - (i - r) := by
    rw [List.length_drop, List.length_take]
    omega
  have hlen3 : ((L.drop (i + 1)).take (min (i + r + 1) L.length - (i + 1))).length
      = min (i + r + 1) L.length - (i + 1) := by
    rw [List.length_take, List.length_drop]
    omega
  refine ⟨L.take (i - r), (L.take i).drop (i - r),
    (L.drop (i + 1)).take (min (i + r + 1) L.length - (i + 1)),
    L.drop (min (i + r + 1) L.length), hL, ?_, ?_, ?_, ?_, ?_, ?_⟩
  · unfold GetRelativePositions
    rw [hp]
    simp only
    rw [hpos]
    have hstart : (if (i : Int) + 1 - 1 - (r : Int) < 0 then (0 : Int)
        else (i : Int) + 1 - 1 - (r : Int)).toNat = i - r := by
      split <;> omega
    have hend : ((if (i : Int) + 1 - 1 + (r : Int) + 1 > (L.length : Int) then (L.length : Int)
        else (i : Int) + 1 - 1 + (r : Int) + 1)
        - (if (i : Int) + 1 - 1 - (r : Int) < 0 then (0 : Int)
        else (i : Int) + 1 - 1 - (r : Int))).toNat
        = (i - (i - r)) + 1 + (min (i + r + 1) L.length - (i + 1)) := by
      split <;> split <;> omega
    rw [hstart, hend, filterMap_range_getElem L _ _ (by omega)]
    have hmid : ((L.take i).drop (i - r) ++ [playerPos]
        ++ (L.drop (i + 1)).take (min (i + r + 1) L.length - (i + 1))).length
        = (i - (i - r)) + 1 + (min (i + r + 1) L.length - (i + 1)) := by
      simp only [List.length_append, List.length_singleton, hlen2, hlen3]
    have := drop_take_middle (L.take (i - r)) ((L.take i).drop (i - r) ++ [playerPos]
        ++ (L.drop (i + 1)).take (min (i + r + 1) L.length - (i + 1)))
        (L.drop (min (i + r + 1) L.length))
    rw [← hL, hlen1, hmid] at this
    exact this
  · rw [hlen1, hlen2]
    omega
  · rw [hlen2]
    omega
  · rw [hlen3]
    omega
  · by_cases h0 : i - r = 0
    · left
      rw [h0]
      rfl
    · right
      rw [hlen2]
      omega
  · by_cases h0 : L.length ≤ i + r + 1
    · left
      rw [Nat.min_eq_right h0]
      exact List.drop_length L
    · right
      rw [hlen3]
      omega

end Leaderboard

namespace Leaderboard

open Broadcast (CarInfo RealtimeCarUpdate)

set_option maxRecDepth 1000000 in
/-- C40: cars 3 and 9 hold the positions 2 and 3 and the car in position 1 has no
sample, so the leaderboard has two rows. With car 9 as the player the range 0 gives
no row at all, and with car 3 as the player it gives the row of car 9: the index of
the window is taken from the field `Position`, not from the place of the row. -/
theorem getRelativePositions_misses_player :
    ((Update (NewLeaderboardTracker 0) 0 threeCars samplesWithoutLeader 0 9).positions.map
      (fun pos => (pos.CarIndex, pos.Position, pos.IsPlayer)) = [(3, 2, false), (9, 3, true)]) ∧
    GetRelativePositions (Update (NewLeaderboardTracker 0) 0 threeCars samplesWithoutLeader 0 9) 0
      = [] ∧
    ((Update (NewLeaderboardTracker 0) 0 threeCars samplesWithoutLeader 0 3).positions.map
      (fun pos => (pos.CarIndex, pos.Position, pos.IsPlayer)) = [(3, 2, true), (9, 3, false)]) ∧
    (GetRelativePositions (Update (NewLeaderboardTracker 0) 0 threeCars samplesWithoutLeader 0 3)
      0).map (fun pos => (pos.CarIndex, pos.IsPlayer)) = [(9, false)] := by
  decide

end Leaderboard

namespace Laps

open Broadcast (LapInfo LapType GetLapTimeMS)

/-! ## Theoretical best -/

theorem completeSplits_spec (lapInfo : LapInfo) (h : completeSplits lapInfo = true) :
    ∃ a b c : Int, lapInfo.Splits = [some a, some b, some c] ∧ 0 < a ∧ 0 < b ∧ 0 < c ∧
      a + b + c ≤ MaxInt32 := by
  unfold completeSplits at h
  split at h
  · rename_i a b c hs
    simp only [Bool.and_eq_true, decide_eq_true_eq] at h
    exact ⟨a, b, c, hs, h.1.1.1, h.1.1.2, h.1.2, h.2⟩
  · cases h

/-- C38, amended: when every fed record that is valid for best has three splits, all
present and positive, with a sum within `int32`, and the splits are `int32` values,
the theoretical best is at most the time of the best lap. -/
theorem theoretical_best_le_best_lap (carIndex : Nat) (records : List (Int × LapInfo))
    (best : LapData)
    (hrange : ∀ x ∈ records, ∀ split ∈ x.2.Splits, split.getD 0 ≤ MaxInt32)
    (hcomplete : ∀ x ∈ records, x.2.IsValidForBest = true → completeSplits x.2 = true)
    (hbest : GetBestLap (feed (NewLapTracker carIndex) records) = some best) :
    GetTheoreticalBest (feed (NewLapTracker carIndex) records) ≤ best.LapTime := by
  obtain ⟨i, now, lapInfo, hi, hel, hb, _⟩ :=
    (feed_bestLap (NewLapTracker carIndex) rfl rfl records).2 best hbest
  have hmem : (now, lapInfo) ∈ records := List.getElem?_mem hi
  obtain ⟨a, b, c, hs, ha, hb2, hc, hsum⟩ := completeSplits_spec lapInfo (hcomplete _ hmem hel.1)
  have hr : ∀ s : Nat, ∀ x ∈ records, sectorOf x.2 s ≤ MaxInt32 :=
    fun s x hx => sectorOf_le x.2 s (hrange x hx)
  have h1 := feed_bestSector 0 (fun lt => lt.bestSector1)
    (fun lt now lapInfo => by rw [updateFromBroadcast_some])
    (NewLapTracker carIndex) rfl records (hr 0)
  have h2 := feed_bestSector 1 (fun lt => lt.bestSector2)
    (fun lt now lapInfo => by rw [updateFromBroadcast_some])
    (NewLapTracker carIndex) rfl records (hr 1)
  have h3 := feed_bestSector 2 (fun lt => lt.bestSector3)
    (fun lt now lapInfo => by rw [updateFromBroadcast_some])
    (NewLapTracker carIndex) rfl records (hr 2)
  have hs0 : sectorOf lapInfo 0 = a := by
    unfold sectorOf
    rw [hs]
    rfl
  have hs1 : sectorOf lapInfo 1 = b := by
    unfold sectorOf
    rw [hs]
    rfl
  have hs2 : sectorOf lapInfo 2 = c := by
    unfold sectorOf
    rw [hs]
    rfl
  have u1 := h1.1 _ hmem hel.1 (by rw [hs0]; exact ha)
  have u2 := h2.1 _ hmem hel.1 (by rw [hs1]; exact hb2)
  have u3 := h3.1 _ hmem hel.1 (by rw [hs2]; exact hc)
  simp only at u1 u2 u3
  rw [hs0] at u1
  rw [hs1] at u2
  rw [hs2] at u3
  have htime : best.LapTime = a + b + c := by
    rw [hb]
    show GetLapTimeMS lapInfo = a + b + c
    unfold GetLapTimeMS
    rw [hs]
    simp only [List.foldl_cons, List.foldl_nil, Broadcast.wrapInt32]
    unfold MaxInt32 at hsum
    omega
  have l1 : 0 < (feed (NewLapTracker carIndex) records).bestSector1 := by
    rcases h1.2 with h | ⟨x, _, _, hp, h⟩
    · simp only at h
      rw [h]
      decide
    · simp only at h
      rw [h]
      exact hp
  have l2 : 0 < (feed (NewLapTracker carIndex) records).bestSector2 := by
    rcases h2.2 with h | ⟨x, _, _, hp, h⟩
    · simp only at h
      rw [h]
      decide
    · simp only at h
      rw [h]
      exact hp
  have l3 : 0 < (feed (NewLapTracker carIndex) records).bestSector3 := by
    rcases h3.2 with h | ⟨x, _, _, hp, h⟩
    · simp only at h
      rw [h]
      decide
    · simp only at h
      rw [h]
      exact hp
  rw [htime]
  unfold GetTheoreticalBest
  split
  · omega
  · unfold Broadcast.wrapInt32
    unfold MaxInt32 at hsum
    omega

theorem theoretical_best_le_best_lap_witness :
    GetTheoreticalBest (feed (NewLapTracker 7) lapsThenInlap)
      ≤ (⟨3, 98000, 30000, 30000, 38000, true, true, false, false, true, false, 3, 7, 0⟩ :
          LapData).LapTime :=
  theoretical_best_le_best_lap 7 lapsThenInlap
    ⟨3, 98000, 30000, 30000, 38000, true, true, false, false, true, false, 3, 7, 0⟩
    (by decide) (by decide) (by decide)

end Laps

namespace Laps

open Broadcast (LapInfo LapType GetLapTimeMS)

/-- C38, counterexample: after a lap of 105 s with the splits 35 s, 30 s, 40 s and a
lap whose first split is absent and whose other splits are 30 s and 40 s, the best lap
is the second one, with the computed time 70 s, while the three best sectors are 35 s,
30 s and 40 s and the theoretical best is 105 s. -/
theorem theoretical_best_above_best_lap :
    (GetBestLap (feed (NewLapTracker 7) lapsWithMissingSplit)).map (fun lap => lap.LapTime)
      = some 70000 ∧
    GetBestSector (feed (NewLapTracker 7) lapsWithMissingSplit) 1 = 35000 ∧
    GetBestSector (feed (NewLapTracker 7) lapsWithMissingSplit) 2 = 30000 ∧
    GetBestSector (feed (NewLapTracker 7) lapsWithMissingSplit) 3 = 40000 ∧
    GetTheoreticalBest (feed (NewLapTracker 7) lapsWithMissingSplit) = 105000 := by
  decide

end Laps
